import Mathlib

/-!
# Finite-volume pressure model for two-phase flow (FVPressure2P)

A shallow embedding of `dumux/new_decoupled/2p/diffusion/fv/fvpressure2p.hh`:
the constitutive update `updateMaterialLaws`, the sparsity set-up
`initializeMatrix`, the assembly `assemble`, the solver dispatch `solve` and the
driver `pressure`, of the element data handles of
`dumux/parallel/elementhandles.hh` and of the gradient computation
`calculateGradients_` of `dumux/boxmodels/richards/richardsfluxvariables.hh`
(namespace `Dumux`), followed by theorems about them.

Conventions of the embedding.

* `Scalar` is `ℚ`: the arithmetic of the code is read as exact arithmetic. A
  division by zero, whose floating-point result is an infinity or a NaN, lies
  outside the embedding, except for the quotient of norms that steers the loop
  of `pressure`, which is modelled with its IEEE result (`NormQuotient`).
* Cells are identified with their dense index `0 .. gridSize - 1`, and the grid
  is traversed in index order; the local index of an intersection is its
  position in the cell's intersection list (the counter `isIndex` of the code).
* Vectors and matrices are total functions on `Nat`; only the entries below
  the relevant size exist in the code.
* Everything the class reaches through `problem_`, through the compile-time
  `TypeTag` and through the Dune library is a parameter (`Problem`, `TypeTag`).
  A linear solver is a function that returns the new iterate, the overwritten
  right-hand side and its result record; the boundary flags are the three values
  of Dune's `BoundaryConditions::Flags`.
-/

namespace Dune

/-! ## Data model -/

abbrev Scalar := ℚ

abbrev FieldVector := Nat → Scalar

abbrev FieldMatrix := Nat → Nat → Scalar

abbrev BlockVector := Nat → Scalar

/-- The pressure formulations `pw`, `pn`, `pglobal` of the index enumeration. -/
inductive PressureFormulation
  | pw
  | pn
  | pglobal
  deriving DecidableEq

/-- The saturation formulations `Sw`, `Sn` of the index enumeration. -/
inductive SaturationFormulation
  | Sw
  | Sn
  deriving DecidableEq

/-- The two phase indices. -/
inductive PhaseIdx
  | wPhaseIdx
  | nPhaseIdx
  deriving DecidableEq

/-- The flags of `BoundaryConditions::Flags`. -/
inductive Flags
  | neumann
  | process
  | dirichlet
  deriving DecidableEq

/-- The compile-time properties read through `GET_PROP_VALUE` and `GridView`. -/
structure TypeTag where
  dim : Nat
  compressibility : Bool
  pressureType : PressureFormulation
  saturationType : SaturationFormulation

/-- A material-law parameter object, identified with the three curves
`MaterialLaw::krw`, `MaterialLaw::krn` and `MaterialLaw::pC` it selects. -/
structure MaterialLawParams where
  krw : Scalar → Scalar
  krn : Scalar → Scalar
  pC : Scalar → Scalar

/-- The argument of the fluid system: built by `update(pressW, pressNW, temperature)`
in the compressible case and by `update(temperature)` in the incompressible one. -/
inductive PhaseState
  | ofPressures (pressW pressNW temperature : Scalar)
  | ofTemperature (temperature : Scalar)

/-- An intersection (face) as the grid view presents it to its inside cell. -/
structure Intersection where
  neighbor : Bool
  outside : Nat
  unitOuterNormal : FieldVector
  faceArea : Scalar
  globalPosFace : FieldVector

/-- A cell of the grid view. -/
structure Element where
  globalPos : FieldVector
  volume : Scalar
  intersections : List Intersection

/-- The record `InverseOperatorResult` of the solver library (the part used here). -/
structure InverseOperatorResult where
  converged : Bool
  iterations : Nat

/-- What `solver.apply(x, b, result)` leaves behind: the solution in `x`, the
overwritten right-hand side `b` and the result record. -/
structure SolverOutput where
  x : BlockVector
  b : BlockVector
  result : InverseOperatorResult

/-- The external collaborators: grid view, problem, spatial parameters, fluid
system, boundary conditions, and the Dune routines `two_norm` and the linear
solvers. A position argument is the global position the code passes, a `Nat`
argument the cell, and a second `Nat` the local intersection index. -/
structure Problem where
  gridSize : Nat
  element : Nat → Element
  gravity : FieldVector
  two_norm : FieldVector → Scalar
  source : FieldVector → Nat → PhaseIdx → Scalar
  porosity : FieldVector → Nat → Scalar
  intrinsicPermeability : FieldVector → Nat → FieldMatrix
  materialLawParams : FieldVector → Nat → MaterialLawParams
  temperature : FieldVector → Nat → Scalar
  phaseDensity : PhaseIdx → PhaseState → Scalar
  phaseViscosity : PhaseIdx → PhaseState → Scalar
  bctypePress : FieldVector → Nat → Nat → Flags
  bctypeSat : FieldVector → Nat → Nat → Flags
  dirichletPress : FieldVector → Nat → Nat → Scalar
  dirichletSat : FieldVector → Nat → Nat → Scalar
  neumannPress : FieldVector → Nat → Nat → PhaseIdx → Scalar
  solveCG_ILU0 : (Nat → Nat → Scalar) → BlockVector → BlockVector → SolverOutput
  solveBiCGSTAB_ILU0 : (Nat → Nat → Scalar) → BlockVector → BlockVector → SolverOutput
  solveLoop_Pardiso : (Nat → Nat → Scalar) → BlockVector → BlockVector → SolverOutput

/-- The object `problem_.variables()`: primary unknowns, the constitutive cache
and the potential store. -/
structure Variables where
  pressure : BlockVector
  saturation : BlockVector
  densityWetting : Nat → Scalar
  densityNonwetting : Nat → Scalar
  viscosityWetting : Nat → Scalar
  viscosityNonwetting : Nat → Scalar
  mobilityWetting : Nat → Scalar
  mobilityNonwetting : Nat → Scalar
  fracFlowFuncWetting : Nat → Scalar
  fracFlowFuncNonwetting : Nat → Scalar
  capillaryPressure : Nat → Scalar
  volumecorrection : Nat → Scalar
  potentialWetting : Nat → Nat → Scalar
  potentialNonwetting : Nat → Nat → Scalar

/-- A `BCRSMatrix` with scalar blocks: row sizes, the column indices stored in
each row, and the values. The capacity bookkeeping of the library is left out. -/
structure BCRSMatrix where
  rowsize : Nat → Nat
  index : Nat → List Nat
  val : Nat → Nat → Scalar

/-- The state of an `FVPressure2P` object together with the variables object it
mutates through `problem_`. -/
structure FVPressure2P where
  variables_ : Variables
  A_ : BCRSMatrix
  f_ : BlockVector
  solverName_ : String
  preconditionerName_ : String

/-- The exception classes thrown by the class. -/
inductive Exception
  | NotImplemented (what : String)
  deriving DecidableEq

/-! ## Small linear algebra -/

/-- The scalar product `u * v` of two `FieldVector`s of size `dim`. -/
def dot (dim : Nat) (u v : FieldVector) : Scalar :=
  Finset.sum (Finset.range dim) fun x => u x * v x

/-- The product `M.mv(v, y)`: `y = M v`. -/
def mv (dim : Nat) (M : FieldMatrix) (v : FieldVector) : FieldVector :=
  fun x => Finset.sum (Finset.range dim) fun y => M x y * v y

/-- The norm `infinity_norm()` of a block vector with `n` scalar blocks. -/
def infinity_norm (n : Nat) (v : BlockVector) : Scalar :=
  (List.range n).foldl (fun acc i => max acc |v i|) 0

/-! ## initializeMatrix -/

/-- The call `A_.setrowsize(i, s)`. -/
def BCRSMatrix.setrowsize (A : BCRSMatrix) (i s : Nat) : BCRSMatrix :=
  { A with rowsize := Function.update A.rowsize i s }

/-- The call `A_.addindex(i, j)`: the column index is added to the row unless it
is already there. -/
def BCRSMatrix.addindex (A : BCRSMatrix) (i j : Nat) : BCRSMatrix :=
  if j ∈ A.index i then A else { A with index := Function.update A.index i (A.index i ++ [j]) }

/-- First loop body of `initializeMatrix`: count the row size of cell `globalIdxI`. -/
def rowSizeOf (pb : Problem) (globalIdxI : Nat) : Nat :=
  ((pb.element globalIdxI).intersections.foldl
    (fun rowSize isIt => if isIt.neighbor then rowSize + 1 else rowSize) 1)

/-- Second loop body of `initializeMatrix`: the diagonal index, then one index for
each intersection with a neighbour. -/
def addIndicesOf (pb : Problem) (A : BCRSMatrix) (globalIdxI : Nat) : BCRSMatrix :=
  (pb.element globalIdxI).intersections.foldl
    (fun B isIt => if isIt.neighbor then B.addindex globalIdxI isIt.outside else B)
    (A.addindex globalIdxI globalIdxI)

/-- The method `initializeMatrix`, run by the constructors on the freshly
allocated matrix. -/
def initializeMatrix (pb : Problem) (A : BCRSMatrix) : BCRSMatrix :=
  let A1 := (List.range pb.gridSize).foldl (fun B i => B.setrowsize i (rowSizeOf pb i)) A
  (List.range pb.gridSize).foldl (addIndicesOf pb) A1

/-- The matrix as the constructors allocate it: no index stored yet. -/
def BCRSMatrix.fresh : BCRSMatrix :=
  { rowsize := fun _ => 0, index := fun _ => [], val := fun _ _ => 0 }

/-! ## updateMaterialLaws -/

/-- The wetting saturation derived from the primary saturation variable. -/
def satWOf (tt : TypeTag) (sat : Scalar) : Scalar :=
  match tt.saturationType with
  | SaturationFormulation.Sw => sat
  | SaturationFormulation.Sn => 1 - sat

/-- Body of the cell loop of `updateMaterialLaws` for the cell `globalIdx`. -/
def updateMaterialLawsCell (tt : TypeTag) (pb : Problem) (vars : Variables) (globalIdx : Nat) :
    Variables :=
  let globalPos := (pb.element globalIdx).globalPos
  let temperature := pb.temperature globalPos globalIdx
  let satW := satWOf tt (vars.saturation globalIdx)
  let pressW : Scalar :=
    match tt.pressureType with
    | PressureFormulation.pw => vars.pressure globalIdx
    | PressureFormulation.pn => vars.pressure globalIdx - vars.capillaryPressure globalIdx
    | PressureFormulation.pglobal => 0
  let pressNW : Scalar :=
    match tt.pressureType with
    | PressureFormulation.pw => vars.pressure globalIdx + vars.capillaryPressure globalIdx
    | PressureFormulation.pn => vars.pressure globalIdx
    | PressureFormulation.pglobal => 0
  let phaseState :=
    if tt.compressibility then PhaseState.ofPressures pressW pressNW temperature
    else PhaseState.ofTemperature temperature
  let densityW := pb.phaseDensity PhaseIdx.wPhaseIdx phaseState
  let densityNW := pb.phaseDensity PhaseIdx.nPhaseIdx phaseState
  let viscosityW := pb.phaseViscosity PhaseIdx.wPhaseIdx phaseState
  let viscosityNW := pb.phaseViscosity PhaseIdx.nPhaseIdx phaseState
  let mobilityW0 := (pb.materialLawParams globalPos globalIdx).krw satW / viscosityW
  let mobilityNW0 := (pb.materialLawParams globalPos globalIdx).krn satW / viscosityNW
  let mobilityW := if tt.compressibility then mobilityW0 * densityW else mobilityW0
  let mobilityNW := if tt.compressibility then mobilityNW0 * densityNW else mobilityNW0
  { vars with
    mobilityWetting := Function.update vars.mobilityWetting globalIdx mobilityW
    mobilityNonwetting := Function.update vars.mobilityNonwetting globalIdx mobilityNW
    densityWetting := Function.update vars.densityWetting globalIdx densityW
    densityNonwetting := Function.update vars.densityNonwetting globalIdx densityNW
    viscosityWetting := Function.update vars.viscosityWetting globalIdx viscosityW
    viscosityNonwetting := Function.update vars.viscosityNonwetting globalIdx viscosityNW
    fracFlowFuncWetting :=
      Function.update vars.fracFlowFuncWetting globalIdx (mobilityW / (mobilityW + mobilityNW))
    fracFlowFuncNonwetting :=
      Function.update vars.fracFlowFuncNonwetting globalIdx (mobilityNW / (mobilityW + mobilityNW))
    capillaryPressure :=
      Function.update vars.capillaryPressure globalIdx
        ((pb.materialLawParams globalPos globalIdx).pC satW) }

/-- The method `updateMaterialLaws`: the cell loop over the whole grid. The
closing call `spatialParameters().update(satW, element)` is a notification to the
spatial-parameter provider and changes nothing this class reads. -/
def updateMaterialLaws (tt : TypeTag) (pb : Problem) (m : FVPressure2P) : FVPressure2P :=
  { m with variables_ := (List.range pb.gridSize).foldl (updateMaterialLawsCell tt pb) m.variables_ }

/-! ## assemble -/

/-- The harmonic mean of the two permeability tensors, component by component,
taken where both components are non-zero (`meanPermeability` starts at zero). -/
def meanPermeability (permeabilityI permeabilityJ : FieldMatrix) : FieldMatrix :=
  fun x y =>
    if permeabilityI x y ≠ 0 ∧ permeabilityJ x y ≠ 0 then
      2 * permeabilityI x y * permeabilityJ x y / (permeabilityI x y + permeabilityJ x y)
    else 0

/-- The numbers the code computes for one intersection before it touches the
linear system: the two phase potentials as they stand after the `!first` block,
the matrix entry `entry`, the right-hand-side term `rightEntry`, and the product
`unitOuterNormal * unitDistVec`. -/
structure FaceValues where
  potentialW : Scalar
  potentialNW : Scalar
  entry : Scalar
  rightEntry : Scalar
  normalDist : Scalar

/-- The interior-face block of `assemble` (the branch `isIt->neighbor()`), up to
the writes. The cell values read before the intersection loop are read from
`vars` here; `assemble` changes none of them. -/
def interiorFace (tt : TypeTag) (pb : Problem) (vars : Variables) (first : Bool)
    (globalIdxI isIndex : Nat) (isIt : Intersection) : FaceValues :=
  let globalPos := (pb.element globalIdxI).globalPos
  let densityWI := vars.densityWetting globalIdxI
  let densityNWI := vars.densityNonwetting globalIdxI
  let permeabilityI := pb.intrinsicPermeability globalPos globalIdxI
  let lambdaWI := vars.mobilityWetting globalIdxI
  let lambdaNWI := vars.mobilityNonwetting globalIdxI
  let fractionalWI := vars.fracFlowFuncWetting globalIdxI
  let fractionalNWI := vars.fracFlowFuncNonwetting globalIdxI
  let pcI := vars.capillaryPressure globalIdxI
  let unitOuterNormal := isIt.unitOuterNormal
  let faceArea := isIt.faceArea
  let globalIdxJ := isIt.outside
  let globalPosNeighbor := (pb.element globalIdxJ).globalPos
  let distVec : FieldVector := fun x => globalPosNeighbor x - globalPos x
  let dist := pb.two_norm distVec
  let unitDistVec : FieldVector := fun x => distVec x / dist
  let permeabilityJ := pb.intrinsicPermeability globalPosNeighbor globalIdxJ
  let permeability := mv tt.dim (meanPermeability permeabilityI permeabilityJ) unitDistVec
  let lambdaWJ := vars.mobilityWetting globalIdxJ
  let lambdaNWJ := vars.mobilityNonwetting globalIdxJ
  let fractionalWJ := vars.fracFlowFuncWetting globalIdxJ
  let fractionalNWJ := vars.fracFlowFuncNonwetting globalIdxJ
  let densityWJ := vars.densityWetting globalIdxJ
  let densityNWJ := vars.densityNonwetting globalIdxJ
  let pcJ := vars.capillaryPressure globalIdxJ
  let rhoMeanW := 0.5 * (densityWI + densityWJ)
  let rhoMeanNW := 0.5 * (densityNWI + densityNWJ)
  let fMeanW := 0.5 * (fractionalWI + fractionalWJ)
  let fMeanNW := 0.5 * (fractionalNWI + fractionalNWJ)
  -- the block `if (!first)`
  let storedW := vars.potentialWetting globalIdxI isIndex
  let storedNW := vars.potentialNonwetting globalIdxI isIndex
  let densityW0 := if storedW > 0 then densityWI else densityWJ
  let densityNW0 := if storedNW > 0 then densityNWI else densityNWJ
  let densityW1 := if storedW = 0 then rhoMeanW else densityW0
  let densityNW1 := if storedNW = 0 then rhoMeanNW else densityNW0
  let pI := vars.pressure globalIdxI
  let pJ := vars.pressure globalIdxJ
  let gradW : Scalar :=
    match tt.pressureType with
    | PressureFormulation.pw => (pI - pJ) / dist
    | PressureFormulation.pn => (pI - pJ - pcI + pcJ) / dist
    | PressureFormulation.pglobal => (pI - pJ - fMeanNW * (pcI - pcJ)) / dist
  let gradNW : Scalar :=
    match tt.pressureType with
    | PressureFormulation.pw => (pI - pJ + pcI - pcJ) / dist
    | PressureFormulation.pn => (pI - pJ) / dist
    | PressureFormulation.pglobal => (pI - pJ + fMeanW * (pcI - pcJ)) / dist
  let potentialW := if first then 0 else gradW + densityW1 * dot tt.dim unitDistVec pb.gravity
  let potentialNW := if first then 0 else gradNW + densityNW1 * dot tt.dim unitDistVec pb.gravity
  -- upwinding of the mobilities and densities
  let lambdaW0 := if potentialW > 0 then lambdaWI else lambdaWJ
  let lambdaW := if potentialW = 0 then 0.5 * (lambdaWI + lambdaWJ) else lambdaW0
  let lambdaNW0 := if potentialNW > 0 then lambdaNWI else lambdaNWJ
  let lambdaNW := if potentialNW = 0 then 0.5 * (lambdaNWI + lambdaNWJ) else lambdaNW0
  let densityW2 := if potentialW > 0 then densityWI else densityWJ
  let densityNW2 := if potentialNW > 0 then densityNWI else densityNWJ
  let densityW := if potentialW = 0 then rhoMeanW else densityW2
  let densityNW := if potentialNW = 0 then rhoMeanNW else densityNW2
  let entry := (lambdaW + lambdaNW) * (dot tt.dim permeability unitDistVec / dist) * faceArea
    * dot tt.dim unitOuterNormal unitDistVec
  let rightEntry0 := (lambdaW * densityW + lambdaNW * densityNW)
    * dot tt.dim permeability pb.gravity * faceArea
  let pCGradient : FieldVector := fun x => unitDistVec x * ((pcI - pcJ) / dist)
  let rightEntry : Scalar :=
    match tt.pressureType with
    | PressureFormulation.pw =>
        rightEntry0 + 0.5 * (lambdaNWI + lambdaNWJ) * dot tt.dim permeability pCGradient * faceArea
    | PressureFormulation.pn =>
        rightEntry0 - 0.5 * (lambdaWI + lambdaWJ) * dot tt.dim permeability pCGradient * faceArea
    | PressureFormulation.pglobal => rightEntry0
  { potentialW := potentialW
    potentialNW := potentialNW
    entry := entry
    rightEntry := rightEntry
    normalDist := dot tt.dim unitOuterNormal unitDistVec }

/-- The synthetic outside state the Dirichlet block builds at the boundary. -/
structure BoundaryState where
  pressBound : Scalar
  pcBound : Scalar
  densityWBound : Scalar
  densityNWBound : Scalar
  lambdaWBound : Scalar
  lambdaNWBound : Scalar

/-- First half of the Dirichlet block: boundary saturation, capillary pressure,
phase pressures, densities and mobilities at the boundary. -/
def boundaryState (tt : TypeTag) (pb : Problem) (vars : Variables)
    (globalIdxI isIndex : Nat) (isIt : Intersection) : BoundaryState :=
  let globalPos := (pb.element globalIdxI).globalPos
  let globalPosFace := isIt.globalPosFace
  let bcTypeSat := pb.bctypeSat globalPosFace globalIdxI isIndex
  let satBound :=
    if bcTypeSat = Flags.dirichlet then pb.dirichletSat globalPosFace globalIdxI isIndex
    else vars.saturation globalIdxI
  let temperature := pb.temperature globalPosFace globalIdxI
  let pressBound := pb.dirichletPress globalPosFace globalIdxI isIndex
  let satW := satWOf tt satBound
  let pcBound := (pb.materialLawParams globalPos globalIdxI).pC satW
  let pressW : Scalar :=
    match tt.pressureType with
    | PressureFormulation.pw => pressBound
    | PressureFormulation.pn => pressBound - pcBound
    | PressureFormulation.pglobal => 0
  let pressNW : Scalar :=
    match tt.pressureType with
    | PressureFormulation.pw => pressBound + pcBound
    | PressureFormulation.pn => pressBound
    | PressureFormulation.pglobal => 0
  let phaseState :=
    if tt.compressibility then PhaseState.ofPressures pressW pressNW temperature
    else PhaseState.ofTemperature temperature
  let densityWBound := pb.phaseDensity PhaseIdx.wPhaseIdx phaseState
  let densityNWBound := pb.phaseDensity PhaseIdx.nPhaseIdx phaseState
  let viscosityWBound := pb.phaseViscosity PhaseIdx.wPhaseIdx phaseState
  let viscosityNWBound := pb.phaseViscosity PhaseIdx.nPhaseIdx phaseState
  let lambdaWBound :=
    if tt.compressibility then
      (pb.materialLawParams globalPos globalIdxI).krw satW / viscosityWBound * densityWBound
    else (pb.materialLawParams globalPos globalIdxI).krw satW / viscosityWBound
  let lambdaNWBound :=
    if tt.compressibility then
      (pb.materialLawParams globalPos globalIdxI).krn satW / viscosityNWBound * densityNWBound
    else (pb.materialLawParams globalPos globalIdxI).krn satW / viscosityNWBound
  { pressBound := pressBound
    pcBound := pcBound
    densityWBound := densityWBound
    densityNWBound := densityNWBound
    lambdaWBound := lambdaWBound
    lambdaNWBound := lambdaNWBound }

/-- Second half of the Dirichlet block of `assemble`, up to the writes. -/
def dirichletFace (tt : TypeTag) (pb : Problem) (vars : Variables) (first : Bool)
    (globalIdxI isIndex : Nat) (isIt : Intersection) : FaceValues :=
  let globalPos := (pb.element globalIdxI).globalPos
  let densityWI := vars.densityWetting globalIdxI
  let densityNWI := vars.densityNonwetting globalIdxI
  let permeabilityI := pb.intrinsicPermeability globalPos globalIdxI
  let lambdaWI := vars.mobilityWetting globalIdxI
  let lambdaNWI := vars.mobilityNonwetting globalIdxI
  let fractionalWI := vars.fracFlowFuncWetting globalIdxI
  let fractionalNWI := vars.fracFlowFuncNonwetting globalIdxI
  let unitOuterNormal := isIt.unitOuterNormal
  let faceArea := isIt.faceArea
  let globalPosFace := isIt.globalPosFace
  let distVec : FieldVector := fun x => globalPosFace x - globalPos x
  let dist := pb.two_norm distVec
  let unitDistVec : FieldVector := fun x => distVec x / dist
  let permeability := mv tt.dim permeabilityI unitDistVec
  let bs := boundaryState tt pb vars globalIdxI isIndex isIt
  let pressBound := bs.pressBound
  let pcI := vars.capillaryPressure globalIdxI
  let pcBound := bs.pcBound
  let densityWBound := bs.densityWBound
  let densityNWBound := bs.densityNWBound
  let lambdaWBound := bs.lambdaWBound
  let lambdaNWBound := bs.lambdaNWBound
  let fractionalWBound := lambdaWBound / (lambdaWBound + lambdaNWBound)
  let fractionalNWBound := lambdaNWBound / (lambdaWBound + lambdaNWBound)
  let rhoMeanW := 0.5 * (densityWI + densityWBound)
  let rhoMeanNW := 0.5 * (densityNWI + densityNWBound)
  let fMeanW := 0.5 * (fractionalWI + fractionalWBound)
  let fMeanNW := 0.5 * (fractionalNWI + fractionalNWBound)
  -- the block `if (!first)`
  let storedW := vars.potentialWetting globalIdxI isIndex
  let storedNW := vars.potentialNonwetting globalIdxI isIndex
  let densityW0 := if storedW > 0 then densityWI else densityWBound
  let densityNW0 := if storedNW > 0 then densityNWI else densityNWBound
  let densityW1 := if storedW = 0 then rhoMeanW else densityW0
  let densityNW1 := if storedNW = 0 then rhoMeanNW else densityNW0
  let pI := vars.pressure globalIdxI
  let gradW : Scalar :=
    match tt.pressureType with
    | PressureFormulation.pw => (pI - pressBound) / dist
    | PressureFormulation.pn => (pI - pcI - pressBound + pcBound) / dist
    | PressureFormulation.pglobal => (pI - pressBound - fMeanNW * (pcI - pcBound)) / dist
  let gradNW : Scalar :=
    match tt.pressureType with
    | PressureFormulation.pw => (pI + pcI - pressBound - pcBound) / dist
    | PressureFormulation.pn => (pI - pressBound) / dist
    | PressureFormulation.pglobal => (pI - pressBound + fMeanW * (pcI - pcBound)) / dist
  let potentialW := if first then 0 else gradW + densityW1 * dot tt.dim unitDistVec pb.gravity
  let potentialNW := if first then 0 else gradNW + densityNW1 * dot tt.dim unitDistVec pb.gravity
  -- upwinding of the mobilities and densities
  let lambdaW0 := if potentialW > 0 then lambdaWI else lambdaWBound
  let lambdaW := if potentialW = 0 then 0.5 * (lambdaWI + lambdaWBound) else lambdaW0
  let lambdaNW0 := if potentialNW > 0 then lambdaNWI else lambdaNWBound
  let lambdaNW := if potentialNW = 0 then 0.5 * (lambdaNWI + lambdaNWBound) else lambdaNW0
  let densityW2 := if potentialW > 0 then densityWI else densityWBound
  let densityW := if potentialW = 0 then rhoMeanW else densityW2
  let densityNW2 := if potentialNW > 0 then densityNWI else densityNWBound
  let densityNW := if potentialNW = 0 then rhoMeanNW else densityNW2
  let entry := (lambdaW + lambdaNW) * (dot tt.dim permeability unitDistVec / dist) * faceArea
    * dot tt.dim unitOuterNormal unitDistVec
  let rightEntry0 := (lambdaW * densityW + lambdaNW * densityNW)
    * dot tt.dim permeability pb.gravity * faceArea
  let pCGradient : FieldVector := fun x => unitDistVec x * ((pcI - pcBound) / dist)
  let rightEntry : Scalar :=
    match tt.pressureType with
    | PressureFormulation.pw =>
        rightEntry0
          + 0.5 * (lambdaNWI + lambdaNWBound) * dot tt.dim permeability pCGradient * faceArea
    | PressureFormulation.pn =>
        rightEntry0
          - 0.5 * (lambdaWI + lambdaWBound) * dot tt.dim permeability pCGradient * faceArea
    | PressureFormulation.pglobal => rightEntry0
  { potentialW := potentialW
    potentialNW := potentialNW
    entry := entry
    rightEntry := rightEntry
    normalDist := dot tt.dim unitOuterNormal unitDistVec }

/-- The write `A_[i][j] += v`. -/
def BCRSMatrix.add (A : BCRSMatrix) (i j : Nat) (v : Scalar) : BCRSMatrix :=
  { A with val := Function.update A.val i (Function.update (A.val i) j (A.val i j + v)) }

/-- The write `A_[i][j] = v`. -/
def BCRSMatrix.set (A : BCRSMatrix) (i j : Nat) (v : Scalar) : BCRSMatrix :=
  { A with val := Function.update A.val i (Function.update (A.val i) j v) }

/-- The two writes `potentialWetting(i, isIndex) = w` and
`potentialNonwetting(i, isIndex) = nw`. -/
def Variables.storePotentials (vars : Variables) (i isIndex : Nat) (w nw : Scalar) : Variables :=
  { vars with
    potentialWetting :=
      Function.update vars.potentialWetting i (Function.update (vars.potentialWetting i) isIndex w)
    potentialNonwetting :=
      Function.update vars.potentialNonwetting i
        (Function.update (vars.potentialNonwetting i) isIndex nw) }

/-- Body of the intersection loop of `assemble` for the intersection with local
index `isIndex` of the cell `globalIdxI`. -/
def assembleIntersection (tt : TypeTag) (pb : Problem) (first : Bool) (globalIdxI : Nat)
    (m : FVPressure2P) (isIndex : Nat) (isIt : Intersection) : FVPressure2P :=
  if isIt.neighbor then
    let fv := interiorFace tt pb m.variables_ first globalIdxI isIndex isIt
    let globalIdxJ := isIt.outside
    { m with
      variables_ :=
        if first then m.variables_
        else m.variables_.storePotentials globalIdxI isIndex fv.potentialW fv.potentialNW
      f_ := Function.update m.f_ globalIdxI (m.f_ globalIdxI - fv.rightEntry * fv.normalDist)
      A_ := (m.A_.add globalIdxI globalIdxI fv.entry).set globalIdxI globalIdxJ (-fv.entry) }
  else
    let globalPosFace := isIt.globalPosFace
    let bctype := pb.bctypePress globalPosFace globalIdxI isIndex
    if bctype = Flags.dirichlet then
      let fv := dirichletFace tt pb m.variables_ first globalIdxI isIndex isIt
      let pressBound := (boundaryState tt pb m.variables_ globalIdxI isIndex isIt).pressBound
      { m with
        variables_ :=
          if first then m.variables_
          else m.variables_.storePotentials globalIdxI isIndex fv.potentialW fv.potentialNW
        A_ := m.A_.add globalIdxI globalIdxI fv.entry
        f_ := Function.update m.f_ globalIdxI
          (m.f_ globalIdxI + fv.entry * pressBound - fv.rightEntry * fv.normalDist) }
    else
      let densityWI := m.variables_.densityWetting globalIdxI
      let densityNWI := m.variables_.densityNonwetting globalIdxI
      let J := pb.neumannPress globalPosFace globalIdxI isIndex
      let Jw := if tt.compressibility then J PhaseIdx.wPhaseIdx else J PhaseIdx.wPhaseIdx / densityWI
      let Jn := if tt.compressibility then J PhaseIdx.nPhaseIdx else J PhaseIdx.nPhaseIdx / densityNWI
      { m with
        f_ := Function.update m.f_ globalIdxI (m.f_ globalIdxI - (Jw + Jn) * isIt.faceArea)
        variables_ := m.variables_.storePotentials globalIdxI isIndex Jw Jn }

/-- The intersection loop of `assemble`: `isIndex` is the local index of the head
of the list. -/
def intersectionLoop (tt : TypeTag) (pb : Problem) (first : Bool) (globalIdxI : Nat) :
    List Intersection → Nat → FVPressure2P → FVPressure2P
  | [], _, m => m
  | isIt :: rest, isIndex, m =>
      intersectionLoop tt pb first globalIdxI rest (isIndex + 1)
        (assembleIntersection tt pb first globalIdxI m isIndex isIt)

/-- Body of the cell loop of `assemble` for the cell `globalIdxI`: source term,
intersection loop, volume correction. -/
def assembleElement (tt : TypeTag) (pb : Problem) (first : Bool) (m : FVPressure2P)
    (globalIdxI : Nat) : FVPressure2P :=
  let globalPos := (pb.element globalIdxI).globalPos
  let volume := (pb.element globalIdxI).volume
  let densityWI := m.variables_.densityWetting globalIdxI
  let densityNWI := m.variables_.densityNonwetting globalIdxI
  let source := pb.source globalPos globalIdxI
  let sourceW :=
    if tt.compressibility then source PhaseIdx.wPhaseIdx else source PhaseIdx.wPhaseIdx / densityWI
  let sourceN :=
    if tt.compressibility then source PhaseIdx.nPhaseIdx else source PhaseIdx.nPhaseIdx / densityNWI
  let m1 : FVPressure2P :=
    { m with f_ := Function.update m.f_ globalIdxI (volume * (sourceW + sourceN)) }
  let porosity := pb.porosity globalPos globalIdxI
  let m2 := intersectionLoop tt pb first globalIdxI (pb.element globalIdxI).intersections 0 m1
  if tt.compressibility then
    match tt.saturationType with
    | SaturationFormulation.Sw =>
        { m2 with
          f_ := Function.update m2.f_ globalIdxI
            (m2.f_ globalIdxI
              - m2.variables_.volumecorrection globalIdxI * porosity * volume
                * (densityWI - densityNWI)) }
    | SaturationFormulation.Sn =>
        { m2 with
          f_ := Function.update m2.f_ globalIdxI
            (m2.f_ globalIdxI
              - m2.variables_.volumecorrection globalIdxI * porosity * volume
                * (densityNWI - densityWI)) }
  else m2

/-- The grid traversal of `assemble`: everything after the two resets. -/
def gridTraversal (tt : TypeTag) (pb : Problem) (first : Bool) (m : FVPressure2P) :
    FVPressure2P :=
  (List.range pb.gridSize).foldl (assembleElement tt pb first) m

/-- The method `assemble(first, t)`: `A_ = 0`, `f_ = 0`, then the grid traversal.
The time `t` is not used by the body. -/
def assemble (tt : TypeTag) (pb : Problem) (first : Bool) (_t : Scalar) (m : FVPressure2P) :
    FVPressure2P :=
  gridTraversal tt pb first
    { m with A_ := { m.A_ with val := fun _ _ => 0 }, f_ := fun _ => 0 }

/-! ## solve -/

/-- The call `solver.apply(problem_.variables().pressure(), f_, result)`: the
pressure takes the solution, `f_` is overwritten by the solver, the result record
is dropped. -/
def applySolver (solver : (Nat → Nat → Scalar) → BlockVector → BlockVector → SolverOutput)
    (m : FVPressure2P) : FVPressure2P :=
  let out := solver m.A_.val m.variables_.pressure m.f_
  { m with variables_ := { m.variables_ with pressure := out.x }, f_ := out.b }

/-- The method `solve`. -/
def solve (pb : Problem) (m : FVPressure2P) : Except Exception FVPressure2P :=
  if m.preconditionerName_ = "SeqILU0" then
    if m.solverName_ = "CG" then
      Except.ok (applySolver pb.solveCG_ILU0 m)
    else if m.solverName_ = "BiCGSTAB" then
      Except.ok (applySolver pb.solveBiCGSTAB_ILU0 m)
    else
      Except.error (Exception.NotImplemented
        ("FVPressure2P :: solve : combination " ++ m.preconditionerName_ ++ " and "
          ++ m.solverName_ ++ "."))
  else if m.preconditionerName_ = "SeqPardiso" then
    if m.solverName_ = "Loop" then
      Except.ok (applySolver pb.solveLoop_Pardiso m)
    else
      Except.error (Exception.NotImplemented
        ("FVPressure2P :: solve : combination " ++ m.preconditionerName_ ++ " and "
          ++ m.solverName_ ++ "."))
  else
    Except.error (Exception.NotImplemented
      ("FVPressure2P :: solve : preconditioner " ++ m.preconditionerName_ ++ "."))

/-! ## pressure -/

/-- The calls `pressure` makes. -/
inductive Step
  | updateMaterialLaws
  | assemble (first : Bool)
  | solve
  deriving DecidableEq

/-- An object together with the record of the calls made on it so far. The
record is instrumentation: the code keeps no such list. -/
structure Run where
  model : FVPressure2P
  calls : List Step

/-- What escapes from `pressure` when `solve` throws: the exception, and the
calls made up to and including the throwing one. -/
structure Thrown where
  what : Exception
  calls : List Step

/-- A recorded call of `updateMaterialLaws`. -/
def Run.updateMaterialLaws (tt : TypeTag) (pb : Problem) (r : Run) : Run :=
  { model := Dune.updateMaterialLaws tt pb r.model, calls := r.calls ++ [Step.updateMaterialLaws] }

/-- A recorded call of `assemble(first, t)`. -/
def Run.assemble (tt : TypeTag) (pb : Problem) (first : Bool) (t : Scalar) (r : Run) : Run :=
  { model := Dune.assemble tt pb first t r.model, calls := r.calls ++ [Step.assemble first] }

/-- A recorded call of `solve`. -/
def Run.solve (pb : Problem) (r : Run) : Except Thrown Run :=
  match Dune.solve pb r.model with
  | Except.ok m => Except.ok { model := m, calls := r.calls ++ [Step.solve] }
  | Except.error e => Except.error { what := e, calls := r.calls ++ [Step.solve] }

/-- The value of `pressureNorm /= pressureOld.infinity_norm()` in IEEE arithmetic
for a non-negative numerator: a finite quotient, `+inf` for `x / 0` with `x > 0`,
NaN for `0 / 0`. -/
inductive NormQuotient
  | finite (q : Scalar)
  | infinite
  | nan

/-- The division of one norm by another. -/
def divNorm (num den : Scalar) : NormQuotient :=
  if den = 0 then (if num = 0 then NormQuotient.nan else NormQuotient.infinite)
  else NormQuotient.finite (num / den)

/-- The comparison `pressureNorm > tol`: true for `+inf`, false for NaN. -/
def NormQuotient.gt (x : NormQuotient) (tol : Scalar) : Bool :=
  match x with
  | NormQuotient.finite q => decide (q > tol)
  | NormQuotient.infinite => true
  | NormQuotient.nan => false

/-- The statements that follow a `solve` inside the bootstrap of `pressure`:
`pressureDiff` is `pressureOld` minus the current pressure, its infinity norm is
divided by the infinity norm of `pressureOld` after `pressureOld` has been
overwritten with the current pressure. -/
def pressureNormOf (n : Nat) (pressureOld pressure : BlockVector) : NormQuotient :=
  let pressureDiff : BlockVector := fun i => pressureOld i - pressure i
  let pressureOld1 := pressure
  divNorm (infinity_norm n pressureDiff) (infinity_norm n pressureOld1)

/-- The `while` loop of `pressure`. -/
def pressureLoop (tt : TypeTag) (pb : Problem) (t : Scalar) (pressureOld : BlockVector)
    (pressureNorm : NormQuotient) (numIter : Nat) (r : Run) : Except Thrown Run :=
  if _h : pressureNorm.gt 1e-5 = true ∧ numIter < 10 then
    match ((r.updateMaterialLaws tt pb).assemble tt pb false t).solve pb with
    | Except.error e => Except.error e
    | Except.ok r1 =>
        pressureLoop tt pb t r1.model.variables_.pressure
          (pressureNormOf pb.gridSize pressureOld r1.model.variables_.pressure) (numIter + 1) r1
  else Except.ok r
termination_by 10 - numIter
decreasing_by omega

/-- The method `pressure(first, t, solveTwice)`. -/
def pressure (tt : TypeTag) (pb : Problem) (first : Bool) (t : Scalar) (solveTwice : Bool)
    (r : Run) : Except Thrown Run :=
  let r1 := if first then r.updateMaterialLaws tt pb else r
  match (r1.assemble tt pb first t).solve pb with
  | Except.error e => Except.error e
  | Except.ok r2 =>
      if first && solveTwice then
        let pressureOld := r2.model.variables_.pressure
        match (r2.assemble tt pb false t).solve pb with
        | Except.error e => Except.error e
        | Except.ok r3 =>
            pressureLoop tt pb t r3.model.variables_.pressure
              (pressureNormOf pb.gridSize pressureOld r3.model.variables_.pressure) 0 r3
      else Except.ok r2

/-! ## The constructors and the state solve leaves behind -/

/-- The constructor `FVPressure2P(problem, solverName, preconditionerName)`: the
matrix and the right-hand side are allocated (their initial contents `A0` and
`f0` are whatever the allocation leaves), the two names are stored, and
`initializeMatrix` is run. `vars` is the variables object of the problem. -/
def FVPressure2P.ofProblemWithSolver (pb : Problem) (vars : Variables)
    (A0 : Nat → Nat → Scalar) (f0 : BlockVector) (solverName preconditionerName : String) :
    FVPressure2P :=
  { variables_ := vars
    A_ := initializeMatrix pb { BCRSMatrix.fresh with val := A0 }
    f_ := f0
    solverName_ := solverName
    preconditionerName_ := preconditionerName }

/-- The constructor `FVPressure2P(problem)`: solver `BiCGSTAB`, preconditioner
`SeqILU0`. -/
def FVPressure2P.ofProblem (pb : Problem) (vars : Variables) (A0 : Nat → Nat → Scalar)
    (f0 : BlockVector) : FVPressure2P :=
  FVPressure2P.ofProblemWithSolver pb vars A0 f0 "BiCGSTAB" "SeqILU0"

/-- The method `solve` with the object it leaves behind: the object after the
call, and the exception when the call ends in `DUNE_THROW`. The branches that
throw construct at most the preconditioner, which reads `A_`, and write
nothing. -/
def solveState (pb : Problem) (m : FVPressure2P) : FVPressure2P × Option Exception :=
  if m.preconditionerName_ = "SeqILU0" then
    if m.solverName_ = "CG" then
      (applySolver pb.solveCG_ILU0 m, none)
    else if m.solverName_ = "BiCGSTAB" then
      (applySolver pb.solveBiCGSTAB_ILU0 m, none)
    else
      (m, some (Exception.NotImplemented
        ("FVPressure2P :: solve : combination " ++ m.preconditionerName_ ++ " and "
          ++ m.solverName_ ++ ".")))
  else if m.preconditionerName_ = "SeqPardiso" then
    if m.solverName_ = "Loop" then
      (applySolver pb.solveLoop_Pardiso m, none)
    else
      (m, some (Exception.NotImplemented
        ("FVPressure2P :: solve : combination " ++ m.preconditionerName_ ++ " and "
          ++ m.solverName_ ++ ".")))
  else
    (m, some (Exception.NotImplemented
      ("FVPressure2P :: solve : preconditioner " ++ m.preconditionerName_ ++ ".")))

end Dune

namespace Dumux

/-! ## Element data handles (dumux/parallel/elementhandles.hh)

A handle holds a reference to a container indexed by the element index and a
reference to the mapper that gives the index of an element. `scatter` is given
the value `tmp` that `buff.read(tmp)` reads from the message buffer; its size
argument is not used by the code. -/

/-- The function `std::max(a, b)`: `b` if `a < b`, else `a`. -/
def stdMax {FieldType : Type} [LinearOrder FieldType] (a b : FieldType) : FieldType :=
  if a < b then b else a

/-- The function `std::min(a, b)`: `b` if `b < a`, else `a`. -/
def stdMin {FieldType : Type} [LinearOrder FieldType] (a b : FieldType) : FieldType :=
  if b < a then b else a

/-- The class `ElementHandleAssign`. -/
structure ElementHandleAssign (FieldType Entity : Type) where
  mapper_ : Entity → Nat
  container_ : Nat → FieldType

/-- The method `ElementHandleAssign::gather`: the value written to the buffer. -/
def ElementHandleAssign.gather {FieldType Entity : Type}
    (h : ElementHandleAssign FieldType Entity) (e : Entity) : FieldType :=
  h.container_ (h.mapper_ e)

/-- The method `ElementHandleAssign::scatter`. -/
def ElementHandleAssign.scatter {FieldType Entity : Type}
    (h : ElementHandleAssign FieldType Entity) (tmp : FieldType) (e : Entity) :
    ElementHandleAssign FieldType Entity :=
  { h with container_ := Function.update h.container_ (h.mapper_ e) tmp }

/-- The class `ElementHandleSum`. -/
structure ElementHandleSum (FieldType Entity : Type) where
  mapper_ : Entity → Nat
  container_ : Nat → FieldType

/-- The method `ElementHandleSum::gather`: the value written to the buffer. -/
def ElementHandleSum.gather {FieldType Entity : Type}
    (h : ElementHandleSum FieldType Entity) (e : Entity) : FieldType :=
  h.container_ (h.mapper_ e)

/-- The method `ElementHandleSum::scatter`. -/
def ElementHandleSum.scatter {FieldType Entity : Type} [Add FieldType]
    (h : ElementHandleSum FieldType Entity) (tmp : FieldType) (e : Entity) :
    ElementHandleSum FieldType Entity :=
  { h with
    container_ := Function.update h.container_ (h.mapper_ e) (h.container_ (h.mapper_ e) + tmp) }

/-- The class `ElementHandleMax`. -/
structure ElementHandleMax (FieldType Entity : Type) where
  mapper_ : Entity → Nat
  container_ : Nat → FieldType

/-- The method `ElementHandleMax::gather`: the value written to the buffer. -/
def ElementHandleMax.gather {FieldType Entity : Type}
    (h : ElementHandleMax FieldType Entity) (e : Entity) : FieldType :=
  h.container_ (h.mapper_ e)

/-- The method `ElementHandleMax::scatter`. -/
def ElementHandleMax.scatter {FieldType Entity : Type} [LinearOrder FieldType]
    (h : ElementHandleMax FieldType Entity) (tmp : FieldType) (e : Entity) :
    ElementHandleMax FieldType Entity :=
  { h with
    container_ :=
      Function.update h.container_ (h.mapper_ e) (stdMax (h.container_ (h.mapper_ e)) tmp) }

/-- The class `ElementHandleMin`. -/
structure ElementHandleMin (FieldType Entity : Type) where
  mapper_ : Entity → Nat
  container_ : Nat → FieldType

/-- The method `ElementHandleMin::gather`: the value written to the buffer. -/
def ElementHandleMin.gather {FieldType Entity : Type}
    (h : ElementHandleMin FieldType Entity) (e : Entity) : FieldType :=
  h.container_ (h.mapper_ e)

/-- The method `ElementHandleMin::scatter`. -/
def ElementHandleMin.scatter {FieldType Entity : Type} [LinearOrder FieldType]
    (h : ElementHandleMin FieldType Entity) (tmp : FieldType) (e : Entity) :
    ElementHandleMin FieldType Entity :=
  { h with
    container_ :=
      Function.update h.container_ (h.mapper_ e) (stdMin (h.container_ (h.mapper_ e)) tmp) }

/-- A sequence of `scatter` calls on an `ElementHandleMax`, one for each received
pair of an element and a value, in the order of the list. -/
def ElementHandleMax.scatterAll {FieldType Entity : Type} [LinearOrder FieldType]
    (h : ElementHandleMax FieldType Entity) (received : List (Entity × FieldType)) :
    ElementHandleMax FieldType Entity :=
  received.foldl (fun g p => g.scatter p.2 p.1) h

/-- A sequence of `scatter` calls on an `ElementHandleMin`, one for each received
pair of an element and a value, in the order of the list. -/
def ElementHandleMin.scatterAll {FieldType Entity : Type} [LinearOrder FieldType]
    (h : ElementHandleMin FieldType Entity) (received : List (Entity × FieldType)) :
    ElementHandleMin FieldType Entity :=
  received.foldl (fun g p => g.scatter p.2 p.1) h

/-! ## Richards flux variables (dumux/boxmodels/richards/richardsfluxvariables.hh)

What `calculateGradients_` reads from the element context: the number of
sub-control volumes, the finite-element gradients `subContVolFace[scvfIdx].grad`,
and per sub-control volume the wetting pressure, saturation and density of the
fluid state and the gravity of the problem. -/

/-- The part of `ElementContext` that `calculateGradients_` reads. -/
structure ElementContext where
  numScv : Nat
  grad : Nat → Nat → Dune.FieldVector
  pressure : Nat → Dune.Scalar
  saturation : Nat → Dune.Scalar
  density : Nat → Dune.Scalar
  gravity : Nat → Dune.FieldVector

/-- The members of `RichardsFluxVariables` that `calculateGradients_` reads and
writes. -/
structure RichardsFluxVariables where
  insideScvIdx_ : Nat
  outsideScvIdx_ : Nat
  potentialGrad_ : Dune.FieldVector

/-- The method `RichardsFluxVariables::calculateGradients_`; `enableGravity` is
the parameter `EnableGravity`. -/
def RichardsFluxVariables.calculateGradients_ (enableGravity : Bool)
    (fluxVars : RichardsFluxVariables) (elemCtx : ElementContext) (scvfIdx : Nat) :
    RichardsFluxVariables :=
  let potentialGrad0 : Dune.FieldVector := fun _ => 0
  let potentialGrad1 : Dune.FieldVector :=
    (List.range elemCtx.numScv).foldl
      (fun acc scvIdx => fun x =>
        acc x + elemCtx.grad scvfIdx scvIdx x * elemCtx.pressure fluxVars.insideScvIdx_)
      potentialGrad0
  if enableGravity then
    let g : Dune.FieldVector := fun x =>
      (elemCtx.gravity fluxVars.insideScvIdx_ x + elemCtx.gravity fluxVars.outsideScvIdx_ x) / 2
    let SI := elemCtx.saturation fluxVars.insideScvIdx_
    let SJ := elemCtx.saturation fluxVars.outsideScvIdx_
    let rhoI := elemCtx.density fluxVars.insideScvIdx_
    let rhoJ := elemCtx.density fluxVars.outsideScvIdx_
    let fI0 : Dune.Scalar := stdMax 0 (stdMin (SI / 1e-5) 0.5)
    let fJ0 : Dune.Scalar := stdMax 0 (stdMin (SJ / 1e-5) 0.5)
    let fI : Dune.Scalar := if fI0 + fJ0 = 0 then 0.5 else fI0
    let fJ : Dune.Scalar := if fI0 + fJ0 = 0 then 0.5 else fJ0
    let density := (fI * rhoI + fJ * rhoJ) / (fI + fJ)
    { fluxVars with potentialGrad_ := fun x => potentialGrad1 x - g x * density }
  else
    { fluxVars with potentialGrad_ := potentialGrad1 }

/-- The gradient the box scheme forms from the pressures of the sub-control
volumes: the sum over `k` of the finite-element gradient of `k` times the wetting
pressure at `k`. -/
def nodalPressureGradient (elemCtx : ElementContext) (scvfIdx : Nat) : Dune.FieldVector :=
  fun x =>
    Finset.sum (Finset.range elemCtx.numScv)
      (fun k => elemCtx.grad scvfIdx k x * elemCtx.pressure k)

/-- An element with two sub-control volumes in one dimension: finite-element
gradients -1 and 1, wetting pressures 1 and 3, no gravity. -/
def twoScvContext : ElementContext :=
  { numScv := 2
    grad := fun _ scvIdx _ => if scvIdx = 0 then -1 else 1
    pressure := fun scvIdx => if scvIdx = 0 then 1 else 3
    saturation := fun _ => 1
    density := fun _ => 1
    gravity := fun _ _ => 0 }

/-- Flux variables for the face between the sub-control volumes 0 and 1. -/
def twoScvFluxVars : RichardsFluxVariables :=
  { insideScvIdx_ := 0, outsideScvIdx_ := 1, potentialGrad_ := fun _ => 0 }

end Dumux

namespace Dune

/-! ## Auxiliary definitions used by the statements -/

/-- The derived fields of one cell, gathered in one record. -/
structure Laws where
  densityW : Scalar
  densityNW : Scalar
  viscosityW : Scalar
  viscosityNW : Scalar
  mobilityW : Scalar
  mobilityNW : Scalar
  fracFlowW : Scalar
  fracFlowNW : Scalar
  pc : Scalar

/-- The derived fields that `vars` stores for the cell `j`. -/
def Variables.laws (vars : Variables) (j : Nat) : Laws :=
  { densityW := vars.densityWetting j
    densityNW := vars.densityNonwetting j
    viscosityW := vars.viscosityWetting j
    viscosityNW := vars.viscosityNonwetting j
    mobilityW := vars.mobilityWetting j
    mobilityNW := vars.mobilityNonwetting j
    fracFlowW := vars.fracFlowFuncWetting j
    fracFlowNW := vars.fracFlowFuncNonwetting j
    pc := vars.capillaryPressure j }

/-- The part of the state that `assemble` only reads: solver names, sparsity
pattern, primary unknowns, volume correction and the derived fields. -/
def SameFrame (a b : FVPressure2P) : Prop :=
  a.solverName_ = b.solverName_ ∧ a.preconditionerName_ = b.preconditionerName_ ∧
  a.A_.index = b.A_.index ∧ a.A_.rowsize = b.A_.rowsize ∧
  a.variables_.pressure = b.variables_.pressure ∧
  a.variables_.saturation = b.variables_.saturation ∧
  a.variables_.volumecorrection = b.variables_.volumecorrection ∧
  ∀ j, a.variables_.laws j = b.variables_.laws j

/-- The pairs of preconditioner and solver names for which `solve` has a branch. -/
def supportedPair (preconditionerName solverName : String) : Bool :=
  (preconditionerName == "SeqILU0" && (solverName == "CG" || solverName == "BiCGSTAB"))
    || (preconditionerName == "SeqPardiso" && solverName == "Loop")

/-- The object after a call of `solve`; the object itself when the call throws. -/
def solved (pb : Problem) (m : FVPressure2P) : FVPressure2P :=
  match solve pb m with
  | Except.ok m1 => m1
  | Except.error _ => m

/-- The object after one pass of the loop body of `pressure`:
`updateMaterialLaws`, `assemble(false, t)`, `solve`. -/
def repetition (tt : TypeTag) (pb : Problem) (t : Scalar) (m : FVPressure2P) : FVPressure2P :=
  solved pb (assemble tt pb false t (updateMaterialLaws tt pb m))

/-- The object after the first solve of the bootstrap:
`updateMaterialLaws`, `assemble(true, t)`, `solve`. -/
def firstSolved (tt : TypeTag) (pb : Problem) (t : Scalar) (m : FVPressure2P) : FVPressure2P :=
  solved pb (assemble tt pb true t (updateMaterialLaws tt pb m))

/-- The object after the second solve of the bootstrap: `assemble(false, t)` and
`solve` on top of `firstSolved`. -/
def secondSolved (tt : TypeTag) (pb : Problem) (t : Scalar) (m : FVPressure2P) : FVPressure2P :=
  solved pb (assemble tt pb false t (firstSolved tt pb t m))

/-- The values `pressureNorm` takes along the loop that starts from the object
`m` with the value `q`: the value before any repetition, then the value computed
at the end of each repetition. -/
def changeSeq (tt : TypeTag) (pb : Problem) (t : Scalar) (q : NormQuotient) (m : FVPressure2P) :
    Nat → NormQuotient
  | 0 => q
  | j + 1 =>
      pressureNormOf pb.gridSize ((repetition tt pb t)^[j] m).variables_.pressure
        ((repetition tt pb t)^[j + 1] m).variables_.pressure

/-- The relative pressure change that `pressure(true, t, true)` holds after `j`
repetitions of the loop body. -/
def changeAfter (tt : TypeTag) (pb : Problem) (t : Scalar) (m : FVPressure2P) (j : Nat) :
    NormQuotient :=
  changeSeq tt pb t
    (pressureNormOf pb.gridSize (firstSolved tt pb t m).variables_.pressure
      (secondSolved tt pb t m).variables_.pressure)
    (secondSolved tt pb t m) j

/-- The calls of one pass of the loop body. -/
def loopBodyCalls : List Step :=
  [Step.updateMaterialLaws, Step.assemble false, Step.solve]

/-- The call sequence of the bootstrap followed by `k` repetitions. -/
def bootstrapCalls (k : Nat) : List Step :=
  [Step.updateMaterialLaws, Step.assemble true, Step.solve, Step.assemble false, Step.solve]
    ++ (List.replicate k loopBodyCalls).flatten

/-- Agreement of two variable objects on everything but the potential store. -/
def SameLaws (v w : Variables) : Prop :=
  v.pressure = w.pressure ∧ v.saturation = w.saturation ∧
  v.volumecorrection = w.volumecorrection ∧ ∀ j, v.laws j = w.laws j

/-- Agreement of two objects on what the processing of cell `i` reads and
writes: everything but the potential store in the variables, and row `i` of the
store, of the right-hand side and of the matrix. -/
def RowAgree (i : Nat) (a b : FVPressure2P) : Prop :=
  SameLaws a.variables_ b.variables_ ∧
  a.variables_.potentialWetting i = b.variables_.potentialWetting i ∧
  a.variables_.potentialNonwetting i = b.variables_.potentialNonwetting i ∧
  a.f_ i = b.f_ i ∧ a.A_.val i = b.A_.val i

/-- The distance `dist` between the centres of the cells `i` and `j`. -/
def centreDist (pb : Problem) (i j : Nat) : Scalar :=
  pb.two_norm (fun x => (pb.element j).globalPos x - (pb.element i).globalPos x)

/-- The vector `unitDistVec` from the centre of cell `i` towards the centre of
cell `j`. -/
def unitDist (pb : Problem) (i j : Nat) : FieldVector :=
  fun x => ((pb.element j).globalPos x - (pb.element i).globalPos x) / centreDist pb i j

/-- The upwind rule of `assemble`: the value of cell `i` for a positive
potential, the other value for a negative one, the mean for the potential zero. -/
def upwind (potential valueI valueJ : Scalar) : Scalar :=
  if potential = 0 then 0.5 * (valueI + valueJ)
  else if potential > 0 then valueI else valueJ

/-- The pressure part of the wetting potential of the face between `i` and `j`,
before the gravity term is added. -/
def gradW (tt : TypeTag) (pb : Problem) (v : Variables) (i j : Nat) : Scalar :=
  match tt.pressureType with
  | PressureFormulation.pw => (v.pressure i - v.pressure j) / centreDist pb i j
  | PressureFormulation.pn =>
      (v.pressure i - v.pressure j - v.capillaryPressure i + v.capillaryPressure j)
        / centreDist pb i j
  | PressureFormulation.pglobal =>
      (v.pressure i - v.pressure j
        - 0.5 * (v.fracFlowFuncNonwetting i + v.fracFlowFuncNonwetting j)
          * (v.capillaryPressure i - v.capillaryPressure j)) / centreDist pb i j

/-- The pressure part of the non-wetting potential of the face between `i` and
`j`, before the gravity term is added. -/
def gradNW (tt : TypeTag) (pb : Problem) (v : Variables) (i j : Nat) : Scalar :=
  match tt.pressureType with
  | PressureFormulation.pw =>
      (v.pressure i - v.pressure j + v.capillaryPressure i - v.capillaryPressure j)
        / centreDist pb i j
  | PressureFormulation.pn => (v.pressure i - v.pressure j) / centreDist pb i j
  | PressureFormulation.pglobal =>
      (v.pressure i - v.pressure j
        + 0.5 * (v.fracFlowFuncWetting i + v.fracFlowFuncWetting j)
          * (v.capillaryPressure i - v.capillaryPressure j)) / centreDist pb i j

/-- The permeability vector of an interior face: the mean tensor applied to the
unit distance vector. -/
def facePermeability (tt : TypeTag) (pb : Problem) (i j : Nat) : FieldVector :=
  mv tt.dim
    (meanPermeability (pb.intrinsicPermeability (pb.element i).globalPos i)
      (pb.intrinsicPermeability (pb.element j).globalPos j))
    (unitDist pb i j)

/-- The capillary term of `rightEntry` for an interior face. -/
def capillaryTerm (tt : TypeTag) (pb : Problem) (v : Variables) (i j : Nat)
    (faceArea : Scalar) : Scalar :=
  match tt.pressureType with
  | PressureFormulation.pw =>
      0.5 * (v.mobilityNonwetting i + v.mobilityNonwetting j)
        * dot tt.dim (facePermeability tt pb i j)
            (fun x => unitDist pb i j x
              * ((v.capillaryPressure i - v.capillaryPressure j) / centreDist pb i j))
        * faceArea
  | PressureFormulation.pn =>
      -(0.5 * (v.mobilityWetting i + v.mobilityWetting j)
        * dot tt.dim (facePermeability tt pb i j)
            (fun x => unitDist pb i j x
              * ((v.capillaryPressure i - v.capillaryPressure j) / centreDist pb i j))
        * faceArea)
  | PressureFormulation.pglobal => 0

/-- The amount the intersection `isIndex` of cell `i` adds to `f_[i]`. -/
def faceRhs (tt : TypeTag) (pb : Problem) (first : Bool) (i : Nat) (v : Variables)
    (isIndex : Nat) (isIt : Intersection) : Scalar :=
  if isIt.neighbor then
    -((interiorFace tt pb v first i isIndex isIt).rightEntry
      * (interiorFace tt pb v first i isIndex isIt).normalDist)
  else if pb.bctypePress isIt.globalPosFace i isIndex = Flags.dirichlet then
    (dirichletFace tt pb v first i isIndex isIt).entry
        * (boundaryState tt pb v i isIndex isIt).pressBound
      - (dirichletFace tt pb v first i isIndex isIt).rightEntry
        * (dirichletFace tt pb v first i isIndex isIt).normalDist
  else
    -(((if tt.compressibility then pb.neumannPress isIt.globalPosFace i isIndex PhaseIdx.wPhaseIdx
        else pb.neumannPress isIt.globalPosFace i isIndex PhaseIdx.wPhaseIdx
          / v.densityWetting i)
      + (if tt.compressibility then
          pb.neumannPress isIt.globalPosFace i isIndex PhaseIdx.nPhaseIdx
        else pb.neumannPress isIt.globalPosFace i isIndex PhaseIdx.nPhaseIdx
          / v.densityNonwetting i)) * isIt.faceArea)

/-- The sum of `g isIndex isIt` over the intersections of a list, `isIndex`
counting from `k`. -/
def sumFaces (g : Nat → Intersection → Scalar) : List Intersection → Nat → Scalar
  | [], _ => 0
  | isIt :: rest, k => g k isIt + sumFaces g rest (k + 1)

/-- The value `f_[i]` holds before the intersection loop of cell `i`. -/
def sourceRhs (tt : TypeTag) (pb : Problem) (v : Variables) (i : Nat) : Scalar :=
  (pb.element i).volume
    * ((if tt.compressibility then pb.source (pb.element i).globalPos i PhaseIdx.wPhaseIdx
        else pb.source (pb.element i).globalPos i PhaseIdx.wPhaseIdx / v.densityWetting i)
      + (if tt.compressibility then pb.source (pb.element i).globalPos i PhaseIdx.nPhaseIdx
        else pb.source (pb.element i).globalPos i PhaseIdx.nPhaseIdx / v.densityNonwetting i))

/-- The volume-correction term subtracted from `f_[i]` after the intersection
loop of cell `i`. -/
def volumeCorrectionRhs (tt : TypeTag) (pb : Problem) (v : Variables) (i : Nat) : Scalar :=
  if tt.compressibility then
    match tt.saturationType with
    | SaturationFormulation.Sw =>
        v.volumecorrection i * pb.porosity (pb.element i).globalPos i * (pb.element i).volume
          * (v.densityWetting i - v.densityNonwetting i)
    | SaturationFormulation.Sn =>
        v.volumecorrection i * pb.porosity (pb.element i).globalPos i * (pb.element i).volume
          * (v.densityNonwetting i - v.densityWetting i)
  else 0

/-- The intersection `k` of cell `i` and the intersection `k1` of cell `j` are the
two sides of one interior face of a conforming mesh: each leads to the other
cell, both have the same area, the unit normals are opposite, and the distance
of the two centres is the same from both sides (so that the unit distance
vectors are opposite). -/
def MirrorFaces (tt : TypeTag) (pb : Problem) (i k j k1 : Nat) (isIt isJt : Intersection) :
    Prop :=
  (pb.element i).intersections[k]? = some isIt ∧
  (pb.element j).intersections[k1]? = some isJt ∧
  isIt.neighbor = true ∧ isIt.outside = j ∧ isJt.neighbor = true ∧ isJt.outside = i ∧
  isJt.faceArea = isIt.faceArea ∧
  (∀ x, x < tt.dim → isJt.unitOuterNormal x = -isIt.unitOuterNormal x) ∧
  centreDist pb j i = centreDist pb i j

/-- A conforming mesh: every interior face of a cell of the grid leads to another
cell of the grid, which sees the same face as its intersection `mirror i k`. -/
def Conforming (tt : TypeTag) (pb : Problem) (mirror : Nat → Nat → Nat) : Prop :=
  ∀ i k isIt, i < pb.gridSize → (pb.element i).intersections[k]? = some isIt →
    isIt.neighbor = true →
    isIt.outside < pb.gridSize ∧ isIt.outside ≠ i ∧
    mirror isIt.outside (mirror i k) = k ∧
    ∃ isJt, MirrorFaces tt pb i k isIt.outside (mirror i k) isIt isJt

/-- The upwind decisions of the two sides of a face agree: this is so when
`first` is set, when there is no gravity, and when the two stored potentials of
each phase are opposite. -/
def SymmetricUpwind (tt : TypeTag) (pb : Problem) (v : Variables) (first : Bool)
    (i k j k1 : Nat) : Prop :=
  first = true ∨ (∀ x, x < tt.dim → pb.gravity x = 0) ∨
  (v.potentialWetting j k1 = -v.potentialWetting i k ∧
    v.potentialNonwetting j k1 = -v.potentialNonwetting i k)

/-- The term `faceRhs` of the intersection `x.2` of the cell `x.1`; zero when the
cell has no such intersection. -/
def faceRhsAt (tt : TypeTag) (pb : Problem) (first : Bool) (v : Variables)
    (x : (_ : Nat) × Nat) : Scalar :=
  match (pb.element x.1).intersections[x.2]? with
  | some isIt => faceRhs tt pb first x.1 v x.2 isIt
  | none => 0

/-- The other side of an intersection: for an interior face, the intersection
`mirror i k` of the neighbour; a boundary face is its own other side. -/
def mirrorFace (pb : Problem) (mirror : Nat → Nat → Nat) (x : (_ : Nat) × Nat) :
    (_ : Nat) × Nat :=
  match (pb.element x.1).intersections[x.2]? with
  | some isIt => if isIt.neighbor then ⟨isIt.outside, mirror x.1 x.2⟩ else x
  | none => x

/-- All intersections of all cells of the grid. -/
def allFaces (pb : Problem) : Finset ((_ : Nat) × Nat) :=
  (Finset.range pb.gridSize).sigma fun i => Finset.range (pb.element i).intersections.length

/-- The state after one of the calls of `pressure`; `solve` leaves the object as
it is when it throws. -/
def applyStep (tt : TypeTag) (pb : Problem) (t : Scalar) (m : FVPressure2P) :
    Step → FVPressure2P
  | Step.updateMaterialLaws => updateMaterialLaws tt pb m
  | Step.assemble first => assemble tt pb first t m
  | Step.solve => (solveState pb m).1

/-- The problem `pb` with linear solvers that compute what those of `pb` compute
but report `rep` in their result record. -/
def Problem.reporting (pb : Problem) (rep : InverseOperatorResult) : Problem :=
  { pb with
    solveCG_ILU0 := fun A x b => { pb.solveCG_ILU0 A x b with result := rep }
    solveBiCGSTAB_ILU0 := fun A x b => { pb.solveBiCGSTAB_ILU0 A x b with result := rep }
    solveLoop_Pardiso := fun A x b => { pb.solveLoop_Pardiso A x b with result := rep } }

/-- The wetting potential the block `if (!first)` computes for the intersection
`k` of cell `i` towards cell `j`: the pressure part, plus the gravity part with
the density picked by the sign of the potential stored for `(i, k)`. -/
def recomputedPotentialW (tt : TypeTag) (pb : Problem) (v : Variables) (i k j : Nat) : Scalar :=
  gradW tt pb v i j
    + upwind (v.potentialWetting i k) (v.densityWetting i) (v.densityWetting j)
      * dot tt.dim (unitDist pb i j) pb.gravity

/-- The non-wetting potential the block `if (!first)` computes for the
intersection `k` of cell `i` towards cell `j`. -/
def recomputedPotentialNW (tt : TypeTag) (pb : Problem) (v : Variables) (i k j : Nat) : Scalar :=
  gradNW tt pb v i j
    + upwind (v.potentialNonwetting i k) (v.densityNonwetting i) (v.densityNonwetting j)
      * dot tt.dim (unitDist pb i j) pb.gravity

/-- The geometric factor of the matrix entry of an interior face:
`(permeability * unitDistVec) / dist * faceArea * (unitOuterNormal * unitDistVec)`. -/
def entryFactor (tt : TypeTag) (pb : Problem) (i : Nat) (isIt : Intersection) : Scalar :=
  dot tt.dim (facePermeability tt pb i isIt.outside) (unitDist pb i isIt.outside)
      / centreDist pb i isIt.outside
    * isIt.faceArea * dot tt.dim isIt.unitOuterNormal (unitDist pb i isIt.outside)

/-- The amount the intersection `isIndex` of cell `i` adds to `A_[i][i]`. -/
def faceEntry (tt : TypeTag) (pb : Problem) (first : Bool) (i : Nat) (v : Variables)
    (isIndex : Nat) (isIt : Intersection) : Scalar :=
  if isIt.neighbor then (interiorFace tt pb v first i isIndex isIt).entry
  else if pb.bctypePress isIt.globalPosFace i isIndex = Flags.dirichlet then
    (dirichletFace tt pb v first i isIndex isIt).entry
  else 0

/-- The vector `p` solves the first `n` rows of the linear system of the object:
`A_ p = f_`. -/
def SolvesSystem (n : Nat) (m : FVPressure2P) (p : BlockVector) : Prop :=
  ∀ i, i < n → Finset.sum (Finset.range n) (fun c => m.A_.val i c * p c) = m.f_ i

/-- A boundary intersection with its centre at `x`, for reading the boundary
state the Dirichlet block computes there. -/
def faceAt (x : FieldVector) : Intersection :=
  { neighbor := false, outside := 0, unitOuterNormal := fun _ => 0, faceArea := 0,
    globalPosFace := x }

/-- The non-wetting fractional flow times the capillary pressure at a boundary
face, from the boundary state of the Dirichlet block. -/
def boundaryOffset (tt : TypeTag) (pb : Problem) (v : Variables) (i k : Nat)
    (x : FieldVector) : Scalar :=
  (boundaryState tt pb v i k (faceAt x)).lambdaNWBound
      / ((boundaryState tt pb v i k (faceAt x)).lambdaWBound
        + (boundaryState tt pb v i k (faceAt x)).lambdaNWBound)
    * (boundaryState tt pb v i k (faceAt x)).pcBound

/-- The problem `pb`, whose Dirichlet pressures are wetting pressures, with the
same boundary data expressed as global pressure:
`p_global = p_w + fracFlowNW * pc` at every boundary face. -/
def Problem.withGlobalPressureData (pb : Problem) (tt : TypeTag) (v : Variables) : Problem :=
  { pb with
    dirichletPress := fun x i k => pb.dirichletPress x i k + boundaryOffset tt pb v i k x }

/-- A domain of two cells: cell 0 has the boundary face `b0` and the face `f01`
towards cell 1, cell 1 has the face `f10` towards cell 0 and the boundary face
`b1`; both boundary faces are Dirichlet pressure faces. -/
def TwoCellDomain (pb : Problem) (b0 f01 f10 b1 : Intersection) : Prop :=
  pb.gridSize = 2 ∧
  (pb.element 0).intersections = [b0, f01] ∧ (pb.element 1).intersections = [f10, b1] ∧
  b0.neighbor = false ∧ b1.neighbor = false ∧
  f01.neighbor = true ∧ f01.outside = 1 ∧ f10.neighbor = true ∧ f10.outside = 0 ∧
  pb.bctypePress b0.globalPosFace 0 0 = Flags.dirichlet ∧
  pb.bctypePress b1.globalPosFace 1 1 = Flags.dirichlet

/-- The type tag `tt` with incompressible flow and the wetting-pressure
formulation. -/
def TypeTag.wetting (tt : TypeTag) : TypeTag :=
  { tt with compressibility := false, pressureType := PressureFormulation.pw }

/-- The type tag `tt` with incompressible flow and the global-pressure
formulation. -/
def TypeTag.global (tt : TypeTag) : TypeTag :=
  { tt with compressibility := false, pressureType := PressureFormulation.pglobal }

/-- The system of the wetting-pressure formulation: Law-Update and the first
assembly, incompressible. -/
def wettingSystem (tt : TypeTag) (pb : Problem) (t : Scalar) (m : FVPressure2P) : FVPressure2P :=
  assemble tt.wetting pb true t (updateMaterialLaws tt.wetting pb m)

/-- The system of the global-pressure formulation for the same physical
boundary data: Law-Update and the first assembly, incompressible. -/
def globalSystem (tt : TypeTag) (pb : Problem) (t : Scalar) (m : FVPressure2P) : FVPressure2P :=
  assemble tt.global
    (pb.withGlobalPressureData tt.wetting (updateMaterialLaws tt.wetting pb m).variables_) true t
    (updateMaterialLaws tt.global
      (pb.withGlobalPressureData tt.wetting (updateMaterialLaws tt.wetting pb m).variables_) m)

/-- The conversion `p_global = p_w + fracFlowNW * pc`, cell by cell, with the
derived fields of Law-Update. -/
def convertedPressure (tt : TypeTag) (pb : Problem) (m : FVPressure2P) (p : BlockVector) :
    BlockVector :=
  fun i => p i
    + (updateMaterialLaws tt.wetting pb m).variables_.fracFlowFuncNonwetting i
      * (updateMaterialLaws tt.wetting pb m).variables_.capillaryPressure i

/-- The value the store holds at `(i, isIndex)` for the wetting phase after the
intersection `isIndex` of cell `i` has been processed: an interior or Dirichlet
face writes the potential it recomputed when `first` is false and writes nothing
when `first` is true; any other boundary face writes the wetting flux. -/
def faceStoreW (tt : TypeTag) (pb : Problem) (first : Bool) (i : Nat) (v : Variables)
    (isIndex : Nat) (isIt : Intersection) : Scalar :=
  if isIt.neighbor then
    (if first then v.potentialWetting i isIndex
      else (interiorFace tt pb v first i isIndex isIt).potentialW)
  else if pb.bctypePress isIt.globalPosFace i isIndex = Flags.dirichlet then
    (if first then v.potentialWetting i isIndex
      else (dirichletFace tt pb v first i isIndex isIt).potentialW)
  else
    (if tt.compressibility then pb.neumannPress isIt.globalPosFace i isIndex PhaseIdx.wPhaseIdx
      else pb.neumannPress isIt.globalPosFace i isIndex PhaseIdx.wPhaseIdx / v.densityWetting i)

/-- The value the store holds at `(i, isIndex)` for the non-wetting phase after
the intersection `isIndex` of cell `i` has been processed. -/
def faceStoreNW (tt : TypeTag) (pb : Problem) (first : Bool) (i : Nat) (v : Variables)
    (isIndex : Nat) (isIt : Intersection) : Scalar :=
  if isIt.neighbor then
    (if first then v.potentialNonwetting i isIndex
      else (interiorFace tt pb v first i isIndex isIt).potentialNW)
  else if pb.bctypePress isIt.globalPosFace i isIndex = Flags.dirichlet then
    (if first then v.potentialNonwetting i isIndex
      else (dirichletFace tt pb v first i isIndex isIt).potentialNW)
  else
    (if tt.compressibility then pb.neumannPress isIt.globalPosFace i isIndex PhaseIdx.nPhaseIdx
      else pb.neumannPress isIt.globalPosFace i isIndex PhaseIdx.nPhaseIdx
        / v.densityNonwetting i)

/-- The distance `dist` between the centre of cell `i` and the centre of the
boundary face `isIt`. -/
def faceDist (pb : Problem) (i : Nat) (isIt : Intersection) : Scalar :=
  pb.two_norm (fun x => isIt.globalPosFace x - (pb.element i).globalPos x)

/-- The vector `unitDistVec` from the centre of cell `i` towards the centre of the
boundary face `isIt`. -/
def faceUnitDist (pb : Problem) (i : Nat) (isIt : Intersection) : FieldVector :=
  fun x => (isIt.globalPosFace x - (pb.element i).globalPos x) / faceDist pb i isIt

/-- The permeability vector of a boundary face: the tensor of cell `i` applied to
the unit distance vector. -/
def boundaryPermeability (tt : TypeTag) (pb : Problem) (i : Nat) (isIt : Intersection) :
    FieldVector :=
  mv tt.dim (pb.intrinsicPermeability (pb.element i).globalPos i) (faceUnitDist pb i isIt)

/-- Agreement of two objects on the linear system and on everything in the
variables but the potential store. -/
def SameSystem (a b : FVPressure2P) : Prop :=
  a.A_ = b.A_ ∧ a.f_ = b.f_ ∧ SameLaws a.variables_ b.variables_

/-- The capillary term of `rightEntry` for a Dirichlet face, taken against the
boundary state. -/
def boundaryCapillaryTerm (tt : TypeTag) (pb : Problem) (v : Variables) (i k : Nat)
    (isIt : Intersection) : Scalar :=
  match tt.pressureType with
  | PressureFormulation.pw =>
      0.5 * (v.mobilityNonwetting i + (boundaryState tt pb v i k isIt).lambdaNWBound)
        * dot tt.dim (boundaryPermeability tt pb i isIt)
            (fun x => faceUnitDist pb i isIt x
              * ((v.capillaryPressure i - (boundaryState tt pb v i k isIt).pcBound)
                / faceDist pb i isIt))
        * isIt.faceArea
  | PressureFormulation.pn =>
      -(0.5 * (v.mobilityWetting i + (boundaryState tt pb v i k isIt).lambdaWBound)
        * dot tt.dim (boundaryPermeability tt pb i isIt)
            (fun x => faceUnitDist pb i isIt x
              * ((v.capillaryPressure i - (boundaryState tt pb v i k isIt).pcBound)
                / faceDist pb i isIt))
        * isIt.faceArea)
  | PressureFormulation.pglobal => 0

/-- The saturation `satBound` of the boundary state of a Dirichlet pressure
face. -/
def boundarySaturation (pb : Problem) (v : Variables) (i k : Nat) (isIt : Intersection) :
    Scalar :=
  if pb.bctypeSat isIt.globalPosFace i k = Flags.dirichlet then
    pb.dirichletSat isIt.globalPosFace i k
  else v.saturation i

/-- The phase state of the boundary state of a Dirichlet pressure face: from the
phase pressures at the boundary and the temperature when the flow is
compressible, from the temperature alone otherwise. -/
def boundaryPhaseState (tt : TypeTag) (pb : Problem) (v : Variables) (i k : Nat)
    (isIt : Intersection) : PhaseState :=
  if tt.compressibility then
    PhaseState.ofPressures
      (match tt.pressureType with
        | PressureFormulation.pw => pb.dirichletPress isIt.globalPosFace i k
        | PressureFormulation.pn =>
            pb.dirichletPress isIt.globalPosFace i k
              - (pb.materialLawParams (pb.element i).globalPos i).pC
                  (satWOf tt (boundarySaturation pb v i k isIt))
        | PressureFormulation.pglobal => 0)
      (match tt.pressureType with
        | PressureFormulation.pw =>
            pb.dirichletPress isIt.globalPosFace i k
              + (pb.materialLawParams (pb.element i).globalPos i).pC
                  (satWOf tt (boundarySaturation pb v i k isIt))
        | PressureFormulation.pn => pb.dirichletPress isIt.globalPosFace i k
        | PressureFormulation.pglobal => 0)
      (pb.temperature isIt.globalPosFace i)
  else PhaseState.ofTemperature (pb.temperature isIt.globalPosFace i)

/-- The phase state `updateMaterialLaws` builds for the cell `i`: from the two
phase pressures and the temperature when the flow is compressible, from the
temperature alone otherwise. The phase pressures are split off the pressure
unknown with the capillary pressure `vars` stores; under the global-pressure
formulation both stay at their initial value 0. -/
def cellPhaseState (tt : TypeTag) (pb : Problem) (vars : Variables) (i : Nat) : PhaseState :=
  if tt.compressibility then
    PhaseState.ofPressures
      (match tt.pressureType with
        | PressureFormulation.pw => vars.pressure i
        | PressureFormulation.pn => vars.pressure i - vars.capillaryPressure i
        | PressureFormulation.pglobal => 0)
      (match tt.pressureType with
        | PressureFormulation.pw => vars.pressure i + vars.capillaryPressure i
        | PressureFormulation.pn => vars.pressure i
        | PressureFormulation.pglobal => 0)
      (pb.temperature (pb.element i).globalPos i)
  else PhaseState.ofTemperature (pb.temperature (pb.element i).globalPos i)

/-- The object `m` with the volume correction `vc` in place of its own. -/
def FVPressure2P.withCorrection (m : FVPressure2P) (vc : Nat → Scalar) : FVPressure2P :=
  { m with variables_ := { m.variables_ with volumecorrection := vc } }

/-- The transmissibility of the intersection `isIndex` of cell `i` if it is a
Dirichlet pressure face, 0 otherwise. -/
def dirichletEntry (tt : TypeTag) (pb : Problem) (first : Bool) (i : Nat) (v : Variables)
    (isIndex : Nat) (isIt : Intersection) : Scalar :=
  if isIt.neighbor then 0
  else if pb.bctypePress isIt.globalPosFace i isIndex = Flags.dirichlet then
    (dirichletFace tt pb v first i isIndex isIt).entry
  else 0

/-- The potentials stored for the two sides of every interior face of the grid are
opposite; the store of a new object, which holds 0 everywhere, is of this kind. -/
def OppositeStore (pb : Problem) (mirror : Nat → Nat → Nat) (v : Variables) : Prop :=
  ∀ i k isIt, i < pb.gridSize → (pb.element i).intersections[k]? = some isIt →
    isIt.neighbor = true →
    v.potentialWetting isIt.outside (mirror i k) = -v.potentialWetting i k ∧
    v.potentialNonwetting isIt.outside (mirror i k) = -v.potentialNonwetting i k

/-! ## A concrete problem

A one-dimensional grid of two unit cells `[0,1]` and `[1,2]`. Cell 0 has its
boundary face first and the face towards cell 1 second; cell 1 has the face
towards cell 0 first and its boundary face second. -/

/-- The two cells of the example grid. -/
def twoCellsElement (i : Nat) : Element :=
  if i = 0 then
    { globalPos := fun _ => 1 / 2
      volume := 1
      intersections :=
        [ { neighbor := false, outside := 0, unitOuterNormal := fun _ => -1, faceArea := 1,
            globalPosFace := fun _ => 0 },
          { neighbor := true, outside := 1, unitOuterNormal := fun _ => 1, faceArea := 1,
            globalPosFace := fun _ => 1 } ] }
  else
    { globalPos := fun _ => 3 / 2
      volume := 1
      intersections :=
        [ { neighbor := true, outside := 0, unitOuterNormal := fun _ => -1, faceArea := 1,
            globalPosFace := fun _ => 1 },
          { neighbor := false, outside := 0, unitOuterNormal := fun _ => 1, faceArea := 1,
            globalPosFace := fun _ => 2 } ] }

/-- A direct solver for two unknowns (Cramer's rule); a singular matrix leaves
the iterate as it is and reports no convergence. -/
def cramer2 (A : Nat → Nat → Scalar) (x b : BlockVector) : SolverOutput :=
  let det := A 0 0 * A 1 1 - A 0 1 * A 1 0
  if det = 0 then { x := x, b := b, result := { converged := false, iterations := 0 } }
  else
    { x := fun i =>
        if i = 0 then (b 0 * A 1 1 - A 0 1 * b 1) / det
        else if i = 1 then (A 0 0 * b 1 - b 0 * A 1 0) / det
        else x i
      b := fun _ => 0
      result := { converged := true, iterations := 1 } }

/-- The example problem: closed boundary (Neumann, zero flux), no sources, no
gravity, linear material law, densities that grow with the phase pressure in the
compressible case. -/
def twoCells : Problem :=
  { gridSize := 2
    element := twoCellsElement
    gravity := fun _ => 0
    two_norm := fun v => |v 0|
    source := fun _ _ _ => 0
    porosity := fun _ _ => 1 / 5
    intrinsicPermeability := fun _ _ _ _ => 1
    materialLawParams := fun _ _ =>
      { krw := fun s => s, krn := fun s => 1 - s, pC := fun s => 1 - s }
    temperature := fun _ _ => 283
    phaseDensity := fun ph st =>
      match st, ph with
      | PhaseState.ofPressures pW _ _, PhaseIdx.wPhaseIdx => 1 + pW
      | PhaseState.ofPressures _ pNW _, PhaseIdx.nPhaseIdx => 1 + pNW
      | PhaseState.ofTemperature _, PhaseIdx.wPhaseIdx => 1
      | PhaseState.ofTemperature _, PhaseIdx.nPhaseIdx => 1 / 2
    phaseViscosity := fun ph _ =>
      match ph with
      | PhaseIdx.wPhaseIdx => 1
      | PhaseIdx.nPhaseIdx => 2
    bctypePress := fun _ _ _ => Flags.neumann
    bctypeSat := fun _ _ _ => Flags.neumann
    dirichletPress := fun _ _ _ => 0
    dirichletSat := fun _ _ _ => 0
    neumannPress := fun _ _ _ _ => 0
    solveCG_ILU0 := cramer2
    solveBiCGSTAB_ILU0 := cramer2
    solveLoop_Pardiso := cramer2 }

/-- Variables of the example: pressure 1 and saturation 1/2 in both cells,
everything else zero. -/
def twoCellsVariables : Variables :=
  { pressure := fun _ => 1
    saturation := fun _ => 1 / 2
    densityWetting := fun _ => 0
    densityNonwetting := fun _ => 0
    viscosityWetting := fun _ => 0
    viscosityNonwetting := fun _ => 0
    mobilityWetting := fun _ => 0
    mobilityNonwetting := fun _ => 0
    fracFlowFuncWetting := fun _ => 0
    fracFlowFuncNonwetting := fun _ => 0
    capillaryPressure := fun _ => 0
    volumecorrection := fun _ => 0
    potentialWetting := fun _ _ => 0
    potentialNonwetting := fun _ _ => 0 }

/-- An object on the example grid, built like the one-argument constructor does:
solver `BiCGSTAB`, preconditioner `SeqILU0`, matrix pattern from
`initializeMatrix`. -/
def twoCellsModel : FVPressure2P :=
  { variables_ := twoCellsVariables
    A_ := initializeMatrix twoCells BCRSMatrix.fresh
    f_ := fun _ => 0
    solverName_ := "BiCGSTAB"
    preconditionerName_ := "SeqILU0" }

/-- Incompressible flow, wetting pressure, wetting saturation, one dimension. -/
def ttIncompressible : TypeTag :=
  { dim := 1, compressibility := false, pressureType := PressureFormulation.pw,
    saturationType := SaturationFormulation.Sw }

/-- Compressible flow, wetting pressure, wetting saturation, one dimension. -/
def ttCompressible : TypeTag :=
  { dim := 1, compressibility := true, pressureType := PressureFormulation.pw,
    saturationType := SaturationFormulation.Sw }

/-- The example problem with Dirichlet pressure boundaries of value 1. -/
def twoCellsDirichlet : Problem :=
  { twoCells with
    bctypePress := fun _ _ _ => Flags.dirichlet
    dirichletPress := fun _ _ _ => 1 }

/-- The example object with the capillary pressure 1/2 of the material law at
the saturation 1/2 stored in both cells. -/
def twoCellsModelPc : FVPressure2P :=
  { twoCellsModel with
    variables_ := { twoCellsVariables with capillaryPressure := fun _ => 1 / 2 } }

/-- The boundary face of cell 0 of the example grid. -/
def twoCellsBoundaryFace : Intersection :=
  { neighbor := false, outside := 0, unitOuterNormal := fun _ => -1, faceArea := 1,
    globalPosFace := fun _ => 0 }

/-- The interior face of the example grid, seen from cell 0. -/
def twoCellsFace01 : Intersection :=
  { neighbor := true, outside := 1, unitOuterNormal := fun _ => 1, faceArea := 1,
    globalPosFace := fun _ => 1 }

/-- The interior face of the example grid, seen from cell 1. -/
def twoCellsFace10 : Intersection :=
  { neighbor := true, outside := 0, unitOuterNormal := fun _ => -1, faceArea := 1,
    globalPosFace := fun _ => 1 }

/-- The intersection of the neighbour that mirrors an interior intersection of the
example grid: index 1 of cell 0 and index 0 of cell 1. -/
def twoCellsMirror (i _k : Nat) : Nat :=
  if i = 0 then 0 else 1

/-- The example problem with gravity 1 along the axis. -/
def twoCellsGravity : Problem :=
  { twoCells with gravity := fun _ => 1 }

/-- Variables for the example grid with gravity: pressure 0 and 3/2, wetting
density 1 and 2, wetting mobility 1 and non-wetting mobility 0 in both cells, and
the value 1 in every entry of the potential store. -/
def tiltedVariables : Variables :=
  { pressure := fun i => if i = 0 then 0 else 3 / 2
    saturation := fun _ => 1
    densityWetting := fun i => if i = 0 then 1 else 2
    densityNonwetting := fun _ => 1
    viscosityWetting := fun _ => 1
    viscosityNonwetting := fun _ => 1
    mobilityWetting := fun _ => 1
    mobilityNonwetting := fun _ => 0
    fracFlowFuncWetting := fun _ => 1
    fracFlowFuncNonwetting := fun _ => 0
    capillaryPressure := fun _ => 0
    volumecorrection := fun _ => 0
    potentialWetting := fun _ _ => 1
    potentialNonwetting := fun _ _ => 1 }

/-- The example object with the variables `tiltedVariables`. -/
def tiltedModel : FVPressure2P :=
  { twoCellsModel with variables_ := tiltedVariables }

/-- A linear solver that stops at its iteration cap: it hands back the iterate
raised by 1 in every entry and reports no convergence. -/
def stalled (_A : Nat → Nat → Scalar) (x b : BlockVector) : SolverOutput :=
  { x := fun i => x i + 1, b := b, result := { converged := false, iterations := 10000 } }

/-- The example problem with the linear solver `stalled`. -/
def twoCellsStalled : Problem :=
  { twoCells with
    solveCG_ILU0 := stalled
    solveBiCGSTAB_ILU0 := stalled
    solveLoop_Pardiso := stalled }

/-- The example problem with the flag `process` as pressure boundary type on
every boundary face and the flux 3 for both phases. -/
def twoCellsProcess : Problem :=
  { twoCells with
    bctypePress := fun _ _ _ => Flags.process
    neumannPress := fun _ _ _ _ => 3 }

/-- Variables for the example grid in which the stored potentials and the
pressure gradient point in opposite directions: pressure 0 and 1, wetting
mobility 1 and 3, no non-wetting mobility, no capillary pressure, and the value
1 in every entry of the potential store. -/
def opposedVariables : Variables :=
  { pressure := fun i => if i = 0 then 0 else 1
    saturation := fun _ => 1
    densityWetting := fun _ => 1
    densityNonwetting := fun _ => 1
    viscosityWetting := fun _ => 1
    viscosityNonwetting := fun _ => 1
    mobilityWetting := fun i => if i = 0 then 1 else 3
    mobilityNonwetting := fun _ => 0
    fracFlowFuncWetting := fun _ => 1
    fracFlowFuncNonwetting := fun _ => 0
    capillaryPressure := fun _ => 0
    volumecorrection := fun _ => 0
    potentialWetting := fun _ _ => 1
    potentialNonwetting := fun _ _ => 1 }

/-- The example object with the variables `opposedVariables`. -/
def opposedModel : FVPressure2P :=
  { twoCellsModel with variables_ := opposedVariables }

/-- The boundary face of cell 1 of the example grid. -/
def twoCellsBoundaryFace1 : Intersection :=
  { neighbor := false, outside := 0, unitOuterNormal := fun _ => 1, faceArea := 1,
    globalPosFace := fun _ => 2 }

/-- The example problem with Dirichlet boundaries for pressure and saturation:
wetting pressure 1 at both ends, saturation 1 at the boundary of cell 0 and 1/2
at the boundary of cell 1, and the viscosity 1 for both phases. -/
def twoCellsCapillary : Problem :=
  { twoCells with
    phaseViscosity := fun _ _ => 1
    bctypePress := fun _ _ _ => Flags.dirichlet
    bctypeSat := fun _ _ _ => Flags.dirichlet
    dirichletPress := fun _ _ _ => 1
    dirichletSat := fun _ i _ => if i = 0 then 1 else 1 / 2 }

/-- The example problem with Dirichlet boundaries for pressure and saturation
and the same saturation 1/2 at both boundaries as in the cells. -/
def twoCellsUniform : Problem :=
  { twoCellsCapillary with dirichletSat := fun _ _ _ => 1 / 2 }

/-- Two cells whose common face is seen as two intersections of area 1/2 each:
cell 0 has its boundary face and then the two halves towards cell 1, cell 1 has
the two halves towards cell 0 and then its boundary face. -/
def splitFaceElement (i : Nat) : Element :=
  if i = 0 then
    { globalPos := fun _ => 1 / 2
      volume := 1
      intersections :=
        [ { neighbor := false, outside := 0, unitOuterNormal := fun _ => -1, faceArea := 1,
            globalPosFace := fun _ => 0 },
          { neighbor := true, outside := 1, unitOuterNormal := fun _ => 1, faceArea := 1 / 2,
            globalPosFace := fun _ => 1 },
          { neighbor := true, outside := 1, unitOuterNormal := fun _ => 1, faceArea := 1 / 2,
            globalPosFace := fun _ => 1 } ] }
  else
    { globalPos := fun _ => 3 / 2
      volume := 1
      intersections :=
        [ { neighbor := true, outside := 0, unitOuterNormal := fun _ => -1, faceArea := 1 / 2,
            globalPosFace := fun _ => 1 },
          { neighbor := true, outside := 0, unitOuterNormal := fun _ => -1, faceArea := 1 / 2,
            globalPosFace := fun _ => 1 },
          { neighbor := false, outside := 0, unitOuterNormal := fun _ => 1, faceArea := 1,
            globalPosFace := fun _ => 2 } ] }

/-- One half of the common face of the split example, seen from cell 0. -/
def splitFace01 : Intersection :=
  { neighbor := true, outside := 1, unitOuterNormal := fun _ => 1, faceArea := 1 / 2,
    globalPosFace := fun _ => 1 }

/-- The example problem on the grid with the split common face. -/
def twoCellsSplit : Problem :=
  { twoCells with element := splitFaceElement }

/-- The example problem with the Neumann flux 3 for both phases on every boundary
face. -/
def twoCellsFlux : Problem :=
  { twoCells with neumannPress := fun _ _ _ _ => 3 }

/-- The example object with the capillary pressure 1/2 stored in both cells and
the volume correction 1 handed over for both cells; the potential store is empty. -/
def twoCellsCorrected : FVPressure2P :=
  { twoCellsModelPc with
    variables_ := { twoCellsModelPc.variables_ with volumecorrection := fun _ => 1 } }

/-- The example object with the laws of `tiltedVariables` and an empty potential
store, as it is before the first call of `assemble`. -/
def tiltedFresh : FVPressure2P :=
  { tiltedModel with
    variables_ :=
      { tiltedVariables with
        potentialWetting := fun _ _ => 0
        potentialNonwetting := fun _ _ => 0 } }

/-! ## Theorems -/

/-! ### updateMaterialLaws -/

theorem updateMaterialLawsCell_pressure (tt : TypeTag) (pb : Problem) (vars : Variables)
    (i : Nat) : (updateMaterialLawsCell tt pb vars i).pressure = vars.pressure := rfl

theorem updateMaterialLawsCell_saturation (tt : TypeTag) (pb : Problem) (vars : Variables)
    (i : Nat) : (updateMaterialLawsCell tt pb vars i).saturation = vars.saturation := rfl

theorem updateMaterialLawsCell_volumecorrection (tt : TypeTag) (pb : Problem) (vars : Variables)
    (i : Nat) : (updateMaterialLawsCell tt pb vars i).volumecorrection = vars.volumecorrection :=
  rfl

theorem updateMaterialLawsCell_potentialWetting (tt : TypeTag) (pb : Problem) (vars : Variables)
    (i : Nat) : (updateMaterialLawsCell tt pb vars i).potentialWetting = vars.potentialWetting :=
  rfl

theorem updateMaterialLawsCell_potentialNonwetting (tt : TypeTag) (pb : Problem)
    (vars : Variables) (i : Nat) :
    (updateMaterialLawsCell tt pb vars i).potentialNonwetting = vars.potentialNonwetting := rfl

/-- A cell step leaves the derived fields of every other cell alone. -/
theorem updateMaterialLawsCell_laws_of_ne (tt : TypeTag) (pb : Problem) (vars : Variables)
    {i j : Nat} (h : j ≠ i) : (updateMaterialLawsCell tt pb vars i).laws j = vars.laws j := by
  simp [updateMaterialLawsCell, Variables.laws, Function.update_noteq h]

/-- The derived fields a cell step writes for its own cell depend on the
variables only through the pressure, the saturation and the capillary pressure
of that cell. -/
theorem updateMaterialLawsCell_laws_congr (tt : TypeTag) (pb : Problem) (v w : Variables)
    (i : Nat) (hp : v.pressure i = w.pressure i) (hs : v.saturation i = w.saturation i)
    (hc : v.capillaryPressure i = w.capillaryPressure i) :
    (updateMaterialLawsCell tt pb v i).laws i = (updateMaterialLawsCell tt pb w i).laws i := by
  simp [updateMaterialLawsCell, Variables.laws, hp, hs, hc]

/-- The cell loop over the first `n` cells leaves the primary unknowns, the
volume correction and the potential store alone. -/
theorem updateMaterialLaws_fold_frame (tt : TypeTag) (pb : Problem) (vars : Variables) (n : Nat) :
    ((List.range n).foldl (updateMaterialLawsCell tt pb) vars).pressure = vars.pressure ∧
    ((List.range n).foldl (updateMaterialLawsCell tt pb) vars).saturation = vars.saturation ∧
    ((List.range n).foldl (updateMaterialLawsCell tt pb) vars).volumecorrection
      = vars.volumecorrection ∧
    ((List.range n).foldl (updateMaterialLawsCell tt pb) vars).potentialWetting
      = vars.potentialWetting ∧
    ((List.range n).foldl (updateMaterialLawsCell tt pb) vars).potentialNonwetting
      = vars.potentialNonwetting := by
  induction n with
  | zero => simp
  | succ n ih =>
    obtain ⟨h1, h2, h3, h4, h5⟩ := ih
    simp only [List.range_succ, List.foldl_append, List.foldl_cons, List.foldl_nil]
    refine ⟨?_, ?_, ?_, ?_, ?_⟩
    · rw [updateMaterialLawsCell_pressure, h1]
    · rw [updateMaterialLawsCell_saturation, h2]
    · rw [updateMaterialLawsCell_volumecorrection, h3]
    · rw [updateMaterialLawsCell_potentialWetting, h4]
    · rw [updateMaterialLawsCell_potentialNonwetting, h5]

/-- Closed form of the cell loop: the derived fields of a visited cell are those
a single cell step computes from the initial variables. -/
theorem updateMaterialLaws_fold_laws (tt : TypeTag) (pb : Problem) (vars : Variables)
    (n j : Nat) :
    ((List.range n).foldl (updateMaterialLawsCell tt pb) vars).laws j
      = if j < n then (updateMaterialLawsCell tt pb vars j).laws j else vars.laws j := by
  induction n with
  | zero => simp
  | succ n ih =>
    simp only [List.range_succ, List.foldl_append, List.foldl_cons, List.foldl_nil]
    obtain ⟨h1, h2, -, -, -⟩ := updateMaterialLaws_fold_frame tt pb vars n
    rcases Nat.lt_trichotomy j n with hlt | heq | hgt
    · rw [updateMaterialLawsCell_laws_of_ne tt pb _ (Nat.ne_of_lt hlt), ih]
      simp [hlt, Nat.lt_succ_of_lt hlt]
    · subst heq
      have hpc := congrArg Laws.pc ih
      simp only [Nat.lt_irrefl, if_false] at hpc
      rw [updateMaterialLawsCell_laws_congr tt pb _ vars j (congrFun h1 j) (congrFun h2 j) hpc]
      simp
    · rw [updateMaterialLawsCell_laws_of_ne tt pb _ (Nat.ne_of_gt hgt), ih]
      have h3 : ¬ j < n := by omega
      have h4 : ¬ j < n + 1 := by omega
      simp [h3, h4]

/-- Two variable objects are equal when they agree on the primary unknowns, the
volume correction, the potential store and the derived fields of every cell. -/
theorem Variables.eq_of_laws {v w : Variables} (hp : v.pressure = w.pressure)
    (hs : v.saturation = w.saturation) (hv : v.volumecorrection = w.volumecorrection)
    (hw : v.potentialWetting = w.potentialWetting)
    (hn : v.potentialNonwetting = w.potentialNonwetting) (hl : ∀ j, v.laws j = w.laws j) :
    v = w := by
  cases v
  cases w
  simp only [Variables.laws, Laws.mk.injEq] at hl
  simp only at hp hs hv hw hn
  simp only [Variables.mk.injEq]
  refine ⟨hp, hs, ?_, ?_, ?_, ?_, ?_, ?_, ?_, ?_, ?_, hv, hw, hn⟩ <;> funext j
  · exact (hl j).1
  · exact (hl j).2.1
  · exact (hl j).2.2.1
  · exact (hl j).2.2.2.1
  · exact (hl j).2.2.2.2.1
  · exact (hl j).2.2.2.2.2.1
  · exact (hl j).2.2.2.2.2.2.1
  · exact (hl j).2.2.2.2.2.2.2.1
  · exact (hl j).2.2.2.2.2.2.2.2

/-- The capillary pressure a cell step stores is the material law at the wetting
saturation of the cell. -/
theorem updateMaterialLawsCell_pc (tt : TypeTag) (pb : Problem) (vars : Variables) (i : Nat) :
    ((updateMaterialLawsCell tt pb vars i).laws i).pc
      = (pb.materialLawParams (pb.element i).globalPos i).pC (satWOf tt (vars.saturation i)) := by
  simp [updateMaterialLawsCell, Variables.laws]

/-- A cell step does not read the stored capillary pressure when the flow is
incompressible or the pressure formulation is the global one. -/
theorem updateMaterialLawsCell_laws_congr_of_no_split (tt : TypeTag) (pb : Problem)
    (v w : Variables) (i : Nat) (hs : v.saturation i = w.saturation i)
    (h : tt.compressibility = false ∨ tt.pressureType = PressureFormulation.pglobal) :
    (updateMaterialLawsCell tt pb v i).laws i = (updateMaterialLawsCell tt pb w i).laws i := by
  rcases h with h | h
  · simp [updateMaterialLawsCell, Variables.laws, hs, h]
  · simp [updateMaterialLawsCell, Variables.laws, hs, h]

/-- Claim C4. After `updateMaterialLaws`, in every cell whose two stored mobilities
do not sum to zero, the two stored fractional-flow weights sum to one; this holds
for every pressure formulation, saturation formulation and compressibility
setting (all are arbitrary in `tt`). -/
theorem updateMaterialLaws_fracFlow_partition (tt : TypeTag) (pb : Problem) (m : FVPressure2P)
    (i : Nat) (hi : i < pb.gridSize)
    (hsum : (updateMaterialLaws tt pb m).variables_.mobilityWetting i
      + (updateMaterialLaws tt pb m).variables_.mobilityNonwetting i ≠ 0) :
    (updateMaterialLaws tt pb m).variables_.fracFlowFuncWetting i
      + (updateMaterialLaws tt pb m).variables_.fracFlowFuncNonwetting i = 1 := by
  have h := updateMaterialLaws_fold_laws tt pb m.variables_ pb.gridSize i
  rw [if_pos hi] at h
  have hW := congrArg Laws.mobilityW h
  have hN := congrArg Laws.mobilityNW h
  have hfW := congrArg Laws.fracFlowW h
  have hfN := congrArg Laws.fracFlowNW h
  simp only [Variables.laws] at hW hN hfW hfN
  simp only [updateMaterialLaws] at hsum ⊢
  rw [hW, hN] at hsum
  rw [hfW, hfN]
  simp only [updateMaterialLawsCell, Function.update_same] at hsum ⊢
  rw [← add_div, div_self hsum]

/-- Witness for C4 on the example grid (incompressible, cell 0). -/
theorem updateMaterialLaws_fracFlow_partition_witness :
    (0 < twoCells.gridSize) ∧
    ((updateMaterialLaws ttIncompressible twoCells twoCellsModel).variables_.mobilityWetting 0
      + (updateMaterialLaws ttIncompressible twoCells twoCellsModel).variables_.mobilityNonwetting 0
        ≠ 0) ∧
    ((updateMaterialLaws ttIncompressible twoCells twoCellsModel).variables_.fracFlowFuncWetting 0
      + (updateMaterialLaws ttIncompressible twoCells twoCellsModel).variables_.fracFlowFuncNonwetting
        0 = 1) := by
  have h0 : 0 < twoCells.gridSize := by decide
  have hs : (updateMaterialLaws ttIncompressible twoCells twoCellsModel).variables_.mobilityWetting 0
      + (updateMaterialLaws ttIncompressible twoCells twoCellsModel).variables_.mobilityNonwetting 0
        ≠ 0 := by
    simp [updateMaterialLaws, updateMaterialLawsCell, twoCells, twoCellsModel, twoCellsVariables,
      ttIncompressible, satWOf, twoCellsElement, List.range_succ]
    norm_num
  exact ⟨h0, hs, updateMaterialLaws_fracFlow_partition ttIncompressible twoCells twoCellsModel 0 h0 hs⟩

/-- Claim C5 fails as stated. Compressible flow with the wetting-pressure
formulation on the example grid: the first run splits the phase pressures with
the stored capillary pressure 0 and stores the non-wetting density 2 in cell 0;
the second run splits them with the capillary pressure 1/2 written by the first
run and stores 5/2. -/
theorem updateMaterialLaws_not_idempotent :
    (updateMaterialLaws ttCompressible twoCells twoCellsModel).variables_.densityNonwetting 0 = 2 ∧
    (updateMaterialLaws ttCompressible twoCells
      (updateMaterialLaws ttCompressible twoCells twoCellsModel)).variables_.densityNonwetting 0
        = 5 / 2 := by
  constructor
  · simp [updateMaterialLaws, updateMaterialLawsCell, twoCells, twoCellsModel, twoCellsVariables,
      ttCompressible, satWOf, twoCellsElement, List.range_succ]
    norm_num
  · simp [updateMaterialLaws, updateMaterialLawsCell, twoCells, twoCellsModel, twoCellsVariables,
      ttCompressible, satWOf, twoCellsElement, List.range_succ]
    norm_num

/-- Claim C5, amended. `updateMaterialLaws` is idempotent on the whole state when
the flow is incompressible, or the pressure formulation is the global one, or the
capillary pressure stored in every cell already is the material law's value at
the wetting saturation of the cell. -/
theorem updateMaterialLaws_idempotent (tt : TypeTag) (pb : Problem) (m : FVPressure2P)
    (h : tt.compressibility = false ∨ tt.pressureType = PressureFormulation.pglobal ∨
      ∀ i, i < pb.gridSize → m.variables_.capillaryPressure i
        = (pb.materialLawParams (pb.element i).globalPos i).pC
            (satWOf tt (m.variables_.saturation i))) :
    updateMaterialLaws tt pb (updateMaterialLaws tt pb m) = updateMaterialLaws tt pb m := by
  obtain ⟨h1, h2, h3, h4, h5⟩ := updateMaterialLaws_fold_frame tt pb m.variables_ pb.gridSize
  obtain ⟨g1, g2, g3, g4, g5⟩ := updateMaterialLaws_fold_frame tt pb
    ((List.range pb.gridSize).foldl (updateMaterialLawsCell tt pb) m.variables_) pb.gridSize
  have key : (List.range pb.gridSize).foldl (updateMaterialLawsCell tt pb)
      ((List.range pb.gridSize).foldl (updateMaterialLawsCell tt pb) m.variables_)
      = (List.range pb.gridSize).foldl (updateMaterialLawsCell tt pb) m.variables_ := by
    refine Variables.eq_of_laws g1 g2 g3 g4 g5 ?_
    intro j
    rw [updateMaterialLaws_fold_laws tt pb _ pb.gridSize j]
    by_cases hj : j < pb.gridSize
    · rw [if_pos hj, updateMaterialLaws_fold_laws tt pb m.variables_ pb.gridSize j, if_pos hj]
      rcases h with h | h | h
      · exact updateMaterialLawsCell_laws_congr_of_no_split tt pb _ _ j (congrFun h2 j) (Or.inl h)
      · exact updateMaterialLawsCell_laws_congr_of_no_split tt pb _ _ j (congrFun h2 j) (Or.inr h)
      · refine updateMaterialLawsCell_laws_congr tt pb _ _ j (congrFun h1 j) (congrFun h2 j) ?_
        have hpc := congrArg Laws.pc (updateMaterialLaws_fold_laws tt pb m.variables_ pb.gridSize j)
        rw [if_pos hj, updateMaterialLawsCell_pc] at hpc
        simp only [Variables.laws] at hpc
        rw [hpc, h j hj]
    · rw [if_neg hj]
  simp only [updateMaterialLaws, key]

/-- Witness for the amended C5 on the example grid (incompressible flow). -/
theorem updateMaterialLaws_idempotent_witness :
    updateMaterialLaws ttIncompressible twoCells
        (updateMaterialLaws ttIncompressible twoCells twoCellsModel)
      = updateMaterialLaws ttIncompressible twoCells twoCellsModel :=
  updateMaterialLaws_idempotent ttIncompressible twoCells twoCellsModel (Or.inl rfl)

/-! ### The face permeability -/

/-- Claim C9. The face permeability that `assemble` uses for an interior face (the
tensor it applies to the unit distance vector in the matrix entry) is
`meanPermeability` of the two cells' tensors; component by component this is the
harmonic mean `2ab/(a+b)` where both components are non-zero and 0 elsewhere, so
the mean of a positive `a` with itself is `a`, and the mean of `a` with 0, in
either order, is 0. -/
theorem meanPermeability_harmonic (tt : TypeTag) (pb : Problem) (v : Variables) (first : Bool)
    (i k : Nat) (isIt : Intersection) (permeabilityI permeabilityJ : FieldMatrix) (x y : Nat) :
    ((interiorFace tt pb v first i k isIt).entry
      = (upwind (interiorFace tt pb v first i k isIt).potentialW
            (v.mobilityWetting i) (v.mobilityWetting isIt.outside)
          + upwind (interiorFace tt pb v first i k isIt).potentialNW
            (v.mobilityNonwetting i) (v.mobilityNonwetting isIt.outside))
        * (dot tt.dim
            (mv tt.dim
              (meanPermeability (pb.intrinsicPermeability (pb.element i).globalPos i)
                (pb.intrinsicPermeability (pb.element isIt.outside).globalPos isIt.outside))
              (unitDist pb i isIt.outside))
            (unitDist pb i isIt.outside) / centreDist pb i isIt.outside)
        * isIt.faceArea * dot tt.dim isIt.unitOuterNormal (unitDist pb i isIt.outside)) ∧
    (permeabilityI x y ≠ 0 → permeabilityJ x y ≠ 0 →
      meanPermeability permeabilityI permeabilityJ x y
        = 2 * permeabilityI x y * permeabilityJ x y / (permeabilityI x y + permeabilityJ x y)) ∧
    (permeabilityI x y = 0 ∨ permeabilityJ x y = 0 →
      meanPermeability permeabilityI permeabilityJ x y = 0) ∧
    (0 < permeabilityI x y → meanPermeability permeabilityI permeabilityI x y
      = permeabilityI x y) ∧
    (permeabilityJ x y = 0 → meanPermeability permeabilityI permeabilityJ x y = 0 ∧
      meanPermeability permeabilityJ permeabilityI x y = 0) := by
  refine ⟨rfl, ?_, ?_, ?_, ?_⟩
  · intro hI hJ
    simp [meanPermeability, hI, hJ]
  · rintro (h | h) <;> simp [meanPermeability, h]
  · intro hpos
    have hne : permeabilityI x y ≠ 0 := ne_of_gt hpos
    simp only [meanPermeability, hne, ne_eq, not_false_eq_true, and_self, if_true]
    field_simp
    ring
  · intro h
    simp [meanPermeability, h]

/-- Witness for C9: tensors with the components 3 and 3, and 3 and 0. -/
theorem meanPermeability_harmonic_witness :
    meanPermeability (fun _ _ => 3) (fun _ _ => 3) 0 0 = 3 ∧
    meanPermeability (fun _ _ => 3) (fun _ _ => 0) 0 0 = 0 ∧
    meanPermeability (fun _ _ => 0) (fun _ _ => 3) 0 0 = 0 :=
  ⟨(meanPermeability_harmonic ttIncompressible twoCells twoCellsVariables true 0 1 twoCellsFace01
      (fun _ _ => 3) (fun _ _ => 3) 0 0).2.2.2.1 (by norm_num),
   ((meanPermeability_harmonic ttIncompressible twoCells twoCellsVariables true 0 1
      twoCellsFace01 (fun _ _ => 3) (fun _ _ => 0) 0 0).2.2.2.2 rfl).1,
   ((meanPermeability_harmonic ttIncompressible twoCells twoCellsVariables true 0 1
      twoCellsFace01 (fun _ _ => 3) (fun _ _ => 0) 0 0).2.2.2.2 rfl).2⟩

/-! ### What assemble only reads -/

theorem SameFrame.frameRefl (a : FVPressure2P) : SameFrame a a :=
  ⟨rfl, rfl, rfl, rfl, rfl, rfl, rfl, fun _ => rfl⟩

theorem SameFrame.frameTrans {a b c : FVPressure2P} (h1 : SameFrame a b) (h2 : SameFrame b c) :
    SameFrame a c := by
  obtain ⟨a1, a2, a3, a4, a5, a6, a7, a8⟩ := h1
  obtain ⟨b1, b2, b3, b4, b5, b6, b7, b8⟩ := h2
  exact ⟨a1.trans b1, a2.trans b2, a3.trans b3, a4.trans b4, a5.trans b5, a6.trans b6,
    a7.trans b7, fun j => (a8 j).trans (b8 j)⟩

theorem assembleIntersection_sameFrame (tt : TypeTag) (pb : Problem) (first : Bool) (i : Nat)
    (m : FVPressure2P) (k : Nat) (isIt : Intersection) :
    SameFrame (assembleIntersection tt pb first i m k isIt) m := by
  unfold assembleIntersection
  by_cases hn : isIt.neighbor = true
  · rw [if_pos hn]
    cases first <;> exact ⟨rfl, rfl, rfl, rfl, rfl, rfl, rfl, fun _ => rfl⟩
  · rw [if_neg hn]
    dsimp only
    by_cases hd : pb.bctypePress isIt.globalPosFace i k = Flags.dirichlet
    · rw [if_pos hd]
      cases first <;> exact ⟨rfl, rfl, rfl, rfl, rfl, rfl, rfl, fun _ => rfl⟩
    · rw [if_neg hd]
      exact ⟨rfl, rfl, rfl, rfl, rfl, rfl, rfl, fun _ => rfl⟩

theorem intersectionLoop_sameFrame (tt : TypeTag) (pb : Problem) (first : Bool) (i : Nat)
    (faces : List Intersection) :
    ∀ (k : Nat) (m : FVPressure2P), SameFrame (intersectionLoop tt pb first i faces k m) m := by
  induction faces with
  | nil => intro k m; exact SameFrame.frameRefl m
  | cons isIt rest ih =>
    intro k m
    exact (ih (k + 1) _).frameTrans (assembleIntersection_sameFrame tt pb first i m k isIt)

theorem assembleElement_sameFrame (tt : TypeTag) (pb : Problem) (first : Bool)
    (m : FVPressure2P) (i : Nat) : SameFrame (assembleElement tt pb first m i) m := by
  have h := intersectionLoop_sameFrame tt pb first i (pb.element i).intersections 0
  unfold assembleElement
  simp only
  split_ifs
  · split <;> exact SameFrame.frameTrans ⟨rfl, rfl, rfl, rfl, rfl, rfl, rfl, fun _ => rfl⟩
      ((h _).frameTrans ⟨rfl, rfl, rfl, rfl, rfl, rfl, rfl, fun _ => rfl⟩)
  · exact (h _).frameTrans ⟨rfl, rfl, rfl, rfl, rfl, rfl, rfl, fun _ => rfl⟩

theorem gridTraversal_sameFrame (tt : TypeTag) (pb : Problem) (first : Bool)
    (m : FVPressure2P) : SameFrame (gridTraversal tt pb first m) m := by
  unfold gridTraversal
  induction pb.gridSize with
  | zero => exact SameFrame.frameRefl m
  | succ n ih =>
    simp only [List.range_succ, List.foldl_append, List.foldl_cons, List.foldl_nil]
    exact (assembleElement_sameFrame tt pb first _ n).frameTrans ih

theorem assemble_sameFrame (tt : TypeTag) (pb : Problem) (first : Bool) (t : Scalar)
    (m : FVPressure2P) : SameFrame (assemble tt pb first t m) m :=
  (gridTraversal_sameFrame tt pb first _).frameTrans ⟨rfl, rfl, rfl, rfl, rfl, rfl, rfl, fun _ => rfl⟩

/-! ### solve and pressure -/

theorem solve_eq_ok_solved (pb : Problem) (m : FVPressure2P)
    (h : supportedPair m.preconditionerName_ m.solverName_ = true) :
    solve pb m = Except.ok (solved pb m) := by
  simp only [supportedPair, Bool.or_eq_true, Bool.and_eq_true, beq_iff_eq] at h
  rcases h with ⟨hp, hs | hs⟩ | ⟨hp, hs⟩ <;> simp [solved, solve, hp, hs]

theorem solved_names (pb : Problem) (m : FVPressure2P) :
    (solved pb m).preconditionerName_ = m.preconditionerName_ ∧
    (solved pb m).solverName_ = m.solverName_ := by
  unfold solved solve
  split_ifs <;> exact ⟨rfl, rfl⟩

theorem repetition_names (tt : TypeTag) (pb : Problem) (t : Scalar) (m : FVPressure2P) :
    (repetition tt pb t m).preconditionerName_ = m.preconditionerName_ ∧
    (repetition tt pb t m).solverName_ = m.solverName_ := by
  obtain ⟨h1, h2⟩ := solved_names pb (assemble tt pb false t (updateMaterialLaws tt pb m))
  obtain ⟨g2, g1, -⟩ := assemble_sameFrame tt pb false t (updateMaterialLaws tt pb m)
  exact ⟨h1.trans g1, h2.trans g2⟩

theorem Run.solve_eq_ok (pb : Problem) (r : Run)
    (h : supportedPair r.model.preconditionerName_ r.model.solverName_ = true) :
    r.solve pb = Except.ok { model := solved pb r.model, calls := r.calls ++ [Step.solve] } := by
  simp only [Run.solve, solve_eq_ok_solved pb r.model h]

/-- One pass of the loop body on a run with a supported solver pair. -/
theorem loopBody_eq_ok (tt : TypeTag) (pb : Problem) (t : Scalar) (r : Run)
    (h : supportedPair r.model.preconditionerName_ r.model.solverName_ = true) :
    ((r.updateMaterialLaws tt pb).assemble tt pb false t).solve pb
      = Except.ok { model := repetition tt pb t r.model, calls := r.calls ++ loopBodyCalls } := by
  obtain ⟨g2, g1, -⟩ := assemble_sameFrame tt pb false t (updateMaterialLaws tt pb r.model)
  have h1 : supportedPair
      ((r.updateMaterialLaws tt pb).assemble tt pb false t).model.preconditionerName_
      ((r.updateMaterialLaws tt pb).assemble tt pb false t).model.solverName_ = true := by
    simp only [Run.assemble, Run.updateMaterialLaws]
    rw [g1, g2]
    exact h
  rw [Run.solve_eq_ok pb _ h1]
  simp [Run.assemble, Run.updateMaterialLaws, repetition, loopBodyCalls]

/-- The loop of `pressure` on a run with a supported solver pair: it returns
after some number `k` of repetitions, at most `10 - numIter`; `pressureNorm`
exceeded the tolerance before each of them, and it does not exceed it at the end
unless the cap was reached. -/
theorem pressureLoop_spec (tt : TypeTag) (pb : Problem) (t : Scalar) :
    ∀ (fuel numIter : Nat) (q : NormQuotient) (r : Run), fuel = 10 - numIter →
      supportedPair r.model.preconditionerName_ r.model.solverName_ = true →
      ∃ k, k ≤ 10 - numIter ∧
        pressureLoop tt pb t r.model.variables_.pressure q numIter r
          = Except.ok { model := (repetition tt pb t)^[k] r.model,
                        calls := r.calls ++ (List.replicate k loopBodyCalls).flatten } ∧
        (∀ j, j < k → (changeSeq tt pb t q r.model j).gt 1e-5 = true) ∧
        (k < 10 - numIter → (changeSeq tt pb t q r.model k).gt 1e-5 = false) := by
  intro fuel
  induction fuel with
  | zero =>
    intro numIter q r hfuel _
    refine ⟨0, Nat.zero_le _, ?_, ?_, ?_⟩
    · rw [pressureLoop]
      have : ¬ numIter < 10 := by omega
      simp [this]
    · intro j hj; omega
    · intro hk; omega
  | succ fuel ih =>
    intro numIter q r hfuel hsup
    by_cases hq : q.gt 1e-5 = true
    · have hlt : numIter < 10 := by omega
      obtain ⟨hn1, hn2⟩ := repetition_names tt pb t r.model
      have hsup1 : supportedPair (repetition tt pb t r.model).preconditionerName_
          (repetition tt pb t r.model).solverName_ = true := by rw [hn1, hn2]; exact hsup
      obtain ⟨k, hk, hrun, hbefore, hafter⟩ := ih (numIter + 1)
        (pressureNormOf pb.gridSize r.model.variables_.pressure
          (repetition tt pb t r.model).variables_.pressure)
        { model := repetition tt pb t r.model, calls := r.calls ++ loopBodyCalls }
        (by omega) hsup1
      refine ⟨k + 1, by omega, ?_, ?_, ?_⟩
      · rw [pressureLoop, dif_pos ⟨hq, hlt⟩, loopBody_eq_ok tt pb t r hsup]
        simp only
        rw [hrun]
        simp [Function.iterate_succ_apply, List.replicate_succ, List.append_assoc]
      · intro j hj
        cases j with
        | zero => exact hq
        | succ j =>
          have := hbefore j (by omega)
          cases j with
          | zero => simpa [changeSeq] using this
          | succ j => simpa [changeSeq, Function.iterate_succ_apply] using this
      · intro hk1
        have := hafter (by omega)
        cases k with
        | zero => simpa [changeSeq] using this
        | succ k => simpa [changeSeq, Function.iterate_succ_apply] using this
    · refine ⟨0, Nat.zero_le _, ?_, ?_, ?_⟩
      · rw [pressureLoop]
        simp [hq]
      · intro j hj; omega
      · intro _
        simpa [changeSeq] using hq

theorem iterate_repetition_names (tt : TypeTag) (pb : Problem) (t : Scalar) (m : FVPressure2P)
    (k : Nat) :
    ((repetition tt pb t)^[k] m).preconditionerName_ = m.preconditionerName_ ∧
    ((repetition tt pb t)^[k] m).solverName_ = m.solverName_ := by
  induction k with
  | zero => exact ⟨rfl, rfl⟩
  | succ k ih =>
    rw [Function.iterate_succ_apply']
    obtain ⟨h1, h2⟩ := repetition_names tt pb t ((repetition tt pb t)^[k] m)
    exact ⟨h1.trans ih.1, h2.trans ih.2⟩

theorem count_solve_loopBody (k : Nat) :
    (List.replicate k loopBodyCalls).flatten.count Step.solve = k := by
  induction k with
  | zero => rfl
  | succ k ih =>
    rw [List.replicate_succ, List.flatten_cons, List.count_append, ih]
    simp [loopBodyCalls, Nat.add_comm]

theorem count_updateMaterialLaws_loopBody (k : Nat) :
    (List.replicate k loopBodyCalls).flatten.count Step.updateMaterialLaws = k := by
  induction k with
  | zero => rfl
  | succ k ih =>
    rw [List.replicate_succ, List.flatten_cons, List.count_append, ih]
    simp [loopBodyCalls, Nat.add_comm]

theorem firstSolved_names (tt : TypeTag) (pb : Problem) (t : Scalar) (m : FVPressure2P) :
    (firstSolved tt pb t m).preconditionerName_ = m.preconditionerName_ ∧
    (firstSolved tt pb t m).solverName_ = m.solverName_ := by
  obtain ⟨h1, h2⟩ := solved_names pb (assemble tt pb true t (updateMaterialLaws tt pb m))
  obtain ⟨g2, g1, -⟩ := assemble_sameFrame tt pb true t (updateMaterialLaws tt pb m)
  exact ⟨h1.trans g1, h2.trans g2⟩

theorem secondSolved_names (tt : TypeTag) (pb : Problem) (t : Scalar) (m : FVPressure2P) :
    (secondSolved tt pb t m).preconditionerName_ = m.preconditionerName_ ∧
    (secondSolved tt pb t m).solverName_ = m.solverName_ := by
  obtain ⟨h1, h2⟩ := solved_names pb (assemble tt pb false t (firstSolved tt pb t m))
  obtain ⟨g2, g1, -⟩ := assemble_sameFrame tt pb false t (firstSolved tt pb t m)
  obtain ⟨f1, f2⟩ := firstSolved_names tt pb t m
  exact ⟨(h1.trans g1).trans f1, (h2.trans g2).trans f2⟩

/-- The two solves of the bootstrap, on a run with a supported solver pair. -/
theorem bootstrap_eq_ok (tt : TypeTag) (pb : Problem) (t : Scalar) (m : FVPressure2P)
    (h : supportedPair m.preconditionerName_ m.solverName_ = true) :
    ((Run.updateMaterialLaws tt pb { model := m, calls := [] }).assemble tt pb true t).solve pb
      = Except.ok { model := firstSolved tt pb t m,
                    calls := [Step.updateMaterialLaws, Step.assemble true, Step.solve] } ∧
    (Run.assemble tt pb false t
        { model := firstSolved tt pb t m,
          calls := [Step.updateMaterialLaws, Step.assemble true, Step.solve] }).solve pb
      = Except.ok { model := secondSolved tt pb t m, calls := bootstrapCalls 0 } := by
  constructor
  · obtain ⟨g2, g1, -⟩ := assemble_sameFrame tt pb true t (updateMaterialLaws tt pb m)
    have h1 : supportedPair
        ((Run.updateMaterialLaws tt pb { model := m, calls := [] }).assemble tt pb true
          t).model.preconditionerName_
        ((Run.updateMaterialLaws tt pb { model := m, calls := [] }).assemble tt pb true
          t).model.solverName_ = true := by
      simp only [Run.assemble, Run.updateMaterialLaws]
      rw [g1, g2]
      exact h
    rw [Run.solve_eq_ok pb _ h1]
    simp [Run.assemble, Run.updateMaterialLaws, firstSolved]
  · obtain ⟨g2, g1, -⟩ := assemble_sameFrame tt pb false t (firstSolved tt pb t m)
    obtain ⟨f1, f2⟩ := firstSolved_names tt pb t m
    have h1 : supportedPair
        (Run.assemble tt pb false t
          { model := firstSolved tt pb t m,
            calls := [Step.updateMaterialLaws, Step.assemble true,
              Step.solve] }).model.preconditionerName_
        (Run.assemble tt pb false t
          { model := firstSolved tt pb t m,
            calls := [Step.updateMaterialLaws, Step.assemble true,
              Step.solve] }).model.solverName_ = true := by
      simp only [Run.assemble]
      rw [g1, g2, f1, f2]
      exact h
    rw [Run.solve_eq_ok pb _ h1]
    simp [Run.assemble, secondSolved, bootstrapCalls]

/-- Claim C1 fails as stated. With the solver name `GMRES`, for which `solve` has
no branch, `pressure(true, 0, true)` on the example grid ends at its first solve
with the exception `NotImplemented`, after three calls. -/
theorem pressure_throws_on_unsupported_solver :
    pressure ttIncompressible twoCells true 0 true
        { model := { twoCellsModel with solverName_ := "GMRES" }, calls := [] }
      = Except.error
          { what := Exception.NotImplemented
              "FVPressure2P :: solve : combination SeqILU0 and GMRES."
            calls := [Step.updateMaterialLaws, Step.assemble true, Step.solve] } := by
  obtain ⟨g2, g1, -⟩ := assemble_sameFrame ttIncompressible twoCells true 0
    (updateMaterialLaws ttIncompressible twoCells { twoCellsModel with solverName_ := "GMRES" })
  have hs : (assemble ttIncompressible twoCells true 0
      (updateMaterialLaws ttIncompressible twoCells
        { twoCellsModel with solverName_ := "GMRES" })).solverName_ = "GMRES" := g2
  have hp : (assemble ttIncompressible twoCells true 0
      (updateMaterialLaws ttIncompressible twoCells
        { twoCellsModel with solverName_ := "GMRES" })).preconditionerName_ = "SeqILU0" := g1
  simp [pressure, Run.solve, Run.assemble, Run.updateMaterialLaws, solve, hs, hp]

/-- Claim C1, amended. When the pair of preconditioner and solver names is one that
`solve` supports, `pressure(true, t, true)` returns normally from every state
after the calls Law-Update, Assemble(true), Solve, Assemble(false), Solve and `k`
repetitions of (Law-Update, Assemble(false), Solve), where `k ≤ 10` is the least
number of repetitions after which the relative pressure change does not exceed
`1e-5`, or 10 if there is none; that makes `k + 2 ≤ 12` solves and `k + 1 ≤ 11`
Law-Update passes, and the object returned is the one the last solve produced. -/
theorem pressure_bootstrap_sequence (tt : TypeTag) (pb : Problem) (t : Scalar)
    (m : FVPressure2P) (hsup : supportedPair m.preconditionerName_ m.solverName_ = true) :
    ∃ k, k ≤ 10 ∧
      pressure tt pb true t true { model := m, calls := [] }
        = Except.ok { model := (repetition tt pb t)^[k] (secondSolved tt pb t m),
                      calls := bootstrapCalls k } ∧
      (∀ j, j < k → (changeAfter tt pb t m j).gt 1e-5 = true) ∧
      (k < 10 → (changeAfter tt pb t m k).gt 1e-5 = false) ∧
      ((bootstrapCalls k).count Step.solve = k + 2 ∧ k + 2 ≤ 12) ∧
      ((bootstrapCalls k).count Step.updateMaterialLaws = k + 1 ∧ k + 1 ≤ 11) ∧
      ∃ mLast, solve pb mLast
        = Except.ok ((repetition tt pb t)^[k] (secondSolved tt pb t m)) := by
  obtain ⟨hb1, hb2⟩ := bootstrap_eq_ok tt pb t m hsup
  obtain ⟨s1, s2⟩ := secondSolved_names tt pb t m
  obtain ⟨f1, f2⟩ := firstSolved_names tt pb t m
  have hsup2 : supportedPair (secondSolved tt pb t m).preconditionerName_
      (secondSolved tt pb t m).solverName_ = true := by rw [s1, s2]; exact hsup
  obtain ⟨k, hk, hrun, hbefore, hafter⟩ := pressureLoop_spec tt pb t 10 0
    (pressureNormOf pb.gridSize (firstSolved tt pb t m).variables_.pressure
      (secondSolved tt pb t m).variables_.pressure)
    { model := secondSolved tt pb t m, calls := bootstrapCalls 0 } rfl hsup2
  refine ⟨k, hk, ?_, hbefore, fun h => hafter h, ⟨?_, by omega⟩, ⟨?_, by omega⟩, ?_⟩
  · simp only [pressure, if_true, hb1, hb2, Bool.and_self]
    rw [hrun]
    simp [bootstrapCalls]
  · rw [bootstrapCalls, List.count_append, count_solve_loopBody]
    simp [Nat.add_comm]
  · rw [bootstrapCalls, List.count_append, count_updateMaterialLaws_loopBody]
    simp [Nat.add_comm]
  · cases k with
    | zero =>
      refine ⟨assemble tt pb false t (firstSolved tt pb t m), ?_⟩
      obtain ⟨g2, g1, -⟩ := assemble_sameFrame tt pb false t (firstSolved tt pb t m)
      rw [solve_eq_ok_solved pb _ (by rw [g1, g2, f1, f2]; exact hsup)]
      rfl
    | succ k =>
      refine ⟨assemble tt pb false t
        (updateMaterialLaws tt pb ((repetition tt pb t)^[k] (secondSolved tt pb t m))), ?_⟩
      obtain ⟨g2, g1, -⟩ := assemble_sameFrame tt pb false t
        (updateMaterialLaws tt pb ((repetition tt pb t)^[k] (secondSolved tt pb t m)))
      obtain ⟨i1, i2⟩ := iterate_repetition_names tt pb t (secondSolved tt pb t m) k
      have hn1 : (updateMaterialLaws tt pb
          ((repetition tt pb t)^[k] (secondSolved tt pb t m))).preconditionerName_
          = m.preconditionerName_ := i1.trans s1
      have hn2 : (updateMaterialLaws tt pb
          ((repetition tt pb t)^[k] (secondSolved tt pb t m))).solverName_
          = m.solverName_ := i2.trans s2
      rw [solve_eq_ok_solved pb _ (by rw [g1, g2, hn1, hn2]; exact hsup),
        Function.iterate_succ_apply']
      rfl

/-- Witness for the amended C1: the example object, built with the default
solver pair `BiCGSTAB` and `SeqILU0`. -/
theorem pressure_bootstrap_sequence_witness :
    supportedPair twoCellsModel.preconditionerName_ twoCellsModel.solverName_ = true ∧
    ∃ k, k ≤ 10 ∧
      pressure ttIncompressible twoCells true 0 true { model := twoCellsModel, calls := [] }
        = Except.ok
            { model := (repetition ttIncompressible twoCells 0)^[k]
                (secondSolved ttIncompressible twoCells 0 twoCellsModel),
              calls := bootstrapCalls k } ∧
      (∀ j, j < k → (changeAfter ttIncompressible twoCells 0 twoCellsModel j).gt 1e-5 = true) ∧
      (k < 10 → (changeAfter ttIncompressible twoCells 0 twoCellsModel k).gt 1e-5 = false) ∧
      ((bootstrapCalls k).count Step.solve = k + 2 ∧ k + 2 ≤ 12) ∧
      ((bootstrapCalls k).count Step.updateMaterialLaws = k + 1 ∧ k + 1 ≤ 11) ∧
      ∃ mLast, solve twoCells mLast
        = Except.ok ((repetition ttIncompressible twoCells 0)^[k]
            (secondSolved ttIncompressible twoCells 0 twoCellsModel)) :=
  ⟨by decide, pressure_bootstrap_sequence ttIncompressible twoCells 0 twoCellsModel (by decide)⟩

/-- A call of `solve` touches the pressure and the right-hand side only. -/
theorem solved_frame (pb : Problem) (m : FVPressure2P) :
    (solved pb m).A_ = m.A_ ∧
    (solved pb m).variables_.saturation = m.variables_.saturation ∧
    (solved pb m).variables_.volumecorrection = m.variables_.volumecorrection ∧
    (solved pb m).variables_.potentialWetting = m.variables_.potentialWetting ∧
    (solved pb m).variables_.potentialNonwetting = m.variables_.potentialNonwetting ∧
    ∀ j, (solved pb m).variables_.laws j = m.variables_.laws j := by
  unfold solved solve
  split_ifs <;> exact ⟨rfl, rfl, rfl, rfl, rfl, fun _ => rfl⟩

theorem infinity_norm_sub_comm (n : Nat) (a b : BlockVector) :
    infinity_norm n (fun i => a i - b i) = infinity_norm n (fun i => b i - a i) := by
  unfold infinity_norm
  congr 1
  funext acc i
  rw [abs_sub_comm]

/-- Claim C2 fails as stated. One cell, pressure 99999.5 before the solve and
100000.5 after it: the quantity the code compares with `1e-5` is
`1 / 100000.5`, which does not exceed the tolerance, so the loop stops; the
quantity of the claim, `1 / 99999.5`, exceeds it. -/
theorem pressureNorm_not_over_old_norm :
    (pressureNormOf 1 (fun _ => 199999 / 2) (fun _ => 200001 / 2)).gt 1e-5 = false ∧
    (divNorm (infinity_norm 1 (fun _ => (200001 / 2 : Scalar) - 199999 / 2))
      (infinity_norm 1 (fun _ => (199999 / 2 : Scalar)))).gt 1e-5 = true := by
  constructor
  · simp only [pressureNormOf, infinity_norm, List.range_succ, List.range_zero, List.nil_append,
      List.foldl_cons, List.foldl_nil, divNorm, NormQuotient.gt]
    norm_num [abs_of_pos, abs_of_neg]
  · simp only [infinity_norm, List.range_succ, List.range_zero, List.nil_append,
      List.foldl_cons, List.foldl_nil, divNorm, NormQuotient.gt]
    norm_num [abs_of_pos]

/-- Claim C2, amended. The quantity `pressure` compares with `1e-5` after a solve
is the infinity norm of `p_new - p_old` divided by the infinity norm of `p_new`,
the pressure after that solve: both at the first check (after the second solve
of the bootstrap, `p_old` being the pressure after the first solve) and in every
pass of the loop (`p_old` being the pressure the pass started from). -/
theorem pressure_change_over_new_norm (tt : TypeTag) (pb : Problem) (t : Scalar) :
    (∀ (r r2 r3 : Run),
      ((r.updateMaterialLaws tt pb).assemble tt pb true t).solve pb = Except.ok r2 →
      (r2.assemble tt pb false t).solve pb = Except.ok r3 →
      pressure tt pb true t true r
        = pressureLoop tt pb t r3.model.variables_.pressure
            (divNorm
              (infinity_norm pb.gridSize
                (fun i => r3.model.variables_.pressure i - r2.model.variables_.pressure i))
              (infinity_norm pb.gridSize r3.model.variables_.pressure)) 0 r3) ∧
    (∀ (r r1 : Run) (q : NormQuotient) (numIter : Nat),
      q.gt 1e-5 = true → numIter < 10 →
      ((r.updateMaterialLaws tt pb).assemble tt pb false t).solve pb = Except.ok r1 →
      pressureLoop tt pb t r.model.variables_.pressure q numIter r
        = pressureLoop tt pb t r1.model.variables_.pressure
            (divNorm
              (infinity_norm pb.gridSize
                (fun i => r1.model.variables_.pressure i - r.model.variables_.pressure i))
              (infinity_norm pb.gridSize r1.model.variables_.pressure)) (numIter + 1) r1) := by
  constructor
  · intro r r2 r3 h2 h3
    simp only [pressure, if_true, h2, h3, Bool.and_self, pressureNormOf]
    rw [infinity_norm_sub_comm]
  · intro r r1 q numIter hq hn h1
    rw [pressureLoop, dif_pos ⟨hq, hn⟩, h1]
    simp only [pressureNormOf]
    rw [infinity_norm_sub_comm]

/-- Witness for the amended C2: one pass of the loop on the example object. -/
theorem pressure_change_over_new_norm_witness :
    NormQuotient.infinite.gt 1e-5 = true ∧ 0 < 10 ∧
    pressureLoop ttIncompressible twoCells 0 twoCellsModel.variables_.pressure
        NormQuotient.infinite 0 { model := twoCellsModel, calls := [] }
      = pressureLoop ttIncompressible twoCells 0
          (repetition ttIncompressible twoCells 0 twoCellsModel).variables_.pressure
          (divNorm
            (infinity_norm twoCells.gridSize
              (fun i => (repetition ttIncompressible twoCells 0 twoCellsModel).variables_.pressure i
                - twoCellsModel.variables_.pressure i))
            (infinity_norm twoCells.gridSize
              (repetition ttIncompressible twoCells 0 twoCellsModel).variables_.pressure)) 1
          { model := repetition ttIncompressible twoCells 0 twoCellsModel,
            calls := [] ++ loopBodyCalls } :=
  ⟨rfl, by decide,
    (pressure_change_over_new_norm ttIncompressible twoCells 0).2
      { model := twoCellsModel, calls := [] }
      { model := repetition ttIncompressible twoCells 0 twoCellsModel,
        calls := [] ++ loopBodyCalls }
      NormQuotient.infinite 0 rfl (by decide)
      (loopBody_eq_ok ttIncompressible twoCells 0 { model := twoCellsModel, calls := [] }
        (by decide))⟩

/-- Claim C3 fails as stated. `pressure(false, 0, true)` on the example object
makes two calls, `assemble(false)` and `solve`, and no Law-Update pass: the
wetting mobility of cell 0 is still the stale 0 afterwards, where a Law-Update
pass would have stored 1/2. -/
theorem pressure_subsequent_skips_updateMaterialLaws :
    ∃ r, pressure ttIncompressible twoCells false 0 true { model := twoCellsModel, calls := [] }
        = Except.ok r ∧
      r.calls = [Step.assemble false, Step.solve] ∧
      r.model.variables_.mobilityWetting 0 = 0 ∧
      (updateMaterialLaws ttIncompressible twoCells twoCellsModel).variables_.mobilityWetting 0
        = 1 / 2 := by
  refine ⟨{ model := solved twoCells (assemble ttIncompressible twoCells false 0 twoCellsModel),
            calls := [Step.assemble false, Step.solve] }, ?_, rfl, ?_, ?_⟩
  · obtain ⟨g2, g1, -⟩ := assemble_sameFrame ttIncompressible twoCells false 0 twoCellsModel
    have hsup : supportedPair
        (Run.assemble ttIncompressible twoCells false 0
          { model := twoCellsModel, calls := [] }).model.preconditionerName_
        (Run.assemble ttIncompressible twoCells false 0
          { model := twoCellsModel, calls := [] }).model.solverName_ = true := by
      simp only [Run.assemble]
      rw [g1, g2]
      decide
    simp only [pressure, Bool.false_and, Bool.false_eq_true, if_false]
    rw [Run.solve_eq_ok twoCells _ hsup]
    simp [Run.assemble]
  · obtain ⟨-, -, -, -, -, hl⟩ :=
      solved_frame twoCells (assemble ttIncompressible twoCells false 0 twoCellsModel)
    obtain ⟨-, -, -, -, -, -, -, hl2⟩ :=
      assemble_sameFrame ttIncompressible twoCells false 0 twoCellsModel
    have := congrArg Laws.mobilityW ((hl 0).trans (hl2 0))
    simpa [Variables.laws, twoCellsModel, twoCellsVariables] using this
  · simp [updateMaterialLaws, updateMaterialLawsCell, twoCells, twoCellsModel, twoCellsVariables,
      ttIncompressible, satWOf, twoCellsElement, List.range_succ]

/-- Claim C3, amended. `pressure(false, t, solveTwice)` makes exactly two calls,
`assemble(false, t)` and then `solve`, whatever `solveTwice` is: no Law-Update
pass is made. It returns the object `solve` produced, or passes on the exception
`solve` threw. -/
theorem pressure_subsequent (tt : TypeTag) (pb : Problem) (t : Scalar) (solveTwice : Bool)
    (m : FVPressure2P) :
    pressure tt pb false t solveTwice { model := m, calls := [] }
      = match solve pb (assemble tt pb false t m) with
        | Except.ok m1 =>
            Except.ok { model := m1, calls := [Step.assemble false, Step.solve] }
        | Except.error e =>
            Except.error { what := e, calls := [Step.assemble false, Step.solve] } := by
  simp only [pressure, Bool.false_and, Bool.false_eq_true, if_false, Run.solve, Run.assemble,
    List.nil_append, List.singleton_append]
  cases solve pb (assemble tt pb false t m) <;> rfl

/-! ### The interior face in closed form -/

theorem interiorFace_normalDist (tt : TypeTag) (pb : Problem) (v : Variables) (first : Bool)
    (i k : Nat) (isIt : Intersection) :
    (interiorFace tt pb v first i k isIt).normalDist
      = dot tt.dim isIt.unitOuterNormal (unitDist pb i isIt.outside) := rfl

theorem interiorFace_potentialW (tt : TypeTag) (pb : Problem) (v : Variables) (first : Bool)
    (i k : Nat) (isIt : Intersection) :
    (interiorFace tt pb v first i k isIt).potentialW
      = if first then 0
        else gradW tt pb v i isIt.outside
          + upwind (v.potentialWetting i k) (v.densityWetting i) (v.densityWetting isIt.outside)
            * dot tt.dim (unitDist pb i isIt.outside) pb.gravity := by
  obtain ⟨dim, comp, pt, st⟩ := tt
  cases pt <;> rfl

theorem interiorFace_potentialNW (tt : TypeTag) (pb : Problem) (v : Variables) (first : Bool)
    (i k : Nat) (isIt : Intersection) :
    (interiorFace tt pb v first i k isIt).potentialNW
      = if first then 0
        else gradNW tt pb v i isIt.outside
          + upwind (v.potentialNonwetting i k) (v.densityNonwetting i)
              (v.densityNonwetting isIt.outside)
            * dot tt.dim (unitDist pb i isIt.outside) pb.gravity := by
  obtain ⟨dim, comp, pt, st⟩ := tt
  cases pt <;> rfl

theorem interiorFace_entry (tt : TypeTag) (pb : Problem) (v : Variables) (first : Bool)
    (i k : Nat) (isIt : Intersection) :
    (interiorFace tt pb v first i k isIt).entry
      = (upwind (interiorFace tt pb v first i k isIt).potentialW
            (v.mobilityWetting i) (v.mobilityWetting isIt.outside)
          + upwind (interiorFace tt pb v first i k isIt).potentialNW
            (v.mobilityNonwetting i) (v.mobilityNonwetting isIt.outside))
        * (dot tt.dim (facePermeability tt pb i isIt.outside) (unitDist pb i isIt.outside)
            / centreDist pb i isIt.outside)
        * isIt.faceArea * dot tt.dim isIt.unitOuterNormal (unitDist pb i isIt.outside) := rfl

theorem interiorFace_rightEntry (tt : TypeTag) (pb : Problem) (v : Variables) (first : Bool)
    (i k : Nat) (isIt : Intersection) :
    (interiorFace tt pb v first i k isIt).rightEntry
      = (upwind (interiorFace tt pb v first i k isIt).potentialW
            (v.mobilityWetting i) (v.mobilityWetting isIt.outside)
            * upwind (interiorFace tt pb v first i k isIt).potentialW
              (v.densityWetting i) (v.densityWetting isIt.outside)
          + upwind (interiorFace tt pb v first i k isIt).potentialNW
            (v.mobilityNonwetting i) (v.mobilityNonwetting isIt.outside)
            * upwind (interiorFace tt pb v first i k isIt).potentialNW
              (v.densityNonwetting i) (v.densityNonwetting isIt.outside))
          * dot tt.dim (facePermeability tt pb i isIt.outside) pb.gravity * isIt.faceArea
        + capillaryTerm tt pb v i isIt.outside isIt.faceArea := by
  obtain ⟨dim, comp, pt, st⟩ := tt
  cases pt
  · rfl
  · exact sub_eq_add_neg _ _
  · exact (add_zero _).symm

/-! ### Congruence of the face computations -/

theorem SameLaws.lawsRefl (v : Variables) : SameLaws v v := ⟨rfl, rfl, rfl, fun _ => rfl⟩

theorem SameLaws.lawsSymm {v w : Variables} (h : SameLaws v w) : SameLaws w v :=
  ⟨h.1.symm, h.2.1.symm, h.2.2.1.symm, fun j => (h.2.2.2 j).symm⟩

theorem SameLaws.lawsTrans {u v w : Variables} (h1 : SameLaws u v) (h2 : SameLaws v w) :
    SameLaws u w :=
  ⟨h1.1.trans h2.1, h1.2.1.trans h2.2.1, h1.2.2.1.trans h2.2.2.1,
    fun j => (h1.2.2.2 j).trans (h2.2.2.2 j)⟩

theorem SameFrame.sameLaws {a b : FVPressure2P} (h : SameFrame a b) :
    SameLaws a.variables_ b.variables_ :=
  ⟨h.2.2.2.2.1, h.2.2.2.2.2.1, h.2.2.2.2.2.2.1, h.2.2.2.2.2.2.2⟩

/-- Two variable objects with the same laws have the same derived fields. -/
theorem SameLaws.fields {v w : Variables} (h : SameLaws v w) :
    v.densityWetting = w.densityWetting ∧ v.densityNonwetting = w.densityNonwetting ∧
    v.viscosityWetting = w.viscosityWetting ∧ v.viscosityNonwetting = w.viscosityNonwetting ∧
    v.mobilityWetting = w.mobilityWetting ∧ v.mobilityNonwetting = w.mobilityNonwetting ∧
    v.fracFlowFuncWetting = w.fracFlowFuncWetting ∧
    v.fracFlowFuncNonwetting = w.fracFlowFuncNonwetting ∧
    v.capillaryPressure = w.capillaryPressure := by
  have hl := h.2.2.2
  simp only [Variables.laws, Laws.mk.injEq] at hl
  refine ⟨?_, ?_, ?_, ?_, ?_, ?_, ?_, ?_, ?_⟩ <;> funext j
  · exact (hl j).1
  · exact (hl j).2.1
  · exact (hl j).2.2.1
  · exact (hl j).2.2.2.1
  · exact (hl j).2.2.2.2.1
  · exact (hl j).2.2.2.2.2.1
  · exact (hl j).2.2.2.2.2.2.1
  · exact (hl j).2.2.2.2.2.2.2.1
  · exact (hl j).2.2.2.2.2.2.2.2

theorem interiorFace_congr (tt : TypeTag) (pb : Problem) {v w : Variables} (first : Bool)
    (i k : Nat) (isIt : Intersection) (h : SameLaws v w)
    (hw : v.potentialWetting i k = w.potentialWetting i k)
    (hn : v.potentialNonwetting i k = w.potentialNonwetting i k) :
    interiorFace tt pb v first i k isIt = interiorFace tt pb w first i k isIt := by
  obtain ⟨f1, f2, -, -, f5, f6, f7, f8, f9⟩ := h.fields
  simp only [interiorFace, f1, f2, f5, f6, f7, f8, f9, h.1, hw, hn]

theorem boundaryState_congr (tt : TypeTag) (pb : Problem) {v w : Variables}
    (i k : Nat) (isIt : Intersection) (h : SameLaws v w) :
    boundaryState tt pb v i k isIt = boundaryState tt pb w i k isIt := by
  simp only [boundaryState, h.2.1]

theorem dirichletFace_congr (tt : TypeTag) (pb : Problem) {v w : Variables} (first : Bool)
    (i k : Nat) (isIt : Intersection) (h : SameLaws v w)
    (hw : v.potentialWetting i k = w.potentialWetting i k)
    (hn : v.potentialNonwetting i k = w.potentialNonwetting i k) :
    dirichletFace tt pb v first i k isIt = dirichletFace tt pb w first i k isIt := by
  obtain ⟨f1, f2, -, -, f5, f6, f7, f8, f9⟩ := h.fields
  simp only [dirichletFace, boundaryState_congr tt pb i k isIt h, f1, f2, f5, f6, f7, f8, f9,
    h.1, hw, hn]

theorem faceRhs_congr (tt : TypeTag) (pb : Problem) {v w : Variables} (first : Bool)
    (i k : Nat) (isIt : Intersection) (h : SameLaws v w)
    (hw : v.potentialWetting i k = w.potentialWetting i k)
    (hn : v.potentialNonwetting i k = w.potentialNonwetting i k) :
    faceRhs tt pb first i v k isIt = faceRhs tt pb first i w k isIt := by
  obtain ⟨f1, f2, -⟩ := h.fields
  simp only [faceRhs, interiorFace_congr tt pb first i k isIt h hw hn,
    dirichletFace_congr tt pb first i k isIt h hw hn, boundaryState_congr tt pb i k isIt h,
    f1, f2]

/-! ### The effect of one intersection -/

theorem storePotentials_sameLaws (v : Variables) (i k : Nat) (a b : Scalar) :
    SameLaws (v.storePotentials i k a b) v := ⟨rfl, rfl, rfl, fun _ => rfl⟩

theorem storePotentials_of_ne (v : Variables) (i k : Nat) (a b : Scalar) (i1 k1 : Nat)
    (h : i1 ≠ i ∨ k1 ≠ k) :
    (v.storePotentials i k a b).potentialWetting i1 k1 = v.potentialWetting i1 k1 ∧
    (v.storePotentials i k a b).potentialNonwetting i1 k1 = v.potentialNonwetting i1 k1 := by
  simp only [Variables.storePotentials]
  by_cases hi : i1 = i
  · subst hi
    have hk : k1 ≠ k := by
      rcases h with h | h
      · exact absurd rfl h
      · exact h
    simp [Function.update_noteq hk]
  · simp [Function.update_noteq hi]

/-- One intersection of cell `i` leaves every store entry but its own alone. -/
theorem assembleIntersection_store_of_ne (tt : TypeTag) (pb : Problem) (first : Bool) (i : Nat)
    (m : FVPressure2P) (k : Nat) (isIt : Intersection) (i1 k1 : Nat) (h : i1 ≠ i ∨ k1 ≠ k) :
    (assembleIntersection tt pb first i m k isIt).variables_.potentialWetting i1 k1
      = m.variables_.potentialWetting i1 k1 ∧
    (assembleIntersection tt pb first i m k isIt).variables_.potentialNonwetting i1 k1
      = m.variables_.potentialNonwetting i1 k1 := by
  unfold assembleIntersection
  by_cases hn : isIt.neighbor = true
  · rw [if_pos hn]
    cases first
    · exact storePotentials_of_ne _ i k _ _ i1 k1 h
    · exact ⟨rfl, rfl⟩
  · rw [if_neg hn]
    dsimp only
    by_cases hd : pb.bctypePress isIt.globalPosFace i k = Flags.dirichlet
    · rw [if_pos hd]
      cases first
      · exact storePotentials_of_ne _ i k _ _ i1 k1 h
      · exact ⟨rfl, rfl⟩
    · rw [if_neg hd]
      exact storePotentials_of_ne _ i k _ _ i1 k1 h

/-- One intersection of cell `i` adds `faceRhs` to `f_[i]` and leaves the other
entries of the right-hand side alone. -/
theorem assembleIntersection_f (tt : TypeTag) (pb : Problem) (first : Bool) (i : Nat)
    (m : FVPressure2P) (k : Nat) (isIt : Intersection) :
    (assembleIntersection tt pb first i m k isIt).f_
      = Function.update m.f_ i (m.f_ i + faceRhs tt pb first i m.variables_ k isIt) := by
  unfold assembleIntersection faceRhs
  by_cases hn : isIt.neighbor = true
  · rw [if_pos hn, if_pos hn]
    simp only [sub_eq_add_neg]
  · rw [if_neg hn, if_neg hn]
    dsimp only
    by_cases hd : pb.bctypePress isIt.globalPosFace i k = Flags.dirichlet
    · rw [if_pos hd, if_pos hd]
      simp only [sub_eq_add_neg, add_assoc]
    · rw [if_neg hd, if_neg hd]
      simp only [sub_eq_add_neg]

/-- One intersection of cell `i` writes the matrix only at `(i, i)` and, for an
interior face, at `(i, outside)`. -/
theorem assembleIntersection_val_of_ne (tt : TypeTag) (pb : Problem) (first : Bool) (i : Nat)
    (m : FVPressure2P) (k : Nat) (isIt : Intersection) (r c : Nat)
    (h : ¬ (r = i ∧ (c = i ∨ (isIt.neighbor = true ∧ c = isIt.outside)))) :
    (assembleIntersection tt pb first i m k isIt).A_.val r c = m.A_.val r c := by
  unfold assembleIntersection
  by_cases hr : r = i
  · subst hr
    have hc1 : c ≠ r := fun hc => h ⟨rfl, Or.inl hc⟩
    by_cases hn : isIt.neighbor = true
    · have hc2 : c ≠ isIt.outside := fun hc => h ⟨rfl, Or.inr ⟨hn, hc⟩⟩
      rw [if_pos hn]
      simp [BCRSMatrix.add, BCRSMatrix.set, Function.update_noteq hc1, Function.update_noteq hc2]
    · rw [if_neg hn]
      dsimp only
      by_cases hd : pb.bctypePress isIt.globalPosFace r k = Flags.dirichlet
      · rw [if_pos hd]
        simp [BCRSMatrix.add, Function.update_noteq hc1]
      · rw [if_neg hd]
  · by_cases hn : isIt.neighbor = true
    · rw [if_pos hn]
      simp [BCRSMatrix.add, BCRSMatrix.set, Function.update_noteq hr]
    · rw [if_neg hn]
      dsimp only
      by_cases hd : pb.bctypePress isIt.globalPosFace i k = Flags.dirichlet
      · rw [if_pos hd]
        simp [BCRSMatrix.add, Function.update_noteq hr]
      · rw [if_neg hd]

/-- An interior face towards another cell leaves minus its entry at
`(i, outside)`. -/
theorem assembleIntersection_val_outside (tt : TypeTag) (pb : Problem) (first : Bool) (i : Nat)
    (m : FVPressure2P) (k : Nat) (isIt : Intersection) (hn : isIt.neighbor = true) :
    (assembleIntersection tt pb first i m k isIt).A_.val i isIt.outside
      = -(interiorFace tt pb m.variables_ first i k isIt).entry := by
  unfold assembleIntersection
  rw [if_pos hn]
  simp [BCRSMatrix.add, BCRSMatrix.set]

/-! ### Rows are assembled independently -/

theorem RowAgree.rowRefl (i : Nat) (a : FVPressure2P) : RowAgree i a a :=
  ⟨SameLaws.lawsRefl _, rfl, rfl, rfl, rfl⟩

theorem RowAgree.rowSymm {i : Nat} {a b : FVPressure2P} (h : RowAgree i a b) : RowAgree i b a :=
  ⟨h.1.lawsSymm, h.2.1.symm, h.2.2.1.symm, h.2.2.2.1.symm, h.2.2.2.2.symm⟩

theorem RowAgree.rowTrans {i : Nat} {a b c : FVPressure2P} (h1 : RowAgree i a b)
    (h2 : RowAgree i b c) : RowAgree i a c :=
  ⟨h1.1.lawsTrans h2.1, h1.2.1.trans h2.2.1, h1.2.2.1.trans h2.2.2.1,
    h1.2.2.2.1.trans h2.2.2.2.1, h1.2.2.2.2.trans h2.2.2.2.2⟩

/-- Processing an intersection of cell `i` from two objects that agree on row
`i` gives two objects that agree on row `i`. -/
theorem assembleIntersection_rowAgree (tt : TypeTag) (pb : Problem) (first : Bool) (i : Nat)
    {a b : FVPressure2P} (k : Nat) (isIt : Intersection) (h : RowAgree i a b) :
    RowAgree i (assembleIntersection tt pb first i a k isIt)
      (assembleIntersection tt pb first i b k isIt) := by
  obtain ⟨hl, hw, hn, hf, hA⟩ := h
  have e1 := interiorFace_congr tt pb first i k isIt hl (congrFun hw k) (congrFun hn k)
  have e2 := dirichletFace_congr tt pb first i k isIt hl (congrFun hw k) (congrFun hn k)
  have e3 := boundaryState_congr tt pb i k isIt hl
  obtain ⟨f1, f2, -⟩ := hl.fields
  refine ⟨?_, ?_, ?_, ?_, ?_⟩
  · exact ((assembleIntersection_sameFrame tt pb first i a k isIt).sameLaws.lawsTrans hl).lawsTrans
      (assembleIntersection_sameFrame tt pb first i b k isIt).sameLaws.lawsSymm
  · unfold assembleIntersection
    by_cases hnb : isIt.neighbor = true
    · simp only [if_pos hnb, e1]
      cases first
      · simp [Variables.storePotentials, hw]
      · simpa using hw
    · simp only [if_neg hnb]
      by_cases hd : pb.bctypePress isIt.globalPosFace i k = Flags.dirichlet
      · simp only [if_pos hd, e2]
        cases first
        · simp [Variables.storePotentials, hw]
        · simpa using hw
      · simp only [if_neg hd]
        simp [Variables.storePotentials, hw, f1, f2]
  · unfold assembleIntersection
    by_cases hnb : isIt.neighbor = true
    · simp only [if_pos hnb, e1]
      cases first
      · simp [Variables.storePotentials, hn]
      · simpa using hn
    · simp only [if_neg hnb]
      by_cases hd : pb.bctypePress isIt.globalPosFace i k = Flags.dirichlet
      · simp only [if_pos hd, e2]
        cases first
        · simp [Variables.storePotentials, hn]
        · simpa using hn
      · simp only [if_neg hd]
        simp [Variables.storePotentials, hn, f1, f2]
  · rw [assembleIntersection_f, assembleIntersection_f, Function.update_same,
      Function.update_same, hf, faceRhs_congr tt pb first i k isIt hl (congrFun hw k)
        (congrFun hn k)]
  · unfold assembleIntersection
    by_cases hnb : isIt.neighbor = true
    · simp only [if_pos hnb, e1]
      simp [BCRSMatrix.add, BCRSMatrix.set, hA]
    · simp only [if_neg hnb]
      by_cases hd : pb.bctypePress isIt.globalPosFace i k = Flags.dirichlet
      · simp only [if_pos hd, e2]
        simp [BCRSMatrix.add, hA]
      · simp only [if_neg hd]
        exact hA

/-- Processing an intersection of cell `i` leaves every other row as it is. -/
theorem assembleIntersection_rowAgree_of_ne (tt : TypeTag) (pb : Problem) (first : Bool)
    (i : Nat) (m : FVPressure2P) (k : Nat) (isIt : Intersection) (r : Nat) (hr : r ≠ i) :
    RowAgree r (assembleIntersection tt pb first i m k isIt) m := by
  refine ⟨(assembleIntersection_sameFrame tt pb first i m k isIt).sameLaws, ?_, ?_, ?_, ?_⟩
  · funext k1
    exact (assembleIntersection_store_of_ne tt pb first i m k isIt r k1 (Or.inl hr)).1
  · funext k1
    exact (assembleIntersection_store_of_ne tt pb first i m k isIt r k1 (Or.inl hr)).2
  · rw [assembleIntersection_f, Function.update_noteq hr]
  · funext c
    exact assembleIntersection_val_of_ne tt pb first i m k isIt r c (fun h => hr h.1)

theorem intersectionLoop_rowAgree (tt : TypeTag) (pb : Problem) (first : Bool) (i : Nat)
    (faces : List Intersection) :
    ∀ (k : Nat) {a b : FVPressure2P}, RowAgree i a b →
      RowAgree i (intersectionLoop tt pb first i faces k a)
        (intersectionLoop tt pb first i faces k b) := by
  induction faces with
  | nil => intro k a b h; exact h
  | cons isIt rest ih =>
    intro k a b h
    exact ih (k + 1) (assembleIntersection_rowAgree tt pb first i k isIt h)

theorem intersectionLoop_rowAgree_of_ne (tt : TypeTag) (pb : Problem) (first : Bool) (i : Nat)
    (faces : List Intersection) (r : Nat) (hr : r ≠ i) :
    ∀ (k : Nat) (m : FVPressure2P), RowAgree r (intersectionLoop tt pb first i faces k m) m := by
  induction faces with
  | nil => intro k m; exact RowAgree.rowRefl r m
  | cons isIt rest ih =>
    intro k m
    exact (ih (k + 1) _).rowTrans (assembleIntersection_rowAgree_of_ne tt pb first i m k isIt r hr)

theorem sourceRhs_congr (tt : TypeTag) (pb : Problem) {v w : Variables} (i : Nat)
    (h : SameLaws v w) : sourceRhs tt pb v i = sourceRhs tt pb w i := by
  obtain ⟨f1, f2, -⟩ := h.fields
  simp only [sourceRhs, f1, f2]

theorem volumeCorrectionRhs_congr (tt : TypeTag) (pb : Problem) {v w : Variables} (i : Nat)
    (h : SameLaws v w) : volumeCorrectionRhs tt pb v i = volumeCorrectionRhs tt pb w i := by
  obtain ⟨f1, f2, -⟩ := h.fields
  simp only [volumeCorrectionRhs, f1, f2, h.2.2.1]

/-- The cell body written with the auxiliary right-hand-side terms. -/
theorem assembleElement_eq (tt : TypeTag) (pb : Problem) (first : Bool) (m : FVPressure2P)
    (i : Nat) :
    assembleElement tt pb first m i
      = { intersectionLoop tt pb first i (pb.element i).intersections 0
            { m with f_ := Function.update m.f_ i (sourceRhs tt pb m.variables_ i) } with
          f_ := Function.update
            (intersectionLoop tt pb first i (pb.element i).intersections 0
              { m with f_ := Function.update m.f_ i (sourceRhs tt pb m.variables_ i) }).f_ i
            ((intersectionLoop tt pb first i (pb.element i).intersections 0
              { m with f_ := Function.update m.f_ i (sourceRhs tt pb m.variables_ i) }).f_ i
              - volumeCorrectionRhs tt pb m.variables_ i) } := by
  have hvc : ∀ m0 : FVPressure2P,
      (intersectionLoop tt pb first i (pb.element i).intersections 0
        m0).variables_.volumecorrection = m0.variables_.volumecorrection := fun m0 =>
    (intersectionLoop_sameFrame tt pb first i (pb.element i).intersections 0 m0).sameLaws.2.2.1
  obtain ⟨dim, comp, pt, st⟩ := tt
  cases comp
  · simp [assembleElement, volumeCorrectionRhs, sourceRhs]
  · cases st
    · simp only [assembleElement, volumeCorrectionRhs, sourceRhs, if_true]
      rw [hvc]
    · simp only [assembleElement, volumeCorrectionRhs, sourceRhs, if_true]
      rw [hvc]

theorem assembleElement_rowAgree (tt : TypeTag) (pb : Problem) (first : Bool) (i : Nat)
    {a b : FVPressure2P} (h : RowAgree i a b) :
    RowAgree i (assembleElement tt pb first a i) (assembleElement tt pb first b i) := by
  have h1 : RowAgree i
      { a with f_ := Function.update a.f_ i (sourceRhs tt pb a.variables_ i) }
      { b with f_ := Function.update b.f_ i (sourceRhs tt pb b.variables_ i) } := by
    refine ⟨h.1, h.2.1, h.2.2.1, ?_, h.2.2.2.2⟩
    simp [sourceRhs_congr tt pb i h.1]
  obtain ⟨g1, g2, g3, g4, g5⟩ :=
    intersectionLoop_rowAgree tt pb first i (pb.element i).intersections 0 h1
  rw [assembleElement_eq, assembleElement_eq]
  refine ⟨g1, g2, g3, ?_, g5⟩
  simp [g4, volumeCorrectionRhs_congr tt pb i h.1]

theorem assembleElement_rowAgree_of_ne (tt : TypeTag) (pb : Problem) (first : Bool)
    (m : FVPressure2P) (i r : Nat) (hr : r ≠ i) :
    RowAgree r (assembleElement tt pb first m i) m := by
  have h1 : RowAgree r { m with f_ := Function.update m.f_ i (sourceRhs tt pb m.variables_ i) }
      m := ⟨SameLaws.lawsRefl _, rfl, rfl, by simp [Function.update_noteq hr], rfl⟩
  obtain ⟨g1, g2, g3, g4, g5⟩ :=
    (intersectionLoop_rowAgree_of_ne tt pb first i (pb.element i).intersections r hr 0
      { m with f_ := Function.update m.f_ i (sourceRhs tt pb m.variables_ i) }).rowTrans h1
  rw [assembleElement_eq]
  refine ⟨g1, g2, g3, ?_, g5⟩
  simp only [Function.update_noteq hr]
  exact g4

/-- Row `r` of the grid traversal over the first `n` cells is what processing
cell `r` alone from the initial object gives, and is untouched for `r ≥ n`. -/
theorem gridTraversal_fold_rowAgree (tt : TypeTag) (pb : Problem) (first : Bool)
    (m : FVPressure2P) (n r : Nat) :
    (r < n → RowAgree r ((List.range n).foldl (assembleElement tt pb first) m)
      (assembleElement tt pb first m r)) ∧
    (n ≤ r → RowAgree r ((List.range n).foldl (assembleElement tt pb first) m) m) := by
  induction n with
  | zero =>
    exact ⟨fun h => absurd h (Nat.not_lt_zero r), fun _ => RowAgree.rowRefl r m⟩
  | succ n ih =>
    simp only [List.range_succ, List.foldl_append, List.foldl_cons, List.foldl_nil]
    constructor
    · intro hr
      by_cases hrn : r = n
      · subst hrn
        exact assembleElement_rowAgree tt pb first r (ih.2 (Nat.le_refl r))
      · exact (assembleElement_rowAgree_of_ne tt pb first _ n r hrn).rowTrans (ih.1 (by omega))
    · intro hr
      exact (assembleElement_rowAgree_of_ne tt pb first _ n r (by omega)).rowTrans (ih.2 (by omega))

/-- Row `i` of `assemble` is what processing cell `i` alone gives, starting from
the object with the matrix values and the right-hand side reset. -/
theorem assemble_rowAgree (tt : TypeTag) (pb : Problem) (first : Bool) (t : Scalar)
    (m : FVPressure2P) (i : Nat) (hi : i < pb.gridSize) :
    RowAgree i (assemble tt pb first t m)
      (assembleElement tt pb first
        { m with A_ := { m.A_ with val := fun _ _ => 0 }, f_ := fun _ => 0 } i) :=
  (gridTraversal_fold_rowAgree tt pb first _ pb.gridSize i).1 hi

/-! ### One cell in closed form -/

theorem sumFaces_congr (g h : Nat → Intersection → Scalar) (faces : List Intersection) :
    ∀ k : Nat, (∀ q isIt, k ≤ q → g q isIt = h q isIt) → sumFaces g faces k = sumFaces h faces k := by
  induction faces with
  | nil => intro k _; rfl
  | cons isIt rest ih =>
    intro k hgh
    simp only [sumFaces]
    rw [hgh k isIt (Nat.le_refl k), ih (k + 1) (fun q f hq => hgh q f (by omega))]

/-- The intersection loop of cell `i` adds to `f_[i]` the sum of the `faceRhs`
terms of its intersections, each computed from the variables the loop started
with. -/
theorem intersectionLoop_f (tt : TypeTag) (pb : Problem) (first : Bool) (i : Nat)
    (faces : List Intersection) :
    ∀ (k : Nat) (m : FVPressure2P),
      (intersectionLoop tt pb first i faces k m).f_ i
        = m.f_ i + sumFaces (faceRhs tt pb first i m.variables_) faces k := by
  induction faces with
  | nil => intro k m; simp [intersectionLoop, sumFaces]
  | cons isIt rest ih =>
    intro k m
    simp only [intersectionLoop, sumFaces]
    rw [ih (k + 1), assembleIntersection_f, Function.update_same,
      sumFaces_congr (faceRhs tt pb first i (assembleIntersection tt pb first i m k isIt).variables_)
        (faceRhs tt pb first i m.variables_) rest (k + 1), add_assoc]
    intro q f hq
    have hne : i ≠ i ∨ q ≠ k := Or.inr (by omega)
    obtain ⟨h1, h2⟩ := assembleIntersection_store_of_ne tt pb first i m k isIt i q hne
    exact faceRhs_congr tt pb first i q f
      (assembleIntersection_sameFrame tt pb first i m k isIt).sameLaws h1 h2

/-- The intersection loop of cell `i` leaves the entry `(r, c)` alone unless
`r = i` and `c` is `i` or the cell behind one of the interior faces. -/
theorem intersectionLoop_val_of_ne (tt : TypeTag) (pb : Problem) (first : Bool) (i : Nat)
    (faces : List Intersection) (r c : Nat)
    (h : ¬ (r = i ∧ (c = i ∨ ∃ isIt ∈ faces, isIt.neighbor = true ∧ isIt.outside = c))) :
    ∀ (k : Nat) (m : FVPressure2P),
      (intersectionLoop tt pb first i faces k m).A_.val r c = m.A_.val r c := by
  induction faces with
  | nil => intro k m; rfl
  | cons isIt rest ih =>
    intro k m
    simp only [intersectionLoop]
    rw [ih (fun hh => h ⟨hh.1, hh.2.imp id (fun ⟨f, hf, hf2⟩ => ⟨f, List.mem_cons_of_mem _ hf, hf2⟩)⟩)]
    refine assembleIntersection_val_of_ne tt pb first i m k isIt r c (fun hh => h ⟨hh.1, ?_⟩)
    exact hh.2.imp id (fun hf => ⟨isIt, List.mem_cons_self _ _, hf.1, hf.2.symm⟩)

/-- After the intersection loop of cell `i`, the entry `(i, j)` for another cell
`j` is minus the entry of the last interior face towards `j`, computed from the
variables the loop started with. -/
theorem intersectionLoop_val_outside (tt : TypeTag) (pb : Problem) (first : Bool) (i j : Nat)
    (hij : j ≠ i) (faces : List Intersection) :
    ∀ (k : Nat) (m : FVPressure2P) (q : Nat) (isIt : Intersection),
      faces[q]? = some isIt → isIt.neighbor = true → isIt.outside = j →
      (∀ q1 f, q < q1 → faces[q1]? = some f → f.neighbor = true → f.outside ≠ j) →
      (intersectionLoop tt pb first i faces k m).A_.val i j
        = -(interiorFace tt pb m.variables_ first i (k + q) isIt).entry := by
  induction faces with
  | nil => intro k m q isIt hq; simp at hq
  | cons f0 rest ih =>
    intro k m q isIt hq hn ho hlast
    simp only [intersectionLoop]
    cases q with
    | zero =>
      simp only [List.getElem?_cons_zero, Option.some.injEq] at hq
      subst hq
      have hrest : ¬ (i = i ∧ (j = i ∨ ∃ f ∈ rest, f.neighbor = true ∧ f.outside = j)) := by
        rintro ⟨-, h | ⟨f, hf, hf1, hf2⟩⟩
        · exact hij h
        · obtain ⟨q1, hq1, hget⟩ := List.getElem_of_mem hf
          refine hlast (q1 + 1) f (Nat.succ_pos q1) ?_ hf1 hf2
          simp [List.getElem?_cons_succ, List.getElem?_eq_getElem hq1, hget]
      rw [intersectionLoop_val_of_ne tt pb first i rest i j hrest, ← ho,
        assembleIntersection_val_outside tt pb first i m k f0 hn, Nat.add_zero]
    | succ q =>
      simp only [List.getElem?_cons_succ] at hq
      rw [ih (k + 1) _ q isIt hq hn ho
        (fun q1 f hq1 hf => hlast (q1 + 1) f (by omega) (by simpa using hf))]
      have hne : i ≠ i ∨ k + 1 + q ≠ k := Or.inr (by omega)
      obtain ⟨h1, h2⟩ := assembleIntersection_store_of_ne tt pb first i m k f0 i (k + 1 + q) hne
      rw [interiorFace_congr tt pb first i (k + 1 + q) isIt
        (assembleIntersection_sameFrame tt pb first i m k f0).sameLaws h1 h2]
      congr 3
      omega

/-- The right-hand side entry of cell `i` after `assemble`: source term, plus
the `faceRhs` terms of its intersections, minus the volume correction, all
computed from the variables `assemble` started with. -/
theorem assemble_f (tt : TypeTag) (pb : Problem) (first : Bool) (t : Scalar)
    (m : FVPressure2P) (i : Nat) (hi : i < pb.gridSize) :
    (assemble tt pb first t m).f_ i
      = sourceRhs tt pb m.variables_ i
        + sumFaces (faceRhs tt pb first i m.variables_) (pb.element i).intersections 0
        - volumeCorrectionRhs tt pb m.variables_ i := by
  obtain ⟨-, -, -, hf, -⟩ := assemble_rowAgree tt pb first t m i hi
  rw [hf, assembleElement_eq]
  simp only [Function.update_same]
  rw [intersectionLoop_f]
  simp only [Function.update_same]

/-- The off-diagonal entry `(i, j)` after `assemble`, when the interior face
with local index `q` is the last face of cell `i` towards the cell `j ≠ i`. -/
theorem assemble_val_outside (tt : TypeTag) (pb : Problem) (first : Bool) (t : Scalar)
    (m : FVPressure2P) (i j : Nat) (hi : i < pb.gridSize) (hij : j ≠ i) (q : Nat)
    (isIt : Intersection) (hq : (pb.element i).intersections[q]? = some isIt)
    (hn : isIt.neighbor = true) (ho : isIt.outside = j)
    (hlast : ∀ q1 f, q < q1 → (pb.element i).intersections[q1]? = some f →
      f.neighbor = true → f.outside ≠ j) :
    (assemble tt pb first t m).A_.val i j
      = -(interiorFace tt pb m.variables_ first i q isIt).entry := by
  obtain ⟨-, -, -, -, hA⟩ := assemble_rowAgree tt pb first t m i hi
  rw [hA, assembleElement_eq]
  simp only
  rw [intersectionLoop_val_outside tt pb first i j hij _ 0 _ q isIt hq hn ho hlast, Nat.zero_add]

/-! ### The sparsity pattern -/

theorem mem_addindex (A : BCRSMatrix) (i j r c : Nat) :
    c ∈ (A.addindex i j).index r ↔ c ∈ A.index r ∨ (r = i ∧ c = j) := by
  unfold BCRSMatrix.addindex
  by_cases hj : j ∈ A.index i
  · rw [if_pos hj]
    constructor
    · exact Or.inl
    · rintro (h | ⟨rfl, rfl⟩)
      · exact h
      · exact hj
  · rw [if_neg hj]
    by_cases hr : r = i
    · subst hr
      simp [Function.update_same]
    · simp [Function.update_noteq hr, hr]

theorem mem_addindex_fold (i r c : Nat) (faces : List Intersection) :
    ∀ A : BCRSMatrix,
      c ∈ (faces.foldl
          (fun B isIt => if isIt.neighbor then B.addindex i isIt.outside else B) A).index r
        ↔ c ∈ A.index r ∨ (r = i ∧ ∃ isIt ∈ faces, isIt.neighbor = true ∧ isIt.outside = c) := by
  induction faces with
  | nil => intro A; simp
  | cons f rest ih =>
    intro A
    simp only [List.foldl_cons]
    rw [ih]
    by_cases hn : f.neighbor = true
    · rw [if_pos hn, mem_addindex]
      constructor
      · rintro ((h | ⟨h1, h2⟩) | ⟨h1, g, hg, hg1, hg2⟩)
        · exact Or.inl h
        · exact Or.inr ⟨h1, f, List.mem_cons_self _ _, hn, h2.symm⟩
        · exact Or.inr ⟨h1, g, List.mem_cons_of_mem _ hg, hg1, hg2⟩
      · rintro (h | ⟨h1, g, hg, hg1, hg2⟩)
        · exact Or.inl (Or.inl h)
        · rcases List.mem_cons.mp hg with rfl | hg
          · exact Or.inl (Or.inr ⟨h1, hg2.symm⟩)
          · exact Or.inr ⟨h1, g, hg, hg1, hg2⟩
    · rw [if_neg hn]
      constructor
      · rintro (h | ⟨h1, g, hg, hg1, hg2⟩)
        · exact Or.inl h
        · exact Or.inr ⟨h1, g, List.mem_cons_of_mem _ hg, hg1, hg2⟩
      · rintro (h | ⟨h1, g, hg, hg1, hg2⟩)
        · exact Or.inl h
        · rcases List.mem_cons.mp hg with rfl | hg
          · exact absurd hg1 hn
          · exact Or.inr ⟨h1, g, hg, hg1, hg2⟩

theorem mem_addIndicesOf (pb : Problem) (A : BCRSMatrix) (i r c : Nat) :
    c ∈ (addIndicesOf pb A i).index r
      ↔ c ∈ A.index r ∨ (r = i ∧ (c = i ∨
          ∃ isIt ∈ (pb.element i).intersections, isIt.neighbor = true ∧ isIt.outside = c)) := by
  unfold addIndicesOf
  rw [mem_addindex_fold, mem_addindex]
  constructor
  · rintro ((h | ⟨h1, h2⟩) | ⟨h1, h2⟩)
    · exact Or.inl h
    · exact Or.inr ⟨h1, Or.inl h2⟩
    · exact Or.inr ⟨h1, Or.inr h2⟩
  · rintro (h | ⟨h1, h2 | h2⟩)
    · exact Or.inl (Or.inl h)
    · exact Or.inl (Or.inr ⟨h1, h2⟩)
    · exact Or.inr ⟨h1, h2⟩

theorem mem_addIndicesOf_fold (pb : Problem) (A : BCRSMatrix) (n r c : Nat) :
    c ∈ ((List.range n).foldl (addIndicesOf pb) A).index r
      ↔ c ∈ A.index r ∨ (r < n ∧ (c = r ∨
          ∃ isIt ∈ (pb.element r).intersections, isIt.neighbor = true ∧ isIt.outside = c)) := by
  induction n with
  | zero => simp
  | succ n ih =>
    simp only [List.range_succ, List.foldl_append, List.foldl_cons, List.foldl_nil]
    rw [mem_addIndicesOf, ih]
    constructor
    · rintro ((h | ⟨h1, h2⟩) | ⟨h1, h2⟩)
      · exact Or.inl h
      · exact Or.inr ⟨by omega, h2⟩
      · subst h1
        exact Or.inr ⟨by omega, h2⟩
    · rintro (h | ⟨h1, h2⟩)
      · exact Or.inl (Or.inl h)
      · by_cases hr : r = n
        · subst hr
          exact Or.inr ⟨rfl, h2⟩
        · exact Or.inl (Or.inr ⟨by omega, h2⟩)

theorem setrowsize_fold_index (pb : Problem) (A : BCRSMatrix) (n : Nat) :
    ((List.range n).foldl (fun B i => B.setrowsize i (rowSizeOf pb i)) A).index = A.index := by
  induction n with
  | zero => rfl
  | succ n ih =>
    simp only [List.range_succ, List.foldl_append, List.foldl_cons, List.foldl_nil]
    exact ih

/-- The column indices `initializeMatrix` stores in row `r` of a fresh matrix. -/
theorem mem_initializeMatrix_index (pb : Problem) (r c : Nat) :
    c ∈ (initializeMatrix pb BCRSMatrix.fresh).index r
      ↔ r < pb.gridSize ∧ (c = r ∨
          ∃ isIt ∈ (pb.element r).intersections, isIt.neighbor = true ∧ isIt.outside = c) := by
  unfold initializeMatrix
  simp only
  rw [mem_addIndicesOf_fold, setrowsize_fold_index]
  simp [BCRSMatrix.fresh]

/-- The grid traversal writes the matrix only at `(r, r)` and `(r, outside)` for
the cells `r` of the grid and their interior faces. -/
theorem gridTraversal_val_of_ne (tt : TypeTag) (pb : Problem) (first : Bool)
    (m : FVPressure2P) (r c : Nat)
    (h : ¬ (r < pb.gridSize ∧ (c = r ∨
      ∃ isIt ∈ (pb.element r).intersections, isIt.neighbor = true ∧ isIt.outside = c))) :
    (gridTraversal tt pb first m).A_.val r c = m.A_.val r c := by
  unfold gridTraversal
  by_cases hr : r < pb.gridSize
  · obtain ⟨-, -, -, -, hA⟩ := (gridTraversal_fold_rowAgree tt pb first m pb.gridSize r).1 hr
    rw [hA, assembleElement_eq]
    simp only
    rw [intersectionLoop_val_of_ne tt pb first r _ r c (fun hh => h ⟨hr, hh.2⟩)]
  · obtain ⟨-, -, -, -, hA⟩ :=
      (gridTraversal_fold_rowAgree tt pb first m pb.gridSize r).2 (by omega)
    rw [hA]

/-- Claim C10. After `initializeMatrix` the column indices stored in row `i` of a
cell `i` are exactly `i` and the ids of the cells behind the interior faces of
`i`; and the grid traversal of `assemble`, started from arbitrary matrix values,
changes no value outside this pattern and leaves the pattern itself as it is. -/
theorem sparsity_pattern (tt : TypeTag) (pb : Problem) (first : Bool) :
    (∀ i c, i < pb.gridSize →
      (c ∈ (initializeMatrix pb BCRSMatrix.fresh).index i
        ↔ c = i ∨ ∃ isIt ∈ (pb.element i).intersections,
            isIt.neighbor = true ∧ isIt.outside = c)) ∧
    (∀ (m : FVPressure2P) (t : Scalar) (r c : Nat),
      m.A_.index = (initializeMatrix pb BCRSMatrix.fresh).index → c ∉ m.A_.index r →
      (gridTraversal tt pb first m).A_.val r c = m.A_.val r c ∧
      (assemble tt pb first t m).A_.val r c = 0 ∧
      (assemble tt pb first t m).A_.index = m.A_.index) := by
  constructor
  · intro i c hi
    rw [mem_initializeMatrix_index]
    exact ⟨fun h => h.2, fun h => ⟨hi, h⟩⟩
  · intro m t r c hidx hc
    rw [hidx, mem_initializeMatrix_index] at hc
    refine ⟨gridTraversal_val_of_ne tt pb first m r c hc, ?_, ?_⟩
    · unfold assemble
      rw [gridTraversal_val_of_ne tt pb first _ r c hc]
    · exact (assemble_sameFrame tt pb first t m).2.2.1

/-- Witness for C10 on the example grid: row 0 stores the columns 0 and 1, not
the column 5, and the traversal leaves the value at `(0, 5)` alone. -/
theorem sparsity_pattern_witness :
    (0 ∈ (initializeMatrix twoCells BCRSMatrix.fresh).index 0 ∧
      1 ∈ (initializeMatrix twoCells BCRSMatrix.fresh).index 0) ∧
    5 ∉ twoCellsModel.A_.index 0 ∧
    (gridTraversal ttIncompressible twoCells true twoCellsModel).A_.val 0 5
      = twoCellsModel.A_.val 0 5 := by
  have h0 : (0 : Nat) < twoCells.gridSize := by decide
  have h5 : 5 ∉ twoCellsModel.A_.index 0 := by
    intro h
    have := ((sparsity_pattern ttIncompressible twoCells true).1 0 5 h0).mp h
    simp [twoCells, twoCellsElement] at this
  refine ⟨⟨?_, ?_⟩, h5, ?_⟩
  · exact ((sparsity_pattern ttIncompressible twoCells true).1 0 0 h0).mpr (Or.inl rfl)
  · refine ((sparsity_pattern ttIncompressible twoCells true).1 0 1 h0).mpr (Or.inr ?_)
    simp [twoCells, twoCellsElement]
  · exact ((sparsity_pattern ttIncompressible twoCells true).2 twoCellsModel 0 0 5 rfl h5).1

/-! ### The two sides of an interior face -/

theorem dot_congr (dim : Nat) {u u1 w w1 : FieldVector} (hu : ∀ x, x < dim → u x = u1 x)
    (hw : ∀ x, x < dim → w x = w1 x) : dot dim u w = dot dim u1 w1 := by
  unfold dot
  refine Finset.sum_congr rfl (fun x hx => ?_)
  rw [hu x (Finset.mem_range.mp hx), hw x (Finset.mem_range.mp hx)]

theorem dot_neg_left (dim : Nat) (u w : FieldVector) :
    dot dim (fun x => -u x) w = -dot dim u w := by
  unfold dot
  rw [← Finset.sum_neg_distrib]
  exact Finset.sum_congr rfl (fun x _ => by ring)

theorem dot_neg_right (dim : Nat) (u w : FieldVector) :
    dot dim u (fun x => -w x) = -dot dim u w := by
  unfold dot
  rw [← Finset.sum_neg_distrib]
  exact Finset.sum_congr rfl (fun x _ => by ring)

theorem dot_eq_zero_of_right (dim : Nat) (u w : FieldVector) (h : ∀ x, x < dim → w x = 0) :
    dot dim u w = 0 := by
  unfold dot
  exact Finset.sum_eq_zero (fun x hx => by rw [h x (Finset.mem_range.mp hx), mul_zero])

theorem upwind_neg (p a b : Scalar) : upwind (-p) b a = upwind p a b := by
  unfold upwind
  by_cases h0 : p = 0
  · simp [h0, add_comm]
  · have h1 : -p ≠ 0 := neg_ne_zero.mpr h0
    rw [if_neg h1, if_neg h0]
    rcases lt_or_gt_of_ne h0 with h | h
    · have h2 : -p > 0 := neg_pos.mpr h
      have h3 : ¬ p > 0 := not_lt.mpr (le_of_lt h)
      rw [if_pos h2, if_neg h3]
    · have h2 : ¬ -p > 0 := not_lt.mpr (le_of_lt (neg_neg_of_pos h))
      rw [if_neg h2, if_pos h]

theorem meanPermeability_comm (K1 K2 : FieldMatrix) :
    meanPermeability K1 K2 = meanPermeability K2 K1 := by
  funext x y
  unfold meanPermeability
  by_cases h1 : K1 x y = 0 <;> by_cases h2 : K2 x y = 0 <;> simp [h1, h2]
  rw [mul_right_comm, add_comm]

theorem unitDist_mirror (pb : Problem) (i j : Nat) (h : centreDist pb j i = centreDist pb i j) :
    unitDist pb j i = fun x => -unitDist pb i j x := by
  funext x
  simp only [unitDist, h]
  ring

theorem facePermeability_mirror (tt : TypeTag) (pb : Problem) (i j : Nat)
    (h : centreDist pb j i = centreDist pb i j) :
    facePermeability tt pb j i = fun x => -facePermeability tt pb i j x := by
  funext x
  simp only [facePermeability, mv, unitDist_mirror pb i j h, meanPermeability_comm
    (pb.intrinsicPermeability (pb.element j).globalPos j)]
  rw [← Finset.sum_neg_distrib]
  exact Finset.sum_congr rfl (fun y _ => by ring)

theorem gradW_mirror (tt : TypeTag) (pb : Problem) (v : Variables) (i j : Nat)
    (h : centreDist pb j i = centreDist pb i j) : gradW tt pb v j i = -gradW tt pb v i j := by
  obtain ⟨dim, comp, pt, st⟩ := tt
  cases pt <;> simp only [gradW, h] <;> ring

theorem gradNW_mirror (tt : TypeTag) (pb : Problem) (v : Variables) (i j : Nat)
    (h : centreDist pb j i = centreDist pb i j) : gradNW tt pb v j i = -gradNW tt pb v i j := by
  obtain ⟨dim, comp, pt, st⟩ := tt
  cases pt <;> simp only [gradNW, h] <;> ring

theorem capillaryTerm_mirror (tt : TypeTag) (pb : Problem) (v : Variables) (i j : Nat)
    (a : Scalar) (h : centreDist pb j i = centreDist pb i j) :
    capillaryTerm tt pb v j i a = -capillaryTerm tt pb v i j a := by
  have hk := facePermeability_mirror tt pb i j h
  have hd := unitDist_mirror pb i j h
  have hfun : (fun x => unitDist pb j i x
      * ((v.capillaryPressure j - v.capillaryPressure i) / centreDist pb j i))
      = fun x => unitDist pb i j x
        * ((v.capillaryPressure i - v.capillaryPressure j) / centreDist pb i j) := by
    funext x
    rw [hd, h]
    ring
  obtain ⟨dim, comp, pt, st⟩ := tt
  cases pt
  · simp only [capillaryTerm, hfun, hk, dot_neg_left]
    ring
  · simp only [capillaryTerm, hfun, hk, dot_neg_left]
    ring
  · simp [capillaryTerm]

/-- The two sides of an interior face of a conforming mesh, under symmetric
upwinding: opposite potentials, the same matrix entry, opposite right-hand-side
terms, the same product of normal and distance vector. -/
theorem interiorFace_mirror (tt : TypeTag) (pb : Problem) (v : Variables) (first : Bool)
    (i k j k1 : Nat) (isIt isJt : Intersection) (hm : MirrorFaces tt pb i k j k1 isIt isJt)
    (hs : SymmetricUpwind tt pb v first i k j k1) :
    (interiorFace tt pb v first j k1 isJt).potentialW
      = -(interiorFace tt pb v first i k isIt).potentialW ∧
    (interiorFace tt pb v first j k1 isJt).potentialNW
      = -(interiorFace tt pb v first i k isIt).potentialNW ∧
    (interiorFace tt pb v first j k1 isJt).entry = (interiorFace tt pb v first i k isIt).entry ∧
    (interiorFace tt pb v first j k1 isJt).rightEntry
      = -(interiorFace tt pb v first i k isIt).rightEntry ∧
    (interiorFace tt pb v first j k1 isJt).normalDist
      = (interiorFace tt pb v first i k isIt).normalDist := by
  obtain ⟨-, -, -, hoI, -, hoJ, harea, hnormal, hdist⟩ := hm
  have hd := unitDist_mirror pb i j hdist
  have hk := facePermeability_mirror tt pb i j hdist
  have hnd : dot tt.dim isJt.unitOuterNormal (unitDist pb j i)
      = dot tt.dim isIt.unitOuterNormal (unitDist pb i j) := by
    rw [dot_congr tt.dim hnormal (fun x _ => congrFun hd x), dot_neg_left, dot_neg_right, neg_neg]
  have hkd : dot tt.dim (facePermeability tt pb j i) (unitDist pb j i)
      = dot tt.dim (facePermeability tt pb i j) (unitDist pb i j) := by
    rw [hk, hd, dot_neg_left, dot_neg_right, neg_neg]
  have hkg : dot tt.dim (facePermeability tt pb j i) pb.gravity
      = -dot tt.dim (facePermeability tt pb i j) pb.gravity := by
    rw [hk, dot_neg_left]
  have hdg : dot tt.dim (unitDist pb j i) pb.gravity
      = -dot tt.dim (unitDist pb i j) pb.gravity := by
    rw [hd, dot_neg_left]
  have hpW : (interiorFace tt pb v first j k1 isJt).potentialW
      = -(interiorFace tt pb v first i k isIt).potentialW := by
    rw [interiorFace_potentialW, interiorFace_potentialW, hoI, hoJ]
    cases first
    · simp only [Bool.false_eq_true, if_false]
      rw [gradW_mirror tt pb v i j hdist, hdg]
      rcases hs with h | h | h
      · exact absurd h (by decide)
      · rw [dot_eq_zero_of_right tt.dim _ _ h]
        ring
      · rw [h.1, upwind_neg]
        ring
    · simp
  have hpN : (interiorFace tt pb v first j k1 isJt).potentialNW
      = -(interiorFace tt pb v first i k isIt).potentialNW := by
    rw [interiorFace_potentialNW, interiorFace_potentialNW, hoI, hoJ]
    cases first
    · simp only [Bool.false_eq_true, if_false]
      rw [gradNW_mirror tt pb v i j hdist, hdg]
      rcases hs with h | h | h
      · exact absurd h (by decide)
      · rw [dot_eq_zero_of_right tt.dim _ _ h]
        ring
      · rw [h.2, upwind_neg]
        ring
    · simp
  refine ⟨hpW, hpN, ?_, ?_, ?_⟩
  · rw [interiorFace_entry, interiorFace_entry, hpW, hpN, hoI, hoJ, upwind_neg, upwind_neg,
      hkd, hnd, hdist, harea]
  · rw [interiorFace_rightEntry, interiorFace_rightEntry, hpW, hpN, hoI, hoJ, upwind_neg,
      upwind_neg, upwind_neg, upwind_neg, hkg, harea, capillaryTerm_mirror tt pb v i j _ hdist]
    ring
  · rw [interiorFace_normalDist, interiorFace_normalDist, hoI, hoJ, hnd]

/-- An interior face towards another cell adds its entry to the diagonal. -/
theorem assembleIntersection_val_diag (tt : TypeTag) (pb : Problem) (first : Bool) (i : Nat)
    (m : FVPressure2P) (k : Nat) (isIt : Intersection) (hn : isIt.neighbor = true)
    (ho : isIt.outside ≠ i) :
    (assembleIntersection tt pb first i m k isIt).A_.val i i
      = m.A_.val i i + (interiorFace tt pb m.variables_ first i k isIt).entry := by
  unfold assembleIntersection
  rw [if_pos hn]
  simp [BCRSMatrix.add, BCRSMatrix.set, Function.update_noteq ho.symm]

/-- The example grid is conforming at its interior face. -/
theorem twoCells_mirrorFaces (tt : TypeTag) :
    MirrorFaces tt twoCells 0 1 1 0 twoCellsFace01 twoCellsFace10 := by
  refine ⟨rfl, rfl, rfl, rfl, rfl, rfl, rfl, ?_, ?_⟩
  · intro x _
    simp [twoCellsFace01, twoCellsFace10]
  · simp only [centreDist, twoCells, twoCellsElement]
    norm_num [abs_of_pos, abs_of_neg]

/-- Claim C6. On a conforming mesh with zero gravity, where the cells `i ≠ j` share
exactly one face (intersection `k` of `i`, intersection `k1` of `j`), after
`assemble` the entries `(i, j)` and `(j, i)` are equal, and each is minus the
transmissibility `T` of the face, which is the same from both sides and is what
the face adds to the diagonal entries `(i, i)` and `(j, j)`; `first` is
arbitrary. -/
theorem transmissibility_symmetric (tt : TypeTag) (pb : Problem) (first : Bool) (t : Scalar)
    (m : FVPressure2P) (i k j k1 : Nat) (isIt isJt : Intersection)
    (hi : i < pb.gridSize) (hj : j < pb.gridSize) (hij : i ≠ j)
    (hm : MirrorFaces tt pb i k j k1 isIt isJt)
    (honlyI : ∀ q f, (pb.element i).intersections[q]? = some f → f.neighbor = true →
      f.outside = j → q = k)
    (honlyJ : ∀ q f, (pb.element j).intersections[q]? = some f → f.neighbor = true →
      f.outside = i → q = k1)
    (hg : ∀ x, x < tt.dim → pb.gravity x = 0) :
    (assemble tt pb first t m).A_.val i j
      = -(interiorFace tt pb m.variables_ first i k isIt).entry ∧
    (assemble tt pb first t m).A_.val j i
      = -(interiorFace tt pb m.variables_ first j k1 isJt).entry ∧
    (interiorFace tt pb m.variables_ first j k1 isJt).entry
      = (interiorFace tt pb m.variables_ first i k isIt).entry ∧
    (assemble tt pb first t m).A_.val i j = (assemble tt pb first t m).A_.val j i ∧
    (∀ m0 : FVPressure2P, (assembleIntersection tt pb first i m0 k isIt).A_.val i i
      = m0.A_.val i i + (interiorFace tt pb m0.variables_ first i k isIt).entry) ∧
    (∀ m0 : FVPressure2P, (assembleIntersection tt pb first j m0 k1 isJt).A_.val j j
      = m0.A_.val j j + (interiorFace tt pb m0.variables_ first j k1 isJt).entry) := by
  have hmir := interiorFace_mirror tt pb m.variables_ first i k j k1 isIt isJt hm
    (Or.inr (Or.inl hg))
  obtain ⟨hqI, hqJ, hnI, hoI, hnJ, hoJ, -⟩ := hm
  have hA : (assemble tt pb first t m).A_.val i j
      = -(interiorFace tt pb m.variables_ first i k isIt).entry :=
    assemble_val_outside tt pb first t m i j hi (Ne.symm hij) k isIt hqI hnI hoI
      (fun q1 f hq1 hf hfn hfo => by have := honlyI q1 f hf hfn hfo; omega)
  have hB : (assemble tt pb first t m).A_.val j i
      = -(interiorFace tt pb m.variables_ first j k1 isJt).entry :=
    assemble_val_outside tt pb first t m j i hj hij k1 isJt hqJ hnJ hoJ
      (fun q1 f hq1 hf hfn hfo => by have := honlyJ q1 f hf hfn hfo; omega)
  refine ⟨hA, hB, hmir.2.2.1, ?_, ?_, ?_⟩
  · rw [hA, hB, hmir.2.2.1]
  · intro m0
    exact assembleIntersection_val_diag tt pb first i m0 k isIt hnI (by rw [hoI]; exact Ne.symm hij)
  · intro m0
    exact assembleIntersection_val_diag tt pb first j m0 k1 isJt hnJ (by rw [hoJ]; exact hij)

/-- Witness for C6: the interior face of the example grid, `first = false`. -/
theorem transmissibility_symmetric_witness :
    (assemble ttIncompressible twoCells false 0 twoCellsModel).A_.val 0 1
      = (assemble ttIncompressible twoCells false 0 twoCellsModel).A_.val 1 0 := by
  have honly0 : ∀ q f, (twoCells.element 0).intersections[q]? = some f → f.neighbor = true →
      f.outside = 1 → q = 1 := by
    intro q f hq hn _
    match q with
    | 0 => simp [twoCells, twoCellsElement] at hq; subst hq; simp at hn
    | 1 => rfl
    | q + 2 => simp [twoCells, twoCellsElement] at hq
  have honly1 : ∀ q f, (twoCells.element 1).intersections[q]? = some f → f.neighbor = true →
      f.outside = 0 → q = 0 := by
    intro q f hq hn _
    match q with
    | 0 => rfl
    | 1 => simp [twoCells, twoCellsElement] at hq; subst hq; simp at hn
    | q + 2 => simp [twoCells, twoCellsElement] at hq
  exact (transmissibility_symmetric ttIncompressible twoCells false 0 twoCellsModel 0 1 1 0
    twoCellsFace01 twoCellsFace10 (by decide) (by decide) (by decide)
    (twoCells_mirrorFaces ttIncompressible) honly0 honly1 (fun _ _ => rfl)).2.2.2.1

/-! ### Dirichlet faces -/

/-- Without gravity and with the same capillary pressure in the cell and at the
boundary, the right-hand-side term `rightEntry` of a Dirichlet face vanishes. -/
theorem dirichletFace_rightEntry_eq_zero (tt : TypeTag) (pb : Problem) (v : Variables)
    (first : Bool) (i k : Nat) (isIt : Intersection)
    (hg : ∀ x, x < tt.dim → pb.gravity x = 0)
    (hpc : v.capillaryPressure i = (boundaryState tt pb v i k isIt).pcBound) :
    (dirichletFace tt pb v first i k isIt).rightEntry = 0 := by
  have h0 : ∀ u : FieldVector, dot tt.dim u pb.gravity = 0 :=
    fun u => dot_eq_zero_of_right tt.dim u pb.gravity hg
  have h1 : ∀ u : FieldVector, dot tt.dim u (fun _ => (0 : Scalar)) = 0 :=
    fun u => dot_eq_zero_of_right tt.dim u _ (fun _ _ => rfl)
  obtain ⟨dim, comp, pt, st⟩ := tt
  simp only at h0 h1
  cases pt <;>
    simp only [dirichletFace, hpc, sub_self, zero_div, h0, h1, mul_zero, zero_mul, add_zero,
      sub_zero, zero_add]

/-- What a Dirichlet face of cell `i` writes: its entry on the diagonal, and
`entry * pressBound - rightEntry * normalDist` on the right-hand side. -/
theorem assembleIntersection_dirichlet (tt : TypeTag) (pb : Problem) (first : Bool) (i : Nat)
    (m : FVPressure2P) (k : Nat) (isIt : Intersection) (hb : isIt.neighbor = false)
    (hd : pb.bctypePress isIt.globalPosFace i k = Flags.dirichlet) :
    (assembleIntersection tt pb first i m k isIt).A_.val i
      = Function.update (m.A_.val i) i
          (m.A_.val i i + (dirichletFace tt pb m.variables_ first i k isIt).entry) ∧
    (assembleIntersection tt pb first i m k isIt).f_ i
      = m.f_ i + (dirichletFace tt pb m.variables_ first i k isIt).entry
            * pb.dirichletPress isIt.globalPosFace i k
          - (dirichletFace tt pb m.variables_ first i k isIt).rightEntry
            * (dirichletFace tt pb m.variables_ first i k isIt).normalDist := by
  unfold assembleIntersection
  have hb1 : ¬ isIt.neighbor = true := by simp [hb]
  rw [if_neg hb1]
  dsimp only
  rw [if_pos hd]
  constructor
  · simp [BCRSMatrix.add]
  · simp [boundaryState]

/-- Claim C8. A Dirichlet pressure face of cell `i` whose boundary pressure is the
current pressure of the cell, with zero gravity and the same capillary pressure
in the cell and at the boundary, adds its transmissibility `T` to `A[i][i]`,
adds exactly `T * pressBound` to `f[i]`, and writes nothing else in row `i`;
`T * p_i` and `T * pressBound` cancel, so row `i` of `A p - f` is the same
before and after the face. -/
theorem dirichlet_face_zero_net_flux (tt : TypeTag) (pb : Problem) (first : Bool) (i : Nat)
    (m : FVPressure2P) (k : Nat) (isIt : Intersection) (hi : i < pb.gridSize)
    (hb : isIt.neighbor = false)
    (hd : pb.bctypePress isIt.globalPosFace i k = Flags.dirichlet)
    (hp : pb.dirichletPress isIt.globalPosFace i k = m.variables_.pressure i)
    (hg : ∀ x, x < tt.dim → pb.gravity x = 0)
    (hpc : m.variables_.capillaryPressure i
      = (boundaryState tt pb m.variables_ i k isIt).pcBound) :
    (assembleIntersection tt pb first i m k isIt).A_.val i i
      = m.A_.val i i + (dirichletFace tt pb m.variables_ first i k isIt).entry ∧
    (∀ c, c ≠ i → (assembleIntersection tt pb first i m k isIt).A_.val i c = m.A_.val i c) ∧
    (assembleIntersection tt pb first i m k isIt).f_ i
      = m.f_ i + (dirichletFace tt pb m.variables_ first i k isIt).entry
          * pb.dirichletPress isIt.globalPosFace i k ∧
    (dirichletFace tt pb m.variables_ first i k isIt).entry * m.variables_.pressure i
      - (dirichletFace tt pb m.variables_ first i k isIt).entry
          * pb.dirichletPress isIt.globalPosFace i k = 0 ∧
    (Finset.sum (Finset.range pb.gridSize) fun c =>
        (assembleIntersection tt pb first i m k isIt).A_.val i c * m.variables_.pressure c)
      - (assembleIntersection tt pb first i m k isIt).f_ i
      = (Finset.sum (Finset.range pb.gridSize) fun c => m.A_.val i c * m.variables_.pressure c)
        - m.f_ i := by
  obtain ⟨hA, hf⟩ := assembleIntersection_dirichlet tt pb first i m k isIt hb hd
  have hr := dirichletFace_rightEntry_eq_zero tt pb m.variables_ first i k isIt hg hpc
  rw [hr, zero_mul, sub_zero] at hf
  refine ⟨?_, ?_, hf, ?_, ?_⟩
  · rw [hA, Function.update_same]
  · intro c hc
    rw [hA, Function.update_noteq hc]
  · rw [hp, sub_self]
  · rw [hf, hA, hp]
    have hsum : (Finset.sum (Finset.range pb.gridSize) fun c =>
        Function.update (m.A_.val i) i
          (m.A_.val i i + (dirichletFace tt pb m.variables_ first i k isIt).entry) c
          * m.variables_.pressure c)
        = (Finset.sum (Finset.range pb.gridSize) fun c => m.A_.val i c * m.variables_.pressure c)
          + (dirichletFace tt pb m.variables_ first i k isIt).entry * m.variables_.pressure i := by
      have hmem : i ∈ Finset.range pb.gridSize := Finset.mem_range.mpr hi
      rw [← Finset.add_sum_erase _ _ hmem,
        ← Finset.add_sum_erase _ (fun c => m.A_.val i c * m.variables_.pressure c) hmem]
      have hrest : (Finset.sum ((Finset.range pb.gridSize).erase i) fun c =>
          Function.update (m.A_.val i) i
            (m.A_.val i i + (dirichletFace tt pb m.variables_ first i k isIt).entry) c
            * m.variables_.pressure c)
          = Finset.sum ((Finset.range pb.gridSize).erase i) fun c =>
            m.A_.val i c * m.variables_.pressure c :=
        Finset.sum_congr rfl (fun c hc => by
          rw [Function.update_noteq (Finset.ne_of_mem_erase hc)])
      rw [hrest, Function.update_same]
      ring
    rw [hsum]
    ring

/-- Witness for C8: the boundary face of cell 0 of the example grid with the
Dirichlet pressure 1, the pressure of the cell. -/
theorem dirichlet_face_zero_net_flux_witness :
    (Finset.sum (Finset.range twoCellsDirichlet.gridSize) fun c =>
        (assembleIntersection ttIncompressible twoCellsDirichlet false 0 twoCellsModelPc 0
          twoCellsBoundaryFace).A_.val 0 c * twoCellsModelPc.variables_.pressure c)
      - (assembleIntersection ttIncompressible twoCellsDirichlet false 0 twoCellsModelPc 0
          twoCellsBoundaryFace).f_ 0
      = (Finset.sum (Finset.range twoCellsDirichlet.gridSize) fun c =>
          twoCellsModelPc.A_.val 0 c * twoCellsModelPc.variables_.pressure c)
        - twoCellsModelPc.f_ 0 :=
  (dirichlet_face_zero_net_flux ttIncompressible twoCellsDirichlet false 0 twoCellsModelPc 0
    twoCellsBoundaryFace (by decide) rfl rfl rfl (fun _ _ => rfl)
    (by
      simp [boundaryState, twoCellsModelPc, twoCellsVariables, twoCellsDirichlet, twoCells,
        satWOf, ttIncompressible]
      norm_num)).2.2.2.2

/-! ### The sum of the right-hand side -/

theorem sumFaces_eq_sum (g : Nat → Intersection → Scalar) (faces : List Intersection) :
    ∀ k : Nat, sumFaces g faces k
      = Finset.sum (Finset.range faces.length) fun q =>
          match faces[q]? with
          | some isIt => g (k + q) isIt
          | none => 0 := by
  induction faces with
  | nil => intro k; simp [sumFaces]
  | cons f rest ih =>
    intro k
    simp only [sumFaces, List.length_cons]
    rw [Finset.sum_range_succ', ih (k + 1)]
    simp only [List.getElem?_cons_succ, List.getElem?_cons_zero, Nat.add_zero]
    rw [add_comm]
    congr 1
    refine Finset.sum_congr rfl (fun q _ => ?_)
    have hq : k + 1 + q = k + (q + 1) := by omega
    rw [hq]

theorem mem_allFaces (pb : Problem) (x : (_ : Nat) × Nat) :
    x ∈ allFaces pb ↔ x.1 < pb.gridSize ∧ x.2 < (pb.element x.1).intersections.length := by
  simp [allFaces, Finset.mem_sigma]

/-- With zero sources and no volume correction, the right-hand side of
`assemble` sums to the sum of the `faceRhs` terms of all intersections. -/
theorem assemble_f_sum (tt : TypeTag) (pb : Problem) (first : Bool) (t : Scalar)
    (m : FVPressure2P)
    (hsource : ∀ i ph, i < pb.gridSize → pb.source (pb.element i).globalPos i ph = 0)
    (hvol : tt.compressibility = false ∨
      ∀ i, i < pb.gridSize → m.variables_.volumecorrection i = 0) :
    Finset.sum (Finset.range pb.gridSize) (fun i => (assemble tt pb first t m).f_ i)
      = Finset.sum (allFaces pb) (faceRhsAt tt pb first m.variables_) := by
  unfold allFaces
  rw [Finset.sum_sigma]
  refine Finset.sum_congr rfl (fun i hi => ?_)
  have hi1 : i < pb.gridSize := Finset.mem_range.mp hi
  have hs : sourceRhs tt pb m.variables_ i = 0 := by
    simp [sourceRhs, hsource i _ hi1]
  have hv : volumeCorrectionRhs tt pb m.variables_ i = 0 := by
    rcases hvol with h | h
    · simp [volumeCorrectionRhs, h]
    · unfold volumeCorrectionRhs
      split_ifs
      · split <;> simp [h i hi1]
      · rfl
  rw [assemble_f tt pb first t m i hi1, hs, hv, sumFaces_eq_sum, zero_add, sub_zero]
  refine Finset.sum_congr rfl (fun q _ => ?_)
  simp only [faceRhsAt, Nat.zero_add]

/-- A Neumann face with zero fluxes adds nothing to the right-hand side. -/
theorem faceRhs_neumann_zero (tt : TypeTag) (pb : Problem) (first : Bool) (i : Nat)
    (v : Variables) (k : Nat) (isIt : Intersection) (hb : isIt.neighbor = false)
    (hbc : pb.bctypePress isIt.globalPosFace i k = Flags.neumann)
    (hJ : ∀ ph, pb.neumannPress isIt.globalPosFace i k ph = 0) :
    faceRhs tt pb first i v k isIt = 0 := by
  simp [faceRhs, hb, hbc, hJ]

/-- Claim C7, amended. On a conforming mesh whose boundary faces all are Neumann
faces with zero fluxes, with zero source terms, with no volume correction
(incompressible flow, or the stored volume correction zero in every cell), and
with symmetric upwinding (`first` set, or zero gravity, or opposite stored
potentials on the two sides of every interior face), the right-hand side built
by `assemble` sums to zero over all cells. -/
theorem closed_domain_rhs_sum_zero (tt : TypeTag) (pb : Problem) (first : Bool) (t : Scalar)
    (m : FVPressure2P) (mirror : Nat → Nat → Nat) (hconf : Conforming tt pb mirror)
    (hclosed : ∀ i k isIt, i < pb.gridSize → (pb.element i).intersections[k]? = some isIt →
      isIt.neighbor = false →
      pb.bctypePress isIt.globalPosFace i k = Flags.neumann ∧
      ∀ ph, pb.neumannPress isIt.globalPosFace i k ph = 0)
    (hsource : ∀ i ph, i < pb.gridSize → pb.source (pb.element i).globalPos i ph = 0)
    (hvol : tt.compressibility = false ∨
      ∀ i, i < pb.gridSize → m.variables_.volumecorrection i = 0)
    (hup : ∀ i k isIt, i < pb.gridSize → (pb.element i).intersections[k]? = some isIt →
      isIt.neighbor = true →
      SymmetricUpwind tt pb m.variables_ first i k isIt.outside (mirror i k)) :
    Finset.sum (Finset.range pb.gridSize) (fun i => (assemble tt pb first t m).f_ i) = 0 := by
  rw [assemble_f_sum tt pb first t m hsource hvol]
  have hsome : ∀ x ∈ allFaces pb, ∃ isIt, (pb.element x.1).intersections[x.2]? = some isIt := by
    intro x hx
    rw [mem_allFaces] at hx
    exact ⟨_, List.getElem?_eq_getElem hx.2⟩
  refine Finset.sum_involution (fun x _ => mirrorFace pb mirror x) ?_ ?_ ?_ ?_
  · intro x hx
    obtain ⟨isIt, hq⟩ := hsome x hx
    have hx1 := ((mem_allFaces pb x).mp hx).1
    by_cases hn : isIt.neighbor = true
    · obtain ⟨-, -, -, isJt, hmf⟩ := hconf x.1 x.2 isIt hx1 hq hn
      obtain ⟨-, -, -, hR, hN⟩ := interiorFace_mirror tt pb m.variables_ first x.1 x.2
        isIt.outside (mirror x.1 x.2) isIt isJt hmf (hup x.1 x.2 isIt hx1 hq hn)
      have hqJ := hmf.2.1
      have hnJ := hmf.2.2.2.2.1
      simp only [mirrorFace, hq, hn, if_true, faceRhsAt, hqJ, faceRhs, hnJ, hR, hN]
      ring
    · have hb : isIt.neighbor = false := by simpa using hn
      obtain ⟨hbc, hJ⟩ := hclosed x.1 x.2 isIt hx1 hq hb
      have h0 := faceRhs_neumann_zero tt pb first x.1 m.variables_ x.2 isIt hb hbc hJ
      simp [mirrorFace, hq, hb, faceRhsAt, h0]
  · intro x hx hne
    obtain ⟨isIt, hq⟩ := hsome x hx
    have hx1 := ((mem_allFaces pb x).mp hx).1
    by_cases hn : isIt.neighbor = true
    · obtain ⟨-, hoi, -, -⟩ := hconf x.1 x.2 isIt hx1 hq hn
      simp only [mirrorFace, hq, hn, if_true]
      intro heq
      exact hoi (congrArg Sigma.fst heq)
    · have hb : isIt.neighbor = false := by simpa using hn
      obtain ⟨hbc, hJ⟩ := hclosed x.1 x.2 isIt hx1 hq hb
      have h0 := faceRhs_neumann_zero tt pb first x.1 m.variables_ x.2 isIt hb hbc hJ
      exact absurd (by simp [faceRhsAt, hq, h0]) hne
  · intro x hx
    obtain ⟨isIt, hq⟩ := hsome x hx
    have hx1 := ((mem_allFaces pb x).mp hx).1
    by_cases hn : isIt.neighbor = true
    · obtain ⟨hlt, -, -, isJt, hmf⟩ := hconf x.1 x.2 isIt hx1 hq hn
      simp only [mirrorFace, hq, hn, if_true]
      rw [mem_allFaces]
      refine ⟨hlt, ?_⟩
      have hqJ := hmf.2.1
      by_contra hge
      rw [List.getElem?_eq_none (Nat.le_of_not_lt hge)] at hqJ
      exact absurd hqJ (by simp)
    · have hb : isIt.neighbor = false := by simpa using hn
      simpa [mirrorFace, hq, hb] using hx
  · intro x hx
    obtain ⟨isIt, hq⟩ := hsome x hx
    have hx1 := ((mem_allFaces pb x).mp hx).1
    by_cases hn : isIt.neighbor = true
    · obtain ⟨-, -, hmm, isJt, hmf⟩ := hconf x.1 x.2 isIt hx1 hq hn
      have hqJ := hmf.2.1
      have hnJ := hmf.2.2.2.2.1
      have hoJ := hmf.2.2.2.2.2.1
      simp only [mirrorFace, hq, hn, if_true, hqJ, hnJ, hoJ, hmm]
    · have hb : isIt.neighbor = false := by simpa using hn
      simp [mirrorFace, hq, hb]

/-- Every problem on the example grid is conforming. -/
theorem conforming_of_twoCells (tt : TypeTag) (pb : Problem) (h1 : pb.element = twoCellsElement)
    (h2 : pb.two_norm = fun v => |v 0|) (h3 : pb.gridSize = 2) :
    Conforming tt pb twoCellsMirror := by
  have hdist : centreDist pb 1 0 = centreDist pb 0 1 := by
    simp only [centreDist, h1, h2, twoCellsElement]
    norm_num [abs_of_pos, abs_of_neg]
  intro i k isIt hi hq hn
  rw [h3] at hi
  rw [h1] at hq
  match i, k, hi with
  | 0, 0, _ =>
    simp [twoCellsElement] at hq
    subst hq
    simp at hn
  | 0, 1, _ =>
    simp [twoCellsElement] at hq
    subst hq
    refine ⟨by rw [h3]; decide, by decide, rfl, twoCellsFace10, ?_⟩
    refine ⟨by rw [h1]; rfl, by rw [h1]; rfl, rfl, rfl, rfl, rfl, rfl, ?_, hdist⟩
    intro x _
    simp [twoCellsFace10]
  | 0, k + 2, _ => simp [twoCellsElement] at hq
  | 1, 0, _ =>
    simp [twoCellsElement] at hq
    subst hq
    refine ⟨by rw [h3]; decide, by decide, rfl, twoCellsFace01, ?_⟩
    refine ⟨by rw [h1]; rfl, by rw [h1]; rfl, rfl, rfl, rfl, rfl, rfl, ?_, hdist.symm⟩
    intro x _
    simp [twoCellsFace01]
  | 1, 1, _ =>
    simp [twoCellsElement] at hq
    subst hq
    simp at hn
  | 1, k + 2, _ => simp [twoCellsElement] at hq

/-- The hypothesis on the stored potentials is needed for the sum over an
arbitrary state: on the example grid with gravity 1, incompressible flow and
`first = false`, a store that holds 1 on both sides of the interior face gives
`f = (-2, 1)`, which sums to -1. Such a store is not opposite across the face, so
no call of `assemble` on an empty store leads to it. -/
theorem rhs_sum_of_unbalanced_store :
    Conforming ttIncompressible twoCellsGravity twoCellsMirror ∧
    (∀ x i k, twoCellsGravity.bctypePress x i k = Flags.neumann) ∧
    (∀ x i k ph, twoCellsGravity.neumannPress x i k ph = 0) ∧
    (∀ x i ph, twoCellsGravity.source x i ph = 0) ∧
    (assemble ttIncompressible twoCellsGravity false 0 tiltedModel).f_ 0 = -2 ∧
    (assemble ttIncompressible twoCellsGravity false 0 tiltedModel).f_ 1 = 1 ∧
    Finset.sum (Finset.range twoCellsGravity.gridSize)
      (fun i => (assemble ttIncompressible twoCellsGravity false 0 tiltedModel).f_ i) = -1 := by
  have h0 : (assemble ttIncompressible twoCellsGravity false 0 tiltedModel).f_ 0 = -2 := by
    rw [assemble_f ttIncompressible twoCellsGravity false 0 tiltedModel 0 (by decide)]
    simp [sumFaces, faceRhs, interiorFace, sourceRhs, volumeCorrectionRhs, twoCellsGravity,
      twoCells, twoCellsElement, tiltedModel, tiltedVariables, ttIncompressible, dot, mv,
      meanPermeability]
    norm_num [abs_of_pos]
  have h1 : (assemble ttIncompressible twoCellsGravity false 0 tiltedModel).f_ 1 = 1 := by
    rw [assemble_f ttIncompressible twoCellsGravity false 0 tiltedModel 1 (by decide)]
    simp [sumFaces, faceRhs, interiorFace, sourceRhs, volumeCorrectionRhs, twoCellsGravity,
      twoCells, twoCellsElement, tiltedModel, tiltedVariables, ttIncompressible, dot, mv,
      meanPermeability]
    norm_num [abs_of_neg]
  refine ⟨conforming_of_twoCells _ _ rfl rfl rfl, fun _ _ _ => rfl, fun _ _ _ _ => rfl,
    fun _ _ _ => rfl, h0, h1, ?_⟩
  have hn : twoCellsGravity.gridSize = 2 := rfl
  rw [hn, Finset.sum_range_succ, Finset.sum_range_one, h0, h1]
  norm_num

/-- Claim C7 fails as stated. The example grid is conforming and closed (every
boundary face is a Neumann face with zero fluxes) and has no sources or gravity.
Compressible flow, pressure 1, saturation 1/2 and capillary pressure 1/2 in both
cells, an empty potential store, and the volume correction 1 handed over for both
cells: `updateMaterialLaws` stores the densities 2 and 5/2, and `assemble` then
builds `f = (1/10, 1/10)`, which sums to 1/5, for `first = true` and for
`first = false`. -/
theorem closed_domain_rhs_sum_with_volume_correction :
    Conforming ttCompressible twoCells twoCellsMirror ∧
    (∀ x i k, twoCells.bctypePress x i k = Flags.neumann) ∧
    (∀ x i k ph, twoCells.neumannPress x i k ph = 0) ∧
    (∀ x i ph, twoCells.source x i ph = 0) ∧
    (∀ i, i < twoCells.gridSize →
      (updateMaterialLaws ttCompressible twoCells twoCellsCorrected).variables_.densityWetting i
          = 2 ∧
        (updateMaterialLaws ttCompressible twoCells
          twoCellsCorrected).variables_.densityNonwetting i = 5 / 2 ∧
        (updateMaterialLaws ttCompressible twoCells
          twoCellsCorrected).variables_.volumecorrection i = 1) ∧
    (∀ first : Bool,
      (assemble ttCompressible twoCells first 0
        (updateMaterialLaws ttCompressible twoCells twoCellsCorrected)).f_ 0 = 1 / 10 ∧
      (assemble ttCompressible twoCells first 0
        (updateMaterialLaws ttCompressible twoCells twoCellsCorrected)).f_ 1 = 1 / 10 ∧
      Finset.sum (Finset.range twoCells.gridSize)
        (fun i => (assemble ttCompressible twoCells first 0
          (updateMaterialLaws ttCompressible twoCells twoCellsCorrected)).f_ i) = 1 / 5) := by
  refine ⟨conforming_of_twoCells _ _ rfl rfl rfl, fun _ _ _ => rfl, fun _ _ _ _ => rfl,
    fun _ _ _ => rfl, ?_, ?_⟩
  · intro i hi
    have hi2 : i < 2 := hi
    interval_cases i
    · simp [updateMaterialLaws, updateMaterialLawsCell, twoCells, twoCellsCorrected,
        twoCellsModelPc, twoCellsModel, twoCellsVariables, ttCompressible, satWOf,
        twoCellsElement, List.range_succ]
      norm_num
    · simp [updateMaterialLaws, updateMaterialLawsCell, twoCells, twoCellsCorrected,
        twoCellsModelPc, twoCellsModel, twoCellsVariables, ttCompressible, satWOf,
        twoCellsElement, List.range_succ]
      norm_num
  · intro first
    have h0 : (assemble ttCompressible twoCells first 0
        (updateMaterialLaws ttCompressible twoCells twoCellsCorrected)).f_ 0 = 1 / 10 := by
      rw [assemble_f ttCompressible twoCells first 0 _ 0 (by decide)]
      cases first <;>
      · simp [sumFaces, faceRhs, interiorFace, sourceRhs, volumeCorrectionRhs,
          updateMaterialLaws, updateMaterialLawsCell, twoCells, twoCellsCorrected,
          twoCellsModelPc, twoCellsModel, twoCellsVariables, ttCompressible, satWOf,
          twoCellsElement, List.range_succ, dot, mv, meanPermeability]
        norm_num
    have h1 : (assemble ttCompressible twoCells first 0
        (updateMaterialLaws ttCompressible twoCells twoCellsCorrected)).f_ 1 = 1 / 10 := by
      rw [assemble_f ttCompressible twoCells first 0 _ 1 (by decide)]
      cases first <;>
      · simp [sumFaces, faceRhs, interiorFace, sourceRhs, volumeCorrectionRhs,
          updateMaterialLaws, updateMaterialLawsCell, twoCells, twoCellsCorrected,
          twoCellsModelPc, twoCellsModel, twoCellsVariables, ttCompressible, satWOf,
          twoCellsElement, List.range_succ, dot, mv, meanPermeability]
        norm_num
    refine ⟨h0, h1, ?_⟩
    have hn : twoCells.gridSize = 2 := rfl
    rw [hn, Finset.sum_range_succ, Finset.sum_range_one, h0, h1]
    norm_num

/-! ### Configuration errors of solve -/

theorem solve_eq_solveState (pb : Problem) (m : FVPressure2P) :
    solve pb m =
      match (solveState pb m).2 with
      | none => Except.ok (solveState pb m).1
      | some e => Except.error e := by
  unfold solve solveState
  split_ifs <;> rfl

theorem solveState_fst_eq_solved (pb : Problem) (m : FVPressure2P) :
    (solveState pb m).1 = solved pb m := by
  unfold solved solve solveState
  split_ifs <;> rfl

theorem solveState_unchanged_of_thrown (pb : Problem) (m : FVPressure2P) (e : Exception)
    (h : (solveState pb m).2 = some e) : (solveState pb m).1 = m := by
  unfold solveState at h ⊢
  split_ifs at h ⊢ <;> rfl

theorem applyStep_names (tt : TypeTag) (pb : Problem) (t : Scalar) (m : FVPressure2P)
    (s : Step) :
    (applyStep tt pb t m s).preconditionerName_ = m.preconditionerName_ ∧
    (applyStep tt pb t m s).solverName_ = m.solverName_ := by
  cases s with
  | updateMaterialLaws => exact ⟨rfl, rfl⟩
  | assemble first =>
    obtain ⟨g2, g1, -⟩ := assemble_sameFrame tt pb first t m
    exact ⟨g1, g2⟩
  | solve =>
    simp only [applyStep, solveState_fst_eq_solved]
    exact solved_names pb m

theorem foldl_applyStep_names (tt : TypeTag) (pb : Problem) (t : Scalar) (steps : List Step) :
    ∀ m : FVPressure2P,
      (steps.foldl (applyStep tt pb t) m).preconditionerName_ = m.preconditionerName_ ∧
      (steps.foldl (applyStep tt pb t) m).solverName_ = m.solverName_ := by
  induction steps with
  | nil => intro m; exact ⟨rfl, rfl⟩
  | cons s rest ih =>
    intro m
    obtain ⟨h1, h2⟩ := ih (applyStep tt pb t m s)
    obtain ⟨g1, g2⟩ := applyStep_names tt pb t m s
    exact ⟨h1.trans g1, h2.trans g2⟩

theorem solve_error_iff (pb : Problem) (m : FVPressure2P) :
    (∃ what, solve pb m = Except.error (Exception.NotImplemented what)) ↔
      ¬ ((m.preconditionerName_ = "SeqILU0" ∧ m.solverName_ = "CG") ∨
         (m.preconditionerName_ = "SeqILU0" ∧ m.solverName_ = "BiCGSTAB") ∨
         (m.preconditionerName_ = "SeqPardiso" ∧ m.solverName_ = "Loop")) := by
  unfold solve
  by_cases hp : m.preconditionerName_ = "SeqILU0"
  · by_cases hs : m.solverName_ = "CG"
    · simp [hp, hs]
    · by_cases hs2 : m.solverName_ = "BiCGSTAB"
      · simp [hp, hs2]
      · simp [hp, hs, hs2]
  · by_cases hp2 : m.preconditionerName_ = "SeqPardiso"
    · by_cases hs : m.solverName_ = "Loop"
      · simp [hp2, hs]
      · simp [hp2, hs]
    · simp [hp, hp2]

/-- Claim C11. For every object, `solve` ends in the exception `NotImplemented`
exactly when the pair of preconditioner name and solver name is none of
(SeqILU0, CG), (SeqILU0, BiCGSTAB), (SeqPardiso, Loop). `solveState` is the call
together with the object it leaves behind: when the call throws, the whole
object, the pressure field included, is as it was. An object built by the
one-argument constructor keeps its two names through every sequence of
Law-Update, assemble and solve calls, and `solve` returns normally on it. -/
theorem solve_throws_iff_unsupported (tt : TypeTag) (pb : Problem) (t : Scalar)
    (m : FVPressure2P) :
    ((∃ what, solve pb m = Except.error (Exception.NotImplemented what)) ↔
      ¬ ((m.preconditionerName_ = "SeqILU0" ∧ m.solverName_ = "CG") ∨
         (m.preconditionerName_ = "SeqILU0" ∧ m.solverName_ = "BiCGSTAB") ∨
         (m.preconditionerName_ = "SeqPardiso" ∧ m.solverName_ = "Loop"))) ∧
    (solve pb m =
      match (solveState pb m).2 with
      | none => Except.ok (solveState pb m).1
      | some e => Except.error e) ∧
    (∀ e, (solveState pb m).2 = some e →
      (solveState pb m).1 = m ∧
      (solveState pb m).1.variables_.pressure = m.variables_.pressure) ∧
    (∀ (vars : Variables) (A0 : Nat → Nat → Scalar) (f0 : BlockVector) (steps : List Step),
      ∃ m1, solve pb (steps.foldl (applyStep tt pb t) (FVPressure2P.ofProblem pb vars A0 f0))
        = Except.ok m1) := by
  refine ⟨solve_error_iff pb m, solve_eq_solveState pb m, ?_, ?_⟩
  · intro e he
    have h := solveState_unchanged_of_thrown pb m e he
    exact ⟨h, by rw [h]⟩
  · intro vars A0 f0 steps
    obtain ⟨h1, h2⟩ :=
      foldl_applyStep_names tt pb t steps (FVPressure2P.ofProblem pb vars A0 f0)
    refine ⟨_, solve_eq_ok_solved pb _ ?_⟩
    rw [h1, h2]
    rfl

/-- Witness for C11 on the two-cell example with the solver name `GMRES`: the
call throws and leaves the object as it was. -/
theorem solve_throws_iff_unsupported_witness :
    (solveState twoCells { twoCellsModel with solverName_ := "GMRES" }).2
      = some (Exception.NotImplemented
          "FVPressure2P :: solve : combination SeqILU0 and GMRES.") ∧
    (solveState twoCells { twoCellsModel with solverName_ := "GMRES" }).1
      = { twoCellsModel with solverName_ := "GMRES" } ∧
    (solveState twoCells { twoCellsModel with solverName_ := "GMRES" }).1.variables_.pressure
      = twoCellsModel.variables_.pressure :=
  ⟨by simp [solveState, twoCellsModel],
    (solve_throws_iff_unsupported ttIncompressible twoCells 0
      { twoCellsModel with solverName_ := "GMRES" }).2.2.1
      (Exception.NotImplemented "FVPressure2P :: solve : combination SeqILU0 and GMRES.")
      (by simp [solveState, twoCellsModel])⟩

/-! ### Frame conditions of the three steps -/

/-- Claim C14. Two objects that differ only in the matrix values and in the
right-hand side they hold before the call give the same object after `assemble`,
hence the same matrix and the same right-hand side: the values `A0`, `f0` or
`A1`, `f1` present before the call do not enter the result. -/
theorem assemble_rebuilds_from_scratch (tt : TypeTag) (pb : Problem) (first : Bool) (t : Scalar)
    (m : FVPressure2P) (A0 A1 : Nat → Nat → Scalar) (f0 f1 : BlockVector) :
    assemble tt pb first t { m with A_ := { m.A_ with val := A0 }, f_ := f0 }
      = assemble tt pb first t { m with A_ := { m.A_ with val := A1 }, f_ := f1 } ∧
    (assemble tt pb first t { m with A_ := { m.A_ with val := A0 }, f_ := f0 }).A_.val
      = (assemble tt pb first t { m with A_ := { m.A_ with val := A1 }, f_ := f1 }).A_.val ∧
    (assemble tt pb first t { m with A_ := { m.A_ with val := A0 }, f_ := f0 }).f_
      = (assemble tt pb first t { m with A_ := { m.A_ with val := A1 }, f_ := f1 }).f_ := by
  have h : assemble tt pb first t { m with A_ := { m.A_ with val := A0 }, f_ := f0 }
      = assemble tt pb first t { m with A_ := { m.A_ with val := A1 }, f_ := f1 } := rfl
  exact ⟨h, by rw [h], by rw [h]⟩

/-- Claim C15. Law-Update leaves pressure, saturation, volume correction, both
halves of the potential store, the matrix and the right-hand side as they were.
Assemble leaves pressure, saturation and the derived fields of every cell as
they were. Solve, whether it returns or throws, leaves the potential store as
it was, so of the three steps only assemble writes the store. -/
theorem law_update_and_assemble_frame (tt : TypeTag) (pb : Problem) (first : Bool) (t : Scalar)
    (m : FVPressure2P) :
    ((updateMaterialLaws tt pb m).variables_.pressure = m.variables_.pressure ∧
     (updateMaterialLaws tt pb m).variables_.saturation = m.variables_.saturation ∧
     (updateMaterialLaws tt pb m).variables_.volumecorrection = m.variables_.volumecorrection ∧
     (updateMaterialLaws tt pb m).variables_.potentialWetting = m.variables_.potentialWetting ∧
     (updateMaterialLaws tt pb m).variables_.potentialNonwetting
       = m.variables_.potentialNonwetting ∧
     (updateMaterialLaws tt pb m).A_ = m.A_ ∧
     (updateMaterialLaws tt pb m).f_ = m.f_) ∧
    ((assemble tt pb first t m).variables_.pressure = m.variables_.pressure ∧
     (assemble tt pb first t m).variables_.saturation = m.variables_.saturation ∧
     ∀ j, (assemble tt pb first t m).variables_.laws j = m.variables_.laws j) ∧
    ((solveState pb m).1.variables_.potentialWetting = m.variables_.potentialWetting ∧
     (solveState pb m).1.variables_.potentialNonwetting = m.variables_.potentialNonwetting) := by
  obtain ⟨h1, h2, h3, h4, h5⟩ := updateMaterialLaws_fold_frame tt pb m.variables_ pb.gridSize
  obtain ⟨-, -, -, -, a1, a2, -, a3⟩ := assemble_sameFrame tt pb first t m
  obtain ⟨-, -, -, s1, s2, -⟩ := solved_frame pb m
  rw [solveState_fst_eq_solved]
  exact ⟨⟨h1, h2, h3, h4, h5, rfl, rfl⟩, ⟨a1, a2, a3⟩, ⟨s1, s2⟩⟩

/-- Claim C16. Processing cell `i` leaves every matrix row, right-hand-side entry
and store row of a cell `r ≠ i` as it was. Hence for two different cells `i`
and `j` and any row `r`, from whatever objects the two cells are processed, at
most one of them writes to row `r` of the matrix, of the right-hand side or of
the store. -/
theorem assembleElement_writes_own_row (tt : TypeTag) (pb : Problem) (first : Bool)
    (m : FVPressure2P) (i : Nat) :
    (∀ r, r ≠ i →
      (assembleElement tt pb first m i).A_.val r = m.A_.val r ∧
      (assembleElement tt pb first m i).f_ r = m.f_ r ∧
      (assembleElement tt pb first m i).variables_.potentialWetting r
        = m.variables_.potentialWetting r ∧
      (assembleElement tt pb first m i).variables_.potentialNonwetting r
        = m.variables_.potentialNonwetting r) ∧
    (∀ (m1 : FVPressure2P) (j r : Nat), i ≠ j →
      ((assembleElement tt pb first m i).A_.val r = m.A_.val r ∧
       (assembleElement tt pb first m i).f_ r = m.f_ r ∧
       (assembleElement tt pb first m i).variables_.potentialWetting r
         = m.variables_.potentialWetting r ∧
       (assembleElement tt pb first m i).variables_.potentialNonwetting r
         = m.variables_.potentialNonwetting r) ∨
      ((assembleElement tt pb first m1 j).A_.val r = m1.A_.val r ∧
       (assembleElement tt pb first m1 j).f_ r = m1.f_ r ∧
       (assembleElement tt pb first m1 j).variables_.potentialWetting r
         = m1.variables_.potentialWetting r ∧
       (assembleElement tt pb first m1 j).variables_.potentialNonwetting r
         = m1.variables_.potentialNonwetting r)) := by
  have key : ∀ (m0 : FVPressure2P) (c r : Nat), r ≠ c →
      (assembleElement tt pb first m0 c).A_.val r = m0.A_.val r ∧
      (assembleElement tt pb first m0 c).f_ r = m0.f_ r ∧
      (assembleElement tt pb first m0 c).variables_.potentialWetting r
        = m0.variables_.potentialWetting r ∧
      (assembleElement tt pb first m0 c).variables_.potentialNonwetting r
        = m0.variables_.potentialNonwetting r := by
    intro m0 c r hr
    obtain ⟨-, g2, g3, g4, g5⟩ := assembleElement_rowAgree_of_ne tt pb first m0 c r hr
    exact ⟨g5, g4, g2, g3⟩
  refine ⟨fun r hr => key m i r hr, ?_⟩
  intro m1 j r hij
  by_cases hr : r = i
  · exact Or.inr (key m1 j r (by rw [hr]; exact hij))
  · exact Or.inl (key m i r hr)

/-- Witness for C16 on the two-cell example: processing cell 0 leaves row 1 as it
was. -/
theorem assembleElement_writes_own_row_witness :
    (assembleElement ttIncompressible twoCells true twoCellsModel 0).A_.val 1
        = twoCellsModel.A_.val 1 ∧
    (assembleElement ttIncompressible twoCells true twoCellsModel 0).f_ 1
        = twoCellsModel.f_ 1 ∧
    (assembleElement ttIncompressible twoCells true twoCellsModel 0).variables_.potentialWetting 1
        = twoCellsModel.variables_.potentialWetting 1 ∧
    (assembleElement ttIncompressible twoCells true
        twoCellsModel 0).variables_.potentialNonwetting 1
        = twoCellsModel.variables_.potentialNonwetting 1 :=
  (assembleElement_writes_own_row ttIncompressible twoCells true twoCellsModel 0).1 1 (by decide)

end Dune

namespace Dumux

/-! ### Element data handles -/

theorem stdMax_eq_max {FieldType : Type} [LinearOrder FieldType] (a b : FieldType) :
    stdMax a b = max a b := by
  unfold stdMax
  split_ifs with h
  · exact (max_eq_right (le_of_lt h)).symm
  · exact (max_eq_left (not_lt.mp h)).symm

theorem stdMin_eq_min {FieldType : Type} [LinearOrder FieldType] (a b : FieldType) :
    stdMin a b = min a b := by
  unfold stdMin
  split_ifs with h
  · exact (min_eq_right (le_of_lt h)).symm
  · exact (min_eq_left (not_lt.mp h)).symm

theorem max_scatter_container {FieldType Entity : Type} [LinearOrder FieldType]
    (h : ElementHandleMax FieldType Entity) (tmp : FieldType) (e : Entity) (k : Nat) :
    (h.scatter tmp e).container_ k
      = if k = h.mapper_ e then max (h.container_ k) tmp else h.container_ k := by
  simp only [ElementHandleMax.scatter, Function.update_apply, stdMax_eq_max]
  split_ifs with hk
  · rw [hk]
  · rfl

theorem min_scatter_container {FieldType Entity : Type} [LinearOrder FieldType]
    (h : ElementHandleMin FieldType Entity) (tmp : FieldType) (e : Entity) (k : Nat) :
    (h.scatter tmp e).container_ k
      = if k = h.mapper_ e then min (h.container_ k) tmp else h.container_ k := by
  simp only [ElementHandleMin.scatter, Function.update_apply, stdMin_eq_min]
  split_ifs with hk
  · rw [hk]
  · rfl

theorem max_eq_of_container {FieldType Entity : Type}
    (a b : ElementHandleMax FieldType Entity) (hm : a.mapper_ = b.mapper_)
    (hc : ∀ k, a.container_ k = b.container_ k) : a = b := by
  obtain ⟨am, ac⟩ := a
  obtain ⟨bm, bc⟩ := b
  simp only at hm hc
  rw [hm, funext hc]

theorem min_eq_of_container {FieldType Entity : Type}
    (a b : ElementHandleMin FieldType Entity) (hm : a.mapper_ = b.mapper_)
    (hc : ∀ k, a.container_ k = b.container_ k) : a = b := by
  obtain ⟨am, ac⟩ := a
  obtain ⟨bm, bc⟩ := b
  simp only at hm hc
  rw [hm, funext hc]

theorem max_scatter_comm {FieldType Entity : Type} [LinearOrder FieldType]
    (h : ElementHandleMax FieldType Entity) (a b : FieldType) (e e1 : Entity) :
    (h.scatter a e).scatter b e1 = (h.scatter b e1).scatter a e := by
  refine max_eq_of_container _ _ (Eq.refl h.mapper_) ?_
  intro k
  have m1 : (h.scatter a e).mapper_ = h.mapper_ := rfl
  have m2 : (h.scatter b e1).mapper_ = h.mapper_ := rfl
  simp only [max_scatter_container, m1, m2]
  split_ifs
  · rw [max_assoc, max_assoc, max_comm a b]
  · rfl
  · rfl
  · rfl

theorem min_scatter_comm {FieldType Entity : Type} [LinearOrder FieldType]
    (h : ElementHandleMin FieldType Entity) (a b : FieldType) (e e1 : Entity) :
    (h.scatter a e).scatter b e1 = (h.scatter b e1).scatter a e := by
  refine min_eq_of_container _ _ (Eq.refl h.mapper_) ?_
  intro k
  have m1 : (h.scatter a e).mapper_ = h.mapper_ := rfl
  have m2 : (h.scatter b e1).mapper_ = h.mapper_ := rfl
  simp only [min_scatter_container, m1, m2]
  split_ifs
  · rw [min_assoc, min_assoc, min_comm a b]
  · rfl
  · rfl
  · rfl

theorem max_scatter_twice {FieldType Entity : Type} [LinearOrder FieldType]
    (h : ElementHandleMax FieldType Entity) (a : FieldType) (e : Entity) :
    (h.scatter a e).scatter a e = h.scatter a e := by
  refine max_eq_of_container _ _ (Eq.refl h.mapper_) ?_
  intro k
  have m1 : (h.scatter a e).mapper_ = h.mapper_ := rfl
  simp only [max_scatter_container, m1]
  split_ifs
  · rw [max_assoc, max_self]
  · rfl

theorem min_scatter_twice {FieldType Entity : Type} [LinearOrder FieldType]
    (h : ElementHandleMin FieldType Entity) (a : FieldType) (e : Entity) :
    (h.scatter a e).scatter a e = h.scatter a e := by
  refine min_eq_of_container _ _ (Eq.refl h.mapper_) ?_
  intro k
  have m1 : (h.scatter a e).mapper_ = h.mapper_ := rfl
  simp only [min_scatter_container, m1]
  split_ifs
  · rw [min_assoc, min_self]
  · rfl

theorem max_scatterAll_perm {FieldType Entity : Type} [LinearOrder FieldType]
    (h : ElementHandleMax FieldType Entity) {l l1 : List (Entity × FieldType)}
    (p : l.Perm l1) : h.scatterAll l = h.scatterAll l1 :=
  List.Perm.foldl_eq' p (fun x _ y _ z => max_scatter_comm z x.2 y.2 x.1 y.1) h

theorem min_scatterAll_perm {FieldType Entity : Type} [LinearOrder FieldType]
    (h : ElementHandleMin FieldType Entity) {l l1 : List (Entity × FieldType)}
    (p : l.Perm l1) : h.scatterAll l = h.scatterAll l1 :=
  List.Perm.foldl_eq' p (fun x _ y _ z => min_scatter_comm z x.2 y.2 x.1 y.1) h

/-- Claim C18. The method `scatter` of `ElementHandleMax` sets the entry of the
element to the maximum of its previous value and the received value, that of
`ElementHandleMin` to the minimum, and both leave every other entry and the
mapper as they were. Scattering a list of received values gives the same handle
for every permutation of the list, and scattering a value twice gives the same
handle as scattering it once. -/
theorem scatter_max_min_order_independent {FieldType Entity : Type} [LinearOrder FieldType]
    (hmax : ElementHandleMax FieldType Entity) (hmin : ElementHandleMin FieldType Entity)
    (tmp : FieldType) (e : Entity) :
    ((hmax.scatter tmp e).container_ (hmax.mapper_ e)
        = max (hmax.container_ (hmax.mapper_ e)) tmp ∧
     (∀ k, k ≠ hmax.mapper_ e → (hmax.scatter tmp e).container_ k = hmax.container_ k) ∧
     (hmax.scatter tmp e).mapper_ = hmax.mapper_ ∧
     (∀ l l1 : List (Entity × FieldType), l.Perm l1 → hmax.scatterAll l = hmax.scatterAll l1) ∧
     (hmax.scatter tmp e).scatter tmp e = hmax.scatter tmp e) ∧
    ((hmin.scatter tmp e).container_ (hmin.mapper_ e)
        = min (hmin.container_ (hmin.mapper_ e)) tmp ∧
     (∀ k, k ≠ hmin.mapper_ e → (hmin.scatter tmp e).container_ k = hmin.container_ k) ∧
     (hmin.scatter tmp e).mapper_ = hmin.mapper_ ∧
     (∀ l l1 : List (Entity × FieldType), l.Perm l1 → hmin.scatterAll l = hmin.scatterAll l1) ∧
     (hmin.scatter tmp e).scatter tmp e = hmin.scatter tmp e) := by
  refine ⟨⟨?_, ?_, rfl, fun l l1 p => max_scatterAll_perm hmax p,
      max_scatter_twice hmax tmp e⟩,
    ⟨?_, ?_, rfl, fun l l1 p => min_scatterAll_perm hmin p,
      min_scatter_twice hmin tmp e⟩⟩
  · rw [max_scatter_container, if_pos rfl]
  · intro k hk
    rw [max_scatter_container, if_neg hk]
  · rw [min_scatter_container, if_pos rfl]
  · intro k hk
    rw [min_scatter_container, if_neg hk]

/-- Witness for C18 on handles over the natural numbers with the identity as
mapper: two received values scattered in either order. -/
theorem scatter_max_min_order_independent_witness :
    (ElementHandleMax.mk (fun e : Nat => e) (fun _ => (4 : Nat))).scatterAll [(0, 7), (0, 2)]
      = (ElementHandleMax.mk (fun e : Nat => e) (fun _ => (4 : Nat))).scatterAll
          [(0, 2), (0, 7)] :=
  (scatter_max_min_order_independent
    (ElementHandleMax.mk (fun e : Nat => e) (fun _ => (4 : Nat)))
    (ElementHandleMin.mk (fun e : Nat => e) (fun _ => (4 : Nat))) 7 0).1.2.2.2.1
    [(0, 7), (0, 2)] [(0, 2), (0, 7)] (List.Perm.swap _ _ _)

/-- Claim C19 against the code. The method `scatter` of `ElementHandleAssign`
overwrites the entry of the element with the received value; the previous value
does not enter. With the entry 1 before the call and the received value 2 the
entry is 2 afterwards, not the sum 3, while `ElementHandleSum` gives 3. -/
theorem assign_scatter_overwrites {FieldType Entity : Type}
    (h : ElementHandleAssign FieldType Entity) (tmp : FieldType) (e : Entity) :
    (h.scatter tmp e).container_ (h.mapper_ e) = tmp ∧
    ((ElementHandleAssign.mk (fun n : Nat => n) (fun _ => (1 : Int))).scatter 2 0).container_ 0
      = 2 ∧
    ((ElementHandleAssign.mk (fun n : Nat => n) (fun _ => (1 : Int))).scatter 2 0).container_ 0
      ≠ 1 + 2 ∧
    ((ElementHandleSum.mk (fun n : Nat => n) (fun _ => (1 : Int))).scatter 2 0).container_ 0
      = 1 + 2 := by
  refine ⟨?_, ?_, ?_, ?_⟩
  · simp [ElementHandleAssign.scatter]
  · simp [ElementHandleAssign.scatter]
  · simp [ElementHandleAssign.scatter]
  · simp [ElementHandleSum.scatter]

end Dumux

namespace Dune

/-! ### Solver reports and boundary flags -/

theorem solve_reporting (pb : Problem) (rep : InverseOperatorResult) (m : FVPressure2P) :
    solve (pb.reporting rep) m = solve pb m := rfl

theorem updateMaterialLaws_reporting (tt : TypeTag) (pb : Problem) (rep : InverseOperatorResult)
    (m : FVPressure2P) :
    updateMaterialLaws tt (pb.reporting rep) m = updateMaterialLaws tt pb m := rfl

theorem assembleIntersection_reporting (tt : TypeTag) (pb : Problem)
    (rep : InverseOperatorResult) (first : Bool) (i : Nat) (m : FVPressure2P) (k : Nat)
    (isIt : Intersection) :
    assembleIntersection tt (pb.reporting rep) first i m k isIt
      = assembleIntersection tt pb first i m k isIt := rfl

theorem intersectionLoop_reporting (tt : TypeTag) (pb : Problem) (rep : InverseOperatorResult)
    (first : Bool) (i : Nat) (faces : List Intersection) :
    ∀ (k : Nat) (m : FVPressure2P),
      intersectionLoop tt (pb.reporting rep) first i faces k m
        = intersectionLoop tt pb first i faces k m := by
  induction faces with
  | nil => intro k m; rfl
  | cons isIt rest ih =>
    intro k m
    simp only [intersectionLoop]
    rw [assembleIntersection_reporting, ih]

theorem assembleElement_reporting (tt : TypeTag) (pb : Problem) (rep : InverseOperatorResult)
    (first : Bool) (m : FVPressure2P) (i : Nat) :
    assembleElement tt (pb.reporting rep) first m i = assembleElement tt pb first m i := by
  unfold assembleElement
  simp only [intersectionLoop_reporting]
  rfl

theorem assemble_reporting (tt : TypeTag) (pb : Problem) (rep : InverseOperatorResult)
    (first : Bool) (t : Scalar) (m : FVPressure2P) :
    assemble tt (pb.reporting rep) first t m = assemble tt pb first t m := by
  unfold assemble gridTraversal
  have h : assembleElement tt (pb.reporting rep) first = assembleElement tt pb first := by
    funext m0 i
    exact assembleElement_reporting tt pb rep first m0 i
  rw [h]
  rfl

theorem run_solve_reporting (pb : Problem) (rep : InverseOperatorResult) (r : Run) :
    r.solve (pb.reporting rep) = r.solve pb := rfl

theorem run_assemble_reporting (tt : TypeTag) (pb : Problem) (rep : InverseOperatorResult)
    (first : Bool) (t : Scalar) (r : Run) :
    r.assemble tt (pb.reporting rep) first t = r.assemble tt pb first t := by
  simp only [Run.assemble, assemble_reporting]

theorem run_updateMaterialLaws_reporting (tt : TypeTag) (pb : Problem)
    (rep : InverseOperatorResult) (r : Run) :
    r.updateMaterialLaws tt (pb.reporting rep) = r.updateMaterialLaws tt pb := rfl

theorem pressureLoop_reporting (tt : TypeTag) (pb : Problem) (rep : InverseOperatorResult)
    (t : Scalar) :
    ∀ (fuel numIter : Nat) (pressureOld : BlockVector) (q : NormQuotient) (r : Run),
      fuel = 10 - numIter →
      pressureLoop tt (pb.reporting rep) t pressureOld q numIter r
        = pressureLoop tt pb t pressureOld q numIter r := by
  intro fuel
  induction fuel with
  | zero =>
    intro numIter pressureOld q r hfuel
    have hn : ¬ (q.gt 1e-5 = true ∧ numIter < 10) := fun h => by omega
    conv_lhs => rw [pressureLoop, dif_neg hn]
    conv_rhs => rw [pressureLoop, dif_neg hn]
  | succ fuel ih =>
    intro numIter pressureOld q r hfuel
    by_cases hc : q.gt 1e-5 = true ∧ numIter < 10
    · conv_lhs => rw [pressureLoop, dif_pos hc]
      conv_rhs => rw [pressureLoop, dif_pos hc]
      rw [run_updateMaterialLaws_reporting, run_assemble_reporting, run_solve_reporting]
      cases ((r.updateMaterialLaws tt pb).assemble tt pb false t).solve pb with
      | error e => rfl
      | ok r1 => exact ih (numIter + 1) _ _ r1 (by omega)
    · conv_lhs => rw [pressureLoop, dif_neg hc]
      conv_rhs => rw [pressureLoop, dif_neg hc]

theorem pressure_reporting (tt : TypeTag) (pb : Problem) (rep : InverseOperatorResult)
    (first : Bool) (t : Scalar) (solveTwice : Bool) (r : Run) :
    pressure tt (pb.reporting rep) first t solveTwice r = pressure tt pb first t solveTwice r := by
  unfold pressure
  simp only [run_updateMaterialLaws_reporting, run_assemble_reporting, run_solve_reporting]
  cases ((if first = true then r.updateMaterialLaws tt pb else r).assemble tt pb first t).solve pb
    with
  | error e => rfl
  | ok r2 =>
    simp only
    split_ifs
    · cases (r2.assemble tt pb false t).solve pb with
      | error e => rfl
      | ok r3 => exact pressureLoop_reporting tt pb rep t _ 0 _ _ r3 rfl
    · rfl

theorem solve_ok_backend (pb : Problem) (m m1 : FVPressure2P) (h : solve pb m = Except.ok m1) :
    ∃ backend, backend ∈ [pb.solveCG_ILU0, pb.solveBiCGSTAB_ILU0, pb.solveLoop_Pardiso] ∧
      m1 = applySolver backend m ∧
      m1.variables_.pressure = (backend m.A_.val m.variables_.pressure m.f_).x := by
  unfold solve at h
  split_ifs at h
  · exact ⟨pb.solveCG_ILU0, by simp, (Except.ok.inj h).symm, by rw [← Except.ok.inj h]; rfl⟩
  · exact ⟨pb.solveBiCGSTAB_ILU0, by simp, (Except.ok.inj h).symm,
      by rw [← Except.ok.inj h]; rfl⟩
  · exact ⟨pb.solveLoop_Pardiso, by simp, (Except.ok.inj h).symm, by rw [← Except.ok.inj h]; rfl⟩

/-- Claim C12 fails as stated. The linear solver `stalled` reports no
convergence for every system. On the two-cell example with that solver,
`pressure(false, 0, false)` returns normally after one assemble and one solve,
and the pressure field is the vector the solver handed back (2 in both cells,
from the pressure 1 before the call). -/
theorem pressure_continues_after_nonconvergence :
    (∀ A x b, (twoCellsStalled.solveBiCGSTAB_ILU0 A x b).result.converged = false) ∧
    ∃ r, pressure ttIncompressible twoCellsStalled false 0 false
          { model := twoCellsModel, calls := [] } = Except.ok r ∧
      r.calls = [Step.assemble false, Step.solve] ∧
      r.model.variables_.pressure 0 = 2 ∧ r.model.variables_.pressure 1 = 2 := by
  obtain ⟨g2, g1, -, -, g5, -⟩ :=
    assemble_sameFrame ttIncompressible twoCellsStalled false 0 twoCellsModel
  have hs : (assemble ttIncompressible twoCellsStalled false 0 twoCellsModel).solverName_
      = "BiCGSTAB" := g2
  have hp : (assemble ttIncompressible twoCellsStalled false 0 twoCellsModel).preconditionerName_
      = "SeqILU0" := g1
  refine ⟨fun _ _ _ => rfl,
    { model := applySolver stalled
        (assemble ttIncompressible twoCellsStalled false 0 twoCellsModel)
      calls := [Step.assemble false, Step.solve] }, ?_, rfl, ?_, ?_⟩
  · simp [pressure, Run.solve, Run.assemble, solve, hs, hp]
    rfl
  · show (assemble ttIncompressible twoCellsStalled false 0 twoCellsModel).variables_.pressure 0
      + 1 = 2
    rw [g5]
    norm_num [twoCellsModel, twoCellsVariables]
  · show (assemble ttIncompressible twoCellsStalled false 0 twoCellsModel).variables_.pressure 1
      + 1 = 2
    rw [g5]
    norm_num [twoCellsModel, twoCellsVariables]

/-- Claim C12, amended. The outcome of `pressure` does not depend on what the
linear solver reports: replacing the result record of every solver call by an
arbitrary record `rep` (converged or not) gives the same return value, error
or object and call sequence. When `solve` returns, the object is the one a
single backend call produced, the pressure field being the vector that call
handed back; no second backend is applied. -/
theorem pressure_ignores_solver_report (tt : TypeTag) (pb : Problem) (first : Bool)
    (t : Scalar) (solveTwice : Bool) (r : Run) (rep : InverseOperatorResult) :
    pressure tt (pb.reporting rep) first t solveTwice r = pressure tt pb first t solveTwice r ∧
    solve (pb.reporting rep) r.model = solve pb r.model ∧
    (∀ m1, solve pb r.model = Except.ok m1 →
      ∃ backend, backend ∈ [pb.solveCG_ILU0, pb.solveBiCGSTAB_ILU0, pb.solveLoop_Pardiso] ∧
        m1 = applySolver backend r.model ∧
        m1.variables_.pressure
          = (backend r.model.A_.val r.model.variables_.pressure r.model.f_).x) :=
  ⟨pressure_reporting tt pb rep first t solveTwice r, rfl,
    fun m1 h => solve_ok_backend pb r.model m1 h⟩

/-- Witness for the amended C12: the two-cell example with the solver
`stalled`. -/
theorem pressure_ignores_solver_report_witness :
    ∃ backend,
      backend ∈ [twoCellsStalled.solveCG_ILU0, twoCellsStalled.solveBiCGSTAB_ILU0,
        twoCellsStalled.solveLoop_Pardiso] ∧
      applySolver stalled twoCellsModel = applySolver backend twoCellsModel ∧
      (applySolver stalled twoCellsModel).variables_.pressure
        = (backend twoCellsModel.A_.val twoCellsModel.variables_.pressure twoCellsModel.f_).x :=
  (pressure_ignores_solver_report ttIncompressible twoCellsStalled false 0 false
    { model := twoCellsModel, calls := [] } { converged := true, iterations := 1 }).2.2
    (applySolver stalled twoCellsModel) (by simp [solve, twoCellsModel, twoCellsStalled])

theorem assembleIntersection_non_dirichlet (tt : TypeTag) (pb : Problem) (first : Bool)
    (i : Nat) (m : FVPressure2P) (k : Nat) (isIt : Intersection) (hb : isIt.neighbor = false)
    (hd : pb.bctypePress isIt.globalPosFace i k ≠ Flags.dirichlet) :
    assembleIntersection tt pb first i m k isIt
      = { m with
          f_ := Function.update m.f_ i
            (m.f_ i
              - ((if tt.compressibility then
                    pb.neumannPress isIt.globalPosFace i k PhaseIdx.wPhaseIdx
                  else pb.neumannPress isIt.globalPosFace i k PhaseIdx.wPhaseIdx
                    / m.variables_.densityWetting i)
                + (if tt.compressibility then
                    pb.neumannPress isIt.globalPosFace i k PhaseIdx.nPhaseIdx
                  else pb.neumannPress isIt.globalPosFace i k PhaseIdx.nPhaseIdx
                    / m.variables_.densityNonwetting i)) * isIt.faceArea)
          variables_ := m.variables_.storePotentials i k
            (if tt.compressibility then pb.neumannPress isIt.globalPosFace i k PhaseIdx.wPhaseIdx
              else pb.neumannPress isIt.globalPosFace i k PhaseIdx.wPhaseIdx
                / m.variables_.densityWetting i)
            (if tt.compressibility then pb.neumannPress isIt.globalPosFace i k PhaseIdx.nPhaseIdx
              else pb.neumannPress isIt.globalPosFace i k PhaseIdx.nPhaseIdx
                / m.variables_.densityNonwetting i) } := by
  unfold assembleIntersection
  have hb1 : ¬ isIt.neighbor = true := by simp [hb]
  rw [if_neg hb1]
  dsimp only
  rw [if_neg hd]

/-- Claim C13 fails as stated. On the two-cell example with the pressure
boundary flag `process`, which is neither `dirichlet` nor `neumann`, and the
flux 3 for both phases, `assemble` returns a system: the boundary face of cell 0
has subtracted `(3/1 + 3/1) * 1 = 6` from `f[0]` and left the flux-over-density
values 3 in the potential store, exactly as a Neumann face does. -/
theorem process_face_assembled_as_neumann :
    twoCellsProcess.bctypePress twoCellsBoundaryFace.globalPosFace 0 0 = Flags.process ∧
    Flags.process ≠ Flags.dirichlet ∧ Flags.process ≠ Flags.neumann ∧
    (assemble ttIncompressible twoCellsProcess true 0 tiltedModel).f_ 0 = -6 ∧
    (assemble ttIncompressible twoCellsProcess true 0 tiltedModel).variables_.potentialWetting 0 0
      = 3 ∧
    (assemble ttIncompressible twoCellsProcess true 0
      tiltedModel).variables_.potentialNonwetting 0 0 = 3 := by
  obtain ⟨-, hw, hn, -, -⟩ :=
    assemble_rowAgree ttIncompressible twoCellsProcess true 0 tiltedModel 0 (by decide)
  refine ⟨rfl, by decide, by decide, ?_, ?_, ?_⟩
  · rw [assemble_f ttIncompressible twoCellsProcess true 0 tiltedModel 0 (by decide)]
    simp [sumFaces, faceRhs, interiorFace, sourceRhs, volumeCorrectionRhs, twoCellsProcess,
      twoCells, twoCellsElement, tiltedModel, tiltedVariables, ttIncompressible, dot, mv,
      meanPermeability]
    norm_num [abs_of_pos]
  · rw [hw]
    simp [assembleElement, intersectionLoop, assembleIntersection, Variables.storePotentials,
      twoCellsProcess, twoCells, twoCellsElement, tiltedModel, tiltedVariables, ttIncompressible]
  · rw [hn]
    simp [assembleElement, intersectionLoop, assembleIntersection, Variables.storePotentials,
      twoCellsProcess, twoCells, twoCellsElement, tiltedModel, tiltedVariables, ttIncompressible]

/-- Claim C13, amended. `assemble` has no error path for boundary flags. A
boundary face whose pressure boundary type is anything but `dirichlet` gets the
Neumann treatment: with `J` the fluxes of `neumannPress`, divided by the cell
densities when the flow is incompressible, `(J_w + J_n) * faceArea` is
subtracted from `f[i]`, the two values are written to the potential store at
`(i, isIndex)`, and the matrix is not touched. The result is the one the flag
`neumann` gives. -/
theorem non_dirichlet_face_gets_neumann_treatment (tt : TypeTag) (pb : Problem) (first : Bool)
    (i : Nat) (m : FVPressure2P) (k : Nat) (isIt : Intersection) (hb : isIt.neighbor = false)
    (hd : pb.bctypePress isIt.globalPosFace i k ≠ Flags.dirichlet) :
    assembleIntersection tt pb first i m k isIt
      = { m with
          f_ := Function.update m.f_ i
            (m.f_ i
              - ((if tt.compressibility then
                    pb.neumannPress isIt.globalPosFace i k PhaseIdx.wPhaseIdx
                  else pb.neumannPress isIt.globalPosFace i k PhaseIdx.wPhaseIdx
                    / m.variables_.densityWetting i)
                + (if tt.compressibility then
                    pb.neumannPress isIt.globalPosFace i k PhaseIdx.nPhaseIdx
                  else pb.neumannPress isIt.globalPosFace i k PhaseIdx.nPhaseIdx
                    / m.variables_.densityNonwetting i)) * isIt.faceArea)
          variables_ := m.variables_.storePotentials i k
            (if tt.compressibility then pb.neumannPress isIt.globalPosFace i k PhaseIdx.wPhaseIdx
              else pb.neumannPress isIt.globalPosFace i k PhaseIdx.wPhaseIdx
                / m.variables_.densityWetting i)
            (if tt.compressibility then pb.neumannPress isIt.globalPosFace i k PhaseIdx.nPhaseIdx
              else pb.neumannPress isIt.globalPosFace i k PhaseIdx.nPhaseIdx
                / m.variables_.densityNonwetting i) } ∧
    (assembleIntersection tt pb first i m k isIt).A_ = m.A_ ∧
    assembleIntersection tt pb first i m k isIt
      = assembleIntersection tt { pb with bctypePress := fun _ _ _ => Flags.neumann } first i m k
          isIt := by
  have h1 := assembleIntersection_non_dirichlet tt pb first i m k isIt hb hd
  have h2 := assembleIntersection_non_dirichlet tt
    { pb with bctypePress := fun _ _ _ => Flags.neumann } first i m k isIt hb (by simp)
  refine ⟨h1, by rw [h1], ?_⟩
  rw [h1, h2]

/-- Witness for the amended C13: the boundary face of cell 0 of the two-cell
example with the flag `process`. -/
theorem non_dirichlet_face_gets_neumann_treatment_witness :
    (assembleIntersection ttIncompressible twoCellsProcess true 0 tiltedModel 0
      twoCellsBoundaryFace).A_ = tiltedModel.A_ ∧
    assembleIntersection ttIncompressible twoCellsProcess true 0 tiltedModel 0
        twoCellsBoundaryFace
      = assembleIntersection ttIncompressible
          { twoCellsProcess with bctypePress := fun _ _ _ => Flags.neumann } true 0 tiltedModel 0
          twoCellsBoundaryFace :=
  (non_dirichlet_face_gets_neumann_treatment ttIncompressible twoCellsProcess true 0 tiltedModel
    0 twoCellsBoundaryFace rfl (by simp [twoCellsProcess])).2

/-! ### The upwind decision of an interior face -/

theorem interiorFace_potentialW_not_first (tt : TypeTag) (pb : Problem) (v : Variables)
    (i k : Nat) (isIt : Intersection) :
    (interiorFace tt pb v false i k isIt).potentialW
      = recomputedPotentialW tt pb v i k isIt.outside := by
  rw [interiorFace_potentialW]
  rfl

theorem interiorFace_potentialNW_not_first (tt : TypeTag) (pb : Problem) (v : Variables)
    (i k : Nat) (isIt : Intersection) :
    (interiorFace tt pb v false i k isIt).potentialNW
      = recomputedPotentialNW tt pb v i k isIt.outside := by
  rw [interiorFace_potentialNW]
  rfl

theorem interiorFace_entry_not_first (tt : TypeTag) (pb : Problem) (v : Variables)
    (i k : Nat) (isIt : Intersection) :
    (interiorFace tt pb v false i k isIt).entry
      = (upwind (recomputedPotentialW tt pb v i k isIt.outside)
            (v.mobilityWetting i) (v.mobilityWetting isIt.outside)
          + upwind (recomputedPotentialNW tt pb v i k isIt.outside)
            (v.mobilityNonwetting i) (v.mobilityNonwetting isIt.outside))
        * entryFactor tt pb i isIt := by
  rw [interiorFace_entry, interiorFace_potentialW_not_first, interiorFace_potentialNW_not_first]
  unfold entryFactor
  ring

theorem gradW_congr (tt : TypeTag) (pb : Problem) {v w : Variables} (i j : Nat)
    (h : SameLaws v w) : gradW tt pb v i j = gradW tt pb w i j := by
  obtain ⟨-, -, -, -, -, -, f7, f8, f9⟩ := h.fields
  simp only [gradW, f7, f8, f9, h.1]

theorem gradNW_congr (tt : TypeTag) (pb : Problem) {v w : Variables} (i j : Nat)
    (h : SameLaws v w) : gradNW tt pb v i j = gradNW tt pb w i j := by
  obtain ⟨-, -, -, -, -, -, f7, f8, f9⟩ := h.fields
  simp only [gradNW, f7, f8, f9, h.1]

theorem assembleIntersection_store_interior (tt : TypeTag) (pb : Problem) (i : Nat)
    (m : FVPressure2P) (k : Nat) (isIt : Intersection) (hn : isIt.neighbor = true) :
    (assembleIntersection tt pb false i m k isIt).variables_.potentialWetting i k
        = (interiorFace tt pb m.variables_ false i k isIt).potentialW ∧
    (assembleIntersection tt pb false i m k isIt).variables_.potentialNonwetting i k
        = (interiorFace tt pb m.variables_ false i k isIt).potentialNW := by
  unfold assembleIntersection
  rw [if_pos hn]
  simp [Variables.storePotentials]

/-- Claim C20 fails as stated. Two-cell example without gravity, `first = false`:
the potential stored for the face of cell 0 towards cell 1 is 1 (positive), the
pressures 0 and 1 make the recomputed potential -1 (negative), the wetting
mobilities are 1 in cell 0 and 3 in cell 1. The matrix entry is built with the
mobility 3 of cell 1, the choice of the recomputed sign: `A[0][1] = -3`; the
stored sign would pick the mobility 1 and give `-1`. -/
theorem mobility_upwind_not_by_stored_sign :
    opposedModel.variables_.potentialWetting 0 1 = 1 ∧
    opposedModel.variables_.potentialNonwetting 0 1 = 1 ∧
    (interiorFace ttIncompressible twoCells opposedModel.variables_ false 0 1
      twoCellsFace01).potentialW = -1 ∧
    opposedModel.variables_.mobilityWetting 0 = 1 ∧
    opposedModel.variables_.mobilityWetting 1 = 3 ∧
    opposedModel.variables_.mobilityNonwetting 0 = 0 ∧
    opposedModel.variables_.mobilityNonwetting 1 = 0 ∧
    entryFactor ttIncompressible twoCells 0 twoCellsFace01 = 1 ∧
    (assemble ttIncompressible twoCells false 0 opposedModel).A_.val 0 1 = -3 ∧
    (assemble ttIncompressible twoCells false 0 opposedModel).A_.val 0 1
      ≠ -(opposedModel.variables_.mobilityWetting 0
          * entryFactor ttIncompressible twoCells 0 twoCellsFace01) := by
  have hA : (assemble ttIncompressible twoCells false 0 opposedModel).A_.val 0 1 = -3 := by
    rw [assemble_val_outside ttIncompressible twoCells false 0 opposedModel 0 1 (by decide)
      (by decide) 1 twoCellsFace01 rfl rfl rfl]
    · simp [interiorFace, twoCells, twoCellsElement, twoCellsFace01, opposedModel,
        opposedVariables, ttIncompressible, dot, mv, meanPermeability]
      norm_num [abs_of_pos]
    · intro q1 f h1 h2
      obtain ⟨q2, rfl⟩ : ∃ q2, q1 = q2 + 2 := ⟨q1 - 2, by omega⟩
      simp [twoCells, twoCellsElement] at h2
  have hE : entryFactor ttIncompressible twoCells 0 twoCellsFace01 = 1 := by
    simp [entryFactor, facePermeability, unitDist, centreDist, twoCells, twoCellsElement,
      twoCellsFace01, ttIncompressible, dot, mv, meanPermeability]
    norm_num [abs_of_pos]
  refine ⟨rfl, rfl, ?_, ?_, ?_, rfl, rfl, hE, hA, ?_⟩
  · simp [interiorFace, twoCells, twoCellsElement, twoCellsFace01, opposedModel,
      opposedVariables, ttIncompressible, dot, mv, meanPermeability]
    norm_num [abs_of_pos]
  · simp [opposedModel, opposedVariables]
  · simp [opposedModel, opposedVariables]
  · rw [hA, hE]
    simp [opposedModel, opposedVariables]

/-- Claim C20, amended. When `first` is false, the mobility of an interior face
is chosen by the sign of the potential recomputed during the call (pressure
part from the current iterate plus gravity part), and that recomputed potential
is what the call stores; the matrix entries of the face are built from that
choice. The potential stored before the call only picks the density of the
gravity part of the recomputed potential: when the gravity part vanishes, the
matrix entry is the same for every content of the store. -/
theorem mobility_upwind_by_recomputed_potential (tt : TypeTag) (pb : Problem) (i : Nat)
    (m : FVPressure2P) (k : Nat) (isIt : Intersection) (hn : isIt.neighbor = true) :
    (assembleIntersection tt pb false i m k isIt).variables_.potentialWetting i k
        = recomputedPotentialW tt pb m.variables_ i k isIt.outside ∧
    (assembleIntersection tt pb false i m k isIt).variables_.potentialNonwetting i k
        = recomputedPotentialNW tt pb m.variables_ i k isIt.outside ∧
    (assembleIntersection tt pb false i m k isIt).A_.val i isIt.outside
        = -((upwind (recomputedPotentialW tt pb m.variables_ i k isIt.outside)
                (m.variables_.mobilityWetting i) (m.variables_.mobilityWetting isIt.outside)
              + upwind (recomputedPotentialNW tt pb m.variables_ i k isIt.outside)
                (m.variables_.mobilityNonwetting i)
                (m.variables_.mobilityNonwetting isIt.outside))
            * entryFactor tt pb i isIt) ∧
    (isIt.outside ≠ i →
      (assembleIntersection tt pb false i m k isIt).A_.val i i
        = m.A_.val i i
          + (upwind (recomputedPotentialW tt pb m.variables_ i k isIt.outside)
                (m.variables_.mobilityWetting i) (m.variables_.mobilityWetting isIt.outside)
              + upwind (recomputedPotentialNW tt pb m.variables_ i k isIt.outside)
                (m.variables_.mobilityNonwetting i)
                (m.variables_.mobilityNonwetting isIt.outside))
            * entryFactor tt pb i isIt) ∧
    (dot tt.dim (unitDist pb i isIt.outside) pb.gravity = 0 →
      ∀ w : Variables, SameLaws m.variables_ w →
        (interiorFace tt pb w false i k isIt).entry
          = (interiorFace tt pb m.variables_ false i k isIt).entry) := by
  obtain ⟨s1, s2⟩ := assembleIntersection_store_interior tt pb i m k isIt hn
  refine ⟨?_, ?_, ?_, ?_, ?_⟩
  · rw [s1, interiorFace_potentialW_not_first]
  · rw [s2, interiorFace_potentialNW_not_first]
  · rw [assembleIntersection_val_outside tt pb false i m k isIt hn,
      interiorFace_entry_not_first]
  · intro ho
    rw [assembleIntersection_val_diag tt pb false i m k isIt hn ho,
      interiorFace_entry_not_first]
  · intro hg w hw
    obtain ⟨-, -, -, -, f5, f6, -, -, -⟩ := hw.fields
    rw [interiorFace_entry_not_first, interiorFace_entry_not_first]
    simp only [recomputedPotentialW, recomputedPotentialNW, hg, mul_zero, add_zero,
      gradW_congr tt pb i isIt.outside hw, gradNW_congr tt pb i isIt.outside hw, f5, f6]

/-- Witness for the amended C20: the interior face of cell 0 of the two-cell
example, where the recomputed potentials are -1 and the entry is built with the
mobility of cell 1. -/
theorem mobility_upwind_by_recomputed_potential_witness :
    (assembleIntersection ttIncompressible twoCells false 0 opposedModel 1
        twoCellsFace01).variables_.potentialWetting 0 1
      = recomputedPotentialW ttIncompressible twoCells opposedModel.variables_ 0 1
          twoCellsFace01.outside :=
  (mobility_upwind_by_recomputed_potential ttIncompressible twoCells 0 opposedModel 1
    twoCellsFace01 rfl).1

/-! ### The diagonal in closed form -/

theorem faceEntry_congr (tt : TypeTag) (pb : Problem) {v w : Variables} (first : Bool)
    (i k : Nat) (isIt : Intersection) (h : SameLaws v w)
    (hw : v.potentialWetting i k = w.potentialWetting i k)
    (hn : v.potentialNonwetting i k = w.potentialNonwetting i k) :
    faceEntry tt pb first i v k isIt = faceEntry tt pb first i w k isIt := by
  simp only [faceEntry, interiorFace_congr tt pb first i k isIt h hw hn,
    dirichletFace_congr tt pb first i k isIt h hw hn]

theorem assembleIntersection_val_diag_faceEntry (tt : TypeTag) (pb : Problem) (first : Bool)
    (i : Nat) (m : FVPressure2P) (k : Nat) (isIt : Intersection)
    (ho : isIt.neighbor = true → isIt.outside ≠ i) :
    (assembleIntersection tt pb first i m k isIt).A_.val i i
      = m.A_.val i i + faceEntry tt pb first i m.variables_ k isIt := by
  unfold faceEntry
  by_cases hn : isIt.neighbor = true
  · rw [if_pos hn, assembleIntersection_val_diag tt pb first i m k isIt hn (ho hn)]
  · have hb : isIt.neighbor = false := by simpa using hn
    rw [if_neg hn]
    by_cases hd : pb.bctypePress isIt.globalPosFace i k = Flags.dirichlet
    · rw [if_pos hd, (assembleIntersection_dirichlet tt pb first i m k isIt hb hd).1,
        Function.update_same]
    · rw [if_neg hd, assembleIntersection_non_dirichlet tt pb first i m k isIt hb hd, add_zero]

/-- The intersection loop of cell `i` adds to `A_[i][i]` the sum of the entries
of its interior and Dirichlet faces, each computed from the variables the loop
started with, when no interior face leads back to cell `i`. -/
theorem intersectionLoop_val_diag (tt : TypeTag) (pb : Problem) (first : Bool) (i : Nat)
    (faces : List Intersection) :
    (∀ f ∈ faces, f.neighbor = true → f.outside ≠ i) →
    ∀ (k : Nat) (m : FVPressure2P),
      (intersectionLoop tt pb first i faces k m).A_.val i i
        = m.A_.val i i + sumFaces (faceEntry tt pb first i m.variables_) faces k := by
  induction faces with
  | nil => intro _ k m; simp [intersectionLoop, sumFaces]
  | cons isIt rest ih =>
    intro ho k m
    simp only [intersectionLoop, sumFaces]
    rw [ih (fun f hf => ho f (List.mem_cons_of_mem _ hf)) (k + 1),
      assembleIntersection_val_diag_faceEntry tt pb first i m k isIt
        (ho isIt (List.mem_cons_self _ _)),
      sumFaces_congr
        (faceEntry tt pb first i (assembleIntersection tt pb first i m k isIt).variables_)
        (faceEntry tt pb first i m.variables_) rest (k + 1), add_assoc]
    intro q f hq
    have hne : i ≠ i ∨ q ≠ k := Or.inr (by omega)
    obtain ⟨h1, h2⟩ := assembleIntersection_store_of_ne tt pb first i m k isIt i q hne
    exact faceEntry_congr tt pb first i q f
      (assembleIntersection_sameFrame tt pb first i m k isIt).sameLaws h1 h2

/-- The diagonal entry of row `i` after `assemble`: the sum of the entries of
the interior and Dirichlet faces of cell `i`. -/
theorem assemble_val_diag (tt : TypeTag) (pb : Problem) (first : Bool) (t : Scalar)
    (m : FVPressure2P) (i : Nat) (hi : i < pb.gridSize)
    (ho : ∀ f ∈ (pb.element i).intersections, f.neighbor = true → f.outside ≠ i) :
    (assemble tt pb first t m).A_.val i i
      = sumFaces (faceEntry tt pb first i m.variables_) (pb.element i).intersections 0 := by
  obtain ⟨-, -, -, -, hA⟩ := assemble_rowAgree tt pb first t m i hi
  rw [hA, assembleElement_eq]
  simp only
  rw [intersectionLoop_val_diag tt pb first i _ ho 0]
  simp

/-! ### The two pressure formulations -/

theorem updateMaterialLawsCell_global (tt : TypeTag) (pb : Problem) (v0 vars : Variables)
    (i : Nat) :
    updateMaterialLawsCell tt.global (pb.withGlobalPressureData tt.wetting v0) vars i
      = updateMaterialLawsCell tt.wetting pb vars i := rfl

theorem updateMaterialLaws_global (tt : TypeTag) (pb : Problem) (v0 : Variables)
    (m : FVPressure2P) :
    updateMaterialLaws tt.global (pb.withGlobalPressureData tt.wetting v0) m
      = updateMaterialLaws tt.wetting pb m := by
  unfold updateMaterialLaws
  have h : updateMaterialLawsCell tt.global (pb.withGlobalPressureData tt.wetting v0)
      = updateMaterialLawsCell tt.wetting pb := by
    funext vars i
    exact updateMaterialLawsCell_global tt pb v0 vars i
  rw [h]
  rfl

theorem interiorFace_global_entry (tt : TypeTag) (pb : Problem) (v0 v : Variables)
    (i k : Nat) (isIt : Intersection) :
    (interiorFace tt.global (pb.withGlobalPressureData tt.wetting v0) v true i k isIt).entry
      = (interiorFace tt.wetting pb v true i k isIt).entry := rfl

theorem interiorFace_global_normalDist (tt : TypeTag) (pb : Problem) (v0 v : Variables)
    (i k : Nat) (isIt : Intersection) :
    (interiorFace tt.global (pb.withGlobalPressureData tt.wetting v0) v true i k isIt).normalDist
      = (interiorFace tt.wetting pb v true i k isIt).normalDist := rfl

theorem dot_mul_zero_right (dim : Nat) (u w : FieldVector) :
    dot dim u (fun x => w x * 0) = 0 := by
  have h : (fun x => w x * 0) = fun _ => (0 : Scalar) := by
    funext x
    exact mul_zero _
  rw [h]
  exact dot_eq_zero_of_right dim u (fun _ => 0) (fun _ _ => rfl)

theorem interiorFace_global_rightEntry (tt : TypeTag) (pb : Problem) (v0 v : Variables)
    (i k : Nat) (isIt : Intersection)
    (hpc : v.capillaryPressure i = v.capillaryPressure isIt.outside) :
    (interiorFace tt.global (pb.withGlobalPressureData tt.wetting v0) v true i k isIt).rightEntry
      = (interiorFace tt.wetting pb v true i k isIt).rightEntry := by
  have h : (interiorFace tt.wetting pb v true i k isIt).rightEntry
      = (interiorFace tt.global (pb.withGlobalPressureData tt.wetting v0) v true i k
          isIt).rightEntry
        + 0.5 * (v.mobilityNonwetting i + v.mobilityNonwetting isIt.outside)
          * dot tt.wetting.dim (facePermeability tt.wetting pb i isIt.outside)
              (fun x => unitDist pb i isIt.outside x
                * ((v.capillaryPressure i - v.capillaryPressure isIt.outside)
                  / centreDist pb i isIt.outside))
          * isIt.faceArea := rfl
  rw [h, hpc, sub_self, zero_div, dot_mul_zero_right, mul_zero, zero_mul, add_zero]

theorem boundaryState_global (tt : TypeTag) (pb : Problem) (v0 v : Variables)
    (i k : Nat) (isIt : Intersection) :
    boundaryState tt.global (pb.withGlobalPressureData tt.wetting v0) v i k isIt
      = { boundaryState tt.wetting pb v i k isIt with
          pressBound := (boundaryState tt.wetting pb v i k isIt).pressBound
            + boundaryOffset tt.wetting pb v0 i k isIt.globalPosFace } := rfl

theorem dirichletFace_global_entry (tt : TypeTag) (pb : Problem) (v0 v : Variables)
    (i k : Nat) (isIt : Intersection) :
    (dirichletFace tt.global (pb.withGlobalPressureData tt.wetting v0) v true i k isIt).entry
      = (dirichletFace tt.wetting pb v true i k isIt).entry := rfl

theorem dirichletFace_global_normalDist (tt : TypeTag) (pb : Problem) (v0 v : Variables)
    (i k : Nat) (isIt : Intersection) :
    (dirichletFace tt.global (pb.withGlobalPressureData tt.wetting v0) v true i k isIt).normalDist
      = (dirichletFace tt.wetting pb v true i k isIt).normalDist := rfl

theorem dirichletFace_global_rightEntry (tt : TypeTag) (pb : Problem) (v0 v : Variables)
    (i k : Nat) (isIt : Intersection)
    (hpc : (boundaryState tt.wetting pb v i k isIt).pcBound = v.capillaryPressure i) :
    (dirichletFace tt.global (pb.withGlobalPressureData tt.wetting v0) v true i k isIt).rightEntry
      = (dirichletFace tt.wetting pb v true i k isIt).rightEntry := by
  have h : (dirichletFace tt.wetting pb v true i k isIt).rightEntry
      = (dirichletFace tt.global (pb.withGlobalPressureData tt.wetting v0) v true i k
          isIt).rightEntry
        + 0.5 * (v.mobilityNonwetting i + (boundaryState tt.wetting pb v i k isIt).lambdaNWBound)
          * dot tt.wetting.dim
              (mv tt.wetting.dim
                (pb.intrinsicPermeability (pb.element i).globalPos i)
                (fun x => (isIt.globalPosFace x - (pb.element i).globalPos x)
                  / pb.two_norm (fun x => isIt.globalPosFace x - (pb.element i).globalPos x)))
              (fun x => (isIt.globalPosFace x - (pb.element i).globalPos x)
                  / pb.two_norm (fun x => isIt.globalPosFace x - (pb.element i).globalPos x)
                * ((v.capillaryPressure i - (boundaryState tt.wetting pb v i k isIt).pcBound)
                  / pb.two_norm (fun x => isIt.globalPosFace x - (pb.element i).globalPos x)))
          * isIt.faceArea := rfl
  rw [h, hpc, sub_self, zero_div, dot_mul_zero_right, mul_zero, zero_mul, add_zero]

/-- The linear system `assemble` builds on a two-cell domain, entry by entry. -/
theorem twoCell_rows (tt : TypeTag) (pb : Problem) (first : Bool) (t : Scalar)
    (m : FVPressure2P) (b0 f01 f10 b1 : Intersection) (h : TwoCellDomain pb b0 f01 f10 b1) :
    (assemble tt pb first t m).A_.val 0 0
      = (dirichletFace tt pb m.variables_ first 0 0 b0).entry
        + (interiorFace tt pb m.variables_ first 0 1 f01).entry ∧
    (assemble tt pb first t m).A_.val 0 1
      = -(interiorFace tt pb m.variables_ first 0 1 f01).entry ∧
    (assemble tt pb first t m).A_.val 1 0
      = -(interiorFace tt pb m.variables_ first 1 0 f10).entry ∧
    (assemble tt pb first t m).A_.val 1 1
      = (interiorFace tt pb m.variables_ first 1 0 f10).entry
        + (dirichletFace tt pb m.variables_ first 1 1 b1).entry ∧
    (assemble tt pb first t m).f_ 0
      = sourceRhs tt pb m.variables_ 0
        + ((dirichletFace tt pb m.variables_ first 0 0 b0).entry
              * (boundaryState tt pb m.variables_ 0 0 b0).pressBound
            - (dirichletFace tt pb m.variables_ first 0 0 b0).rightEntry
              * (dirichletFace tt pb m.variables_ first 0 0 b0).normalDist
          - (interiorFace tt pb m.variables_ first 0 1 f01).rightEntry
              * (interiorFace tt pb m.variables_ first 0 1 f01).normalDist)
        - volumeCorrectionRhs tt pb m.variables_ 0 ∧
    (assemble tt pb first t m).f_ 1
      = sourceRhs tt pb m.variables_ 1
        + ((dirichletFace tt pb m.variables_ first 1 1 b1).entry
              * (boundaryState tt pb m.variables_ 1 1 b1).pressBound
            - (dirichletFace tt pb m.variables_ first 1 1 b1).rightEntry
              * (dirichletFace tt pb m.variables_ first 1 1 b1).normalDist
          - (interiorFace tt pb m.variables_ first 1 0 f10).rightEntry
              * (interiorFace tt pb m.variables_ first 1 0 f10).normalDist)
        - volumeCorrectionRhs tt pb m.variables_ 1 := by
  obtain ⟨hg, he0, he1, hb0, hb1, hn01, ho01, hn10, ho10, hd0, hd1⟩ := h
  have h0 : 0 < pb.gridSize := by omega
  have h1 : 1 < pb.gridSize := by omega
  have hnb0 : ¬ b0.neighbor = true := by simp [hb0]
  have hnb1 : ¬ b1.neighbor = true := by simp [hb1]
  refine ⟨?_, ?_, ?_, ?_, ?_, ?_⟩
  · rw [assemble_val_diag tt pb first t m 0 h0, he0]
    · simp only [sumFaces, faceEntry, if_neg hnb0, if_pos hd0, if_pos hn01, Nat.zero_add,
        add_zero]
    · intro f hf hfn
      rw [he0] at hf
      simp only [List.mem_cons, List.mem_singleton, List.not_mem_nil, or_false] at hf
      rcases hf with rfl | rfl
      · exact absurd hfn hnb0
      · rw [ho01]
        decide
  · rw [assemble_val_outside tt pb first t m 0 1 h0 (by decide) 1 f01 (by rw [he0]; rfl)
      hn01 ho01]
    intro q1 f hq hf
    obtain ⟨q2, rfl⟩ : ∃ q2, q1 = q2 + 2 := ⟨q1 - 2, by omega⟩
    rw [he0] at hf
    simp at hf
  · rw [assemble_val_outside tt pb first t m 1 0 h1 (by decide) 0 f10 (by rw [he1]; rfl)
      hn10 ho10]
    intro q1 f hq hf hfn
    obtain ⟨q2, rfl⟩ : ∃ q2, q1 = q2 + 1 := ⟨q1 - 1, by omega⟩
    rw [he1] at hf
    cases q2 with
    | zero =>
      simp only [Nat.zero_add, List.getElem?_cons_succ, List.getElem?_cons_zero,
        Option.some.injEq] at hf
      subst hf
      exact absurd hfn hnb1
    | succ q3 => simp at hf
  · rw [assemble_val_diag tt pb first t m 1 h1, he1]
    · simp only [sumFaces, faceEntry, if_neg hnb1, if_pos hd1, if_pos hn10, Nat.zero_add,
        add_zero]
    · intro f hf hfn
      rw [he1] at hf
      simp only [List.mem_cons, List.mem_singleton, List.not_mem_nil, or_false] at hf
      rcases hf with rfl | rfl
      · rw [ho10]
        decide
      · exact absurd hfn hnb1
  · rw [assemble_f tt pb first t m 0 h0, he0]
    simp only [sumFaces, faceRhs, if_neg hnb0, if_pos hd0, if_pos hn01, Nat.zero_add, add_zero]
    ring
  · rw [assemble_f tt pb first t m 1 h1, he1]
    simp only [sumFaces, faceRhs, if_neg hnb1, if_pos hd1, if_pos hn10, Nat.zero_add, add_zero]
    ring

/-- With uniform capillary pressure and the boundary data shifted by `c`, the
global-pressure system has the matrix of the wetting-pressure system and the
right-hand side `f + A (c, c)`. -/
theorem global_system_rows (tt : TypeTag) (pb : Problem) (t : Scalar) (m : FVPressure2P)
    (b0 f01 f10 b1 : Intersection) (c : Scalar) (hdom : TwoCellDomain pb b0 f01 f10 b1)
    (hpc : (updateMaterialLaws tt.wetting pb m).variables_.capillaryPressure 0
      = (updateMaterialLaws tt.wetting pb m).variables_.capillaryPressure 1)
    (hpc0 : (boundaryState tt.wetting pb (updateMaterialLaws tt.wetting pb m).variables_ 0 0
      b0).pcBound = (updateMaterialLaws tt.wetting pb m).variables_.capillaryPressure 0)
    (hpc1 : (boundaryState tt.wetting pb (updateMaterialLaws tt.wetting pb m).variables_ 1 1
      b1).pcBound = (updateMaterialLaws tt.wetting pb m).variables_.capillaryPressure 1)
    (hb0 : boundaryOffset tt.wetting pb (updateMaterialLaws tt.wetting pb m).variables_ 0 0
      b0.globalPosFace = c)
    (hb1 : boundaryOffset tt.wetting pb (updateMaterialLaws tt.wetting pb m).variables_ 1 1
      b1.globalPosFace = c) :
    (globalSystem tt pb t m).A_.val 0 0 = (wettingSystem tt pb t m).A_.val 0 0 ∧
    (globalSystem tt pb t m).A_.val 0 1 = (wettingSystem tt pb t m).A_.val 0 1 ∧
    (globalSystem tt pb t m).A_.val 1 0 = (wettingSystem tt pb t m).A_.val 1 0 ∧
    (globalSystem tt pb t m).A_.val 1 1 = (wettingSystem tt pb t m).A_.val 1 1 ∧
    (globalSystem tt pb t m).f_ 0
      = (wettingSystem tt pb t m).f_ 0
        + ((wettingSystem tt pb t m).A_.val 0 0 + (wettingSystem tt pb t m).A_.val 0 1) * c ∧
    (globalSystem tt pb t m).f_ 1
      = (wettingSystem tt pb t m).f_ 1
        + ((wettingSystem tt pb t m).A_.val 1 0 + (wettingSystem tt pb t m).A_.val 1 1) * c := by
  have hdomG : TwoCellDomain
      (pb.withGlobalPressureData tt.wetting (updateMaterialLaws tt.wetting pb m).variables_)
      b0 f01 f10 b1 := hdom
  obtain ⟨w00, w01, w10, w11, wf0, wf1⟩ :=
    twoCell_rows tt.wetting pb true t (updateMaterialLaws tt.wetting pb m) b0 f01 f10 b1 hdom
  obtain ⟨g00, g01, g10, g11, gf0, gf1⟩ :=
    twoCell_rows tt.global
      (pb.withGlobalPressureData tt.wetting (updateMaterialLaws tt.wetting pb m).variables_)
      true t (updateMaterialLaws tt.wetting pb m) b0 f01 f10 b1 hdomG
  obtain ⟨-, -, -, -, -, -, ho01, -, ho10, -, -⟩ := hdom
  have hpc01 : (updateMaterialLaws tt.wetting pb m).variables_.capillaryPressure 0
      = (updateMaterialLaws tt.wetting pb m).variables_.capillaryPressure f01.outside := by
    rw [ho01]
    exact hpc
  have hpc10 : (updateMaterialLaws tt.wetting pb m).variables_.capillaryPressure 1
      = (updateMaterialLaws tt.wetting pb m).variables_.capillaryPressure f10.outside := by
    rw [ho10]
    exact hpc.symm
  have hs0 : sourceRhs tt.global
      (pb.withGlobalPressureData tt.wetting (updateMaterialLaws tt.wetting pb m).variables_)
      (updateMaterialLaws tt.wetting pb m).variables_ 0
      = sourceRhs tt.wetting pb (updateMaterialLaws tt.wetting pb m).variables_ 0 := rfl
  have hs1 : sourceRhs tt.global
      (pb.withGlobalPressureData tt.wetting (updateMaterialLaws tt.wetting pb m).variables_)
      (updateMaterialLaws tt.wetting pb m).variables_ 1
      = sourceRhs tt.wetting pb (updateMaterialLaws tt.wetting pb m).variables_ 1 := rfl
  have hv0 : volumeCorrectionRhs tt.global
      (pb.withGlobalPressureData tt.wetting (updateMaterialLaws tt.wetting pb m).variables_)
      (updateMaterialLaws tt.wetting pb m).variables_ 0
      = volumeCorrectionRhs tt.wetting pb (updateMaterialLaws tt.wetting pb m).variables_ 0 := rfl
  have hv1 : volumeCorrectionRhs tt.global
      (pb.withGlobalPressureData tt.wetting (updateMaterialLaws tt.wetting pb m).variables_)
      (updateMaterialLaws tt.wetting pb m).variables_ 1
      = volumeCorrectionRhs tt.wetting pb (updateMaterialLaws tt.wetting pb m).variables_ 1 := rfl
  unfold globalSystem wettingSystem
  rw [updateMaterialLaws_global]
  rw [g00, g01, g10, g11, gf0, gf1, w00, w01, w10, w11, wf0, wf1, hs0, hs1, hv0, hv1]
  simp only [interiorFace_global_entry, interiorFace_global_normalDist,
    dirichletFace_global_entry, dirichletFace_global_normalDist, boundaryState_global,
    interiorFace_global_rightEntry tt pb _ _ 0 1 f01 hpc01,
    interiorFace_global_rightEntry tt pb _ _ 1 0 f10 hpc10,
    dirichletFace_global_rightEntry tt pb _ _ 0 0 b0 hpc0,
    dirichletFace_global_rightEntry tt pb _ _ 1 1 b1 hpc1, hb0, hb1]
  refine ⟨trivial, trivial, trivial, trivial, ?_, ?_⟩ <;> ring

theorem solvesSystem_two (m : FVPressure2P) (p : BlockVector) :
    SolvesSystem 2 m p ↔
      (m.A_.val 0 0 * p 0 + m.A_.val 0 1 * p 1 = m.f_ 0 ∧
       m.A_.val 1 0 * p 0 + m.A_.val 1 1 * p 1 = m.f_ 1) := by
  unfold SolvesSystem
  constructor
  · intro h
    have h0 := h 0 (by decide)
    have h1 := h 1 (by decide)
    simp only [Finset.sum_range_succ, Finset.sum_range_zero, zero_add] at h0 h1
    exact ⟨h0, h1⟩
  · rintro ⟨h0, h1⟩ i hi
    simp only [Finset.sum_range_succ, Finset.sum_range_zero, zero_add]
    obtain rfl | rfl : i = 0 ∨ i = 1 := by omega
    · exact h0
    · exact h1

/-- Claim C17, amended. Two-cell domain with Dirichlet pressure boundaries,
incompressible flow, system of the first assembly after Law-Update. If the
capillary pressure is the same in both cells and at both boundary faces, and
`fracFlowNW * pc` has the same value `c` in both cells and at both boundary
faces, then the global-pressure formulation with the boundary data
`p_w + fracFlowNW * pc` assembles the matrix of the wetting-pressure
formulation, a vector solves the wetting-pressure system exactly when its
cell-by-cell conversion `p_w + fracFlowNW * pc` solves the global-pressure
system, and when the matrix is regular the solution of the global-pressure
system is that conversion. -/
theorem formulation_equivalence_uniform_capillary (tt : TypeTag) (pb : Problem) (t : Scalar)
    (m : FVPressure2P) (b0 f01 f10 b1 : Intersection) (c : Scalar)
    (hdom : TwoCellDomain pb b0 f01 f10 b1)
    (hpc : (updateMaterialLaws tt.wetting pb m).variables_.capillaryPressure 0
      = (updateMaterialLaws tt.wetting pb m).variables_.capillaryPressure 1)
    (hpc0 : (boundaryState tt.wetting pb (updateMaterialLaws tt.wetting pb m).variables_ 0 0
      b0).pcBound = (updateMaterialLaws tt.wetting pb m).variables_.capillaryPressure 0)
    (hpc1 : (boundaryState tt.wetting pb (updateMaterialLaws tt.wetting pb m).variables_ 1 1
      b1).pcBound = (updateMaterialLaws tt.wetting pb m).variables_.capillaryPressure 1)
    (hc0 : (updateMaterialLaws tt.wetting pb m).variables_.fracFlowFuncNonwetting 0
      * (updateMaterialLaws tt.wetting pb m).variables_.capillaryPressure 0 = c)
    (hc1 : (updateMaterialLaws tt.wetting pb m).variables_.fracFlowFuncNonwetting 1
      * (updateMaterialLaws tt.wetting pb m).variables_.capillaryPressure 1 = c)
    (hb0 : boundaryOffset tt.wetting pb (updateMaterialLaws tt.wetting pb m).variables_ 0 0
      b0.globalPosFace = c)
    (hb1 : boundaryOffset tt.wetting pb (updateMaterialLaws tt.wetting pb m).variables_ 1 1
      b1.globalPosFace = c) :
    (∀ i j, i < 2 → j < 2 →
      (globalSystem tt pb t m).A_.val i j = (wettingSystem tt pb t m).A_.val i j) ∧
    (∀ p, SolvesSystem 2 (wettingSystem tt pb t m) p ↔
      SolvesSystem 2 (globalSystem tt pb t m) (convertedPressure tt pb m p)) ∧
    (∀ p q, SolvesSystem 2 (wettingSystem tt pb t m) p →
      SolvesSystem 2 (globalSystem tt pb t m) q →
      (globalSystem tt pb t m).A_.val 0 0 * (globalSystem tt pb t m).A_.val 1 1
        - (globalSystem tt pb t m).A_.val 0 1 * (globalSystem tt pb t m).A_.val 1 0 ≠ 0 →
      ∀ i, i < 2 → q i = convertedPressure tt pb m p i) := by
  obtain ⟨a00, a01, a10, a11, f0, f1⟩ :=
    global_system_rows tt pb t m b0 f01 f10 b1 c hdom hpc hpc0 hpc1 hb0 hb1
  have hconv : ∀ p, SolvesSystem 2 (wettingSystem tt pb t m) p ↔
      SolvesSystem 2 (globalSystem tt pb t m) (convertedPressure tt pb m p) := by
    intro p
    rw [solvesSystem_two, solvesSystem_two, a00, a01, a10, a11, f0, f1]
    simp only [convertedPressure, hc0, hc1]
    constructor
    · rintro ⟨h0, h1⟩
      exact ⟨by linear_combination h0, by linear_combination h1⟩
    · rintro ⟨h0, h1⟩
      exact ⟨by linear_combination h0, by linear_combination h1⟩
  refine ⟨?_, hconv, ?_⟩
  · intro i j hi hj
    obtain rfl | rfl : i = 0 ∨ i = 1 := by omega
    · obtain rfl | rfl : j = 0 ∨ j = 1 := by omega
      · exact a00
      · exact a01
    · obtain rfl | rfl : j = 0 ∨ j = 1 := by omega
      · exact a10
      · exact a11
  · intro p q hp hq hdet i hi
    obtain ⟨g0, g1⟩ := (solvesSystem_two _ _).mp ((hconv p).mp hp)
    obtain ⟨q0, q1⟩ := (solvesSystem_two _ _).mp hq
    have e0 : ((globalSystem tt pb t m).A_.val 0 0 * (globalSystem tt pb t m).A_.val 1 1
        - (globalSystem tt pb t m).A_.val 0 1 * (globalSystem tt pb t m).A_.val 1 0)
        * (q 0 - convertedPressure tt pb m p 0) = 0 := by
      linear_combination (globalSystem tt pb t m).A_.val 1 1 * (q0 - g0)
        - (globalSystem tt pb t m).A_.val 0 1 * (q1 - g1)
    have e1 : ((globalSystem tt pb t m).A_.val 0 0 * (globalSystem tt pb t m).A_.val 1 1
        - (globalSystem tt pb t m).A_.val 0 1 * (globalSystem tt pb t m).A_.val 1 0)
        * (q 1 - convertedPressure tt pb m p 1) = 0 := by
      linear_combination (globalSystem tt pb t m).A_.val 0 0 * (q1 - g1)
        - (globalSystem tt pb t m).A_.val 1 0 * (q0 - g0)
    obtain rfl | rfl : i = 0 ∨ i = 1 := by omega
    · rcases mul_eq_zero.mp e0 with h | h
      · exact absurd h hdet
      · exact sub_eq_zero.mp h
    · rcases mul_eq_zero.mp e1 with h | h
      · exact absurd h hdet
      · exact sub_eq_zero.mp h

theorem solved_bicgstab (pb : Problem) (m : FVPressure2P)
    (hp : m.preconditionerName_ = "SeqILU0") (hs : m.solverName_ = "BiCGSTAB") :
    solved pb m = applySolver pb.solveBiCGSTAB_ILU0 m := by
  simp [solved, solve, hp, hs]

theorem applySolver_cramer2 (m : FVPressure2P)
    (hdet : m.A_.val 0 0 * m.A_.val 1 1 - m.A_.val 0 1 * m.A_.val 1 0 ≠ 0) :
    (applySolver cramer2 m).variables_.pressure 0
      = (m.f_ 0 * m.A_.val 1 1 - m.A_.val 0 1 * m.f_ 1)
        / (m.A_.val 0 0 * m.A_.val 1 1 - m.A_.val 0 1 * m.A_.val 1 0) ∧
    (applySolver cramer2 m).variables_.pressure 1
      = (m.A_.val 0 0 * m.f_ 1 - m.f_ 0 * m.A_.val 1 0)
        / (m.A_.val 0 0 * m.A_.val 1 1 - m.A_.val 0 1 * m.A_.val 1 0) := by
  simp [applySolver, cramer2, hdet]

theorem twoCellsCapillary_domain :
    TwoCellDomain twoCellsCapillary twoCellsBoundaryFace twoCellsFace01 twoCellsFace10
      twoCellsBoundaryFace1 :=
  ⟨rfl, rfl, rfl, rfl, rfl, rfl, rfl, rfl, rfl, rfl, rfl⟩

theorem twoCellsCapillary_wettingSystem :
    (wettingSystem ttIncompressible twoCellsCapillary 0 twoCellsModel).A_.val 0 0 = 3 ∧
    (wettingSystem ttIncompressible twoCellsCapillary 0 twoCellsModel).A_.val 0 1 = -1 ∧
    (wettingSystem ttIncompressible twoCellsCapillary 0 twoCellsModel).A_.val 1 0 = -1 ∧
    (wettingSystem ttIncompressible twoCellsCapillary 0 twoCellsModel).A_.val 1 1 = 3 ∧
    (wettingSystem ttIncompressible twoCellsCapillary 0 twoCellsModel).f_ 0 = 7 / 4 ∧
    (wettingSystem ttIncompressible twoCellsCapillary 0 twoCellsModel).f_ 1 = 2 := by
  obtain ⟨a00, a01, a10, a11, f0, f1⟩ :=
    twoCell_rows ttIncompressible.wetting twoCellsCapillary true 0
      (updateMaterialLaws ttIncompressible.wetting twoCellsCapillary twoCellsModel)
      twoCellsBoundaryFace twoCellsFace01 twoCellsFace10 twoCellsBoundaryFace1
      twoCellsCapillary_domain
  unfold wettingSystem
  rw [a00, a01, a10, a11, f0, f1]
  refine ⟨?_, ?_, ?_, ?_, ?_, ?_⟩
  all_goals
    simp [dirichletFace, boundaryState, interiorFace, sourceRhs, volumeCorrectionRhs,
      updateMaterialLaws, updateMaterialLawsCell, TypeTag.wetting, ttIncompressible,
      twoCellsCapillary, twoCells, twoCellsModel, twoCellsVariables, satWOf, twoCellsElement,
      twoCellsBoundaryFace, twoCellsFace01, twoCellsFace10, twoCellsBoundaryFace1,
      List.range_succ, dot, mv, meanPermeability]
    try norm_num [abs_of_pos, abs_of_neg]

theorem twoCellsCapillary_globalSystem :
    (globalSystem ttIncompressible twoCellsCapillary 0 twoCellsModel).A_.val 0 0 = 3 ∧
    (globalSystem ttIncompressible twoCellsCapillary 0 twoCellsModel).A_.val 0 1 = -1 ∧
    (globalSystem ttIncompressible twoCellsCapillary 0 twoCellsModel).A_.val 1 0 = -1 ∧
    (globalSystem ttIncompressible twoCellsCapillary 0 twoCellsModel).A_.val 1 1 = 3 ∧
    (globalSystem ttIncompressible twoCellsCapillary 0 twoCellsModel).f_ 0 = 2 ∧
    (globalSystem ttIncompressible twoCellsCapillary 0 twoCellsModel).f_ 1 = 5 / 2 := by
  obtain ⟨a00, a01, a10, a11, f0, f1⟩ :=
    twoCell_rows ttIncompressible.global
      (twoCellsCapillary.withGlobalPressureData ttIncompressible.wetting
        (updateMaterialLaws ttIncompressible.wetting twoCellsCapillary twoCellsModel).variables_)
      true 0
      (updateMaterialLaws ttIncompressible.wetting twoCellsCapillary twoCellsModel)
      twoCellsBoundaryFace twoCellsFace01 twoCellsFace10 twoCellsBoundaryFace1
      twoCellsCapillary_domain
  unfold globalSystem
  rw [updateMaterialLaws_global, a00, a01, a10, a11, f0, f1]
  refine ⟨?_, ?_, ?_, ?_, ?_, ?_⟩
  all_goals
    simp [dirichletFace, boundaryState, interiorFace, sourceRhs, volumeCorrectionRhs,
      updateMaterialLaws, updateMaterialLawsCell, TypeTag.wetting, TypeTag.global,
      ttIncompressible, Problem.withGlobalPressureData, boundaryOffset, faceAt,
      twoCellsCapillary, twoCells, twoCellsModel, twoCellsVariables, satWOf, twoCellsElement,
      twoCellsBoundaryFace, twoCellsFace01, twoCellsFace10, twoCellsBoundaryFace1,
      List.range_succ, dot, mv, meanPermeability]
    try norm_num [abs_of_pos, abs_of_neg]

theorem twoCellsCapillary_offsets :
    (updateMaterialLaws ttIncompressible.wetting twoCellsCapillary
        twoCellsModel).variables_.fracFlowFuncNonwetting 0
      * (updateMaterialLaws ttIncompressible.wetting twoCellsCapillary
        twoCellsModel).variables_.capillaryPressure 0 = 1 / 4 ∧
    (updateMaterialLaws ttIncompressible.wetting twoCellsCapillary
        twoCellsModel).variables_.fracFlowFuncNonwetting 1
      * (updateMaterialLaws ttIncompressible.wetting twoCellsCapillary
        twoCellsModel).variables_.capillaryPressure 1 = 1 / 4 := by
  constructor
  all_goals
    simp [updateMaterialLaws, updateMaterialLawsCell, TypeTag.wetting, ttIncompressible,
      twoCellsCapillary, twoCells, twoCellsModel, twoCellsVariables, satWOf, twoCellsElement,
      List.range_succ]
    try norm_num

theorem twoCellsCapillary_wetting_solution :
    (solved twoCellsCapillary
      (wettingSystem ttIncompressible twoCellsCapillary 0 twoCellsModel)).variables_.pressure 0
      = 29 / 32 ∧
    (solved twoCellsCapillary
      (wettingSystem ttIncompressible twoCellsCapillary 0 twoCellsModel)).variables_.pressure 1
      = 31 / 32 := by
  obtain ⟨a00, a01, a10, a11, f0, f1⟩ := twoCellsCapillary_wettingSystem
  obtain ⟨g2, g1, -⟩ := assemble_sameFrame ttIncompressible.wetting twoCellsCapillary true 0
    (updateMaterialLaws ttIncompressible.wetting twoCellsCapillary twoCellsModel)
  have hs : (wettingSystem ttIncompressible twoCellsCapillary 0 twoCellsModel).solverName_
      = "BiCGSTAB" := g2
  have hp : (wettingSystem ttIncompressible twoCellsCapillary 0 twoCellsModel).preconditionerName_
      = "SeqILU0" := g1
  have hsol : twoCellsCapillary.solveBiCGSTAB_ILU0 = cramer2 := rfl
  have hdet : (wettingSystem ttIncompressible twoCellsCapillary 0 twoCellsModel).A_.val 0 0
      * (wettingSystem ttIncompressible twoCellsCapillary 0 twoCellsModel).A_.val 1 1
      - (wettingSystem ttIncompressible twoCellsCapillary 0 twoCellsModel).A_.val 0 1
      * (wettingSystem ttIncompressible twoCellsCapillary 0 twoCellsModel).A_.val 1 0 ≠ 0 := by
    rw [a00, a01, a10, a11]
    norm_num
  obtain ⟨p0, p1⟩ := applySolver_cramer2 _ hdet
  rw [solved_bicgstab _ _ hp hs, hsol, p0, p1, a00, a01, a10, a11, f0, f1]
  constructor <;> norm_num

theorem twoCellsCapillary_global_solution :
    (solved
      (twoCellsCapillary.withGlobalPressureData ttIncompressible.wetting
        (updateMaterialLaws ttIncompressible.wetting twoCellsCapillary twoCellsModel).variables_)
      (globalSystem ttIncompressible twoCellsCapillary 0 twoCellsModel)).variables_.pressure 0
      = 17 / 16 ∧
    (solved
      (twoCellsCapillary.withGlobalPressureData ttIncompressible.wetting
        (updateMaterialLaws ttIncompressible.wetting twoCellsCapillary twoCellsModel).variables_)
      (globalSystem ttIncompressible twoCellsCapillary 0 twoCellsModel)).variables_.pressure 1
      = 19 / 16 := by
  obtain ⟨a00, a01, a10, a11, f0, f1⟩ := twoCellsCapillary_globalSystem
  obtain ⟨g2, g1, -⟩ := assemble_sameFrame ttIncompressible.global
    (twoCellsCapillary.withGlobalPressureData ttIncompressible.wetting
      (updateMaterialLaws ttIncompressible.wetting twoCellsCapillary twoCellsModel).variables_)
    true 0
    (updateMaterialLaws ttIncompressible.global
      (twoCellsCapillary.withGlobalPressureData ttIncompressible.wetting
        (updateMaterialLaws ttIncompressible.wetting twoCellsCapillary twoCellsModel).variables_)
      twoCellsModel)
  have hs : (globalSystem ttIncompressible twoCellsCapillary 0 twoCellsModel).solverName_
      = "BiCGSTAB" := g2
  have hp : (globalSystem ttIncompressible twoCellsCapillary 0 twoCellsModel).preconditionerName_
      = "SeqILU0" := g1
  have hsol : (twoCellsCapillary.withGlobalPressureData ttIncompressible.wetting
      (updateMaterialLaws ttIncompressible.wetting twoCellsCapillary
        twoCellsModel).variables_).solveBiCGSTAB_ILU0 = cramer2 := rfl
  have hdet : (globalSystem ttIncompressible twoCellsCapillary 0 twoCellsModel).A_.val 0 0
      * (globalSystem ttIncompressible twoCellsCapillary 0 twoCellsModel).A_.val 1 1
      - (globalSystem ttIncompressible twoCellsCapillary 0 twoCellsModel).A_.val 0 1
      * (globalSystem ttIncompressible twoCellsCapillary 0 twoCellsModel).A_.val 1 0 ≠ 0 := by
    rw [a00, a01, a10, a11]
    norm_num
  obtain ⟨p0, p1⟩ := applySolver_cramer2 _ hdet
  rw [solved_bicgstab _ _ hp hs, hsol, p0, p1, a00, a01, a10, a11, f0, f1]
  constructor <;> norm_num

/-- Claim C17 fails as stated. Two unit cells in one dimension, saturation 1/2 in
both, Dirichlet pressure and saturation at both ends: wetting pressure 1 at both
ends, saturation 1 at the left end (`pc = 0`, `fracFlowNW = 0`) and 1/2 at the
right end (`pc = 1/2`, `fracFlowNW = 1/2`), so the global pressures at the ends
are 1 and 5/4. Both formulations assemble the matrix `(3, -1; -1, 3)`. The
wetting-pressure system has the right-hand side `(7/4, 2)` and the solution
`(29/32, 31/32)`, converted with `fracFlowNW * pc = 1/4` to `(37/32, 39/32)`;
the global-pressure system has the right-hand side `(2, 5/2)` and the solution
`(17/16, 19/16)`. -/
theorem formulation_equivalence_fails_with_capillary_jump :
    (twoCellsCapillary.withGlobalPressureData ttIncompressible.wetting
      (updateMaterialLaws ttIncompressible.wetting twoCellsCapillary
        twoCellsModel).variables_).dirichletPress twoCellsBoundaryFace.globalPosFace 0 0 = 1 ∧
    (twoCellsCapillary.withGlobalPressureData ttIncompressible.wetting
      (updateMaterialLaws ttIncompressible.wetting twoCellsCapillary
        twoCellsModel).variables_).dirichletPress twoCellsBoundaryFace1.globalPosFace 1 1
      = 5 / 4 ∧
    convertedPressure ttIncompressible twoCellsCapillary twoCellsModel
      (solved twoCellsCapillary
        (wettingSystem ttIncompressible twoCellsCapillary 0 twoCellsModel)).variables_.pressure 0
      = 37 / 32 ∧
    convertedPressure ttIncompressible twoCellsCapillary twoCellsModel
      (solved twoCellsCapillary
        (wettingSystem ttIncompressible twoCellsCapillary 0 twoCellsModel)).variables_.pressure 1
      = 39 / 32 ∧
    (solved
      (twoCellsCapillary.withGlobalPressureData ttIncompressible.wetting
        (updateMaterialLaws ttIncompressible.wetting twoCellsCapillary twoCellsModel).variables_)
      (globalSystem ttIncompressible twoCellsCapillary 0 twoCellsModel)).variables_.pressure 0
      = 17 / 16 ∧
    (solved
      (twoCellsCapillary.withGlobalPressureData ttIncompressible.wetting
        (updateMaterialLaws ttIncompressible.wetting twoCellsCapillary twoCellsModel).variables_)
      (globalSystem ttIncompressible twoCellsCapillary 0 twoCellsModel)).variables_.pressure 1
      = 19 / 16 ∧
    convertedPressure ttIncompressible twoCellsCapillary twoCellsModel
      (solved twoCellsCapillary
        (wettingSystem ttIncompressible twoCellsCapillary 0 twoCellsModel)).variables_.pressure 0
      ≠ (solved
          (twoCellsCapillary.withGlobalPressureData ttIncompressible.wetting
            (updateMaterialLaws ttIncompressible.wetting twoCellsCapillary
              twoCellsModel).variables_)
          (globalSystem ttIncompressible twoCellsCapillary 0
            twoCellsModel)).variables_.pressure 0 := by
  obtain ⟨w0, w1⟩ := twoCellsCapillary_wetting_solution
  obtain ⟨g0, g1⟩ := twoCellsCapillary_global_solution
  obtain ⟨c0, c1⟩ := twoCellsCapillary_offsets
  have hc0 : convertedPressure ttIncompressible twoCellsCapillary twoCellsModel
      (solved twoCellsCapillary
        (wettingSystem ttIncompressible twoCellsCapillary 0 twoCellsModel)).variables_.pressure 0
      = 37 / 32 := by
    unfold convertedPressure
    rw [w0, c0]
    norm_num
  have hc1 : convertedPressure ttIncompressible twoCellsCapillary twoCellsModel
      (solved twoCellsCapillary
        (wettingSystem ttIncompressible twoCellsCapillary 0 twoCellsModel)).variables_.pressure 1
      = 39 / 32 := by
    unfold convertedPressure
    rw [w1, c1]
    norm_num
  refine ⟨?_, ?_, hc0, hc1, g0, g1, ?_⟩
  · simp [Problem.withGlobalPressureData, boundaryOffset, boundaryState, faceAt,
      TypeTag.wetting, ttIncompressible, twoCellsCapillary, twoCells, satWOf, twoCellsElement,
      twoCellsBoundaryFace]
  · simp [Problem.withGlobalPressureData, boundaryOffset, boundaryState, faceAt,
      TypeTag.wetting, ttIncompressible, twoCellsCapillary, twoCells, satWOf, twoCellsElement,
      twoCellsBoundaryFace1]
    norm_num
  · rw [hc0, g0]
    norm_num

/-- Witness for the amended C17: the two-cell example with the saturation 1/2 in
both cells and at both boundaries, where `fracFlowNW * pc = 1/4` everywhere. -/
theorem formulation_equivalence_uniform_capillary_witness :
    SolvesSystem 2 (wettingSystem ttIncompressible twoCellsUniform 0 twoCellsModel)
        (fun _ => 1) ↔
      SolvesSystem 2 (globalSystem ttIncompressible twoCellsUniform 0 twoCellsModel)
        (convertedPressure ttIncompressible twoCellsUniform twoCellsModel (fun _ => 1)) :=
  (formulation_equivalence_uniform_capillary ttIncompressible twoCellsUniform 0 twoCellsModel
      twoCellsBoundaryFace twoCellsFace01 twoCellsFace10 twoCellsBoundaryFace1 (1 / 4)
      ⟨rfl, rfl, rfl, rfl, rfl, rfl, rfl, rfl, rfl, rfl, rfl⟩
      (by
        simp [updateMaterialLaws, updateMaterialLawsCell, TypeTag.wetting, ttIncompressible,
          twoCellsUniform, twoCellsCapillary, twoCells, twoCellsModel, twoCellsVariables,
          satWOf, twoCellsElement, List.range_succ])
      (by
        simp [boundaryState, updateMaterialLaws, updateMaterialLawsCell, TypeTag.wetting,
          ttIncompressible, twoCellsUniform, twoCellsCapillary, twoCells, twoCellsModel,
          twoCellsVariables, satWOf, twoCellsElement, twoCellsBoundaryFace, List.range_succ])
      (by
        simp [boundaryState, updateMaterialLaws, updateMaterialLawsCell, TypeTag.wetting,
          ttIncompressible, twoCellsUniform, twoCellsCapillary, twoCells, twoCellsModel,
          twoCellsVariables, satWOf, twoCellsElement, twoCellsBoundaryFace1, List.range_succ])
      (by
        simp [updateMaterialLaws, updateMaterialLawsCell, TypeTag.wetting, ttIncompressible,
          twoCellsUniform, twoCellsCapillary, twoCells, twoCellsModel, twoCellsVariables,
          satWOf, twoCellsElement, List.range_succ]
        norm_num)
      (by
        simp [updateMaterialLaws, updateMaterialLawsCell, TypeTag.wetting, ttIncompressible,
          twoCellsUniform, twoCellsCapillary, twoCells, twoCellsModel, twoCellsVariables,
          satWOf, twoCellsElement, List.range_succ]
        norm_num)
      (by
        simp [boundaryOffset, boundaryState, faceAt, TypeTag.wetting, ttIncompressible,
          twoCellsUniform, twoCellsCapillary, twoCells, satWOf, twoCellsElement,
          twoCellsBoundaryFace]
        norm_num)
      (by
        simp [boundaryOffset, boundaryState, faceAt, TypeTag.wetting, ttIncompressible,
          twoCellsUniform, twoCellsCapillary, twoCells, satWOf, twoCellsElement,
          twoCellsBoundaryFace1]
        norm_num)).2.1 (fun _ => 1)

/-! ### The potential store in closed form -/

theorem faceStore_congr (tt : TypeTag) (pb : Problem) {v w : Variables} (first : Bool)
    (i k : Nat) (isIt : Intersection) (h : SameLaws v w)
    (hw : v.potentialWetting i k = w.potentialWetting i k)
    (hn : v.potentialNonwetting i k = w.potentialNonwetting i k) :
    faceStoreW tt pb first i v k isIt = faceStoreW tt pb first i w k isIt ∧
    faceStoreNW tt pb first i v k isIt = faceStoreNW tt pb first i w k isIt := by
  obtain ⟨f1, f2, -⟩ := h.fields
  simp only [faceStoreW, faceStoreNW, interiorFace_congr tt pb first i k isIt h hw hn,
    dirichletFace_congr tt pb first i k isIt h hw hn, f1, f2, hw, hn, and_self]

theorem assembleIntersection_store_same (tt : TypeTag) (pb : Problem) (first : Bool) (i : Nat)
    (m : FVPressure2P) (k : Nat) (isIt : Intersection) :
    (assembleIntersection tt pb first i m k isIt).variables_.potentialWetting i k
      = faceStoreW tt pb first i m.variables_ k isIt ∧
    (assembleIntersection tt pb first i m k isIt).variables_.potentialNonwetting i k
      = faceStoreNW tt pb first i m.variables_ k isIt := by
  unfold assembleIntersection faceStoreW faceStoreNW
  by_cases hn : isIt.neighbor = true
  · rw [if_pos hn, if_pos hn, if_pos hn]
    cases first <;> simp [Variables.storePotentials]
  · rw [if_neg hn, if_neg hn, if_neg hn]
    dsimp only
    by_cases hd : pb.bctypePress isIt.globalPosFace i k = Flags.dirichlet
    · rw [if_pos hd, if_pos hd, if_pos hd]
      cases first <;> simp [Variables.storePotentials]
    · rw [if_neg hd, if_neg hd, if_neg hd]
      simp [Variables.storePotentials]

/-- The intersection loop that starts at the local index `k` leaves the store
entries of smaller local indices alone. -/
theorem intersectionLoop_store_of_lt (tt : TypeTag) (pb : Problem) (first : Bool) (i : Nat)
    (faces : List Intersection) :
    ∀ (k : Nat) (m : FVPressure2P) (k1 : Nat), k1 < k →
      (intersectionLoop tt pb first i faces k m).variables_.potentialWetting i k1
        = m.variables_.potentialWetting i k1 ∧
      (intersectionLoop tt pb first i faces k m).variables_.potentialNonwetting i k1
        = m.variables_.potentialNonwetting i k1 := by
  induction faces with
  | nil => intro k m k1 _; exact ⟨rfl, rfl⟩
  | cons isIt rest ih =>
    intro k m k1 hk
    simp only [intersectionLoop]
    obtain ⟨h1, h2⟩ := ih (k + 1) (assembleIntersection tt pb first i m k isIt) k1 (by omega)
    obtain ⟨g1, g2⟩ :=
      assembleIntersection_store_of_ne tt pb first i m k isIt i k1 (Or.inr (by omega))
    exact ⟨h1.trans g1, h2.trans g2⟩

/-- After the intersection loop of cell `i`, the store entry of the intersection
with position `q` in the list is what that intersection wrote, computed from the
variables the loop started with. -/
theorem intersectionLoop_store (tt : TypeTag) (pb : Problem) (first : Bool) (i : Nat)
    (faces : List Intersection) :
    ∀ (k : Nat) (m : FVPressure2P) (q : Nat) (isIt : Intersection), faces[q]? = some isIt →
      (intersectionLoop tt pb first i faces k m).variables_.potentialWetting i (k + q)
        = faceStoreW tt pb first i m.variables_ (k + q) isIt ∧
      (intersectionLoop tt pb first i faces k m).variables_.potentialNonwetting i (k + q)
        = faceStoreNW tt pb first i m.variables_ (k + q) isIt := by
  induction faces with
  | nil => intro k m q isIt hq; simp at hq
  | cons f0 rest ih =>
    intro k m q isIt hq
    simp only [intersectionLoop]
    cases q with
    | zero =>
      simp only [List.getElem?_cons_zero, Option.some.injEq] at hq
      subst hq
      obtain ⟨h1, h2⟩ := intersectionLoop_store_of_lt tt pb first i rest (k + 1)
        (assembleIntersection tt pb first i m k f0) k (by omega)
      obtain ⟨g1, g2⟩ := assembleIntersection_store_same tt pb first i m k f0
      exact ⟨h1.trans g1, h2.trans g2⟩
    | succ q =>
      simp only [List.getElem?_cons_succ] at hq
      obtain ⟨h1, h2⟩ := ih (k + 1) (assembleIntersection tt pb first i m k f0) q isIt hq
      have hne : i ≠ i ∨ k + 1 + q ≠ k := Or.inr (by omega)
      obtain ⟨s1, s2⟩ := assembleIntersection_store_of_ne tt pb first i m k f0 i (k + 1 + q) hne
      obtain ⟨c1, c2⟩ := faceStore_congr tt pb first i (k + 1 + q) isIt
        (assembleIntersection_sameFrame tt pb first i m k f0).sameLaws s1 s2
      have hidx : k + (q + 1) = k + 1 + q := by omega
      rw [hidx]
      exact ⟨h1.trans c1, h2.trans c2⟩

/-- The store entry `(i, q)` after `assemble`, for the intersection `q` of a cell
`i` of the grid: what that intersection wrote, computed from the variables
`assemble` started with. -/
theorem assemble_store (tt : TypeTag) (pb : Problem) (first : Bool) (t : Scalar)
    (m : FVPressure2P) (i : Nat) (hi : i < pb.gridSize) (q : Nat) (isIt : Intersection)
    (hq : (pb.element i).intersections[q]? = some isIt) :
    (assemble tt pb first t m).variables_.potentialWetting i q
      = faceStoreW tt pb first i m.variables_ q isIt ∧
    (assemble tt pb first t m).variables_.potentialNonwetting i q
      = faceStoreNW tt pb first i m.variables_ q isIt := by
  obtain ⟨-, hw, hn, -, -⟩ := assemble_rowAgree tt pb first t m i hi
  rw [hw, hn, assembleElement_eq]
  simp only
  obtain ⟨h1, h2⟩ := intersectionLoop_store tt pb first i (pb.element i).intersections 0
    { m with A_ := { m.A_ with val := fun _ _ => 0 },
             f_ := Function.update (fun _ => 0) i (sourceRhs tt pb m.variables_ i) } q isIt hq
  rw [Nat.zero_add] at h1 h2
  exact ⟨h1, h2⟩

/-! ### The store across the interior faces -/

/-- On a conforming mesh `assemble` keeps the store opposite across the interior
faces: with `first` set it does not write these entries, otherwise the two sides
of a face recompute opposite potentials. -/
theorem assemble_keeps_store_opposite (tt : TypeTag) (pb : Problem) (first : Bool) (t : Scalar)
    (m : FVPressure2P) (mirror : Nat → Nat → Nat) (hconf : Conforming tt pb mirror)
    (h : OppositeStore pb mirror m.variables_) :
    OppositeStore pb mirror (assemble tt pb first t m).variables_ := by
  intro i k isIt hi hq hn
  obtain ⟨hlt, -, -, isJt, hmf⟩ := hconf i k isIt hi hq hn
  have hqJ := hmf.2.1
  have hnJ := hmf.2.2.2.2.1
  obtain ⟨a1, a2⟩ := assemble_store tt pb first t m i hi k isIt hq
  obtain ⟨b1, b2⟩ := assemble_store tt pb first t m isIt.outside hlt (mirror i k) isJt hqJ
  rw [a1, a2, b1, b2]
  unfold faceStoreW faceStoreNW
  rw [if_pos hn, if_pos hnJ, if_pos hn, if_pos hnJ]
  cases first
  · obtain ⟨hW, hN, -⟩ := interiorFace_mirror tt pb m.variables_ false i k isIt.outside
      (mirror i k) isIt isJt hmf (Or.inr (Or.inr (h i k isIt hi hq hn)))
    simp only [Bool.false_eq_true, if_false]
    exact ⟨hW, hN⟩
  · simp only [if_true]
    exact h i k isIt hi hq hn

/-- Witness for the amended C7: the example grid with gravity 1 and incompressible
flow, with the wetting densities 1 and 2 and an empty potential store; the first
assembly with `first = true`, and the assembly with `first = false` that follows
one with `first = false`, whose stored potentials it reads. -/
theorem closed_domain_rhs_sum_zero_witness :
    Finset.sum (Finset.range twoCellsGravity.gridSize)
      (fun i => (assemble ttIncompressible twoCellsGravity true 0 tiltedFresh).f_ i) = 0 ∧
    Finset.sum (Finset.range twoCellsGravity.gridSize)
      (fun i => (assemble ttIncompressible twoCellsGravity false 0
        (assemble ttIncompressible twoCellsGravity false 0 tiltedFresh)).f_ i) = 0 :=
  ⟨closed_domain_rhs_sum_zero ttIncompressible twoCellsGravity true 0 tiltedFresh twoCellsMirror
      (conforming_of_twoCells _ _ rfl rfl rfl) (fun _ _ _ _ _ _ => ⟨rfl, fun _ => rfl⟩)
      (fun _ _ _ => rfl) (Or.inl rfl) (fun _ _ _ _ _ _ => Or.inl rfl),
   closed_domain_rhs_sum_zero ttIncompressible twoCellsGravity false 0
      (assemble ttIncompressible twoCellsGravity false 0 tiltedFresh) twoCellsMirror
      (conforming_of_twoCells _ _ rfl rfl rfl) (fun _ _ _ _ _ _ => ⟨rfl, fun _ => rfl⟩)
      (fun _ _ _ => rfl) (Or.inl rfl)
      (fun i k isIt hi hq hn => Or.inr (Or.inr
        (assemble_keeps_store_opposite ttIncompressible twoCellsGravity false 0 tiltedFresh
          twoCellsMirror (conforming_of_twoCells _ _ rfl rfl rfl)
          (fun _ _ _ _ _ _ => ⟨neg_zero.symm, neg_zero.symm⟩) i k isIt hi hq hn)))⟩

/-! ### The Dirichlet face in closed form -/

theorem dirichletFace_normalDist (tt : TypeTag) (pb : Problem) (v : Variables) (first : Bool)
    (i k : Nat) (isIt : Intersection) :
    (dirichletFace tt pb v first i k isIt).normalDist
      = dot tt.dim isIt.unitOuterNormal (faceUnitDist pb i isIt) := rfl

theorem dirichletFace_entry (tt : TypeTag) (pb : Problem) (v : Variables) (first : Bool)
    (i k : Nat) (isIt : Intersection) :
    (dirichletFace tt pb v first i k isIt).entry
      = (upwind (dirichletFace tt pb v first i k isIt).potentialW
            (v.mobilityWetting i) (boundaryState tt pb v i k isIt).lambdaWBound
          + upwind (dirichletFace tt pb v first i k isIt).potentialNW
            (v.mobilityNonwetting i) (boundaryState tt pb v i k isIt).lambdaNWBound)
        * (dot tt.dim (boundaryPermeability tt pb i isIt) (faceUnitDist pb i isIt)
            / faceDist pb i isIt)
        * isIt.faceArea * dot tt.dim isIt.unitOuterNormal (faceUnitDist pb i isIt) := rfl

theorem dirichletFace_rightEntry (tt : TypeTag) (pb : Problem) (v : Variables) (first : Bool)
    (i k : Nat) (isIt : Intersection) :
    (dirichletFace tt pb v first i k isIt).rightEntry
      = (upwind (dirichletFace tt pb v first i k isIt).potentialW
            (v.mobilityWetting i) (boundaryState tt pb v i k isIt).lambdaWBound
            * upwind (dirichletFace tt pb v first i k isIt).potentialW
              (v.densityWetting i) (boundaryState tt pb v i k isIt).densityWBound
          + upwind (dirichletFace tt pb v first i k isIt).potentialNW
            (v.mobilityNonwetting i) (boundaryState tt pb v i k isIt).lambdaNWBound
            * upwind (dirichletFace tt pb v first i k isIt).potentialNW
              (v.densityNonwetting i) (boundaryState tt pb v i k isIt).densityNWBound)
          * dot tt.dim (boundaryPermeability tt pb i isIt) pb.gravity * isIt.faceArea
        + boundaryCapillaryTerm tt pb v i k isIt := by
  obtain ⟨dim, comp, pt, st⟩ := tt
  cases pt
  · rfl
  · exact sub_eq_add_neg _ _
  · exact (add_zero _).symm

theorem dirichletFace_potentialW (tt : TypeTag) (pb : Problem) (v : Variables) (first : Bool)
    (i k : Nat) (isIt : Intersection) :
    (dirichletFace tt pb v first i k isIt).potentialW
      = if first then 0
        else (match tt.pressureType with
            | PressureFormulation.pw =>
                (v.pressure i - (boundaryState tt pb v i k isIt).pressBound) / faceDist pb i isIt
            | PressureFormulation.pn =>
                (v.pressure i - v.capillaryPressure i
                  - (boundaryState tt pb v i k isIt).pressBound
                  + (boundaryState tt pb v i k isIt).pcBound) / faceDist pb i isIt
            | PressureFormulation.pglobal =>
                (v.pressure i - (boundaryState tt pb v i k isIt).pressBound
                  - 0.5 * (v.fracFlowFuncNonwetting i
                      + (boundaryState tt pb v i k isIt).lambdaNWBound
                        / ((boundaryState tt pb v i k isIt).lambdaWBound
                          + (boundaryState tt pb v i k isIt).lambdaNWBound))
                    * (v.capillaryPressure i - (boundaryState tt pb v i k isIt).pcBound))
                  / faceDist pb i isIt)
          + upwind (v.potentialWetting i k) (v.densityWetting i)
              (boundaryState tt pb v i k isIt).densityWBound
            * dot tt.dim (faceUnitDist pb i isIt) pb.gravity := by
  obtain ⟨dim, comp, pt, st⟩ := tt
  cases pt <;> rfl

theorem dirichletFace_potentialNW (tt : TypeTag) (pb : Problem) (v : Variables) (first : Bool)
    (i k : Nat) (isIt : Intersection) :
    (dirichletFace tt pb v first i k isIt).potentialNW
      = if first then 0
        else (match tt.pressureType with
            | PressureFormulation.pw =>
                (v.pressure i + v.capillaryPressure i
                  - (boundaryState tt pb v i k isIt).pressBound
                  - (boundaryState tt pb v i k isIt).pcBound) / faceDist pb i isIt
            | PressureFormulation.pn =>
                (v.pressure i - (boundaryState tt pb v i k isIt).pressBound) / faceDist pb i isIt
            | PressureFormulation.pglobal =>
                (v.pressure i - (boundaryState tt pb v i k isIt).pressBound
                  + 0.5 * (v.fracFlowFuncWetting i
                      + (boundaryState tt pb v i k isIt).lambdaWBound
                        / ((boundaryState tt pb v i k isIt).lambdaWBound
                          + (boundaryState tt pb v i k isIt).lambdaNWBound))
                    * (v.capillaryPressure i - (boundaryState tt pb v i k isIt).pcBound))
                  / faceDist pb i isIt)
          + upwind (v.potentialNonwetting i k) (v.densityNonwetting i)
              (boundaryState tt pb v i k isIt).densityNWBound
            * dot tt.dim (faceUnitDist pb i isIt) pb.gravity := by
  obtain ⟨dim, comp, pt, st⟩ := tt
  cases pt <;> rfl

theorem dot_mul_right (dim : Nat) (u w : FieldVector) (s : Scalar) :
    dot dim u (fun x => w x * s) = dot dim u w * s := by
  unfold dot
  rw [Finset.sum_mul]
  exact Finset.sum_congr rfl (fun x _ => by ring)

theorem upwind_of_pos (potential valueI valueJ : Scalar) (h : 0 < potential) :
    upwind potential valueI valueJ = valueI := by
  unfold upwind
  rw [if_neg (ne_of_gt h), if_pos h]

theorem upwind_of_neg (potential valueI valueJ : Scalar) (h : potential < 0) :
    upwind potential valueI valueJ = valueJ := by
  unfold upwind
  rw [if_neg (ne_of_lt h), if_neg (not_lt.mpr (le_of_lt h))]

theorem upwind_zero (valueI valueJ : Scalar) :
    upwind 0 valueI valueJ = 0.5 * (valueI + valueJ) := by
  unfold upwind
  rw [if_pos rfl]

/-! ### Potentials, upwinding and the entries of a face -/

/-- Claim C21 fails as stated. Two-cell example with Dirichlet pressure 1 at the
boundaries, pressures 0 and 3/2 in the cells and the value 1 in every store
entry: after `assemble(true, 0)` the store entries of the Dirichlet face `(0, 0)`
and of the interior face `(0, 1)` still hold the prior value 1, while the
potentials of the current state (what a call with `first = false` computes) are
-2 and -3/2. -/
theorem first_assemble_leaves_store_stale :
    tiltedModel.variables_.potentialWetting 0 0 = 1 ∧
    tiltedModel.variables_.potentialWetting 0 1 = 1 ∧
    (assemble ttIncompressible twoCellsDirichlet true 0 tiltedModel).variables_.potentialWetting
      0 0 = 1 ∧
    (assemble ttIncompressible twoCellsDirichlet true 0 tiltedModel).variables_.potentialWetting
      0 1 = 1 ∧
    (dirichletFace ttIncompressible twoCellsDirichlet tiltedModel.variables_ false 0 0
      twoCellsBoundaryFace).potentialW = -2 ∧
    (interiorFace ttIncompressible twoCellsDirichlet tiltedModel.variables_ false 0 1
      twoCellsFace01).potentialW = -3 / 2 := by
  obtain ⟨h0, -⟩ := assemble_store ttIncompressible twoCellsDirichlet true 0 tiltedModel 0
    (by decide) 0 twoCellsBoundaryFace rfl
  obtain ⟨h1, -⟩ := assemble_store ttIncompressible twoCellsDirichlet true 0 tiltedModel 0
    (by decide) 1 twoCellsFace01 rfl
  refine ⟨rfl, rfl, ?_, ?_, ?_, ?_⟩
  · rw [h0]
    simp [faceStoreW, twoCellsBoundaryFace, twoCellsDirichlet, tiltedModel, tiltedVariables]
  · rw [h1]
    simp [faceStoreW, twoCellsFace01, tiltedModel, tiltedVariables]
  · simp [dirichletFace, boundaryState, twoCellsDirichlet, twoCells, twoCellsElement,
      twoCellsBoundaryFace, tiltedModel, tiltedVariables, ttIncompressible, dot, satWOf]
    norm_num [abs_of_pos, abs_of_neg]
  · simp [interiorFace, twoCellsDirichlet, twoCells, twoCellsElement, twoCellsFace01,
      tiltedModel, tiltedVariables, ttIncompressible, dot]
    norm_num [abs_of_pos, abs_of_neg]

/-- Claim C21, amended. With `first = true`, `assemble` takes both phase
potentials of an interior or Dirichlet face as zero and writes nothing to the
store for it: after the call the two store entries of the face hold what they
held before the call. -/
theorem first_assemble_keeps_store (tt : TypeTag) (pb : Problem) (t : Scalar)
    (m : FVPressure2P) (i : Nat) (hi : i < pb.gridSize) (q : Nat) (isIt : Intersection)
    (hq : (pb.element i).intersections[q]? = some isIt)
    (hface : isIt.neighbor = true
      ∨ pb.bctypePress isIt.globalPosFace i q = Flags.dirichlet) :
    (assemble tt pb true t m).variables_.potentialWetting i q
      = m.variables_.potentialWetting i q ∧
    (assemble tt pb true t m).variables_.potentialNonwetting i q
      = m.variables_.potentialNonwetting i q ∧
    (interiorFace tt pb m.variables_ true i q isIt).potentialW = 0 ∧
    (interiorFace tt pb m.variables_ true i q isIt).potentialNW = 0 ∧
    (dirichletFace tt pb m.variables_ true i q isIt).potentialW = 0 ∧
    (dirichletFace tt pb m.variables_ true i q isIt).potentialNW = 0 := by
  obtain ⟨h1, h2⟩ := assemble_store tt pb true t m i hi q isIt hq
  refine ⟨?_, ?_, ?_, ?_, ?_, ?_⟩
  · rw [h1]
    unfold faceStoreW
    rcases hface with hn | hd
    · rw [if_pos hn, if_pos rfl]
    · by_cases hn : isIt.neighbor = true
      · rw [if_pos hn, if_pos rfl]
      · rw [if_neg hn, if_pos hd, if_pos rfl]
  · rw [h2]
    unfold faceStoreNW
    rcases hface with hn | hd
    · rw [if_pos hn, if_pos rfl]
    · by_cases hn : isIt.neighbor = true
      · rw [if_pos hn, if_pos rfl]
      · rw [if_neg hn, if_pos hd, if_pos rfl]
  · rw [interiorFace_potentialW, if_pos rfl]
  · rw [interiorFace_potentialNW, if_pos rfl]
  · rw [dirichletFace_potentialW, if_pos rfl]
  · rw [dirichletFace_potentialNW, if_pos rfl]

/-- Witness for the amended C21: the interior face of cell 0 of the two-cell
example. -/
theorem first_assemble_keeps_store_witness :
    (assemble ttIncompressible twoCellsDirichlet true 0 tiltedModel).variables_.potentialWetting
      0 1 = tiltedModel.variables_.potentialWetting 0 1 :=
  (first_assemble_keeps_store ttIncompressible twoCellsDirichlet 0 tiltedModel 0 (by decide) 1
    twoCellsFace01 rfl (Or.inl rfl)).1

/-- Claim C23. The upwind selection returns the value of cell `i` for a strictly
positive potential, the value of the other side for a strictly negative one, and
the arithmetic mean for the potential zero. It is the rule by which `assemble`
picks, for each phase separately, the mobility in the matrix entry and the
mobility and the density in the right-hand-side term, for an interior face
(other side: cell `j`) and for a Dirichlet face (other side: boundary state). -/
theorem upwind_selection (tt : TypeTag) (pb : Problem) (v : Variables) (first : Bool)
    (i k : Nat) (isIt : Intersection) (potential valueI valueJ : Scalar) :
    (0 < potential → upwind potential valueI valueJ = valueI) ∧
    (potential < 0 → upwind potential valueI valueJ = valueJ) ∧
    (potential = 0 → upwind potential valueI valueJ = (valueI + valueJ) / 2) ∧
    ((interiorFace tt pb v first i k isIt).entry
      = (upwind (interiorFace tt pb v first i k isIt).potentialW
            (v.mobilityWetting i) (v.mobilityWetting isIt.outside)
          + upwind (interiorFace tt pb v first i k isIt).potentialNW
            (v.mobilityNonwetting i) (v.mobilityNonwetting isIt.outside))
        * (dot tt.dim (facePermeability tt pb i isIt.outside) (unitDist pb i isIt.outside)
            / centreDist pb i isIt.outside)
        * isIt.faceArea * dot tt.dim isIt.unitOuterNormal (unitDist pb i isIt.outside)) ∧
    ((interiorFace tt pb v first i k isIt).rightEntry
      = (upwind (interiorFace tt pb v first i k isIt).potentialW
            (v.mobilityWetting i) (v.mobilityWetting isIt.outside)
            * upwind (interiorFace tt pb v first i k isIt).potentialW
              (v.densityWetting i) (v.densityWetting isIt.outside)
          + upwind (interiorFace tt pb v first i k isIt).potentialNW
            (v.mobilityNonwetting i) (v.mobilityNonwetting isIt.outside)
            * upwind (interiorFace tt pb v first i k isIt).potentialNW
              (v.densityNonwetting i) (v.densityNonwetting isIt.outside))
          * dot tt.dim (facePermeability tt pb i isIt.outside) pb.gravity * isIt.faceArea
        + capillaryTerm tt pb v i isIt.outside isIt.faceArea) ∧
    ((dirichletFace tt pb v first i k isIt).entry
      = (upwind (dirichletFace tt pb v first i k isIt).potentialW
            (v.mobilityWetting i) (boundaryState tt pb v i k isIt).lambdaWBound
          + upwind (dirichletFace tt pb v first i k isIt).potentialNW
            (v.mobilityNonwetting i) (boundaryState tt pb v i k isIt).lambdaNWBound)
        * (dot tt.dim (boundaryPermeability tt pb i isIt) (faceUnitDist pb i isIt)
            / faceDist pb i isIt)
        * isIt.faceArea * dot tt.dim isIt.unitOuterNormal (faceUnitDist pb i isIt)) ∧
    ((dirichletFace tt pb v first i k isIt).rightEntry
      = (upwind (dirichletFace tt pb v first i k isIt).potentialW
            (v.mobilityWetting i) (boundaryState tt pb v i k isIt).lambdaWBound
            * upwind (dirichletFace tt pb v first i k isIt).potentialW
              (v.densityWetting i) (boundaryState tt pb v i k isIt).densityWBound
          + upwind (dirichletFace tt pb v first i k isIt).potentialNW
            (v.mobilityNonwetting i) (boundaryState tt pb v i k isIt).lambdaNWBound
            * upwind (dirichletFace tt pb v first i k isIt).potentialNW
              (v.densityNonwetting i) (boundaryState tt pb v i k isIt).densityNWBound)
          * dot tt.dim (boundaryPermeability tt pb i isIt) pb.gravity * isIt.faceArea
        + boundaryCapillaryTerm tt pb v i k isIt) := by
  refine ⟨upwind_of_pos potential valueI valueJ, upwind_of_neg potential valueI valueJ, ?_,
    interiorFace_entry tt pb v first i k isIt, interiorFace_rightEntry tt pb v first i k isIt,
    dirichletFace_entry tt pb v first i k isIt, dirichletFace_rightEntry tt pb v first i k isIt⟩
  intro h0
  rw [h0, upwind_zero]
  norm_num
  ring

/-- Witness for C23: the potentials 2, -2 and 0 with the values 3 and 5. -/
theorem upwind_selection_witness :
    upwind 2 3 5 = 3 ∧ upwind (-2) 3 5 = 5 ∧ upwind 0 3 5 = (3 + 5) / 2 :=
  ⟨(upwind_selection ttIncompressible twoCells twoCellsVariables true 0 1 twoCellsFace01
      2 3 5).1 (by norm_num),
   (upwind_selection ttIncompressible twoCells twoCellsVariables true 0 1 twoCellsFace01
      (-2) 3 5).2.1 (by norm_num),
   (upwind_selection ttIncompressible twoCells twoCellsVariables true 0 1 twoCellsFace01
      0 3 5).2.2.1 rfl⟩

/-- Claim C24. An interior face of cell `i` towards another cell `j` adds to
`A[i][i]` the transmissibility
`(lambdaW + lambdaNW) * ((Kmean d) . d / dist) * faceArea * (n . d)`: the
mobilities are upwinded by the potentials of the face, `Kmean` is the harmonic
mean `2ab/(a+b)` of the two cells' tensors component by component (0 where a
component of either tensor is zero), `d` is the difference of the two cell
centres divided by its norm `dist`, and `n` is the outer unit normal. -/
theorem interior_face_transmissibility (tt : TypeTag) (pb : Problem) (first : Bool) (i : Nat)
    (m : FVPressure2P) (k : Nat) (isIt : Intersection) (hn : isIt.neighbor = true)
    (ho : isIt.outside ≠ i) :
    (assembleIntersection tt pb first i m k isIt).A_.val i i
      = m.A_.val i i
        + (upwind (interiorFace tt pb m.variables_ first i k isIt).potentialW
              (m.variables_.mobilityWetting i) (m.variables_.mobilityWetting isIt.outside)
            + upwind (interiorFace tt pb m.variables_ first i k isIt).potentialNW
              (m.variables_.mobilityNonwetting i) (m.variables_.mobilityNonwetting isIt.outside))
          * (dot tt.dim
              (mv tt.dim
                (meanPermeability (pb.intrinsicPermeability (pb.element i).globalPos i)
                  (pb.intrinsicPermeability (pb.element isIt.outside).globalPos isIt.outside))
                (unitDist pb i isIt.outside))
              (unitDist pb i isIt.outside) / centreDist pb i isIt.outside)
          * isIt.faceArea * dot tt.dim isIt.unitOuterNormal (unitDist pb i isIt.outside) ∧
    (∀ x y,
      meanPermeability (pb.intrinsicPermeability (pb.element i).globalPos i)
          (pb.intrinsicPermeability (pb.element isIt.outside).globalPos isIt.outside) x y
        = if pb.intrinsicPermeability (pb.element i).globalPos i x y ≠ 0
              ∧ pb.intrinsicPermeability (pb.element isIt.outside).globalPos isIt.outside x y
                ≠ 0 then
            2 * pb.intrinsicPermeability (pb.element i).globalPos i x y
              * pb.intrinsicPermeability (pb.element isIt.outside).globalPos isIt.outside x y
              / (pb.intrinsicPermeability (pb.element i).globalPos i x y
                + pb.intrinsicPermeability (pb.element isIt.outside).globalPos isIt.outside x y)
          else 0) ∧
    centreDist pb i isIt.outside
      = pb.two_norm (fun x => (pb.element isIt.outside).globalPos x - (pb.element i).globalPos x) ∧
    (∀ x, unitDist pb i isIt.outside x
      = ((pb.element isIt.outside).globalPos x - (pb.element i).globalPos x)
        / centreDist pb i isIt.outside) := by
  refine ⟨?_, fun _ _ => rfl, rfl, fun _ => rfl⟩
  rw [assembleIntersection_val_diag tt pb first i m k isIt hn ho, interiorFace_entry]
  rfl

/-- Witness for C24: the interior face of cell 0 of the two-cell example. -/
theorem interior_face_transmissibility_witness :
    centreDist twoCells 0 twoCellsFace01.outside
      = twoCells.two_norm
          (fun x => (twoCells.element twoCellsFace01.outside).globalPos x
            - (twoCells.element 0).globalPos x) :=
  (interior_face_transmissibility ttIncompressible twoCells true 0 twoCellsModel 1
    twoCellsFace01 rfl (by decide)).2.2.1

/-- Claim C26. After `assemble(false, t)` the store entries of an interior face
of cell `i` towards cell `j` hold the pressure part of the formulation, computed
from the pressure, capillary pressure and fractional-flow weights the call
started with, plus `rho * (d . gravity)` with the density `rho` picked by the
upwind rule from the potential the store held before the call. -/
theorem interior_potentials_stored (tt : TypeTag) (pb : Problem) (t : Scalar)
    (m : FVPressure2P) (i : Nat) (hi : i < pb.gridSize) (q : Nat) (isIt : Intersection)
    (hq : (pb.element i).intersections[q]? = some isIt) (hn : isIt.neighbor = true) :
    (assemble tt pb false t m).variables_.potentialWetting i q
      = (match tt.pressureType with
          | PressureFormulation.pw =>
              (m.variables_.pressure i - m.variables_.pressure isIt.outside)
                / centreDist pb i isIt.outside
          | PressureFormulation.pn =>
              (m.variables_.pressure i - m.variables_.pressure isIt.outside
                - m.variables_.capillaryPressure i
                + m.variables_.capillaryPressure isIt.outside) / centreDist pb i isIt.outside
          | PressureFormulation.pglobal =>
              (m.variables_.pressure i - m.variables_.pressure isIt.outside
                - (m.variables_.fracFlowFuncNonwetting i
                    + m.variables_.fracFlowFuncNonwetting isIt.outside) / 2
                  * (m.variables_.capillaryPressure i
                    - m.variables_.capillaryPressure isIt.outside))
                / centreDist pb i isIt.outside)
        + (if m.variables_.potentialWetting i q = 0 then
            (m.variables_.densityWetting i + m.variables_.densityWetting isIt.outside) / 2
          else if m.variables_.potentialWetting i q > 0 then m.variables_.densityWetting i
          else m.variables_.densityWetting isIt.outside)
          * dot tt.dim (unitDist pb i isIt.outside) pb.gravity ∧
    (assemble tt pb false t m).variables_.potentialNonwetting i q
      = (match tt.pressureType with
          | PressureFormulation.pw =>
              (m.variables_.pressure i - m.variables_.pressure isIt.outside
                + m.variables_.capillaryPressure i
                - m.variables_.capillaryPressure isIt.outside) / centreDist pb i isIt.outside
          | PressureFormulation.pn =>
              (m.variables_.pressure i - m.variables_.pressure isIt.outside)
                / centreDist pb i isIt.outside
          | PressureFormulation.pglobal =>
              (m.variables_.pressure i - m.variables_.pressure isIt.outside
                + (m.variables_.fracFlowFuncWetting i
                    + m.variables_.fracFlowFuncWetting isIt.outside) / 2
                  * (m.variables_.capillaryPressure i
                    - m.variables_.capillaryPressure isIt.outside))
                / centreDist pb i isIt.outside)
        + (if m.variables_.potentialNonwetting i q = 0 then
            (m.variables_.densityNonwetting i + m.variables_.densityNonwetting isIt.outside) / 2
          else if m.variables_.potentialNonwetting i q > 0 then m.variables_.densityNonwetting i
          else m.variables_.densityNonwetting isIt.outside)
          * dot tt.dim (unitDist pb i isIt.outside) pb.gravity := by
  obtain ⟨h1, h2⟩ := assemble_store tt pb false t m i hi q isIt hq
  have half : ∀ a b : Scalar, 0.5 * (a + b) = (a + b) / 2 := fun a b => by norm_num; ring
  constructor
  · rw [h1]
    unfold faceStoreW
    rw [if_pos hn, interiorFace_potentialW]
    simp only [Bool.false_eq_true, if_false, gradW, upwind, half]
  · rw [h2]
    unfold faceStoreNW
    rw [if_pos hn, interiorFace_potentialNW]
    simp only [Bool.false_eq_true, if_false, gradNW, upwind, half]

/-- Witness for C26: the interior face of cell 0 of the two-cell example with
gravity, stored potential 1 and densities 1 and 2: the stored wetting potential
is `(0 - 3/2) / 1 + 1 * 1`. -/
theorem interior_potentials_stored_witness :
    (assemble ttIncompressible twoCellsGravity false 0 tiltedModel).variables_.potentialWetting
      0 1
      = (match ttIncompressible.pressureType with
          | PressureFormulation.pw =>
              (tiltedModel.variables_.pressure 0
                - tiltedModel.variables_.pressure twoCellsFace01.outside)
                / centreDist twoCellsGravity 0 twoCellsFace01.outside
          | PressureFormulation.pn =>
              (tiltedModel.variables_.pressure 0
                - tiltedModel.variables_.pressure twoCellsFace01.outside
                - tiltedModel.variables_.capillaryPressure 0
                + tiltedModel.variables_.capillaryPressure twoCellsFace01.outside)
                / centreDist twoCellsGravity 0 twoCellsFace01.outside
          | PressureFormulation.pglobal =>
              (tiltedModel.variables_.pressure 0
                - tiltedModel.variables_.pressure twoCellsFace01.outside
                - (tiltedModel.variables_.fracFlowFuncNonwetting 0
                    + tiltedModel.variables_.fracFlowFuncNonwetting twoCellsFace01.outside) / 2
                  * (tiltedModel.variables_.capillaryPressure 0
                    - tiltedModel.variables_.capillaryPressure twoCellsFace01.outside))
                / centreDist twoCellsGravity 0 twoCellsFace01.outside)
        + (if tiltedModel.variables_.potentialWetting 0 1 = 0 then
            (tiltedModel.variables_.densityWetting 0
              + tiltedModel.variables_.densityWetting twoCellsFace01.outside) / 2
          else if tiltedModel.variables_.potentialWetting 0 1 > 0 then
            tiltedModel.variables_.densityWetting 0
          else tiltedModel.variables_.densityWetting twoCellsFace01.outside)
          * dot ttIncompressible.dim (unitDist twoCellsGravity 0 twoCellsFace01.outside)
              twoCellsGravity.gravity :=
  (interior_potentials_stored ttIncompressible twoCellsGravity 0 tiltedModel 0 (by decide) 1
    twoCellsFace01 rfl rfl).1

/-- Claim C27. An interior face of cell `i` towards cell `j` decreases `f[i]` by
`((lambdaW * rhoW + lambdaNW * rhoNW) * ((Kmean d) . gravity) + c) * faceArea * (n . d)`
with upwinded mobilities and densities; the capillary term `c` is
`0.5 * (lambdaNW_i + lambdaNW_j) * ((Kmean d) . d) * (pc_i - pc_j) / dist` for
the wetting-pressure formulation, minus the same with the wetting mobilities for
the non-wetting-pressure formulation, and 0 for the global-pressure
formulation. -/
theorem interior_face_rhs (tt : TypeTag) (pb : Problem) (first : Bool) (i : Nat)
    (m : FVPressure2P) (k : Nat) (isIt : Intersection) (hn : isIt.neighbor = true) :
    (assembleIntersection tt pb first i m k isIt).f_ i
      = m.f_ i
        - ((upwind (interiorFace tt pb m.variables_ first i k isIt).potentialW
                (m.variables_.mobilityWetting i) (m.variables_.mobilityWetting isIt.outside)
              * upwind (interiorFace tt pb m.variables_ first i k isIt).potentialW
                (m.variables_.densityWetting i) (m.variables_.densityWetting isIt.outside)
            + upwind (interiorFace tt pb m.variables_ first i k isIt).potentialNW
                (m.variables_.mobilityNonwetting i)
                (m.variables_.mobilityNonwetting isIt.outside)
              * upwind (interiorFace tt pb m.variables_ first i k isIt).potentialNW
                (m.variables_.densityNonwetting i)
                (m.variables_.densityNonwetting isIt.outside))
            * dot tt.dim (facePermeability tt pb i isIt.outside) pb.gravity
          + (match tt.pressureType with
              | PressureFormulation.pw =>
                  0.5 * (m.variables_.mobilityNonwetting i
                      + m.variables_.mobilityNonwetting isIt.outside)
                    * dot tt.dim (facePermeability tt pb i isIt.outside)
                        (unitDist pb i isIt.outside)
                    * (m.variables_.capillaryPressure i
                      - m.variables_.capillaryPressure isIt.outside)
                    / centreDist pb i isIt.outside
              | PressureFormulation.pn =>
                  -(0.5 * (m.variables_.mobilityWetting i
                      + m.variables_.mobilityWetting isIt.outside)
                    * dot tt.dim (facePermeability tt pb i isIt.outside)
                        (unitDist pb i isIt.outside)
                    * (m.variables_.capillaryPressure i
                      - m.variables_.capillaryPressure isIt.outside)
                    / centreDist pb i isIt.outside)
              | PressureFormulation.pglobal => 0))
          * isIt.faceArea * dot tt.dim isIt.unitOuterNormal (unitDist pb i isIt.outside) ∧
    facePermeability tt pb i isIt.outside
      = mv tt.dim
          (meanPermeability (pb.intrinsicPermeability (pb.element i).globalPos i)
            (pb.intrinsicPermeability (pb.element isIt.outside).globalPos isIt.outside))
          (unitDist pb i isIt.outside) := by
  refine ⟨?_, rfl⟩
  rw [assembleIntersection_f, Function.update_same]
  unfold faceRhs
  rw [if_pos hn, interiorFace_rightEntry, interiorFace_normalDist]
  obtain ⟨dim, comp, pt, st⟩ := tt
  cases pt
  · simp only [capillaryTerm, dot_mul_right]
    ring
  · simp only [capillaryTerm, dot_mul_right]
    ring
  · simp only [capillaryTerm]
    ring

/-- Witness for C27: the interior face of cell 0 of the two-cell example. -/
theorem interior_face_rhs_witness :
    facePermeability ttIncompressible twoCells 0 twoCellsFace01.outside
      = mv ttIncompressible.dim
          (meanPermeability (twoCells.intrinsicPermeability (twoCells.element 0).globalPos 0)
            (twoCells.intrinsicPermeability (twoCells.element twoCellsFace01.outside).globalPos
              twoCellsFace01.outside))
          (unitDist twoCells 0 twoCellsFace01.outside) :=
  (interior_face_rhs ttIncompressible twoCells true 0 twoCellsModel 1 twoCellsFace01 rfl).2

/-- Claim C28. A Dirichlet pressure face of cell `i` adds its transmissibility `T`
to `A[i][i]` and changes no other matrix entry; it adds `T * pressBound` to `f[i]`
and subtracts the gravity and capillary term taken against the boundary state,
times `n . d`. `T` is
`(lambdaW + lambdaNW) * ((K_i d) . d / dist) * faceArea * (n . d)` with the
tensor `K_i` of cell `i` itself, `d` and `dist` from the cell centre to the face
centre, and mobilities upwinded between the cell and the boundary state. -/
theorem dirichlet_face_contribution (tt : TypeTag) (pb : Problem) (first : Bool) (i : Nat)
    (m : FVPressure2P) (k : Nat) (isIt : Intersection) (hb : isIt.neighbor = false)
    (hd : pb.bctypePress isIt.globalPosFace i k = Flags.dirichlet) :
    (assembleIntersection tt pb first i m k isIt).A_.val i i
      = m.A_.val i i
        + (upwind (dirichletFace tt pb m.variables_ first i k isIt).potentialW
              (m.variables_.mobilityWetting i)
              (boundaryState tt pb m.variables_ i k isIt).lambdaWBound
            + upwind (dirichletFace tt pb m.variables_ first i k isIt).potentialNW
              (m.variables_.mobilityNonwetting i)
              (boundaryState tt pb m.variables_ i k isIt).lambdaNWBound)
          * (dot tt.dim
              (mv tt.dim (pb.intrinsicPermeability (pb.element i).globalPos i)
                (faceUnitDist pb i isIt))
              (faceUnitDist pb i isIt) / faceDist pb i isIt)
          * isIt.faceArea * dot tt.dim isIt.unitOuterNormal (faceUnitDist pb i isIt) ∧
    (∀ r c, ¬ (r = i ∧ c = i) →
      (assembleIntersection tt pb first i m k isIt).A_.val r c = m.A_.val r c) ∧
    (assembleIntersection tt pb first i m k isIt).f_ i
      = m.f_ i
        + (dirichletFace tt pb m.variables_ first i k isIt).entry
          * pb.dirichletPress isIt.globalPosFace i k
        - ((upwind (dirichletFace tt pb m.variables_ first i k isIt).potentialW
                (m.variables_.mobilityWetting i)
                (boundaryState tt pb m.variables_ i k isIt).lambdaWBound
              * upwind (dirichletFace tt pb m.variables_ first i k isIt).potentialW
                (m.variables_.densityWetting i)
                (boundaryState tt pb m.variables_ i k isIt).densityWBound
            + upwind (dirichletFace tt pb m.variables_ first i k isIt).potentialNW
                (m.variables_.mobilityNonwetting i)
                (boundaryState tt pb m.variables_ i k isIt).lambdaNWBound
              * upwind (dirichletFace tt pb m.variables_ first i k isIt).potentialNW
                (m.variables_.densityNonwetting i)
                (boundaryState tt pb m.variables_ i k isIt).densityNWBound)
            * dot tt.dim (boundaryPermeability tt pb i isIt) pb.gravity * isIt.faceArea
          + boundaryCapillaryTerm tt pb m.variables_ i k isIt)
          * dot tt.dim isIt.unitOuterNormal (faceUnitDist pb i isIt) ∧
    (dirichletFace tt pb m.variables_ first i k isIt).entry
      = (assembleIntersection tt pb first i m k isIt).A_.val i i - m.A_.val i i ∧
    faceDist pb i isIt
      = pb.two_norm (fun x => isIt.globalPosFace x - (pb.element i).globalPos x) ∧
    (∀ x, faceUnitDist pb i isIt x
      = (isIt.globalPosFace x - (pb.element i).globalPos x) / faceDist pb i isIt) := by
  obtain ⟨hA, hf⟩ := assembleIntersection_dirichlet tt pb first i m k isIt hb hd
  have hbn : ¬ isIt.neighbor = true := by simp [hb]
  have hdiag : (assembleIntersection tt pb first i m k isIt).A_.val i i
      = m.A_.val i i + (dirichletFace tt pb m.variables_ first i k isIt).entry := by
    rw [hA, Function.update_same]
  refine ⟨?_, ?_, ?_, ?_, rfl, fun _ => rfl⟩
  · rw [hdiag, dirichletFace_entry]
    rfl
  · intro r c hrc
    exact assembleIntersection_val_of_ne tt pb first i m k isIt r c
      (fun h => h.2.elim (fun hc => hrc ⟨h.1, hc⟩) (fun hc => hbn hc.1))
  · rw [hf, dirichletFace_rightEntry, dirichletFace_normalDist]
  · rw [hdiag]
    ring

/-- Witness for C28: the boundary face of cell 0 of the two-cell example with
Dirichlet pressure; the entry `(1, 1)` is not touched. -/
theorem dirichlet_face_contribution_witness :
    (assembleIntersection ttIncompressible twoCellsDirichlet true 0 twoCellsModel 0
      twoCellsBoundaryFace).A_.val 1 1 = twoCellsModel.A_.val 1 1 :=
  (dirichlet_face_contribution ttIncompressible twoCellsDirichlet true 0 twoCellsModel 0
    twoCellsBoundaryFace rfl rfl).2.1 1 1 (by decide)

/-- Claim C29. The boundary state of a Dirichlet pressure face takes as
saturation the value of `dirichletSat` when the saturation boundary type is
`dirichlet` and the stored saturation of cell `i` otherwise. The wetting
saturation derived from it is the value itself under the formulation `Sw` and 1
minus it under `Sn`; the capillary pressure and the two relative permeabilities
of the boundary state are the material law of cell `i` at that wetting
saturation, the mobilities being the relative permeability over the viscosity,
times the density when the flow is compressible. -/
theorem boundary_state_saturation (tt : TypeTag) (pb : Problem) (v : Variables) (i k : Nat)
    (isIt : Intersection) (s : Scalar) :
    (pb.bctypeSat isIt.globalPosFace i k = Flags.dirichlet →
      boundarySaturation pb v i k isIt = pb.dirichletSat isIt.globalPosFace i k) ∧
    (pb.bctypeSat isIt.globalPosFace i k ≠ Flags.dirichlet →
      boundarySaturation pb v i k isIt = v.saturation i) ∧
    (tt.saturationType = SaturationFormulation.Sw → satWOf tt s = s) ∧
    (tt.saturationType = SaturationFormulation.Sn → satWOf tt s = 1 - s) ∧
    (boundaryState tt pb v i k isIt).pcBound
      = (pb.materialLawParams (pb.element i).globalPos i).pC
          (satWOf tt (boundarySaturation pb v i k isIt)) ∧
    (boundaryState tt pb v i k isIt).lambdaWBound
      = (if tt.compressibility then
          (pb.materialLawParams (pb.element i).globalPos i).krw
              (satWOf tt (boundarySaturation pb v i k isIt))
            / pb.phaseViscosity PhaseIdx.wPhaseIdx (boundaryPhaseState tt pb v i k isIt)
            * pb.phaseDensity PhaseIdx.wPhaseIdx (boundaryPhaseState tt pb v i k isIt)
        else
          (pb.materialLawParams (pb.element i).globalPos i).krw
              (satWOf tt (boundarySaturation pb v i k isIt))
            / pb.phaseViscosity PhaseIdx.wPhaseIdx (boundaryPhaseState tt pb v i k isIt)) ∧
    (boundaryState tt pb v i k isIt).lambdaNWBound
      = (if tt.compressibility then
          (pb.materialLawParams (pb.element i).globalPos i).krn
              (satWOf tt (boundarySaturation pb v i k isIt))
            / pb.phaseViscosity PhaseIdx.nPhaseIdx (boundaryPhaseState tt pb v i k isIt)
            * pb.phaseDensity PhaseIdx.nPhaseIdx (boundaryPhaseState tt pb v i k isIt)
        else
          (pb.materialLawParams (pb.element i).globalPos i).krn
              (satWOf tt (boundarySaturation pb v i k isIt))
            / pb.phaseViscosity PhaseIdx.nPhaseIdx (boundaryPhaseState tt pb v i k isIt)) := by
  refine ⟨?_, ?_, ?_, ?_, rfl, rfl, rfl⟩
  · intro h
    unfold boundarySaturation
    rw [if_pos h]
  · intro h
    unfold boundarySaturation
    rw [if_neg h]
  · intro h
    unfold satWOf
    rw [h]
  · intro h
    unfold satWOf
    rw [h]

/-- Witness for C29: the boundary face of cell 0 of the two-cell example with
Dirichlet saturation 1 at that boundary, and the face of the example with a
Neumann saturation boundary, where the saturation 1/2 of the cell is used. -/
theorem boundary_state_saturation_witness :
    boundarySaturation twoCellsCapillary twoCellsVariables 0 0 twoCellsBoundaryFace
      = twoCellsCapillary.dirichletSat twoCellsBoundaryFace.globalPosFace 0 0 ∧
    boundarySaturation twoCellsDirichlet twoCellsVariables 0 0 twoCellsBoundaryFace
      = twoCellsVariables.saturation 0 ∧
    satWOf ttIncompressible (1 / 2) = 1 / 2 :=
  ⟨(boundary_state_saturation ttIncompressible twoCellsCapillary twoCellsVariables 0 0
      twoCellsBoundaryFace 0).1 rfl,
   (boundary_state_saturation ttIncompressible twoCellsDirichlet twoCellsVariables 0 0
      twoCellsBoundaryFace 0).2.1 (by simp [twoCellsDirichlet, twoCells]),
   (boundary_state_saturation ttIncompressible twoCellsDirichlet twoCellsVariables 0 0
      twoCellsBoundaryFace (1 / 2)).2.2.1 rfl⟩

/-- Claim C30. A Neumann face of cell `i` leaves the matrix as it is and
decreases `f[i]` by `(J_w / rhoW_i + J_nw / rhoNW_i) * faceArea` when the flow
is incompressible and by `(J_w + J_nw) * faceArea` when it is compressible; `J`
are the fluxes of `neumannPress`, `rho` the densities stored for cell `i`. No
other entry of the right-hand side changes. -/
theorem neumann_face_contribution (tt : TypeTag) (pb : Problem) (first : Bool) (i : Nat)
    (m : FVPressure2P) (k : Nat) (isIt : Intersection) (hb : isIt.neighbor = false)
    (hnm : pb.bctypePress isIt.globalPosFace i k = Flags.neumann) :
    (assembleIntersection tt pb first i m k isIt).A_ = m.A_ ∧
    (assembleIntersection tt pb first i m k isIt).f_ i
      = m.f_ i
        - (if tt.compressibility then
            pb.neumannPress isIt.globalPosFace i k PhaseIdx.wPhaseIdx
              + pb.neumannPress isIt.globalPosFace i k PhaseIdx.nPhaseIdx
          else
            pb.neumannPress isIt.globalPosFace i k PhaseIdx.wPhaseIdx
                / m.variables_.densityWetting i
              + pb.neumannPress isIt.globalPosFace i k PhaseIdx.nPhaseIdx
                / m.variables_.densityNonwetting i) * isIt.faceArea ∧
    (∀ r, r ≠ i → (assembleIntersection tt pb first i m k isIt).f_ r = m.f_ r) := by
  have hd : pb.bctypePress isIt.globalPosFace i k ≠ Flags.dirichlet := by
    rw [hnm]
    decide
  rw [assembleIntersection_non_dirichlet tt pb first i m k isIt hb hd]
  refine ⟨rfl, ?_, ?_⟩
  · simp only [Function.update_same]
    cases tt.compressibility <;> simp
  · intro r hr
    simp only [Function.update_noteq hr]

/-- Witness for C30: the boundary face of cell 0 of the two-cell example, a
Neumann face with zero fluxes. -/
theorem neumann_face_contribution_witness :
    (assembleIntersection ttIncompressible twoCells true 0 twoCellsModel 0
      twoCellsBoundaryFace).A_ = twoCellsModel.A_ :=
  (neumann_face_contribution ttIncompressible twoCells true 0 twoCellsModel 0
    twoCellsBoundaryFace rfl rfl).1

/-! ### The first assembly does not read the store -/

theorem interiorFace_first_congr (tt : TypeTag) (pb : Problem) {v w : Variables}
    (i k : Nat) (isIt : Intersection) (h : SameLaws v w) :
    interiorFace tt pb v true i k isIt = interiorFace tt pb w true i k isIt := by
  obtain ⟨f1, f2, -, -, f5, f6, f7, f8, f9⟩ := h.fields
  simp only [interiorFace, f1, f2, f5, f6, f7, f8, f9, h.1, if_true]

theorem dirichletFace_first_congr (tt : TypeTag) (pb : Problem) {v w : Variables}
    (i k : Nat) (isIt : Intersection) (h : SameLaws v w) :
    dirichletFace tt pb v true i k isIt = dirichletFace tt pb w true i k isIt := by
  obtain ⟨f1, f2, -, -, f5, f6, f7, f8, f9⟩ := h.fields
  simp only [dirichletFace, boundaryState_congr tt pb i k isIt h, f1, f2, f5, f6, f7, f8, f9,
    h.1, if_true]

theorem SameSystem.systemRefl (a : FVPressure2P) : SameSystem a a :=
  ⟨rfl, rfl, SameLaws.lawsRefl _⟩

theorem assembleIntersection_sameSystem (tt : TypeTag) (pb : Problem) (i : Nat)
    {a b : FVPressure2P} (k : Nat) (isIt : Intersection) (h : SameSystem a b) :
    SameSystem (assembleIntersection tt pb true i a k isIt)
      (assembleIntersection tt pb true i b k isIt) := by
  obtain ⟨hA, hf, hl⟩ := h
  obtain ⟨f1, f2, -⟩ := hl.fields
  have hlaws : SameLaws (assembleIntersection tt pb true i a k isIt).variables_
      (assembleIntersection tt pb true i b k isIt).variables_ :=
    ((assembleIntersection_sameFrame tt pb true i a k isIt).sameLaws.lawsTrans hl).lawsTrans
      (assembleIntersection_sameFrame tt pb true i b k isIt).sameLaws.lawsSymm
  refine ⟨?_, ?_, hlaws⟩
  · unfold assembleIntersection
    by_cases hn : isIt.neighbor = true
    · rw [if_pos hn, if_pos hn]
      simp only [interiorFace_first_congr tt pb i k isIt hl, hA]
    · rw [if_neg hn, if_neg hn]
      dsimp only
      by_cases hd : pb.bctypePress isIt.globalPosFace i k = Flags.dirichlet
      · rw [if_pos hd, if_pos hd]
        simp only [dirichletFace_first_congr tt pb i k isIt hl, hA]
      · rw [if_neg hd, if_neg hd]
        exact hA
  · rw [assembleIntersection_f, assembleIntersection_f, hf]
    have hr : faceRhs tt pb true i a.variables_ k isIt
        = faceRhs tt pb true i b.variables_ k isIt := by
      simp only [faceRhs, interiorFace_first_congr tt pb i k isIt hl,
        dirichletFace_first_congr tt pb i k isIt hl, boundaryState_congr tt pb i k isIt hl, f1, f2]
    rw [hr]

theorem intersectionLoop_sameSystem (tt : TypeTag) (pb : Problem) (i : Nat)
    (faces : List Intersection) :
    ∀ (k : Nat) {a b : FVPressure2P}, SameSystem a b →
      SameSystem (intersectionLoop tt pb true i faces k a)
        (intersectionLoop tt pb true i faces k b) := by
  induction faces with
  | nil => intro k a b h; exact h
  | cons isIt rest ih =>
    intro k a b h
    exact ih (k + 1) (assembleIntersection_sameSystem tt pb i k isIt h)

theorem assembleElement_sameSystem (tt : TypeTag) (pb : Problem) (i : Nat)
    {a b : FVPressure2P} (h : SameSystem a b) :
    SameSystem (assembleElement tt pb true a i) (assembleElement tt pb true b i) := by
  have h1 : SameSystem
      { a with f_ := Function.update a.f_ i (sourceRhs tt pb a.variables_ i) }
      { b with f_ := Function.update b.f_ i (sourceRhs tt pb b.variables_ i) } := by
    refine ⟨h.1, ?_, h.2.2⟩
    simp only [h.2.1, sourceRhs_congr tt pb i h.2.2]
  obtain ⟨g1, g2, g3⟩ := intersectionLoop_sameSystem tt pb i (pb.element i).intersections 0 h1
  rw [assembleElement_eq, assembleElement_eq]
  refine ⟨g1, ?_, g3⟩
  simp only [g2, volumeCorrectionRhs_congr tt pb i h.2.2]

theorem gridTraversal_sameSystem (tt : TypeTag) (pb : Problem) (n : Nat) :
    ∀ {a b : FVPressure2P}, SameSystem a b →
      SameSystem ((List.range n).foldl (assembleElement tt pb true) a)
        ((List.range n).foldl (assembleElement tt pb true) b) := by
  induction n with
  | zero => intro a b h; exact h
  | succ n ih =>
    intro a b h
    simp only [List.range_succ, List.foldl_append, List.foldl_cons, List.foldl_nil]
    exact assembleElement_sameSystem tt pb n (ih h)

theorem assemble_sameSystem (tt : TypeTag) (pb : Problem) (t : Scalar) {a b : FVPressure2P}
    (hidx : a.A_.index = b.A_.index) (hrow : a.A_.rowsize = b.A_.rowsize)
    (h : SameLaws a.variables_ b.variables_) :
    SameSystem (assemble tt pb true t a) (assemble tt pb true t b) := by
  unfold assemble gridTraversal
  refine gridTraversal_sameSystem tt pb pb.gridSize ⟨?_, rfl, h⟩
  simp only [hidx, hrow]

/-- Claim C22. With `first = true` both potentials of an interior face and of a
Dirichlet face are zero, so the mobility and the density of each phase that
enter the matrix entry and the right-hand-side term are the arithmetic means of
the values of cell `i` and of the other side (cell `j` or the boundary state).
The matrix and the right-hand side `assemble(true, t)` builds are the same for
every content `sw`, `sn` of the potential store before the call. -/
theorem first_assembly_uses_means (tt : TypeTag) (pb : Problem) (t : Scalar)
    (m : FVPressure2P) (i k : Nat) (isIt : Intersection) (sw sn : Nat → Nat → Scalar) :
    ((interiorFace tt pb m.variables_ true i k isIt).entry
      = ((m.variables_.mobilityWetting i + m.variables_.mobilityWetting isIt.outside) / 2
          + (m.variables_.mobilityNonwetting i + m.variables_.mobilityNonwetting isIt.outside)
            / 2)
        * (dot tt.dim (facePermeability tt pb i isIt.outside) (unitDist pb i isIt.outside)
            / centreDist pb i isIt.outside)
        * isIt.faceArea * dot tt.dim isIt.unitOuterNormal (unitDist pb i isIt.outside)) ∧
    ((interiorFace tt pb m.variables_ true i k isIt).rightEntry
      = ((m.variables_.mobilityWetting i + m.variables_.mobilityWetting isIt.outside) / 2
            * ((m.variables_.densityWetting i + m.variables_.densityWetting isIt.outside) / 2)
          + (m.variables_.mobilityNonwetting i + m.variables_.mobilityNonwetting isIt.outside)
              / 2
            * ((m.variables_.densityNonwetting i + m.variables_.densityNonwetting isIt.outside)
              / 2))
          * dot tt.dim (facePermeability tt pb i isIt.outside) pb.gravity * isIt.faceArea
        + capillaryTerm tt pb m.variables_ i isIt.outside isIt.faceArea) ∧
    ((dirichletFace tt pb m.variables_ true i k isIt).entry
      = ((m.variables_.mobilityWetting i
            + (boundaryState tt pb m.variables_ i k isIt).lambdaWBound) / 2
          + (m.variables_.mobilityNonwetting i
            + (boundaryState tt pb m.variables_ i k isIt).lambdaNWBound) / 2)
        * (dot tt.dim (boundaryPermeability tt pb i isIt) (faceUnitDist pb i isIt)
            / faceDist pb i isIt)
        * isIt.faceArea * dot tt.dim isIt.unitOuterNormal (faceUnitDist pb i isIt)) ∧
    ((dirichletFace tt pb m.variables_ true i k isIt).rightEntry
      = ((m.variables_.mobilityWetting i
              + (boundaryState tt pb m.variables_ i k isIt).lambdaWBound) / 2
            * ((m.variables_.densityWetting i
              + (boundaryState tt pb m.variables_ i k isIt).densityWBound) / 2)
          + (m.variables_.mobilityNonwetting i
              + (boundaryState tt pb m.variables_ i k isIt).lambdaNWBound) / 2
            * ((m.variables_.densityNonwetting i
              + (boundaryState tt pb m.variables_ i k isIt).densityNWBound) / 2))
          * dot tt.dim (boundaryPermeability tt pb i isIt) pb.gravity * isIt.faceArea
        + boundaryCapillaryTerm tt pb m.variables_ i k isIt) ∧
    (assemble tt pb true t
        { m with
          variables_ :=
            { m.variables_ with potentialWetting := sw, potentialNonwetting := sn } }).A_
      = (assemble tt pb true t m).A_ ∧
    (assemble tt pb true t
        { m with
          variables_ :=
            { m.variables_ with potentialWetting := sw, potentialNonwetting := sn } }).f_
      = (assemble tt pb true t m).f_ := by
  have half : ∀ a b : Scalar, upwind 0 a b = (a + b) / 2 := fun a b => by
    rw [upwind_zero]
    norm_num
    ring
  have hsys := assemble_sameSystem tt pb t
    (a := { m with
      variables_ := { m.variables_ with potentialWetting := sw, potentialNonwetting := sn } })
    (b := m) rfl rfl ⟨rfl, rfl, rfl, fun _ => rfl⟩
  refine ⟨?_, ?_, ?_, ?_, hsys.1, hsys.2.1⟩
  · rw [interiorFace_entry, interiorFace_potentialW, interiorFace_potentialNW, if_pos rfl,
      if_pos rfl, half, half]
  · rw [interiorFace_rightEntry, interiorFace_potentialW, interiorFace_potentialNW, if_pos rfl,
      if_pos rfl, half, half, half, half]
  · rw [dirichletFace_entry, dirichletFace_potentialW, dirichletFace_potentialNW, if_pos rfl,
      if_pos rfl, half, half]
  · rw [dirichletFace_rightEntry, dirichletFace_potentialW, dirichletFace_potentialNW,
      if_pos rfl, if_pos rfl, half, half, half, half]

/-! ### Accumulation of the matrix entries -/

/-- Claim C25 fails as stated. On the grid whose common face is seen as two
intersections of area 1/2, each with transmissibility 1/2 (mobility 1, unit
permeability, unit distance), `assemble(true, 0)` builds `A[0][0] = 1`, the sum
of both, but `A[0][1] = -1/2`, minus the transmissibility of the last of the two
intersections, not minus their sum `-1`. -/
theorem off_diagonal_does_not_accumulate :
    (twoCellsSplit.element 0).intersections[1]? = some splitFace01 ∧
    (twoCellsSplit.element 0).intersections[2]? = some splitFace01 ∧
    (interiorFace ttIncompressible twoCellsSplit tiltedModel.variables_ true 0 1
      splitFace01).entry = 1 / 2 ∧
    (interiorFace ttIncompressible twoCellsSplit tiltedModel.variables_ true 0 2
      splitFace01).entry = 1 / 2 ∧
    (assemble ttIncompressible twoCellsSplit true 0 tiltedModel).A_.val 0 0 = 1 ∧
    (assemble ttIncompressible twoCellsSplit true 0 tiltedModel).A_.val 0 1 = -(1 / 2) ∧
    (assemble ttIncompressible twoCellsSplit true 0 tiltedModel).A_.val 0 1
      ≠ -((interiorFace ttIncompressible twoCellsSplit tiltedModel.variables_ true 0 1
            splitFace01).entry
          + (interiorFace ttIncompressible twoCellsSplit tiltedModel.variables_ true 0 2
            splitFace01).entry) := by
  have e1 : (interiorFace ttIncompressible twoCellsSplit tiltedModel.variables_ true 0 1
      splitFace01).entry = 1 / 2 := by
    simp [interiorFace, twoCellsSplit, twoCells, splitFaceElement, splitFace01, tiltedModel,
      tiltedVariables, ttIncompressible, dot, mv, meanPermeability]
    norm_num [abs_of_pos]
  have e2 : (interiorFace ttIncompressible twoCellsSplit tiltedModel.variables_ true 0 2
      splitFace01).entry = 1 / 2 := by
    simp [interiorFace, twoCellsSplit, twoCells, splitFaceElement, splitFace01, tiltedModel,
      tiltedVariables, ttIncompressible, dot, mv, meanPermeability]
    norm_num [abs_of_pos]
  have hd : (assemble ttIncompressible twoCellsSplit true 0 tiltedModel).A_.val 0 0 = 1 := by
    rw [assemble_val_diag ttIncompressible twoCellsSplit true 0 tiltedModel 0 (by decide)]
    · simp [sumFaces, faceEntry, interiorFace, twoCellsSplit, twoCells, splitFaceElement,
        tiltedModel, tiltedVariables, ttIncompressible, dot, mv, meanPermeability]
      norm_num [abs_of_pos]
    · intro f hf hfn
      simp [twoCellsSplit, splitFaceElement] at hf
      rcases hf with rfl | rfl
      · simp at hfn
      · simp
  have ho : (assemble ttIncompressible twoCellsSplit true 0 tiltedModel).A_.val 0 1
      = -(1 / 2) := by
    rw [assemble_val_outside ttIncompressible twoCellsSplit true 0 tiltedModel 0 1 (by decide)
      (by decide) 2 splitFace01 rfl rfl rfl, e2]
    intro q1 f h1 h2
    obtain ⟨q2, rfl⟩ : ∃ q2, q1 = q2 + 3 := ⟨q1 - 3, by omega⟩
    simp [twoCellsSplit, splitFaceElement] at h2
  refine ⟨rfl, rfl, e1, e2, hd, ho, ?_⟩
  rw [ho, e1, e2]
  norm_num

/-- Claim C25, amended. For a cell `i` of the grid none of whose interior faces
leads back to `i`, after `assemble` the diagonal entry `A[i][i]` is the sum of
the transmissibilities of all interior and Dirichlet faces of `i`. The entry
`A[i][j]` for another cell `j` is assigned, not accumulated: it is minus the
transmissibility of the last intersection of `i` towards `j`, which is minus the
sum over the faces shared with `j` when there is one such face; it is 0 when
`i` has no face towards `j`. -/
theorem matrix_entries_after_assemble (tt : TypeTag) (pb : Problem) (first : Bool) (t : Scalar)
    (m : FVPressure2P) (i : Nat) (hi : i < pb.gridSize)
    (ho : ∀ f ∈ (pb.element i).intersections, f.neighbor = true → f.outside ≠ i) :
    (assemble tt pb first t m).A_.val i i
      = sumFaces
          (fun k isIt =>
            if isIt.neighbor then (interiorFace tt pb m.variables_ first i k isIt).entry
            else if pb.bctypePress isIt.globalPosFace i k = Flags.dirichlet then
              (dirichletFace tt pb m.variables_ first i k isIt).entry
            else 0)
          (pb.element i).intersections 0 ∧
    (∀ (j q : Nat) (isIt : Intersection), j ≠ i →
      (pb.element i).intersections[q]? = some isIt → isIt.neighbor = true →
      isIt.outside = j →
      (∀ q1 f, q < q1 → (pb.element i).intersections[q1]? = some f →
        f.neighbor = true → f.outside ≠ j) →
      (assemble tt pb first t m).A_.val i j
        = -(interiorFace tt pb m.variables_ first i q isIt).entry) ∧
    (∀ j, j ≠ i →
      (∀ f ∈ (pb.element i).intersections, f.neighbor = true → f.outside ≠ j) →
      (assemble tt pb first t m).A_.val i j = 0) := by
  refine ⟨?_, ?_, ?_⟩
  · rw [assemble_val_diag tt pb first t m i hi ho]
    rfl
  · intro j q isIt hj hq hn hout hlast
    exact assemble_val_outside tt pb first t m i j hi hj q isIt hq hn hout hlast
  · intro j hj hnone
    unfold assemble
    rw [gridTraversal_val_of_ne tt pb first _ i j]
    rintro ⟨-, h | ⟨f, hf, hfn, hfo⟩⟩
    · exact hj h
    · exact hnone f hf hfn hfo

/-- Witness for the amended C25: row 0 of the grid with the split face, where the
last intersection towards cell 1 has the local index 2. -/
theorem matrix_entries_after_assemble_witness :
    (assemble ttIncompressible twoCellsSplit true 0 tiltedModel).A_.val 0 1
      = -(interiorFace ttIncompressible twoCellsSplit tiltedModel.variables_ true 0 2
          splitFace01).entry :=
  (matrix_entries_after_assemble ttIncompressible twoCellsSplit true 0 tiltedModel 0
    (by decide)
    (by
      intro f hf hfn
      simp [twoCellsSplit, splitFaceElement] at hf
      rcases hf with rfl | rfl
      · simp at hfn
      · simp)).2.1 1 2 splitFace01 (by decide) rfl rfl rfl
    (by
      intro q1 f h1 h2
      obtain ⟨q2, rfl⟩ : ∃ q2, q1 = q2 + 3 := ⟨q1 - 3, by omega⟩
      simp [twoCellsSplit, splitFaceElement] at h2)

/-! ### Neumann fluxes in the store, sources and the volume correction -/

/-- Claim C31 fails as stated. Two-cell example, incompressible flow, Neumann
flux 3 for both phases, wetting density 2 in cell 1: the wetting store entry of
the boundary face of cell 1 after `assemble` is `3 / 2`, the flux divided by the
density, not the flux 3, for `first = true` and for `first = false`. -/
theorem neumann_store_holds_flux_over_density :
    twoCellsFlux.bctypePress twoCellsBoundaryFace1.globalPosFace 1 1 = Flags.neumann ∧
    twoCellsFlux.neumannPress twoCellsBoundaryFace1.globalPosFace 1 1 PhaseIdx.wPhaseIdx = 3 ∧
    tiltedModel.variables_.densityWetting 1 = 2 ∧
    (assemble ttIncompressible twoCellsFlux true 0 tiltedModel).variables_.potentialWetting 1 1
      = 3 / 2 ∧
    (assemble ttIncompressible twoCellsFlux false 0 tiltedModel).variables_.potentialWetting 1 1
      = 3 / 2 := by
  obtain ⟨h1, -⟩ := assemble_store ttIncompressible twoCellsFlux true 0 tiltedModel 1
    (by decide) 1 twoCellsBoundaryFace1 rfl
  obtain ⟨h2, -⟩ := assemble_store ttIncompressible twoCellsFlux false 0 tiltedModel 1
    (by decide) 1 twoCellsBoundaryFace1 rfl
  refine ⟨rfl, rfl, ?_, ?_, ?_⟩
  · simp [tiltedModel, tiltedVariables]
  · rw [h1]
    simp [faceStoreW, twoCellsBoundaryFace1, twoCellsFlux, twoCells, tiltedModel,
      tiltedVariables, ttIncompressible]
  · rw [h2]
    simp [faceStoreW, twoCellsBoundaryFace1, twoCellsFlux, twoCells, tiltedModel,
      tiltedVariables, ttIncompressible]

/-- Claim C31, amended. For a Neumann face of a cell `i` of the grid, after
`assemble` the two store entries of the face hold the fluxes of `neumannPress`
themselves when the flow is compressible, and the fluxes divided by the phase
densities stored for cell `i` when it is incompressible; this is so for
`first = true` and `first = false` alike. -/
theorem neumann_store_entries (tt : TypeTag) (pb : Problem) (first : Bool) (t : Scalar)
    (m : FVPressure2P) (i : Nat) (hi : i < pb.gridSize) (q : Nat) (isIt : Intersection)
    (hq : (pb.element i).intersections[q]? = some isIt) (hb : isIt.neighbor = false)
    (hnm : pb.bctypePress isIt.globalPosFace i q = Flags.neumann) :
    (assemble tt pb first t m).variables_.potentialWetting i q
      = (if tt.compressibility then pb.neumannPress isIt.globalPosFace i q PhaseIdx.wPhaseIdx
        else pb.neumannPress isIt.globalPosFace i q PhaseIdx.wPhaseIdx
          / m.variables_.densityWetting i) ∧
    (assemble tt pb first t m).variables_.potentialNonwetting i q
      = (if tt.compressibility then pb.neumannPress isIt.globalPosFace i q PhaseIdx.nPhaseIdx
        else pb.neumannPress isIt.globalPosFace i q PhaseIdx.nPhaseIdx
          / m.variables_.densityNonwetting i) := by
  obtain ⟨h1, h2⟩ := assemble_store tt pb first t m i hi q isIt hq
  have hn : ¬ isIt.neighbor = true := by simp [hb]
  have hd : ¬ pb.bctypePress isIt.globalPosFace i q = Flags.dirichlet := by
    rw [hnm]
    decide
  rw [h1, h2]
  unfold faceStoreW faceStoreNW
  rw [if_neg hn, if_neg hd, if_neg hn, if_neg hd]
  exact ⟨rfl, rfl⟩

/-- Witness for the amended C31: the boundary face of cell 1 of the two-cell
example with the flux 3. -/
theorem neumann_store_entries_witness :
    (assemble ttIncompressible twoCellsFlux false 0 tiltedModel).variables_.potentialWetting 1 1
      = (if ttIncompressible.compressibility then
          twoCellsFlux.neumannPress twoCellsBoundaryFace1.globalPosFace 1 1 PhaseIdx.wPhaseIdx
        else twoCellsFlux.neumannPress twoCellsBoundaryFace1.globalPosFace 1 1 PhaseIdx.wPhaseIdx
          / tiltedModel.variables_.densityWetting 1) :=
  (neumann_store_entries ttIncompressible twoCellsFlux false 0 tiltedModel 1 (by decide) 1
    twoCellsBoundaryFace1 rfl rfl rfl).1

/-- Claim C33. The intersection loop of cell `i` starts from the right-hand side
whose entry `i` is `volume * (q_w / rhoW_i + q_nw / rhoNW_i)` when the flow is
incompressible and `volume * (q_w + q_nw)` when it is compressible, with `q` the
source terms of the problem for cell `i` and `rho` the densities stored for it;
the value `f[i]` held before is overwritten. The cell body is that loop followed
by the volume correction. -/
theorem source_term_initialises_rhs (tt : TypeTag) (pb : Problem) (first : Bool)
    (m : FVPressure2P) (i : Nat) :
    assembleElement tt pb first m i
      = { intersectionLoop tt pb first i (pb.element i).intersections 0
            { m with
              f_ := Function.update m.f_ i
                ((pb.element i).volume
                  * ((if tt.compressibility then
                        pb.source (pb.element i).globalPos i PhaseIdx.wPhaseIdx
                      else pb.source (pb.element i).globalPos i PhaseIdx.wPhaseIdx
                        / m.variables_.densityWetting i)
                    + (if tt.compressibility then
                        pb.source (pb.element i).globalPos i PhaseIdx.nPhaseIdx
                      else pb.source (pb.element i).globalPos i PhaseIdx.nPhaseIdx
                        / m.variables_.densityNonwetting i))) } with
          f_ := Function.update
            (intersectionLoop tt pb first i (pb.element i).intersections 0
              { m with f_ := Function.update m.f_ i (sourceRhs tt pb m.variables_ i) }).f_ i
            ((intersectionLoop tt pb first i (pb.element i).intersections 0
              { m with f_ := Function.update m.f_ i (sourceRhs tt pb m.variables_ i) }).f_ i
              - volumeCorrectionRhs tt pb m.variables_ i) } ∧
    sourceRhs tt pb m.variables_ i
      = (pb.element i).volume
        * ((if tt.compressibility then pb.source (pb.element i).globalPos i PhaseIdx.wPhaseIdx
            else pb.source (pb.element i).globalPos i PhaseIdx.wPhaseIdx
              / m.variables_.densityWetting i)
          + (if tt.compressibility then pb.source (pb.element i).globalPos i PhaseIdx.nPhaseIdx
            else pb.source (pb.element i).globalPos i PhaseIdx.nPhaseIdx
              / m.variables_.densityNonwetting i)) ∧
    ({ m with
        f_ := Function.update m.f_ i (sourceRhs tt pb m.variables_ i) } : FVPressure2P).f_ i
      = sourceRhs tt pb m.variables_ i :=
  ⟨assembleElement_eq tt pb first m i, rfl, by simp⟩

theorem assembleIntersection_withCorrection (tt : TypeTag) (pb : Problem) (first : Bool)
    (i : Nat) (m : FVPressure2P) (k : Nat) (isIt : Intersection) (vc : Nat → Scalar) :
    assembleIntersection tt pb first i (m.withCorrection vc) k isIt
      = (assembleIntersection tt pb first i m k isIt).withCorrection vc := by
  unfold assembleIntersection
  by_cases hn : isIt.neighbor = true
  · rw [if_pos hn, if_pos hn]
    cases first <;> rfl
  · rw [if_neg hn, if_neg hn]
    dsimp only
    by_cases hd : pb.bctypePress isIt.globalPosFace i k = Flags.dirichlet
    · rw [if_pos hd, if_pos hd]
      cases first <;> rfl
    · rw [if_neg hd, if_neg hd]
      rfl

theorem intersectionLoop_withCorrection (tt : TypeTag) (pb : Problem) (first : Bool)
    (i : Nat) (faces : List Intersection) (vc : Nat → Scalar) :
    ∀ (k : Nat) (m : FVPressure2P),
      intersectionLoop tt pb first i faces k (m.withCorrection vc)
        = (intersectionLoop tt pb first i faces k m).withCorrection vc := by
  induction faces with
  | nil => intro k m; rfl
  | cons isIt rest ih =>
    intro k m
    simp only [intersectionLoop]
    rw [assembleIntersection_withCorrection, ih]

theorem assembleElement_withCorrection (tt : TypeTag) (pb : Problem) (first : Bool)
    (m : FVPressure2P) (i : Nat) (vc : Nat → Scalar) (hc : tt.compressibility = false) :
    assembleElement tt pb first (m.withCorrection vc) i
      = (assembleElement tt pb first m i).withCorrection vc := by
  have h0 : ∀ m0 : FVPressure2P, volumeCorrectionRhs tt pb m0.variables_ i = 0 := by
    intro m0
    simp [volumeCorrectionRhs, hc]
  have hs : ({ m.withCorrection vc with
      f_ := Function.update (m.withCorrection vc).f_ i
        (sourceRhs tt pb (m.withCorrection vc).variables_ i) } : FVPressure2P)
      = ({ m with f_ := Function.update m.f_ i (sourceRhs tt pb m.variables_ i) }
          : FVPressure2P).withCorrection vc := rfl
  rw [assembleElement_eq, assembleElement_eq, h0, h0, hs, intersectionLoop_withCorrection]
  rfl

theorem gridTraversal_withCorrection (tt : TypeTag) (pb : Problem) (first : Bool)
    (vc : Nat → Scalar) (hc : tt.compressibility = false) (n : Nat) :
    ∀ m : FVPressure2P,
      (List.range n).foldl (assembleElement tt pb first) (m.withCorrection vc)
        = ((List.range n).foldl (assembleElement tt pb first) m).withCorrection vc := by
  induction n with
  | zero => intro m; rfl
  | succ n ih =>
    intro m
    simp only [List.range_succ, List.foldl_append, List.foldl_cons, List.foldl_nil]
    rw [ih, assembleElement_withCorrection tt pb first _ n vc hc]

theorem assemble_withCorrection (tt : TypeTag) (pb : Problem) (first : Bool) (t : Scalar)
    (m : FVPressure2P) (vc : Nat → Scalar) (hc : tt.compressibility = false) :
    assemble tt pb first t (m.withCorrection vc)
      = (assemble tt pb first t m).withCorrection vc := by
  unfold assemble gridTraversal
  exact gridTraversal_withCorrection tt pb first vc hc pb.gridSize
    { m with A_ := { m.A_ with val := fun _ _ => 0 }, f_ := fun _ => 0 }

/-- Claim C32. After the intersection loop of cell `i`, `f[i]` is decreased by the
volume-correction term: for compressible flow
`volumecorrection_i * porosity_i * volume_i * (rhoW_i - rhoNW_i)` under the
wetting-saturation formulation and the same with `(rhoNW_i - rhoW_i)` under the
non-wetting one, each the negative of the other; for incompressible flow the
term is 0, and the matrix and right-hand side `assemble` builds are the same for
every volume correction `vc` stored in the variables. -/
theorem volume_correction_term (tt : TypeTag) (pb : Problem) (first : Bool) (t : Scalar)
    (m : FVPressure2P) (i : Nat) (vc : Nat → Scalar) :
    (assembleElement tt pb first m i).f_ i
      = (intersectionLoop tt pb first i (pb.element i).intersections 0
          { m with f_ := Function.update m.f_ i (sourceRhs tt pb m.variables_ i) }).f_ i
        - volumeCorrectionRhs tt pb m.variables_ i ∧
    (tt.compressibility = true → tt.saturationType = SaturationFormulation.Sw →
      volumeCorrectionRhs tt pb m.variables_ i
        = m.variables_.volumecorrection i * pb.porosity (pb.element i).globalPos i
          * (pb.element i).volume
          * (m.variables_.densityWetting i - m.variables_.densityNonwetting i)) ∧
    (tt.compressibility = true → tt.saturationType = SaturationFormulation.Sn →
      volumeCorrectionRhs tt pb m.variables_ i
        = m.variables_.volumecorrection i * pb.porosity (pb.element i).globalPos i
          * (pb.element i).volume
          * (m.variables_.densityNonwetting i - m.variables_.densityWetting i)) ∧
    (tt.compressibility = true →
      volumeCorrectionRhs { tt with saturationType := SaturationFormulation.Sw } pb
          m.variables_ i
        = -volumeCorrectionRhs { tt with saturationType := SaturationFormulation.Sn } pb
            m.variables_ i) ∧
    (tt.compressibility = false →
      volumeCorrectionRhs tt pb m.variables_ i = 0 ∧
      (assemble tt pb first t (m.withCorrection vc)).A_ = (assemble tt pb first t m).A_ ∧
      (assemble tt pb first t (m.withCorrection vc)).f_ = (assemble tt pb first t m).f_) := by
  refine ⟨?_, ?_, ?_, ?_, ?_⟩
  · rw [assembleElement_eq]
    simp
  · intro hc hs
    simp [volumeCorrectionRhs, hc, hs]
  · intro hc hs
    simp [volumeCorrectionRhs, hc, hs]
  · intro hc
    simp only [volumeCorrectionRhs, hc, if_true]
    ring
  · intro hc
    refine ⟨by simp [volumeCorrectionRhs, hc], ?_, ?_⟩
    · rw [assemble_withCorrection tt pb first t m vc hc]
      rfl
    · rw [assemble_withCorrection tt pb first t m vc hc]
      rfl

/-- Witness for C32: compressible flow with the wetting-saturation formulation on
the two-cell example, and incompressible flow with the correction 7 stored in
every cell. -/
theorem volume_correction_term_witness :
    volumeCorrectionRhs ttCompressible twoCells tiltedModel.variables_ 1
      = tiltedModel.variables_.volumecorrection 1
        * twoCells.porosity (twoCells.element 1).globalPos 1 * (twoCells.element 1).volume
        * (tiltedModel.variables_.densityWetting 1
          - tiltedModel.variables_.densityNonwetting 1) ∧
    (assemble ttIncompressible twoCells true 0 (tiltedModel.withCorrection (fun _ => 7))).f_
      = (assemble ttIncompressible twoCells true 0 tiltedModel).f_ :=
  ⟨(volume_correction_term ttCompressible twoCells true 0 tiltedModel 1 (fun _ => 7)).2.1
      rfl rfl,
   ((volume_correction_term ttIncompressible twoCells true 0 tiltedModel 1
      (fun _ => 7)).2.2.2.2 rfl).2.2⟩

/-! ### Law-Update cell by cell -/

theorem updateMaterialLawsCell_fields (tt : TypeTag) (pb : Problem) (vars : Variables)
    (i : Nat) :
    (updateMaterialLawsCell tt pb vars i).laws i
      = { densityW := pb.phaseDensity PhaseIdx.wPhaseIdx (cellPhaseState tt pb vars i)
          densityNW := pb.phaseDensity PhaseIdx.nPhaseIdx (cellPhaseState tt pb vars i)
          viscosityW := pb.phaseViscosity PhaseIdx.wPhaseIdx (cellPhaseState tt pb vars i)
          viscosityNW := pb.phaseViscosity PhaseIdx.nPhaseIdx (cellPhaseState tt pb vars i)
          mobilityW :=
            if tt.compressibility then
              (pb.materialLawParams (pb.element i).globalPos i).krw
                  (satWOf tt (vars.saturation i))
                / pb.phaseViscosity PhaseIdx.wPhaseIdx (cellPhaseState tt pb vars i)
                * pb.phaseDensity PhaseIdx.wPhaseIdx (cellPhaseState tt pb vars i)
            else
              (pb.materialLawParams (pb.element i).globalPos i).krw
                  (satWOf tt (vars.saturation i))
                / pb.phaseViscosity PhaseIdx.wPhaseIdx (cellPhaseState tt pb vars i)
          mobilityNW :=
            if tt.compressibility then
              (pb.materialLawParams (pb.element i).globalPos i).krn
                  (satWOf tt (vars.saturation i))
                / pb.phaseViscosity PhaseIdx.nPhaseIdx (cellPhaseState tt pb vars i)
                * pb.phaseDensity PhaseIdx.nPhaseIdx (cellPhaseState tt pb vars i)
            else
              (pb.materialLawParams (pb.element i).globalPos i).krn
                  (satWOf tt (vars.saturation i))
                / pb.phaseViscosity PhaseIdx.nPhaseIdx (cellPhaseState tt pb vars i)
          fracFlowW := (updateMaterialLawsCell tt pb vars i).fracFlowFuncWetting i
          fracFlowNW := (updateMaterialLawsCell tt pb vars i).fracFlowFuncNonwetting i
          pc := (pb.materialLawParams (pb.element i).globalPos i).pC
            (satWOf tt (vars.saturation i)) } := by
  simp only [updateMaterialLawsCell, Variables.laws, Function.update_same, cellPhaseState]

/-- The derived fields of a cell of the grid after `updateMaterialLaws` are those
a single cell step computes from the variables before the pass. -/
theorem updateMaterialLaws_laws (tt : TypeTag) (pb : Problem) (m : FVPressure2P) (j : Nat)
    (hj : j < pb.gridSize) :
    (updateMaterialLaws tt pb m).variables_.laws j
      = (updateMaterialLawsCell tt pb m.variables_ j).laws j := by
  unfold updateMaterialLaws
  simp only
  rw [updateMaterialLaws_fold_laws, if_pos hj]

/-- Claim C34. After `updateMaterialLaws`, for every cell `j` of the grid, with
`satW` the stored saturation under the formulation `Sw` and 1 minus it under
`Sn`: the stored mobility of each phase is the relative permeability at `satW`
over the phase viscosity, times the phase density exactly when the flow is
compressible, and the stored densities and viscosities are the values of the
fluid system at the phase state of the cell. -/
theorem law_update_cell_values (tt : TypeTag) (pb : Problem) (m : FVPressure2P) (j : Nat)
    (hj : j < pb.gridSize) :
    (tt.saturationType = SaturationFormulation.Sw →
      satWOf tt (m.variables_.saturation j) = m.variables_.saturation j) ∧
    (tt.saturationType = SaturationFormulation.Sn →
      satWOf tt (m.variables_.saturation j) = 1 - m.variables_.saturation j) ∧
    (updateMaterialLaws tt pb m).variables_.densityWetting j
      = pb.phaseDensity PhaseIdx.wPhaseIdx (cellPhaseState tt pb m.variables_ j) ∧
    (updateMaterialLaws tt pb m).variables_.densityNonwetting j
      = pb.phaseDensity PhaseIdx.nPhaseIdx (cellPhaseState tt pb m.variables_ j) ∧
    (updateMaterialLaws tt pb m).variables_.viscosityWetting j
      = pb.phaseViscosity PhaseIdx.wPhaseIdx (cellPhaseState tt pb m.variables_ j) ∧
    (updateMaterialLaws tt pb m).variables_.viscosityNonwetting j
      = pb.phaseViscosity PhaseIdx.nPhaseIdx (cellPhaseState tt pb m.variables_ j) ∧
    (tt.compressibility = false →
      (updateMaterialLaws tt pb m).variables_.mobilityWetting j
        = (pb.materialLawParams (pb.element j).globalPos j).krw
            (satWOf tt (m.variables_.saturation j))
          / (updateMaterialLaws tt pb m).variables_.viscosityWetting j ∧
      (updateMaterialLaws tt pb m).variables_.mobilityNonwetting j
        = (pb.materialLawParams (pb.element j).globalPos j).krn
            (satWOf tt (m.variables_.saturation j))
          / (updateMaterialLaws tt pb m).variables_.viscosityNonwetting j) ∧
    (tt.compressibility = true →
      (updateMaterialLaws tt pb m).variables_.mobilityWetting j
        = (pb.materialLawParams (pb.element j).globalPos j).krw
            (satWOf tt (m.variables_.saturation j))
          / (updateMaterialLaws tt pb m).variables_.viscosityWetting j
          * (updateMaterialLaws tt pb m).variables_.densityWetting j ∧
      (updateMaterialLaws tt pb m).variables_.mobilityNonwetting j
        = (pb.materialLawParams (pb.element j).globalPos j).krn
            (satWOf tt (m.variables_.saturation j))
          / (updateMaterialLaws tt pb m).variables_.viscosityNonwetting j
          * (updateMaterialLaws tt pb m).variables_.densityNonwetting j) := by
  have h := updateMaterialLaws_laws tt pb m j hj
  rw [updateMaterialLawsCell_fields] at h
  simp only [Variables.laws, Laws.mk.injEq] at h
  obtain ⟨d1, d2, v1, v2, m1, m2, -, -, -⟩ := h
  refine ⟨?_, ?_, d1, d2, v1, v2, ?_, ?_⟩
  · intro hs
    unfold satWOf
    rw [hs]
  · intro hs
    unfold satWOf
    rw [hs]
  · intro hc
    rw [m1, m2, v1, v2]
    simp [hc]
  · intro hc
    rw [m1, m2, v1, v2, d1, d2]
    simp [hc]

/-- Witness for C34: cell 0 of the two-cell example, incompressible flow with the
wetting-saturation formulation. -/
theorem law_update_cell_values_witness :
    satWOf ttIncompressible (twoCellsModel.variables_.saturation 0)
      = twoCellsModel.variables_.saturation 0 ∧
    (updateMaterialLaws ttIncompressible twoCells twoCellsModel).variables_.mobilityWetting 0
      = (twoCells.materialLawParams (twoCells.element 0).globalPos 0).krw
          (satWOf ttIncompressible (twoCellsModel.variables_.saturation 0))
        / (updateMaterialLaws ttIncompressible twoCells twoCellsModel).variables_.viscosityWetting
            0 :=
  ⟨(law_update_cell_values ttIncompressible twoCells twoCellsModel 0 (by decide)).1 rfl,
   ((law_update_cell_values ttIncompressible twoCells twoCellsModel 0
      (by decide)).2.2.2.2.2.2.1 rfl).1⟩

/-- Claim C35. In a pass of `updateMaterialLaws` over compressible flow, the fluid
system is queried for cell `j` with the phase pressures split off the pressure
unknown by the capillary pressure stored before the pass: `pressW = p`,
`pressNW = p + pc_old` under the wetting-pressure formulation and
`pressW = p - pc_old`, `pressNW = p` under the non-wetting one. After the pass the
stored capillary pressure of the cell is the material law's capillary pressure at
the wetting saturation of the cell. -/
theorem law_update_splits_with_old_pc (tt : TypeTag) (pb : Problem) (m : FVPressure2P)
    (j : Nat) (hj : j < pb.gridSize) :
    (updateMaterialLaws tt pb m).variables_.densityWetting j
      = pb.phaseDensity PhaseIdx.wPhaseIdx (cellPhaseState tt pb m.variables_ j) ∧
    (updateMaterialLaws tt pb m).variables_.densityNonwetting j
      = pb.phaseDensity PhaseIdx.nPhaseIdx (cellPhaseState tt pb m.variables_ j) ∧
    (updateMaterialLaws tt pb m).variables_.viscosityWetting j
      = pb.phaseViscosity PhaseIdx.wPhaseIdx (cellPhaseState tt pb m.variables_ j) ∧
    (updateMaterialLaws tt pb m).variables_.viscosityNonwetting j
      = pb.phaseViscosity PhaseIdx.nPhaseIdx (cellPhaseState tt pb m.variables_ j) ∧
    (tt.compressibility = true → tt.pressureType = PressureFormulation.pw →
      cellPhaseState tt pb m.variables_ j
        = PhaseState.ofPressures (m.variables_.pressure j)
            (m.variables_.pressure j + m.variables_.capillaryPressure j)
            (pb.temperature (pb.element j).globalPos j)) ∧
    (tt.compressibility = true → tt.pressureType = PressureFormulation.pn →
      cellPhaseState tt pb m.variables_ j
        = PhaseState.ofPressures (m.variables_.pressure j - m.variables_.capillaryPressure j)
            (m.variables_.pressure j)
            (pb.temperature (pb.element j).globalPos j)) ∧
    (updateMaterialLaws tt pb m).variables_.capillaryPressure j
      = (pb.materialLawParams (pb.element j).globalPos j).pC
          (satWOf tt (m.variables_.saturation j)) := by
  have h := updateMaterialLaws_laws tt pb m j hj
  rw [updateMaterialLawsCell_fields] at h
  simp only [Variables.laws, Laws.mk.injEq] at h
  obtain ⟨d1, d2, v1, v2, -, -, -, -, hpc⟩ := h
  refine ⟨d1, d2, v1, v2, ?_, ?_, hpc⟩
  · intro hc hp
    simp [cellPhaseState, hc, hp]
  · intro hc hp
    simp [cellPhaseState, hc, hp]

/-- Witness for C35: cell 0 of the two-cell example, compressible flow with the
wetting-pressure formulation and the capillary pressure 1/2 stored before the
pass. -/
theorem law_update_splits_with_old_pc_witness :
    cellPhaseState ttCompressible twoCells twoCellsModelPc.variables_ 0
      = PhaseState.ofPressures (twoCellsModelPc.variables_.pressure 0)
          (twoCellsModelPc.variables_.pressure 0
            + twoCellsModelPc.variables_.capillaryPressure 0)
          (twoCells.temperature (twoCells.element 0).globalPos 0) :=
  (law_update_splits_with_old_pc ttCompressible twoCells twoCellsModelPc 0
    (by decide)).2.2.2.2.1 rfl rfl

/-- Claim C36. For incompressible flow the density, viscosity, mobility,
fractional-flow weight and capillary pressure `updateMaterialLaws` writes for a
cell of the grid do not depend on the stored pressure or on the capillary
pressure stored before: a state with any other pressure `p` and capillary
pressure `pc` in their place gives the same derived fields. -/
theorem incompressible_laws_ignore_pressure (tt : TypeTag) (pb : Problem) (m : FVPressure2P)
    (p pc : Nat → Scalar) (j : Nat) (hc : tt.compressibility = false)
    (hj : j < pb.gridSize) :
    (updateMaterialLaws tt pb
        { m with
          variables_ := { m.variables_ with pressure := p, capillaryPressure := pc } }
      ).variables_.laws j
      = (updateMaterialLaws tt pb m).variables_.laws j ∧
    (∀ vars : Variables, vars.laws j
      = { densityW := vars.densityWetting j
          densityNW := vars.densityNonwetting j
          viscosityW := vars.viscosityWetting j
          viscosityNW := vars.viscosityNonwetting j
          mobilityW := vars.mobilityWetting j
          mobilityNW := vars.mobilityNonwetting j
          fracFlowW := vars.fracFlowFuncWetting j
          fracFlowNW := vars.fracFlowFuncNonwetting j
          pc := vars.capillaryPressure j }) ∧
    cellPhaseState tt pb m.variables_ j
      = PhaseState.ofTemperature (pb.temperature (pb.element j).globalPos j) := by
  refine ⟨?_, fun _ => rfl, ?_⟩
  · rw [updateMaterialLaws_laws tt pb _ j hj, updateMaterialLaws_laws tt pb m j hj]
    exact updateMaterialLawsCell_laws_congr_of_no_split tt pb _ _ j rfl (Or.inl hc)
  · simp [cellPhaseState, hc]

/-- Witness for C36: cell 0 of the two-cell example with the pressure 5 and the
capillary pressure 9 in place of the stored ones. -/
theorem incompressible_laws_ignore_pressure_witness :
    (updateMaterialLaws ttIncompressible twoCells
        { twoCellsModel with
          variables_ :=
            { twoCellsModel.variables_ with
              pressure := fun _ => 5, capillaryPressure := fun _ => 9 } }
      ).variables_.laws 0
      = (updateMaterialLaws ttIncompressible twoCells twoCellsModel).variables_.laws 0 :=
  (incompressible_laws_ignore_pressure ttIncompressible twoCells twoCellsModel (fun _ => 5)
    (fun _ => 9) 0 rfl (by decide)).1

/-- Claim C37. Under the global-pressure formulation `updateMaterialLaws` queries
the fluid system with both phase pressures equal to 0 when the flow is
compressible (with the temperature alone otherwise), whatever the stored
pressure is; the derived fields it writes for a cell of the grid are the same
for every pressure `p` and capillary pressure `pc` stored before the pass. -/
theorem global_pressure_laws_ignore_pressure (tt : TypeTag) (pb : Problem)
    (m : FVPressure2P) (p pc : Nat → Scalar) (j : Nat)
    (hg : tt.pressureType = PressureFormulation.pglobal) (hj : j < pb.gridSize) :
    cellPhaseState tt pb m.variables_ j
      = (if tt.compressibility then
          PhaseState.ofPressures 0 0 (pb.temperature (pb.element j).globalPos j)
        else PhaseState.ofTemperature (pb.temperature (pb.element j).globalPos j)) ∧
    (updateMaterialLaws tt pb m).variables_.densityWetting j
      = pb.phaseDensity PhaseIdx.wPhaseIdx (cellPhaseState tt pb m.variables_ j) ∧
    (updateMaterialLaws tt pb m).variables_.densityNonwetting j
      = pb.phaseDensity PhaseIdx.nPhaseIdx (cellPhaseState tt pb m.variables_ j) ∧
    (updateMaterialLaws tt pb m).variables_.viscosityWetting j
      = pb.phaseViscosity PhaseIdx.wPhaseIdx (cellPhaseState tt pb m.variables_ j) ∧
    (updateMaterialLaws tt pb m).variables_.viscosityNonwetting j
      = pb.phaseViscosity PhaseIdx.nPhaseIdx (cellPhaseState tt pb m.variables_ j) ∧
    (updateMaterialLaws tt pb
        { m with
          variables_ := { m.variables_ with pressure := p, capillaryPressure := pc } }
      ).variables_.laws j
      = (updateMaterialLaws tt pb m).variables_.laws j := by
  have h := updateMaterialLaws_laws tt pb m j hj
  rw [updateMaterialLawsCell_fields] at h
  simp only [Variables.laws, Laws.mk.injEq] at h
  obtain ⟨d1, d2, v1, v2, -⟩ := h
  refine ⟨?_, d1, d2, v1, v2, ?_⟩
  · simp [cellPhaseState, hg]
  · rw [updateMaterialLaws_laws tt pb _ j hj, updateMaterialLaws_laws tt pb m j hj]
    exact updateMaterialLawsCell_laws_congr_of_no_split tt pb _ _ j rfl (Or.inr hg)

/-- Witness for C37: cell 0 of the two-cell example, compressible flow with the
global-pressure formulation. -/
theorem global_pressure_laws_ignore_pressure_witness :
    cellPhaseState
        { dim := 1, compressibility := true, pressureType := PressureFormulation.pglobal,
          saturationType := SaturationFormulation.Sw } twoCells twoCellsModel.variables_ 0
      = PhaseState.ofPressures 0 0 (twoCells.temperature (twoCells.element 0).globalPos 0) :=
  (global_pressure_laws_ignore_pressure
    { dim := 1, compressibility := true, pressureType := PressureFormulation.pglobal,
      saturationType := SaturationFormulation.Sw } twoCells twoCellsModel (fun _ => 5)
    (fun _ => 9) 0 rfl (by decide)).1

/-! ### The difference of the two stored potentials -/

/-- Claim C40. After `assemble(false, t)` with zero gravity, the two potentials
stored for an interior face of cell `i` towards cell `j` differ by
`(pc_i - pc_j) / dist`: non-wetting minus wetting. This holds under the
wetting-pressure and the non-wetting-pressure formulation, and under the
global-pressure formulation when the two fractional-flow weights sum to 1 in
cell `i` and in cell `j`. -/
theorem stored_potentials_differ_by_capillary (tt : TypeTag) (pb : Problem) (t : Scalar)
    (m : FVPressure2P) (i : Nat) (hi : i < pb.gridSize) (q : Nat) (isIt : Intersection)
    (hq : (pb.element i).intersections[q]? = some isIt) (hn : isIt.neighbor = true)
    (hg : ∀ x, x < tt.dim → pb.gravity x = 0)
    (hf : tt.pressureType = PressureFormulation.pglobal →
      m.variables_.fracFlowFuncWetting i + m.variables_.fracFlowFuncNonwetting i = 1 ∧
      m.variables_.fracFlowFuncWetting isIt.outside
        + m.variables_.fracFlowFuncNonwetting isIt.outside = 1) :
    (assemble tt pb false t m).variables_.potentialNonwetting i q
        - (assemble tt pb false t m).variables_.potentialWetting i q
      = (m.variables_.capillaryPressure i - m.variables_.capillaryPressure isIt.outside)
        / centreDist pb i isIt.outside := by
  obtain ⟨h1, h2⟩ := assemble_store tt pb false t m i hi q isIt hq
  have h0 : dot tt.dim (unitDist pb i isIt.outside) pb.gravity = 0 :=
    dot_eq_zero_of_right tt.dim _ _ hg
  rw [h1, h2]
  unfold faceStoreW faceStoreNW
  rw [if_pos hn, if_pos hn, interiorFace_potentialW, interiorFace_potentialNW, h0]
  simp only [Bool.false_eq_true, if_false, mul_zero, add_zero]
  obtain ⟨dim, comp, pt, st⟩ := tt
  cases pt
  · simp only [gradW, gradNW]
    ring
  · simp only [gradW, gradNW]
    ring
  · obtain ⟨f1, f2⟩ := hf rfl
    simp only [gradW, gradNW]
    linear_combination
      (0.5 * (m.variables_.capillaryPressure i - m.variables_.capillaryPressure isIt.outside)
        / centreDist pb i isIt.outside) * f1
      + (0.5 * (m.variables_.capillaryPressure i
          - m.variables_.capillaryPressure isIt.outside)
        / centreDist pb i isIt.outside) * f2

/-- Witness for C40: the interior face of cell 0 of the two-cell example, which
has no gravity, under the wetting-pressure formulation. -/
theorem stored_potentials_differ_by_capillary_witness :
    (assemble ttIncompressible twoCells false 0 twoCellsModelPc).variables_.potentialNonwetting
        0 1
        - (assemble ttIncompressible twoCells false 0
            twoCellsModelPc).variables_.potentialWetting 0 1
      = (twoCellsModelPc.variables_.capillaryPressure 0
          - twoCellsModelPc.variables_.capillaryPressure twoCellsFace01.outside)
        / centreDist twoCells 0 twoCellsFace01.outside :=
  stored_potentials_differ_by_capillary ttIncompressible twoCells 0 twoCellsModelPc 0
    (by decide) 1 twoCellsFace01 rfl rfl (fun _ _ => rfl)
    (fun h => absurd h (by simp [ttIncompressible]))

/-! ### The row sums of the matrix -/

theorem dirichletEntry_congr (tt : TypeTag) (pb : Problem) {v w : Variables} (first : Bool)
    (i k : Nat) (isIt : Intersection) (h : SameLaws v w)
    (hw : v.potentialWetting i k = w.potentialWetting i k)
    (hn : v.potentialNonwetting i k = w.potentialNonwetting i k) :
    dirichletEntry tt pb first i v k isIt = dirichletEntry tt pb first i w k isIt := by
  simp only [dirichletEntry, dirichletFace_congr tt pb first i k isIt h hw hn]

/-- Row `i` after one intersection of cell `i`: an interior face towards another
cell adds its entry on the diagonal and overwrites the entry of the neighbour, a
Dirichlet face adds its entry on the diagonal, any other face changes nothing. -/
theorem assembleIntersection_val_row (tt : TypeTag) (pb : Problem) (first : Bool) (i : Nat)
    (m : FVPressure2P) (k : Nat) (isIt : Intersection)
    (ho : isIt.neighbor = true → isIt.outside ≠ i) (c : Nat) :
    (assembleIntersection tt pb first i m k isIt).A_.val i c
      = m.A_.val i c
        + (if c = i then faceEntry tt pb first i m.variables_ k isIt else 0)
        + (if c = isIt.outside then
            (if isIt.neighbor then
              -(interiorFace tt pb m.variables_ first i k isIt).entry - m.A_.val i isIt.outside
            else 0)
          else 0) := by
  by_cases hn : isIt.neighbor = true
  · have hoi := ho hn
    by_cases hci : c = i
    · subst hci
      rw [assembleIntersection_val_diag_faceEntry tt pb first c m k isIt ho, if_pos rfl,
        if_neg (fun h => hoi h.symm), add_zero]
    · by_cases hco : c = isIt.outside
      · subst hco
        rw [assembleIntersection_val_outside tt pb first i m k isIt hn, if_neg hci, if_pos rfl,
          if_pos hn]
        ring
      · rw [assembleIntersection_val_of_ne tt pb first i m k isIt i c
          (fun h => h.2.elim hci (fun h2 => hco h2.2)), if_neg hci, if_neg hco]
        ring
  · have hinner : (if isIt.neighbor = true then
        -(interiorFace tt pb m.variables_ first i k isIt).entry - m.A_.val i isIt.outside
        else 0) = 0 := if_neg hn
    rw [hinner]
    by_cases hci : c = i
    · subst hci
      rw [assembleIntersection_val_diag_faceEntry tt pb first c m k isIt ho, if_pos rfl]
      simp
    · rw [assembleIntersection_val_of_ne tt pb first i m k isIt i c
        (fun h => h.2.elim hci (fun h2 => hn h2.1)), if_neg hci]
      simp

/-- The sum of row `i` over the first `n` columns after one intersection of cell
`i`: it grows by the entry of a Dirichlet face and is unchanged by an interior
face whose neighbour entry was zero before. -/
theorem assembleIntersection_row_sum (tt : TypeTag) (pb : Problem) (first : Bool) (i n : Nat)
    (hi : i < n) (m : FVPressure2P) (k : Nat) (isIt : Intersection)
    (ho : isIt.neighbor = true →
      isIt.outside ≠ i ∧ isIt.outside < n ∧ m.A_.val i isIt.outside = 0) :
    Finset.sum (Finset.range n) (fun c => (assembleIntersection tt pb first i m k isIt).A_.val i c)
      = Finset.sum (Finset.range n) (fun c => m.A_.val i c)
        + dirichletEntry tt pb first i m.variables_ k isIt := by
  have hrow := assembleIntersection_val_row tt pb first i m k isIt (fun h => (ho h).1)
  simp only [hrow, Finset.sum_add_distrib, Finset.sum_ite_eq', Finset.mem_range, if_pos hi]
  by_cases hn : isIt.neighbor = true
  · obtain ⟨-, h2, h3⟩ := ho hn
    simp only [if_pos h2, faceEntry, dirichletEntry, if_pos hn, h3]
    ring
  · simp only [faceEntry, dirichletEntry, if_neg hn, ite_self, add_zero]

/-- The sum of row `i` after the intersection loop of cell `i`, when the interior
faces lead to pairwise different cells other than `i`, all below `n`, whose
entries in row `i` were zero before the loop: it has grown by the entries of the
Dirichlet faces. -/
theorem intersectionLoop_row_sum (tt : TypeTag) (pb : Problem) (first : Bool) (i n : Nat)
    (hi : i < n) (faces : List Intersection) :
    ∀ (k : Nat) (m : FVPressure2P),
      faces.Pairwise
        (fun f g => f.neighbor = true → g.neighbor = true → f.outside ≠ g.outside) →
      (∀ f ∈ faces, f.neighbor = true →
        f.outside ≠ i ∧ f.outside < n ∧ m.A_.val i f.outside = 0) →
      Finset.sum (Finset.range n)
          (fun c => (intersectionLoop tt pb first i faces k m).A_.val i c)
        = Finset.sum (Finset.range n) (fun c => m.A_.val i c)
          + sumFaces (dirichletEntry tt pb first i m.variables_) faces k := by
  induction faces with
  | nil => intro k m _ _; simp [intersectionLoop, sumFaces]
  | cons f0 rest ih =>
    intro k m hpair hok
    rw [List.pairwise_cons] at hpair
    obtain ⟨hhead, htail⟩ := hpair
    simp only [intersectionLoop, sumFaces]
    have hok1 : ∀ f ∈ rest, f.neighbor = true →
        f.outside ≠ i ∧ f.outside < n ∧
          (assembleIntersection tt pb first i m k f0).A_.val i f.outside = 0 := by
      intro f hf hfn
      obtain ⟨g1, g2, g3⟩ := hok f (List.mem_cons_of_mem _ hf) hfn
      refine ⟨g1, g2, ?_⟩
      rw [assembleIntersection_val_of_ne tt pb first i m k f0 i f.outside ?_, g3]
      rintro ⟨-, h | ⟨h0, h1⟩⟩
      · exact g1 h
      · exact hhead f hf h0 hfn h1.symm
    rw [ih (k + 1) _ htail hok1,
      assembleIntersection_row_sum tt pb first i n hi m k f0
        (hok f0 (List.mem_cons_self _ _)),
      sumFaces_congr
        (dirichletEntry tt pb first i (assembleIntersection tt pb first i m k f0).variables_)
        (dirichletEntry tt pb first i m.variables_) rest (k + 1), add_assoc]
    intro q f hq
    have hne : i ≠ i ∨ q ≠ k := Or.inr (by omega)
    obtain ⟨h1, h2⟩ := assembleIntersection_store_of_ne tt pb first i m k f0 i q hne
    exact dirichletEntry_congr tt pb first i q f
      (assembleIntersection_sameFrame tt pb first i m k f0).sameLaws h1 h2

/-- The sum of row `i` of the matrix after `assemble`, for a cell `i` of the grid
whose interior faces lead to pairwise different cells of the grid other than
`i`: the sum of the entries of its Dirichlet faces. -/
theorem assemble_row_sum (tt : TypeTag) (pb : Problem) (first : Bool) (t : Scalar)
    (m : FVPressure2P) (i : Nat) (hi : i < pb.gridSize)
    (hpair : (pb.element i).intersections.Pairwise
      (fun f g => f.neighbor = true → g.neighbor = true → f.outside ≠ g.outside))
    (hout : ∀ f ∈ (pb.element i).intersections, f.neighbor = true →
      f.outside ≠ i ∧ f.outside < pb.gridSize) :
    Finset.sum (Finset.range pb.gridSize) (fun c => (assemble tt pb first t m).A_.val i c)
      = sumFaces (dirichletEntry tt pb first i m.variables_) (pb.element i).intersections 0 := by
  obtain ⟨-, -, -, -, hA⟩ := assemble_rowAgree tt pb first t m i hi
  rw [hA, assembleElement_eq]
  simp only
  rw [intersectionLoop_row_sum tt pb first i pb.gridSize hi _ 0 _ hpair
    (fun f hf hfn => ⟨(hout f hf hfn).1, (hout f hf hfn).2, rfl⟩)]
  simp

theorem sumFaces_eq_zero (g : Nat → Intersection → Scalar) (faces : List Intersection) :
    ∀ k : Nat, (∀ q f, faces[q]? = some f → g (k + q) f = 0) → sumFaces g faces k = 0 := by
  induction faces with
  | nil => intro k _; rfl
  | cons f0 rest ih =>
    intro k h
    simp only [sumFaces]
    have h0 := h 0 f0 (List.getElem?_cons_zero)
    rw [Nat.add_zero] at h0
    rw [h0, zero_add]
    refine ih (k + 1) (fun q f hq => ?_)
    have h1 := h (q + 1) f (by simpa using hq)
    have hidx : k + (q + 1) = k + 1 + q := by omega
    rw [hidx] at h1
    exact h1

/-- Claim C39. For a cell `i` of the grid whose interior faces lead to pairwise
different cells of the grid, none of them `i` itself, the entries of row `i` of
the assembled matrix sum to the sum of the transmissibilities of the Dirichlet
faces of `i`. If the cell has no Dirichlet face the row sums to zero, and for
every constant pressure field of value `p0` row `i` of `A p` is zero. -/
theorem row_sum_of_assembled_matrix (tt : TypeTag) (pb : Problem) (first : Bool) (t : Scalar)
    (m : FVPressure2P) (i : Nat) (hi : i < pb.gridSize)
    (hpair : (pb.element i).intersections.Pairwise
      (fun f g => f.neighbor = true → g.neighbor = true → f.outside ≠ g.outside))
    (hout : ∀ f ∈ (pb.element i).intersections, f.neighbor = true →
      f.outside ≠ i ∧ f.outside < pb.gridSize) :
    Finset.sum (Finset.range pb.gridSize) (fun c => (assemble tt pb first t m).A_.val i c)
      = sumFaces
          (fun k isIt =>
            if isIt.neighbor then 0
            else if pb.bctypePress isIt.globalPosFace i k = Flags.dirichlet then
              (dirichletFace tt pb m.variables_ first i k isIt).entry
            else 0)
          (pb.element i).intersections 0 ∧
    ((∀ q f, (pb.element i).intersections[q]? = some f → f.neighbor = false →
        pb.bctypePress f.globalPosFace i q ≠ Flags.dirichlet) →
      Finset.sum (Finset.range pb.gridSize) (fun c => (assemble tt pb first t m).A_.val i c)
        = 0 ∧
      ∀ p0 : Scalar,
        Finset.sum (Finset.range pb.gridSize)
          (fun c => (assemble tt pb first t m).A_.val i c * p0) = 0) := by
  have hsum := assemble_row_sum tt pb first t m i hi hpair hout
  refine ⟨?_, ?_⟩
  · rw [hsum]
    rfl
  · intro hnd
    have hzero : Finset.sum (Finset.range pb.gridSize)
        (fun c => (assemble tt pb first t m).A_.val i c) = 0 := by
      rw [hsum]
      refine sumFaces_eq_zero _ _ 0 (fun q f hq => ?_)
      rw [Nat.zero_add]
      unfold dirichletEntry
      by_cases hn : f.neighbor = true
      · rw [if_pos hn]
      · rw [if_neg hn, if_neg (hnd q f hq (by simpa using hn))]
    refine ⟨hzero, fun p0 => ?_⟩
    rw [← Finset.sum_mul, hzero, zero_mul]

/-- Witness for C39: row 0 of the two-cell example, whose boundary faces are
Neumann faces. -/
theorem row_sum_of_assembled_matrix_witness :
    Finset.sum (Finset.range twoCells.gridSize)
      (fun c => (assemble ttIncompressible twoCells true 0 tiltedModel).A_.val 0 c) = 0 :=
  ((row_sum_of_assembled_matrix ttIncompressible twoCells true 0 tiltedModel 0 (by decide)
    (by simp [twoCells, twoCellsElement])
    (by
      intro f hf hfn
      simp [twoCells, twoCellsElement] at hf
      rcases hf with rfl | rfl
      · simp at hfn
      · exact ⟨by decide, by decide⟩)).2
    (by
      intro q f hq hfn
      simp [twoCells])).1

end Dune

namespace Dumux

/-! ### The pressure gradient of the Richards flux variables -/

theorem foldl_gradient_sum (n : Nat) (g : Nat → Dune.FieldVector) (p : Dune.Scalar) :
    (List.range n).foldl (fun acc scvIdx => fun x => acc x + g scvIdx x * p) (fun _ => 0)
      = fun x => Finset.sum (Finset.range n) (fun k => g k x) * p := by
  induction n with
  | zero =>
    funext x
    simp
  | succ n ih =>
    rw [List.range_succ, List.foldl_append, ih]
    funext x
    simp only [List.foldl_cons, List.foldl_nil, Finset.sum_range_succ]
    ring

/-- Claim C38 against the code. The loop of `calculateGradients_` multiplies the
finite-element gradient of every sub-control volume `k` by the wetting pressure
of the inside sub-control volume of the face, not by the pressure at `k`: without
gravity the result is the sum of the gradients times that one pressure. For two
sub-control volumes with gradients -1 and 1 and pressures 1 and 3 the code
gives 0, the sum of gradient times pressure at `k` is 2. With gravity, a density
times the mean of the two gravity vectors is subtracted from that result. -/
theorem calculateGradients_uses_inside_pressure (fluxVars : RichardsFluxVariables)
    (elemCtx : ElementContext) (scvfIdx : Nat) :
    (∀ x, (fluxVars.calculateGradients_ false elemCtx scvfIdx).potentialGrad_ x
      = Finset.sum (Finset.range elemCtx.numScv) (fun k => elemCtx.grad scvfIdx k x)
        * elemCtx.pressure fluxVars.insideScvIdx_) ∧
    (∃ density : Dune.Scalar, ∀ x,
      (fluxVars.calculateGradients_ true elemCtx scvfIdx).potentialGrad_ x
        = (fluxVars.calculateGradients_ false elemCtx scvfIdx).potentialGrad_ x
          - (elemCtx.gravity fluxVars.insideScvIdx_ x
              + elemCtx.gravity fluxVars.outsideScvIdx_ x) / 2 * density) ∧
    (twoScvFluxVars.calculateGradients_ false twoScvContext 0).potentialGrad_ 0 = 0 ∧
    nodalPressureGradient twoScvContext 0 0 = 2 ∧
    (twoScvFluxVars.calculateGradients_ false twoScvContext 0).potentialGrad_ 0
      ≠ nodalPressureGradient twoScvContext 0 0 := by
  have hcode : ∀ (fv : RichardsFluxVariables) (ctx : ElementContext) (f : Nat) (x : Nat),
      (fv.calculateGradients_ false ctx f).potentialGrad_ x
        = Finset.sum (Finset.range ctx.numScv) (fun k => ctx.grad f k x)
          * ctx.pressure fv.insideScvIdx_ := by
    intro fv ctx f x
    simp only [RichardsFluxVariables.calculateGradients_, Bool.false_eq_true, if_false]
    rw [foldl_gradient_sum]
  have h0 : (twoScvFluxVars.calculateGradients_ false twoScvContext 0).potentialGrad_ 0 = 0 := by
    rw [hcode]
    simp [twoScvContext, twoScvFluxVars, Finset.sum_range_succ]
  have h2 : nodalPressureGradient twoScvContext 0 0 = 2 := by
    simp [nodalPressureGradient, twoScvContext, Finset.sum_range_succ]
    norm_num
  refine ⟨hcode fluxVars elemCtx scvfIdx, ⟨_, fun x => rfl⟩, h0, h2, ?_⟩
  rw [h0, h2]
  norm_num

end Dumux
